import Mathlib

/-!
# ICS traffic dissector: shallow embedding and verified properties

The definitions below are translated from the C++ sources under `Parser/src`.

Conventions of the embedding
* `uint8_t`, `uint16_t`, `uint32_t` values are natural numbers; where the C++
  arithmetic can wrap, the reduction `% 2 ^ w` is written out.
* `int` values are integers (`Int`).
* `std::string` is `String`; `std::to_string` of an integral value is `toString`.
* `const u_char* payload` is the list of bytes that start at the pointer; a
  read `payload[i]` is `byteAt payload i`.
* `std::chrono::steady_clock` readings are natural numbers of nanoseconds and
  are passed to the functions that read the clock.
* A call of `addUnifiedRecord` appends the record to the list of emitted
  records returned by the parser.
-/

namespace Operation

/-! ## Packet information (`protocols/IProtocolParser.h`) -/

/-- Packet information structure handed to every protocol parser. -/
structure PacketInfo where
  timestamp : String := ""
  flow_id : String := ""
  src_mac : String := ""
  dst_mac : String := ""
  eth_type : Nat := 0
  src_ip : String := ""
  src_port : Nat := 0
  dst_ip : String := ""
  dst_port : Nat := 0
  protocol : Nat := 0
  tcp_seq : Nat := 0
  tcp_ack : Nat := 0
  tcp_flags : Nat := 0
  payload : List Nat := []
  payload_size : Int := 0

/-- The byte `p[i]` of a `u_char` buffer. -/
def byteAt (p : List Nat) (i : Nat) : Nat := (p.getD i 0) % 256

/-- The helper `safe_ntohs(ptr + off)`: the big-endian 16-bit value of the two
bytes at offsets `off` and `off + 1`. -/
def safe_ntohs (p : List Nat) (off : Nat) : Nat :=
  byteAt p off * 256 + byteAt p (off + 1)

/-! ## Unified record (`UnifiedWriter.h`) -/

/-- The single output schema, `struct UnifiedRecord`. Every field is a string
and starts out empty. -/
structure UnifiedRecord where
  timestamp : String := ""
  protocol : String := ""
  smac : String := ""
  dmac : String := ""
  sip : String := ""
  sp : String := ""
  dip : String := ""
  dp : String := ""
  sq : String := ""
  ak : String := ""
  fl : String := ""
  dir : String := ""
  src_asset_id : String := ""
  src_asset_name : String := ""
  src_asset_group : String := ""
  src_asset_location : String := ""
  dst_asset_id : String := ""
  dst_asset_name : String := ""
  dst_asset_group : String := ""
  dst_asset_location : String := ""
  details_json : String := ""
  arp_op : String := ""
  arp_tmac : String := ""
  arp_tip : String := ""
  dns_tid : String := ""
  dns_fl : String := ""
  dns_qc : String := ""
  dns_ac : String := ""
  dnp3_len : String := ""
  dnp3_ctrl : String := ""
  dnp3_dest : String := ""
  dnp3_src : String := ""
  len : String := ""
  modbus_tid : String := ""
  modbus_fc : String := ""
  modbus_err : String := ""
  modbus_bc : String := ""
  modbus_addr : String := ""
  modbus_qty : String := ""
  modbus_val : String := ""
  modbus_regs_addr : String := ""
  modbus_regs_val : String := ""
  modbus_translated_addr : String := ""
  modbus_description : String := ""
  s7_prid : String := ""
  s7_ros : String := ""
  s7_fn : String := ""
  s7_ic : String := ""
  s7_syn : String := ""
  s7_tsz : String := ""
  s7_amt : String := ""
  s7_db : String := ""
  s7_ar : String := ""
  s7_addr : String := ""
  s7_rc : String := ""
  s7_len : String := ""
  s7_description : String := ""
  xgt_prid : String := ""
  xgt_companyId : String := ""
  xgt_plcinfo : String := ""
  xgt_cpuinfo : String := ""
  xgt_source : String := ""
  xgt_len : String := ""
  xgt_fenetpos : String := ""
  xgt_cmd : String := ""
  xgt_dtype : String := ""
  xgt_blkcnt : String := ""
  xgt_errstat : String := ""
  xgt_errinfo : String := ""
  xgt_vars : String := ""
  xgt_datasize : String := ""
  xgt_data : String := ""
  xgt_translated_addr : String := ""
  xgt_description : String := ""
deriving DecidableEq

/-! ## String to number conversions of the C++ standard library -/

/-- The predicate `isspace` of the "C" locale. -/
def isspace (c : Char) : Bool :=
  c = ' ' ∨ c = '\t' ∨ c = '\n' ∨ c = '\x0b' ∨ c = '\x0c' ∨ c = '\r'

/-- The number denoted by a sequence of decimal digit characters, most
significant digit first. -/
def digitsValue (ds : List Char) : Nat :=
  ds.foldl (fun acc c => acc * 10 + (c.toNat - 48)) 0

/-- The characters that follow leading white space and an optional sign. -/
def skipSign (cs : List Char) : List Char :=
  match cs with
  | '-' :: r => r
  | '+' :: r => r
  | _ => cs

/-- The call `std::stoi(s)`: leading white space is skipped, an optional sign
is read, then the longest run of decimal digits. The result is `none` when the
call throws: `std::invalid_argument` when there is no digit,
`std::out_of_range` when the value does not fit an `int` (32 bits). -/
def stoi (s : String) : Option Int :=
  let cs := s.data.dropWhile isspace
  let neg := cs.head? = some '-'
  let ds := (skipSign cs).takeWhile Char.isDigit
  if ds = [] then none
  else
    let v : Int := if neg then -(digitsValue ds : Int) else (digitsValue ds : Int)
    if v < -2147483648 ∨ 2147483647 < v then none else some v

/-- The number of values of `unsigned long` (64 bits, LP64). -/
def ULONG_RANGE : Nat := 2 ^ 64

/-- The call `std::stoul(s)`: as `stoi`, with the value read as an
`unsigned long`; a leading minus sign negates the value modulo `2 ^ 64`. The
result is `none` when the call throws. -/
def stoul (s : String) : Option Nat :=
  let cs := s.data.dropWhile isspace
  let neg := cs.head? = some '-'
  let ds := (skipSign cs).takeWhile Char.isDigit
  if ds = [] then none
  else
    let v := digitsValue ds
    if ULONG_RANGE ≤ v then none
    else some (if neg then (ULONG_RANGE - v) % ULONG_RANGE else v)

/-! ## Asset catalogue (`AssetManager.cpp`) -/

/-- The two lookup maps of `class AssetManager`; a `std::map` is the list of
its key/value pairs. -/
structure AssetManager where
  ipDeviceMap : List (String × String) := []
  tagDescriptionMap : List (String × String) := []

namespace AssetManager

/-- The method `AssetManager::getDeviceName`. -/
def getDeviceName (self : AssetManager) (ip : String) : String :=
  match self.ipDeviceMap.lookup ip with
  | some name => name
  | none => ""

/-- The method `AssetManager::getDescription`. -/
def getDescription (self : AssetManager) (translatedAddress : String) : String :=
  match self.tagDescriptionMap.lookup translatedAddress with
  | some d => d
  | none => ""

/-- The call `std::regex_match(s, match, re)` for the expression
`%([A-Z]{2})([0-9]+)`: the whole string has to match; the result holds the two
capture groups. -/
def regex_match (s : List Char) : Option (List Char × List Char) :=
  match s with
  | '%' :: a :: b :: ds =>
    if a.isUpper ∧ b.isUpper ∧ ds ≠ [] ∧ ds.all Char.isDigit then some ([a, b], ds)
    else none
  | _ => none

/-- The method `AssetManager::translateXgtAddress`. An exception thrown by
`std::stoi` is caught and gives the empty string. -/
def translateXgtAddress (pduVarNm : String) : String :=
  if pduVarNm = "" ∨ pduVarNm.data.head? ≠ some '%' then ""
  else
    match regex_match pduVarNm.data with
    | some (type, numberStr) =>
      let pfx : Option String :=
        if String.mk type = "DB" then some "D"
        else if String.mk type = "MB" then some "M"
        else if String.mk type = "PB" then some "P"
        else none
      match pfx with
      | none => ""
      | some p =>
        match stoi (String.mk numberStr) with
        | none => ""
        | some number =>
          let wordAddress : Int := number.tdiv 2
          p ++ toString wordAddress
    | none => ""

/-- The method `AssetManager::translateModbusAddress`. The sum
`offset + addr` is an `unsigned long` sum. An exception thrown by `std::stoi`
is caught and gives the empty string. -/
def translateModbusAddress (fc_str : String) (addr : Nat) : String :=
  if fc_str = "" then ""
  else
    match stoi fc_str with
    | none => ""
    | some fc =>
      let offset : Option Nat :=
        if fc = 0 then some 1
        else if fc = 1 ∨ fc = 2 then some 10001
        else if fc = 3 then some 300001
        else if fc = 4 then some 400001
        else none
      match offset with
      | none => toString addr
      | some offset => toString ((offset + addr) % ULONG_RANGE)

/-- The method `AssetManager::translateS7Address`. -/
def translateS7Address (area_str db_str addr_str : String) : String :=
  if area_str ≠ "132" then ""
  else "DB" ++ db_str ++ "," ++ addr_str

end AssetManager

/-! ## Base parser (`protocols/BaseProtocolParser.cpp`) -/

namespace BaseProtocolParser

/-- The method `BaseProtocolParser::createUnifiedRecord`; `name` is the
result of the virtual `getName()` and `m_asset_manager` the pointer set by
`setAssetManager` (`none` for a null pointer). -/
def createUnifiedRecord (name : String) (m_asset_manager : Option AssetManager)
    (info : PacketInfo) (direction : String) : UnifiedRecord :=
  let record : UnifiedRecord :=
    { timestamp := info.timestamp
      protocol := name
      smac := info.src_mac
      dmac := info.dst_mac
      sip := info.src_ip
      sp := toString info.src_port
      dip := info.dst_ip
      dp := toString info.dst_port
      sq := toString info.tcp_seq
      ak := toString info.tcp_ack
      fl := toString info.tcp_flags
      dir := direction }
  match m_asset_manager with
  | none => record
  | some am =>
    let src_device := am.getDeviceName info.src_ip
    let dst_device := am.getDeviceName info.dst_ip
    let record :=
      if src_device ≠ "" then
        { record with src_asset_name := src_device, src_asset_id := info.src_ip }
      else record
    let record :=
      if dst_device ≠ "" then
        { record with dst_asset_name := dst_device, dst_asset_id := info.dst_ip }
      else record
    record

end BaseProtocolParser

/-! ## Modbus parser (`protocols/ModbusParser.h`, `protocols/ModbusParser.cpp`) -/

/-- The request information kept per pending request, `struct ModbusRequestInfo`. -/
structure ModbusRequestInfo where
  function_code : Nat := 0
  start_address : Nat := 0
  timestamp : Nat := 0
deriving DecidableEq

/-- The state of a `ModbusParser` object. The nested `std::map`
`m_pending_requests` is the partial function from flow key and request key to
the stored request; `m_asset_manager` is the pointer of the base class. -/
structure ModbusParser where
  m_assetManager : AssetManager
  m_asset_manager : Option AssetManager
  m_pending_requests : String → Nat → Option ModbusRequestInfo
  m_last_cleanup : Nat

namespace ModbusParser

/-- The method `ModbusParser::getName`. -/
def getName : String := "modbus"

/-- The method `ModbusParser::isProtocol`. -/
def isProtocol (info : PacketInfo) : Bool :=
  if info.protocol ≠ 6 ∨ (info.dst_port ≠ 502 ∧ info.src_port ≠ 502) then false
  else if info.payload_size < 8 then false
  else if byteAt info.payload 2 ≠ 0x00 ∨ byteAt info.payload 3 ≠ 0x00 then false
  else
    let mbap_length := safe_ntohs info.payload 4
    if mbap_length < 2 then false
    else
      let expected_frame_size : Int := 6 + (mbap_length : Int)
      if info.payload_size ≠ expected_frame_size then false
      else true

/-- The method `ModbusParser::cleanupOldRequests`, with `now` the clock
reading. Nothing happens unless 60 whole seconds have passed since the last
sweep; a sweep erases the requests that are more than 5 whole minutes old. -/
def cleanupOldRequests (self : ModbusParser) (now : Nat) : ModbusParser :=
  if (now - self.m_last_cleanup) / 1000000000 < 60 then self
  else
    { self with
      m_pending_requests := fun flow rk =>
        match self.m_pending_requests flow rk with
        | some r => if (now - r.timestamp) / 60000000000 > 5 then none else some r
        | none => none
      m_last_cleanup := now }

/-- The offset of the PDU in the payload (`pdu = info.payload + 7`). -/
def pdu : Nat := 7

/-- The transaction id read by `parse`. -/
def trans_id (info : PacketInfo) : Nat := safe_ntohs info.payload 0

/-- The function code read by `parse`: `pdu[0] & 0x7F`. -/
def current_fc (info : PacketInfo) : Nat := byteAt info.payload pdu &&& 0x7F

/-- The flow key built by `parse`: the endpoint with port 502 is the server. -/
def flow_key (info : PacketInfo) : String :=
  let client_ip := if info.src_port = 502 then info.dst_ip else info.src_ip
  let client_port := if info.src_port = 502 then info.dst_port else info.src_port
  let server_ip := if info.src_port = 502 then info.src_ip else info.dst_ip
  let server_port := if info.src_port = 502 then info.src_port else info.dst_port
  client_ip ++ ":" ++ toString client_port ++ "->" ++ server_ip ++ ":" ++ toString server_port

/-- The request key built by `parse`, a `uint32_t`. -/
def req_key (info : PacketInfo) : Nat :=
  ((trans_id info <<< 8) % 2 ^ 32) ||| current_fc info

/-- The request information that `parse` stores for a request. -/
def new_req (now : Nat) (info : PacketInfo) : ModbusRequestInfo :=
  let pdu_len : Int := info.payload_size - 7
  let function_code := current_fc info
  { function_code := function_code
    timestamp := now
    start_address :=
      if pdu_len ≥ 3 ∧
          ((function_code ≥ 1 ∧ function_code ≤ 6) ∨
            (function_code = 15 ∨ function_code = 16)) then
        safe_ntohs info.payload (pdu + 1)
      else 0 }

/-- The pointer `req_info_ptr` of `parse`: for a response the entry of the
pending table under the flow key and the request key, when there is one. -/
def req_info_ptr (self : ModbusParser) (info : PacketInfo) : Option ModbusRequestInfo :=
  if info.src_port = 502 then self.m_pending_requests (flow_key info) (req_key info)
  else none

/-- The pending table after the first part of `parse`: a packet that is not a
response stores its request information under the flow key and request key. -/
def storeRequest (self : ModbusParser) (now : Nat) (info : PacketInfo) : ModbusParser :=
  if info.src_port = 502 then self
  else
    { self with
      m_pending_requests := fun flow rk =>
        if flow = flow_key info ∧ rk = req_key info then some (new_req now info)
        else self.m_pending_requests flow rk }

/-- The record of `parse` before the function code is decoded: the common
fields, `len`, `modbus_tid` and `modbus_fc`. -/
def baseRecord (self : ModbusParser) (info : PacketInfo) : UnifiedRecord :=
  let pdu_len : Int := info.payload_size - 7
  let direction := if info.dst_port = 502 then "request" else "response"
  let record := BaseProtocolParser.createUnifiedRecord getName self.m_asset_manager info direction
  { record with
    len := toString pdu_len
    modbus_tid := toString (trans_id info)
    modbus_fc := toString (current_fc info) }

/-- The records of the loop over the registers of a response to function
codes 1 to 4: record `i` copies `record` and fills the register address, the
register value, the translated address and the description. -/
def registerRecords (self : ModbusParser) (info : PacketInfo) (record : UnifiedRecord)
    (num_registers : Nat) (start_addr : Nat) : List UnifiedRecord :=
  (List.range num_registers).map fun i =>
    let reg_data := pdu + 2
    let reg_value := safe_ntohs info.payload (reg_data + i * 2)
    let reg_addr := (start_addr + i) % 65536
    let translated_addr :=
      AssetManager.translateModbusAddress record.modbus_fc reg_addr
    { record with
      modbus_regs_addr := toString reg_addr
      modbus_regs_val := toString reg_value
      modbus_translated_addr := translated_addr
      modbus_description := self.m_assetManager.getDescription translated_addr }

/-- The function code decoding of `parse`. The result is `Sum.inl rs` when
`parse` returns from inside the switch after adding the records `rs`, and
`Sum.inr record` when it goes on with `record`. -/
def decode (self : ModbusParser) (info : PacketInfo) (record : UnifiedRecord)
    (req : Option ModbusRequestInfo) : List UnifiedRecord ⊕ UnifiedRecord :=
  let pdu_len : Int := info.payload_size - 7
  let is_response := info.src_port = 502
  let fc := current_fc info
  if byteAt info.payload pdu &&& 0x80 ≠ 0 then
    if pdu_len ≥ 2 then
      Sum.inr { record with modbus_err := toString (byteAt info.payload (pdu + 1)) }
    else Sum.inr record
  else if fc = 1 ∨ fc = 2 ∨ fc = 3 ∨ fc = 4 then
    if is_response then
      if pdu_len ≥ 2 then
        let byte_count := byteAt info.payload (pdu + 1)
        let record := { record with modbus_bc := toString byte_count }
        if byte_count > 0 ∧ pdu_len ≥ 2 + (byte_count : Int) then
          let num_registers := byte_count / 2
          let start_addr :=
            match req with
            | some r => r.start_address
            | none => 0
          Sum.inl (registerRecords self info record num_registers start_addr)
        else Sum.inr record
      else Sum.inr record
    else
      if pdu_len ≥ 5 then
        Sum.inr { record with
          modbus_addr := toString (safe_ntohs info.payload (pdu + 1))
          modbus_qty := toString (safe_ntohs info.payload (pdu + 3)) }
      else Sum.inr record
  else if fc = 5 ∨ fc = 6 then
    if pdu_len ≥ 5 then
      Sum.inr { record with
        modbus_addr := toString (safe_ntohs info.payload (pdu + 1))
        modbus_val := toString (safe_ntohs info.payload (pdu + 3)) }
    else Sum.inr record
  else if fc = 15 ∨ fc = 16 then
    if is_response then
      if pdu_len ≥ 5 then
        Sum.inr { record with
          modbus_addr := toString (safe_ntohs info.payload (pdu + 1))
          modbus_qty := toString (safe_ntohs info.payload (pdu + 3)) }
      else Sum.inr record
    else
      if pdu_len ≥ 6 then
        Sum.inr { record with
          modbus_addr := toString (safe_ntohs info.payload (pdu + 1))
          modbus_qty := toString (safe_ntohs info.payload (pdu + 3))
          modbus_bc := toString (byteAt info.payload (pdu + 5)) }
      else Sum.inr record
  else Sum.inr record

/-- The end of `parse`: the translated address and the description of a record
with a non-empty `modbus_addr`, then `addUnifiedRecord`. When `std::stoul`
throws, the exception leaves `parse` before the record is added. -/
def finish (self : ModbusParser) (record : UnifiedRecord) : List UnifiedRecord :=
  if record.modbus_addr ≠ "" then
    match stoul record.modbus_addr with
    | none => []
    | some addr =>
      let translated_addr := AssetManager.translateModbusAddress record.modbus_fc addr
      [{ record with
          modbus_translated_addr := translated_addr
          modbus_description := self.m_assetManager.getDescription translated_addr }]
  else [record]

/-- The method `ModbusParser::parse`. `now` is the clock reading of
`cleanupOldRequests` and `now_req` the later reading stored as the timestamp
of a request. The result is the parser after the call and the records given to
`addUnifiedRecord`, in order. -/
def parse (self : ModbusParser) (now now_req : Nat) (info : PacketInfo) :
    ModbusParser × List UnifiedRecord :=
  let self := self.cleanupOldRequests now
  let pdu_len : Int := info.payload_size - 7
  if pdu_len < 1 then (self, [])
  else
    let req := self.req_info_ptr info
    let self := self.storeRequest now_req info
    let record := self.baseRecord info
    match self.decode info record req with
    | Sum.inl rs => (self, rs)
    | Sum.inr record => (self, self.finish record)

end ModbusParser

/-! ## Admission tests of the other parsers -/

namespace ArpParser

/-- The method `ArpParser::getName`. -/
def getName : String := "arp"

/-- The method `ArpParser::isProtocol`. -/
def isProtocol (info : PacketInfo) : Bool := info.eth_type = 0x0806

end ArpParser

namespace S7CommParser

/-- The method `S7CommParser::getName`. -/
def getName : String := "s7comm"

/-- The method `S7CommParser::isProtocol`. -/
def isProtocol (info : PacketInfo) : Bool :=
  info.protocol = 6 ∧
  (info.dst_port = 102 ∨ info.src_port = 102) ∧
  info.payload_size ≥ 17 ∧
  byteAt info.payload 0 = 0x03 ∧
  byteAt info.payload 5 = 0xf0 ∧
  byteAt info.payload 7 = 0x32

end S7CommParser

namespace XgtFenParser

/-- The method `XgtFenParser::getName`. -/
def getName : String := "xgt_fen"

/-- The bytes of the string literal `"LSIS-XGT"`. -/
def companyId : List Nat := [0x4C, 0x53, 0x49, 0x53, 0x2D, 0x58, 0x47, 0x54]

/-- The method `XgtFenParser::isProtocol`; the `memcmp` compares the first 8
payload bytes with `"LSIS-XGT"`. -/
def isProtocol (info : PacketInfo) : Bool :=
  (info.protocol = 6 ∨ info.protocol = 17) ∧
  (info.dst_port = 2004 ∨ info.src_port = 2004) ∧
  info.payload_size ≥ 20 ∧
  (List.range 8).map (byteAt info.payload) = companyId

end XgtFenParser

namespace Dnp3Parser

/-- The method `Dnp3Parser::getName`. -/
def getName : String := "dnp3"

/-- The method `Dnp3Parser::isProtocol`. -/
def isProtocol (info : PacketInfo) : Bool :=
  (info.protocol = 6 ∨ info.protocol = 17) ∧
  (info.dst_port = 20000 ∨ info.src_port = 20000) ∧
  info.payload_size ≥ 2 ∧
  byteAt info.payload 0 = 0x05 ∧
  byteAt info.payload 1 = 0x64

end Dnp3Parser

namespace DnsParser

/-- The method `DnsParser::getName`. -/
def getName : String := "dns"

/-- The method `DnsParser::isProtocol`. -/
def isProtocol (info : PacketInfo) : Bool :=
  info.protocol = 17 ∧
  (info.dst_port = 53 ∨ info.src_port = 53) ∧
  info.payload_size ≥ 12

end DnsParser

namespace GenericParser

/-- The method `GenericParser::isProtocol` of the parser constructed with the
name `m_name`. -/
def isProtocol (m_name : String) (info : PacketInfo) : Bool :=
  if info.protocol = 6 then
    if m_name = "ethernet_ip" then info.src_port = 44818 ∨ info.dst_port = 44818
    else if m_name = "iec104" then info.src_port = 2404 ∨ info.dst_port = 2404
    else if m_name = "mms" then info.src_port = 102 ∨ info.dst_port = 102
    else if m_name = "opc_ua" then info.src_port = 4840 ∨ info.dst_port = 4840
    else false
  else if info.protocol = 17 then
    if m_name = "dhcp" then
      info.src_port = 67 ∨ info.dst_port = 67 ∨ info.src_port = 68 ∨ info.dst_port = 68
    else if m_name = "bacnet" then info.src_port = 47808 ∨ info.dst_port = 47808
    else false
  else false

end GenericParser

namespace UnknownParser

/-- The method `UnknownParser::getName`. -/
def getName : String := "unknown"

/-- The method `UnknownParser::isProtocol`. -/
def isProtocol (_info : PacketInfo) : Bool := true

end UnknownParser

/-! ## TCP session parser (`protocols/TcpSessionParser.cpp`) -/

/-- The flag `TH_FIN` of `network/network_headers.h`. -/
def TH_FIN : Nat := 0x01

/-- The flag `TH_SYN`. -/
def TH_SYN : Nat := 0x02

/-- The flag `TH_RST`. -/
def TH_RST : Nat := 0x04

/-- The flag `TH_ACK`. -/
def TH_ACK : Nat := 0x10

namespace TcpSessionParser

/-- The method `TcpSessionParser::getName`. -/
def getName : String := "tcp_session"

/-- The method `TcpSessionParser::isProtocol`. -/
def isProtocol (_info : PacketInfo) : Bool := true

/-- The digit written for a flag test `(info.tcp_flags & flag) ? 1 : 0`. -/
def flagBit (tcp_flags flag : Nat) : String :=
  toString (if tcp_flags &&& flag ≠ 0 then 1 else 0 : Nat)

/-- The method `TcpSessionParser::parse`: the records given to
`addUnifiedRecord`. -/
def parse (m_asset_manager : Option AssetManager) (info : PacketInfo) : List UnifiedRecord :=
  let record := BaseProtocolParser.createUnifiedRecord getName m_asset_manager info "unknown"
  let details :=
    "\x7b\"seq\":" ++ toString info.tcp_seq ++ ",\"ack\":" ++ toString info.tcp_ack ++
    ",\"flags\":\x7b\"syn\":" ++ flagBit info.tcp_flags TH_SYN ++
    ",\"ack\":" ++ flagBit info.tcp_flags TH_ACK ++
    ",\"fin\":" ++ flagBit info.tcp_flags TH_FIN ++
    ",\"rst\":" ++ flagBit info.tcp_flags TH_RST ++ "\x7d\x7d"
  [{ record with
      len := toString info.payload_size
      details_json := details }]

end TcpSessionParser

/-! ## Parser registry and TCP dispatch (`PacketParser.cpp`) -/

/-- What the dispatch loop uses of a registered parser: its name and its
admission test. -/
structure ParserEntry where
  getName : String
  isProtocol : PacketInfo → Bool

/-- The parsers of a worker in the order in which
`PacketParser::createParsersForWorker` registers them. -/
def createParsersForWorker : List ParserEntry :=
  [ ⟨ArpParser.getName, ArpParser.isProtocol⟩,
    ⟨TcpSessionParser.getName, TcpSessionParser.isProtocol⟩,
    ⟨ModbusParser.getName, ModbusParser.isProtocol⟩,
    ⟨S7CommParser.getName, S7CommParser.isProtocol⟩,
    ⟨XgtFenParser.getName, XgtFenParser.isProtocol⟩,
    ⟨Dnp3Parser.getName, Dnp3Parser.isProtocol⟩,
    ⟨"dhcp", GenericParser.isProtocol "dhcp"⟩,
    ⟨DnsParser.getName, DnsParser.isProtocol⟩,
    ⟨"ethernet_ip", GenericParser.isProtocol "ethernet_ip"⟩,
    ⟨"iec104", GenericParser.isProtocol "iec104"⟩,
    ⟨"mms", GenericParser.isProtocol "mms"⟩,
    ⟨"opc_ua", GenericParser.isProtocol "opc_ua"⟩,
    ⟨"bacnet", GenericParser.isProtocol "bacnet"⟩,
    ⟨UnknownParser.getName, UnknownParser.isProtocol⟩ ]

/-- The test of the first dispatch loop: the parser is not one of
`tcp_session`, `unknown`, `arp` and its `isProtocol` answers true. -/
def claims (info : PacketInfo) (p : ParserEntry) : Bool :=
  if p.getName = "tcp_session" ∨ p.getName = "unknown" ∨ p.getName = "arp" then false
  else p.isProtocol info

/-- The TCP dispatch of `PacketParser::parsePacket`: the name of the parser
whose `parse` is called for `info`. The first loop calls the first parser that
claims the packet; when there is none, the second loop calls the first parser
named `tcp_session`. The result is `none` when no `parse` is called. -/
def dispatchTcp (parsers : List ParserEntry) (info : PacketInfo) : Option String :=
  match parsers.find? (claims info) with
  | some p => some p.getName
  | none => (parsers.find? fun p => p.getName = "tcp_session").map fun p => p.getName

/-! ## Concrete packets of the tests and of the specification scenarios -/

/-- The 10-byte TCP payload of the ACK packet of `test_mbap_fixed.cpp`. -/
def ack_packet : List Nat := [0x00, 0x00, 0x00, 0x00, 0x00, 0x07, 0x00, 0x04, 0x04, 0x00]

/-- The 12-byte Modbus request of `test_mbap_fixed.cpp`. -/
def real_modbus : List Nat :=
  [0x00, 0x00, 0x00, 0x00, 0x00, 0x06, 0x00, 0x03, 0x00, 0x3F, 0x00, 0x02]

/-- A Modbus parser with an empty asset catalogue and an empty pending table. -/
def emptyParser : ModbusParser :=
  { m_assetManager := {}
    m_asset_manager := some {}
    m_pending_requests := fun _ _ => none
    m_last_cleanup := 0 }

/-- The ACK packet of `test_mbap_fixed.cpp` as a TCP packet to port 502. -/
def ack_info : PacketInfo :=
  { protocol := 6, src_ip := "192.168.0.10", src_port := 40000, dst_ip := "192.168.0.20"
    dst_port := 502, payload := ack_packet, payload_size := 10 }

/-- The request of the fan-out scenario: transaction id 1, function code 3,
start address 12, quantity 3. -/
def scenario_request : PacketInfo :=
  { protocol := 6, src_ip := "192.168.0.10", src_port := 40000, dst_ip := "192.168.0.20"
    dst_port := 502, payload := [0, 1, 0, 0, 0, 6, 1, 3, 0, 12, 0, 3], payload_size := 12 }

/-- The response of the fan-out scenario: byte count 6 and the register bytes
`00 0A 00 0B 00 0C`. -/
def scenario_response : PacketInfo :=
  { protocol := 6, src_ip := "192.168.0.20", src_port := 502, dst_ip := "192.168.0.10"
    dst_port := 40000, payload := [0, 1, 0, 0, 0, 9, 1, 3, 6, 0, 10, 0, 11, 0, 12]
    payload_size := 15 }

/-- A read-holding-registers request for two registers from address 65535. -/
def wrap_request : PacketInfo :=
  { protocol := 6, src_ip := "192.168.0.10", src_port := 40000, dst_ip := "192.168.0.20"
    dst_port := 502, payload := [0, 3, 0, 0, 0, 6, 1, 3, 255, 255, 0, 2], payload_size := 12 }

/-- The response to `wrap_request`: byte count 4, register values 1 and 2. -/
def wrap_response : PacketInfo :=
  { protocol := 6, src_ip := "192.168.0.20", src_port := 502, dst_ip := "192.168.0.10"
    dst_port := 40000, payload := [0, 3, 0, 0, 0, 7, 1, 3, 4, 0, 1, 0, 2], payload_size := 13 }

/-- A read-coils response (function code 1) whose byte count is 1: eight coil
bits in the data byte `05`. -/
def coil_response : PacketInfo :=
  { protocol := 6, src_ip := "192.168.0.20", src_port := 502, dst_ip := "192.168.0.10"
    dst_port := 40000, payload := [0, 2, 0, 0, 0, 4, 1, 1, 1, 5], payload_size := 10 }

/-- A read-holding-registers response (transaction id 7, byte count 2, register
value 10) for which no request has been seen. -/
def orphan_response : PacketInfo :=
  { protocol := 6, src_ip := "192.168.0.20", src_port := 502, dst_ip := "192.168.0.10"
    dst_port := 40000, payload := [0, 7, 0, 0, 0, 5, 1, 3, 2, 0, 10], payload_size := 11 }

/-! ## Conversions between C integer types and text formatting helpers -/

/-- The conversion `static_cast<size_t>(i)` of an `int` (64-bit `size_t`): a
negative value wraps around. -/
def toSizeT (i : Int) : Nat := (i % 18446744073709551616).toNat

/-- The stream output of a byte with `std::hex`, `std::setw(2)` and
`std::setfill('0')`: two lower-case hexadecimal digits. -/
def hex2 (b : Nat) : String :=
  String.mk [Nat.digitChar (b % 256 / 16), Nat.digitChar (b % 16)]

/-- The method `BaseProtocolParser::mac_to_string` (and the helper
`mac_to_string_helper` of `PacketParser.cpp`) on the six bytes that start at
offset `off`: colon-separated two-digit hexadecimal. -/
def mac_to_string (p : List Nat) (off : Nat) : String :=
  hex2 (byteAt p off) ++ ":" ++ hex2 (byteAt p (off + 1)) ++ ":" ++
  hex2 (byteAt p (off + 2)) ++ ":" ++ hex2 (byteAt p (off + 3)) ++ ":" ++
  hex2 (byteAt p (off + 4)) ++ ":" ++ hex2 (byteAt p (off + 5))

/-- The call `inet_ntop(AF_INET, p + off, ...)`: the dotted quad of the four
bytes that start at offset `off`. -/
def inet_ntop (p : List Nat) (off : Nat) : String :=
  toString (byteAt p off) ++ "." ++ toString (byteAt p (off + 1)) ++ "." ++
  toString (byteAt p (off + 2)) ++ "." ++ toString (byteAt p (off + 3))

/-- The method `XgtFenParser::bytesToHexString`: two hexadecimal digits per
byte, no separator. -/
def bytesToHexString (bytes : List Nat) : String :=
  String.join (bytes.map hex2)

/-- The string built from `n` bytes of a buffer,
`std::string(reinterpret_cast<const char*>(p + off), n)`: one character per
byte. -/
def bytesToString (p : List Nat) (off n : Nat) : String :=
  String.mk ((List.range n).map fun i => Char.ofNat (byteAt p (off + i)))

/-- The bytes `p[off], ..., p[off + n - 1]` copied into a vector. -/
def bytesSlice (p : List Nat) (off n : Nat) : List Nat :=
  (List.range n).map fun i => byteAt p (off + i)

/-- The helper `read_le<uint16_t>(p + off)` of `XgtFenParser.cpp`: the 16-bit
value of the two bytes at `off`, least significant byte first. -/
def read_le16 (p : List Nat) (off : Nat) : Nat :=
  byteAt p off + byteAt p (off + 1) * 256

/-- The call `ntohl` on the four bytes at `off`: the big-endian 32-bit value. -/
def safe_ntohl (p : List Nat) (off : Nat) : Nat :=
  byteAt p off * 16777216 + byteAt p (off + 1) * 65536 + byteAt p (off + 2) * 256 +
    byteAt p (off + 3)

/-! ## ARP parser (`protocols/ArpParser.cpp`) -/

namespace ArpParser

/-- The method `ArpParser::parse`: the records given to `addUnifiedRecord`. The
28-byte `ARPHeader` holds `oper` at offset 6, `sha` at 8, `spa` at 14, `tha`
at 18 and `tpa` at 24. -/
def parse (m_asset_manager : Option AssetManager) (info : PacketInfo) : List UnifiedRecord :=
  if toSizeT info.payload_size < 28 then []
  else
    let spa_str := inet_ntop info.payload 14
    let tpa_str := inet_ntop info.payload 24
    let op_code := safe_ntohs info.payload 6
    let sha_str := mac_to_string info.payload 8
    let tha_str := mac_to_string info.payload 18
    let direction :=
      if op_code = 1 then "request" else if op_code = 2 then "response" else "other"
    let record := BaseProtocolParser.createUnifiedRecord getName m_asset_manager info direction
    let details :=
      "\x7b\"op\":" ++ toString op_code ++ ",\"smac\":\"" ++ sha_str ++ "\"," ++
      "\"sip\":\"" ++ spa_str ++ "\"," ++ "\"tmac\":\"" ++ tha_str ++ "\"," ++
      "\"tip\":\"" ++ tpa_str ++ "\"\x7d"
    [{ record with
        len := toString info.payload_size
        arp_op := toString op_code
        arp_tmac := tha_str
        arp_tip := tpa_str
        details_json := details }]

end ArpParser

/-! ## DNP3, DNS, generic and unknown parsers -/

namespace Dnp3Parser

/-- The method `Dnp3Parser::parse`. The fields `dest` and `src` are read with
`*(uint16_t*)`, in the byte order of the (little-endian) host. -/
def parse (m_asset_manager : Option AssetManager) (info : PacketInfo) : List UnifiedRecord :=
  let long := info.payload_size ≥ 10
  let len := if long then byteAt info.payload 2 else 0
  let ctrl := if long then byteAt info.payload 3 else 0
  let dest := if long then read_le16 info.payload 4 else 0
  let src := if long then read_le16 info.payload 6 else 0
  let direction :=
    if long then (if ctrl &&& 0x80 ≠ 0 then "request" else "response") else "unknown"
  let record := BaseProtocolParser.createUnifiedRecord getName m_asset_manager info direction
  let details :=
    "\x7b\"len\":" ++ toString len ++ ",\"ctrl\":" ++ toString ctrl ++
    ",\"dest\":" ++ toString dest ++ ",\"src\":" ++ toString src ++ "\x7d"
  [{ record with
      len := toString info.payload_size
      dnp3_len := toString len
      dnp3_ctrl := toString ctrl
      dnp3_dest := toString dest
      dnp3_src := toString src
      details_json := details }]

end Dnp3Parser

namespace DnsParser

/-- The method `DnsParser::parse`. -/
def parse (m_asset_manager : Option AssetManager) (info : PacketInfo) : List UnifiedRecord :=
  if info.payload_size < 12 then []
  else
    let tid := safe_ntohs info.payload 0
    let flags := safe_ntohs info.payload 2
    let qdcount := safe_ntohs info.payload 4
    let ancount := safe_ntohs info.payload 6
    let direction := if flags &&& 0x8000 ≠ 0 then "response" else "request"
    let record := BaseProtocolParser.createUnifiedRecord getName m_asset_manager info direction
    let details :=
      "\x7b\"tid\":" ++ toString tid ++ ",\"fl\":" ++ toString flags ++
      ",\"qc\":" ++ toString qdcount ++ ",\"ac\":" ++ toString ancount ++ "\x7d"
    [{ record with
        len := toString info.payload_size
        dns_tid := toString tid
        dns_fl := toString flags
        dns_qc := toString qdcount
        dns_ac := toString ancount
        details_json := details }]

end DnsParser

namespace GenericParser

/-- The method `GenericParser::getName` of the parser constructed with the
name `m_name`. -/
def getName (m_name : String) : String := m_name

/-- The method `GenericParser::parse`. -/
def parse (m_name : String) (m_asset_manager : Option AssetManager) (info : PacketInfo) :
    List UnifiedRecord :=
  let direction := "unknown"
  let record :=
    BaseProtocolParser.createUnifiedRecord (getName m_name) m_asset_manager info direction
  let details := "\x7b\"len\":" ++ toString info.payload_size ++ "\x7d"
  [{ record with
      len := toString info.payload_size
      details_json := details }]

end GenericParser

namespace UnknownParser

/-- The method `UnknownParser::parse`. -/
def parse (m_asset_manager : Option AssetManager) (info : PacketInfo) : List UnifiedRecord :=
  let record := BaseProtocolParser.createUnifiedRecord getName m_asset_manager info "unknown"
  let details := "\x7b\"len\":" ++ toString info.payload_size ++ "\x7d"
  [{ record with
      len := toString info.payload_size
      details_json := details }]

end UnknownParser

/-! ## S7Comm parser (`protocols/S7CommParser.h`, `protocols/S7CommParser.cpp`) -/

/-- The empty `struct S7CommItem`. -/
structure S7CommItem where
deriving DecidableEq

/-- The request information kept per pending request, `struct S7CommRequestInfo`. -/
structure S7CommRequestInfo where
  pdu_ref : Nat := 0
  function_code : Nat := 0
  items : List S7CommItem := []
  timestamp : Nat := 0
deriving DecidableEq

/-- The state of an `S7CommParser` object. The nested `std::map`
`m_pending_requests` is the partial function from flow id and PDU reference
to the stored request; `m_asset_manager` is the pointer of the base class. -/
structure S7CommParser where
  m_assetManager : AssetManager
  m_asset_manager : Option AssetManager
  m_pending_requests : String → Nat → Option S7CommRequestInfo

namespace S7CommParser

/-- The offset of the S7 PDU in the payload (`s7_pdu = info.payload + 7`). -/
def s7_pdu : Nat := 7

/-- The helper `s7_addr_to_int(p + off)`: `(ptr[0] << 16) | (ptr[1] << 8) | ptr[2]`. -/
def s7_addr_to_int (p : List Nat) (off : Nat) : Nat :=
  (byteAt p off <<< 16) ||| (byteAt p (off + 1) <<< 8) ||| byteAt p (off + 2)

/-- The PDU reference read by `parse`. -/
def pdu_ref (info : PacketInfo) : Nat := safe_ntohs info.payload (s7_pdu + 4)

/-- The ROSCTR byte read by `parse`. -/
def rosctr (info : PacketInfo) : Nat := byteAt info.payload (s7_pdu + 1)

/-- The parameter length read by `parse`. -/
def param_len (info : PacketInfo) : Nat := safe_ntohs info.payload (s7_pdu + 6)

/-- The data length read by `parse`. -/
def data_len (info : PacketInfo) : Nat := safe_ntohs info.payload (s7_pdu + 8)

/-- The header size chosen by `parse`: 10 bytes for ROSCTR 1 and 7, 12 bytes
otherwise. -/
def header_size (info : PacketInfo) : Nat :=
  if rosctr info = 0x01 ∨ rosctr info = 0x07 then 10 else 12

/-- The request information that `parse` stores for a job (ROSCTR 1); `now` is
the clock reading. -/
def new_req (now : Nat) (info : PacketInfo) : S7CommRequestInfo :=
  let s7_pdu_len : Int := info.payload_size - 7
  let param := s7_pdu + 10
  if param_len info > 0 ∧ s7_pdu_len ≥ 10 + (param_len info : Int) then
    let function_code := byteAt info.payload param
    if (function_code = 0x04 ∨ function_code = 0x05) ∧ param_len info ≥ 2 then
      { pdu_ref := pdu_ref info
        function_code := function_code
        items := List.replicate (byteAt info.payload (param + 1)) {}
        timestamp := now }
    else
      { pdu_ref := pdu_ref info, function_code := function_code, timestamp := now }
  else
    { pdu_ref := pdu_ref info, timestamp := now }

/-- The loop over the request items of the parameter block. `n` is the number
of iterations that are left, `i` the loop counter and `item_ptr` the offset of
the current item; `param_end` is the offset `param + param_len`. Only item 0
writes to the record. -/
def paramItemWalk (m_assetManager : AssetManager) (p : List Nat) (param_end : Nat) :
    Nat → Nat → Nat → UnifiedRecord → UnifiedRecord
  | 0, _, _, record => record
  | n + 1, i, item_ptr, record =>
    if item_ptr + 12 > param_end then record
    else
      let area := byteAt p (item_ptr + 8)
      let db_num := if area = 0x84 then safe_ntohs p (item_ptr + 6) else 0
      let addr := s7_addr_to_int p (item_ptr + 9) >>> 3
      let record :=
        if i = 0 then
          let record :=
            { record with
              s7_syn := toString (byteAt p (item_ptr + 2))
              s7_tsz := toString (byteAt p (item_ptr + 3))
              s7_amt := toString (safe_ntohs p (item_ptr + 4))
              s7_ar := toString area
              s7_addr := toString addr }
          let record :=
            if area = 0x84 then { record with s7_db := toString db_num } else record
          let translated_addr :=
            AssetManager.translateS7Address record.s7_ar record.s7_db record.s7_addr
          { record with s7_description := m_assetManager.getDescription translated_addr }
        else record
      paramItemWalk m_assetManager p param_end n (i + 1) (item_ptr + 12) record

/-- The parameter part of `parse`: the function byte, the item count and the
walk over the items. -/
def paramFields (self : S7CommParser) (info : PacketInfo) (record : UnifiedRecord) :
    UnifiedRecord :=
  let s7_pdu_len : Int := info.payload_size - 7
  if param_len info > 0 ∧ s7_pdu_len ≥ (header_size info : Int) + (param_len info : Int) then
    let param := s7_pdu + header_size info
    let record := { record with s7_fn := toString (byteAt info.payload param) }
    if (byteAt info.payload param = 0x04 ∨ byteAt info.payload param = 0x05) ∧
        param_len info ≥ 2 then
      let item_count := byteAt info.payload (param + 1)
      let record := { record with s7_ic := toString item_count }
      paramItemWalk self.m_assetManager info.payload (param + param_len info)
        item_count 0 (param + 2) record
    else record
  else record

/-- The loop over the data items of an ack-data PDU. `n` is the number of
iterations that are left, `i` the loop counter and `data_item_ptr` the offset
of the current item; `data_end` is the offset `data_ptr + data_len`. Only item
0 writes to the record. -/
def dataItemWalk (p : List Nat) (data_end : Nat) :
    Nat → Nat → Nat → UnifiedRecord → UnifiedRecord
  | 0, _, _, record => record
  | n + 1, i, data_item_ptr, record =>
    if data_item_ptr + 1 > data_end then record
    else
      let return_code := byteAt p data_item_ptr
      let record := if i = 0 then { record with s7_rc := toString return_code } else record
      if return_code = 0xff then
        if data_item_ptr + 4 > data_end then
          dataItemWalk p data_end n (i + 1) (data_item_ptr + 1) record
        else
          let read_len_bits := safe_ntohs p (data_item_ptr + 2)
          let read_len_bytes := (read_len_bits + 7) / 8 % 65536
          let record :=
            if i = 0 then { record with s7_len := toString read_len_bytes } else record
          if data_item_ptr + 4 + read_len_bytes ≤ data_end then
            let next := data_item_ptr + 4 + read_len_bytes
            dataItemWalk p data_end n (i + 1)
              (if read_len_bytes % 2 ≠ 0 then next + 1 else next) record
          else
            dataItemWalk p data_end n (i + 1) (data_item_ptr + 4) record
      else
        dataItemWalk p data_end n (i + 1) (data_item_ptr + 1) record

/-- The data part of `parse`: for ROSCTR 3 with a request that has items, the
walk over the data items. -/
def dataFields (info : PacketInfo) (req : S7CommRequestInfo) (record : UnifiedRecord) :
    UnifiedRecord :=
  let s7_pdu_len : Int := info.payload_size - 7
  if data_len info > 0 ∧
      s7_pdu_len ≥ (header_size info : Int) + (param_len info : Int) + (data_len info : Int) then
    let data_ptr := s7_pdu + header_size info + param_len info
    if rosctr info = 3 ∧ req.items ≠ [] then
      dataItemWalk info.payload (data_ptr + data_len info) req.items.length 0 data_ptr record
    else record
  else record

/-- The record that `parse` emits, given the direction and the request
information behind `req_info_ptr`. -/
def buildRecord (self : S7CommParser) (info : PacketInfo) (direction : String)
    (req : S7CommRequestInfo) : UnifiedRecord :=
  let s7_pdu_len : Int := info.payload_size - 7
  let record := BaseProtocolParser.createUnifiedRecord getName self.m_asset_manager info direction
  let record :=
    { record with
      len := toString s7_pdu_len
      s7_prid := toString (pdu_ref info)
      s7_ros := toString (rosctr info) }
  dataFields info req (paramFields self info record)

/-- The method `S7CommParser::parse`; `now` is the clock reading stored with a
request. The result is the parser after the call and the records given to
`addUnifiedRecord`. A response (ROSCTR 2 or 3 with a pending request under the
flow id and PDU reference) erases the pending request after the record has
been added. -/
def parse (self : S7CommParser) (now : Nat) (info : PacketInfo) :
    S7CommParser × List UnifiedRecord :=
  let s7_pdu_len : Int := info.payload_size - 7
  if s7_pdu_len < 10 then (self, [])
  else
    match (if rosctr info = 0x02 ∨ rosctr info = 0x03 then
        self.m_pending_requests info.flow_id (pdu_ref info) else none) with
    | some req =>
      let record := buildRecord self info "response" req
      ({ self with
          m_pending_requests := fun flow ref =>
            if flow = info.flow_id ∧ ref = pdu_ref info then none
            else self.m_pending_requests flow ref },
        [record])
    | none =>
      if rosctr info = 0x01 then
        let req := new_req now info
        let self :=
          { self with
            m_pending_requests := fun flow ref =>
              if flow = info.flow_id ∧ ref = pdu_ref info then some req
              else self.m_pending_requests flow ref }
        (self, [buildRecord self info "request" req])
      else (self, [])

end S7CommParser

/-! ## XGT FEnet parser (`protocols/XgtFenParser.h`, `protocols/XgtFenParser.cpp`) -/

/-- The 20-byte application header, `struct XgtFenHeader`. -/
structure XgtFenHeader where
  companyId : String := ""
  reserved1 : Nat := 0
  plcInfo : Nat := 0
  cpuInfo : Nat := 0
  sourceOfFrame : Nat := 0
  invokeId : Nat := 0
  length : Nat := 0
  fenetPosition : Nat := 0
  reserved2 : Nat := 0
deriving DecidableEq

/-- The decoded instruction, `struct XgtFenInstruction`; the default values are
those of `XgtFenInstruction instruction = {}`. The member `variables` is
`variableList` here. -/
structure XgtFenInstruction where
  command : Nat := 0
  dataType : Nat := 0
  is_continuous : Bool := false
  reserved : Nat := 0
  blockCount : Nat := 0
  variableList : List (Nat × String) := []
  variableName : String := ""
  dataSize : Nat := 0
  writeData : List (Nat × List Nat) := []
  errorStatus : Nat := 0
  errorInfoOrBlockCount : Nat := 0
  readData : List (Nat × List Nat) := []
  continuousReadData : List Nat := []
deriving DecidableEq

/-- The state of an `XgtFenParser` object: the asset catalogue reference and
the pointer of the base class. -/
structure XgtFenParser where
  m_assetManager : AssetManager
  m_asset_manager : Option AssetManager

namespace XgtFenParser

/-- The constant `XGT_DTYPE_CONTINUOUS`. -/
def XGT_DTYPE_CONTINUOUS : Nat := 0x0014

/-- The constant `XGT_CMD_READ_REQ`. -/
def XGT_CMD_READ_REQ : Nat := 0x0054

/-- The constant `XGT_CMD_READ_RESP`. -/
def XGT_CMD_READ_RESP : Nat := 0x0055

/-- The constant `XGT_CMD_WRITE_REQ`. -/
def XGT_CMD_WRITE_REQ : Nat := 0x0058

/-- The constant `XGT_CMD_WRITE_RESP`. -/
def XGT_CMD_WRITE_RESP : Nat := 0x0059

/-- The constant `XGT_ERROR_STATUS_OK`. -/
def XGT_ERROR_STATUS_OK : Nat := 0x0000

/-- The method `XgtFenParser::parseHeader`; `none` stands for the result
`false`. -/
def parseHeader (payload : List Nat) (size : Nat) : Option XgtFenHeader :=
  if size < 20 then none
  else
    let header : XgtFenHeader :=
      { companyId := bytesToString payload 0 8
        reserved1 := read_le16 payload 8
        plcInfo := read_le16 payload 10
        cpuInfo := byteAt payload 12
        sourceOfFrame := byteAt payload 13
        invokeId := read_le16 payload 14
        length := read_le16 payload 16
        fenetPosition := byteAt payload 18
        reserved2 := byteAt payload 19 }
    if header.companyId ≠ "LSIS-XGT" then none else some header

/-- The final test of `parseInstruction`: the bytes consumed have to equal the
instruction size. -/
def checkConsumed (inst_size offset : Nat) (instruction : XgtFenInstruction) :
    Option XgtFenInstruction :=
  if offset ≠ inst_size then none else some instruction

/-- A loop of `parseInstruction` that reads `n` blocks of a 16-bit length and
that many data bytes, from offset `offset` of the instruction, which starts at
payload offset `base`. The result is the list extended by the blocks and the
offset after them, or `none` when the loop returns `false`. -/
def readDataBlocks (p : List Nat) (base inst_size : Nat) :
    Nat → Nat → List (Nat × List Nat) → Option (List (Nat × List Nat) × Nat)
  | 0, offset, acc => some (acc, offset)
  | n + 1, offset, acc =>
    if inst_size < offset + 2 then none
    else
      let data_len := read_le16 p (base + offset)
      let offset := offset + 2
      if inst_size < offset + data_len then none
      else
        readDataBlocks p base inst_size n (offset + data_len)
          (acc ++ [(data_len, bytesSlice p (base + offset) data_len)])

/-- The loop of `parseInstruction` that reads `n` variable names, each a 16-bit
length and that many characters. -/
def readVariables (p : List Nat) (base inst_size : Nat) :
    Nat → Nat → List (Nat × String) → Option (List (Nat × String) × Nat)
  | 0, offset, acc => some (acc, offset)
  | n + 1, offset, acc =>
    if inst_size < offset + 2 then none
    else
      let var_len := read_le16 p (base + offset)
      let offset := offset + 2
      if inst_size < offset + var_len then none
      else
        readVariables p base inst_size n (offset + var_len)
          (acc ++ [(var_len, bytesToString p (base + offset) var_len)])

/-- The response branch of `parseInstruction`, entered at offset 6. -/
def parseResponse (p : List Nat) (base inst_size : Nat) (is_read_cmd : Bool)
    (instruction : XgtFenInstruction) : Option XgtFenInstruction :=
  let offset := 6
  if inst_size < offset + 2 then none
  else
    let instruction := { instruction with errorStatus := read_le16 p (base + offset) }
    let offset := offset + 2
    if inst_size < offset + 2 then none
    else
      let instruction :=
        { instruction with errorInfoOrBlockCount := read_le16 p (base + offset) }
      let offset := offset + 2
      if instruction.errorStatus ≠ XGT_ERROR_STATUS_OK then some instruction
      else if is_read_cmd then
        if instruction.is_continuous then
          if inst_size < offset + 2 then none
          else
            let instruction := { instruction with dataSize := read_le16 p (base + offset) }
            let offset := offset + 2
            if inst_size < offset + instruction.dataSize then none
            else
              let instruction :=
                { instruction with
                  continuousReadData := bytesSlice p (base + offset) instruction.dataSize }
              checkConsumed inst_size (offset + instruction.dataSize) instruction
        else
          let instruction :=
            { instruction with blockCount := instruction.errorInfoOrBlockCount }
          match readDataBlocks p base inst_size instruction.blockCount offset [] with
          | none => none
          | some (readData, offset) =>
            checkConsumed inst_size offset { instruction with readData := readData }
      else
        checkConsumed inst_size offset
          { instruction with blockCount := instruction.errorInfoOrBlockCount }

/-- The request branch of `parseInstruction`, entered at offset 6. -/
def parseRequest (p : List Nat) (base inst_size : Nat) (is_write_cmd : Bool)
    (instruction : XgtFenInstruction) : Option XgtFenInstruction :=
  let offset := 6
  if inst_size < offset + 2 then none
  else
    let instruction := { instruction with blockCount := read_le16 p (base + offset) }
    let offset := offset + 2
    if instruction.is_continuous then
      if instruction.blockCount ≠ 1 then none
      else if inst_size < offset + 2 then none
      else
        let var_len := read_le16 p (base + offset)
        let offset := offset + 2
        if inst_size < offset + var_len then none
        else
          let instruction :=
            { instruction with variableName := bytesToString p (base + offset) var_len }
          let offset := offset + var_len
          if inst_size < offset + 2 then none
          else
            let instruction := { instruction with dataSize := read_le16 p (base + offset) }
            let offset := offset + 2
            if is_write_cmd then
              if inst_size < offset + instruction.dataSize then none
              else
                let instruction :=
                  { instruction with
                    continuousReadData := bytesSlice p (base + offset) instruction.dataSize }
                checkConsumed inst_size (offset + instruction.dataSize) instruction
            else checkConsumed inst_size offset instruction
    else
      match readVariables p base inst_size instruction.blockCount offset [] with
      | none => none
      | some (vars, offset) =>
        let instruction := { instruction with variableList := vars }
        if is_write_cmd then
          match readDataBlocks p base inst_size instruction.blockCount offset [] with
          | none => none
          | some (writeData, offset) =>
            checkConsumed inst_size offset { instruction with writeData := writeData }
        else checkConsumed inst_size offset instruction

/-- The method `XgtFenParser::parseInstruction` on the instruction that starts
at payload offset `base`: the filled instruction when the result is `true`,
`none` when it is `false`. -/
def parseInstruction (p : List Nat) (base inst_size : Nat) (header : XgtFenHeader) :
    Option XgtFenInstruction :=
  if inst_size < 4 then none
  else
    let instruction : XgtFenInstruction :=
      { command := read_le16 p base
        dataType := read_le16 p (base + 2)
        is_continuous := read_le16 p (base + 2) = XGT_DTYPE_CONTINUOUS }
    let is_response := header.sourceOfFrame = 0x11
    let is_request := header.sourceOfFrame = 0x33
    let is_read_cmd : Bool :=
      instruction.command = XGT_CMD_READ_REQ ∨ instruction.command = XGT_CMD_READ_RESP
    let is_write_cmd : Bool :=
      instruction.command = XGT_CMD_WRITE_REQ ∨ instruction.command = XGT_CMD_WRITE_RESP
    if ¬ is_read_cmd ∧ ¬ is_write_cmd then none
    else if inst_size < 4 + 2 then none
    else
      let instruction := { instruction with reserved := read_le16 p (base + 4) }
      if is_response then parseResponse p base inst_size is_read_cmd instruction
      else if is_request then parseRequest p base inst_size is_write_cmd instruction
      else none

/-- The text of the data column: the hexadecimal bytes of the first block and,
when there are several blocks, their number. -/
def blockText (blocks : List (Nat × List Nat)) : String :=
  match blocks with
  | [] => ""
  | b :: _ =>
    if blocks.length > 1 then
      bytesToHexString b.2 ++ ("...(" ++ toString blocks.length ++ " items)")
    else bytesToHexString b.2

/-- The fields that `parse` fills from a successfully parsed instruction. -/
def instructionFields (self : XgtFenParser) (instruction : XgtFenInstruction)
    (record : UnifiedRecord) : UnifiedRecord :=
  let record :=
    { record with
      xgt_cmd := toString instruction.command
      xgt_dtype := toString instruction.dataType
      xgt_blkcnt := toString instruction.blockCount
      xgt_errstat := toString instruction.errorStatus
      xgt_errinfo := toString instruction.errorInfoOrBlockCount }
  let record :=
    if instruction.dataSize > 0 then
      { record with xgt_datasize := toString instruction.dataSize }
    else record
  let vars_csv :=
    if instruction.variableName ≠ "" then instruction.variableName
    else String.intercalate ";" (instruction.variableList.map fun v => v.2)
  let data_csv :=
    if instruction.continuousReadData ≠ [] then
      bytesToHexString instruction.continuousReadData
    else if instruction.readData ≠ [] then blockText instruction.readData
    else if instruction.writeData ≠ [] then blockText instruction.writeData
    else ""
  let record := { record with xgt_vars := vars_csv, xgt_data := data_csv }
  let primary_var_name :=
    if instruction.variableName ≠ "" then instruction.variableName
    else
      match instruction.variableList with
      | v :: _ => v.2
      | [] => ""
  if primary_var_name ≠ "" then
    let translatedAddr := AssetManager.translateXgtAddress primary_var_name
    { record with
      xgt_translated_addr := translatedAddr
      xgt_description := self.m_assetManager.getDescription translatedAddr }
  else record

/-- The method `XgtFenParser::parse`: the records given to `addUnifiedRecord`.
The size mismatch between `20 + header.length` and the payload size is only
logged. -/
def parse (self : XgtFenParser) (info : PacketInfo) : List UnifiedRecord :=
  match parseHeader info.payload (toSizeT info.payload_size) with
  | none => []
  | some header =>
    let instruction_payload := 20
    let instruction_size :=
      min header.length (if info.payload_size > 20 then info.payload_size - 20 else 0).toNat
    let parse_success :=
      parseInstruction info.payload instruction_payload instruction_size header
    let direction :=
      if header.sourceOfFrame = 0x33 then "request"
      else if header.sourceOfFrame = 0x11 then "response" else "unknown"
    let record :=
      BaseProtocolParser.createUnifiedRecord getName self.m_asset_manager info direction
    let record :=
      { record with
        len := toString header.length
        xgt_prid := toString header.invokeId
        xgt_companyId := header.companyId
        xgt_plcinfo := toString header.plcInfo
        xgt_cpuinfo := toString header.cpuInfo
        xgt_source := toString header.sourceOfFrame
        xgt_len := toString header.length
        xgt_fenetpos := toString header.fenetPosition }
    match parse_success with
    | some instruction => [instructionFields self instruction record]
    | none => [record]

end XgtFenParser

/-! ## Asset catalogue: IP normaliser (`AssetManager.cpp`) -/

/-- The characters that `trim` removes: space, tab, line feed, carriage return. -/
def isTrimChar (c : Char) : Bool :=
  c = ' ' ∨ c = '\t' ∨ c = '\n' ∨ c = '\r'

/-- The helper `trim`: the substring from the first to the last character that
is not one of `" \t\n\r"`, and the empty string when there is none. -/
def trim (str : String) : String :=
  String.mk ((str.data.dropWhile isTrimChar).reverse.dropWhile isTrimChar).reverse

/-- The test `s.find(pat) != std::string::npos`: `pat` occurs in `s`. -/
def hasSubstr (pat : List Char) : List Char → Bool
  | [] => pat.isPrefixOf []
  | c :: cs => pat.isPrefixOf (c :: cs) || hasSubstr pat cs

/-- The helper `normalizeIp`: commas become dots, the text from the first `/`
on is cut off and, when the text contains `modbus:`, the text up to and
including the first `:` is removed, the rest is trimmed and cut at `/` again;
the result is trimmed. -/
def normalizeIp (ip : String) : String :=
  let normalized := ip.data.map fun c => if c = ',' then '.' else c
  let normalized := normalized.takeWhile fun c => c ≠ '/'
  let normalized :=
    if hasSubstr "modbus:".data normalized then
      if normalized.any fun c => c = ':' then
        let normalized := (normalized.dropWhile fun c => c ≠ ':').drop 1
        let normalized := (trim (String.mk normalized)).data
        normalized.takeWhile fun c => c ≠ '/'
      else normalized
    else normalized
  trim (String.mk normalized)

/-! ## Frame demultiplexer (`PacketParser.cpp`) -/

/-- The method `PacketParser::get_canonical_flow_id`. -/
def get_canonical_flow_id (ip1_str : String) (port1 : Nat) (ip2_str : String) (port2 : Nat) :
    String :=
  if ip1_str > ip2_str ∨ (ip1_str = ip2_str ∧ port1 > port2) then
    ip2_str ++ ":" ++ toString port2 ++ "-" ++ ip1_str ++ ":" ++ toString port1
  else
    ip1_str ++ ":" ++ toString port1 ++ "-" ++ ip2_str ++ ":" ++ toString port2

/-- What `parsePacket` uses of `struct pcap_pkthdr`: the captured length and the
time stamp. `ts_buft` is the text that the C library (`gmtime_r`, `strftime`
with `%Y-%m-%dT%H:%M:%S`) produces for `ts.tv_sec`. -/
structure pcap_pkthdr where
  ts_buft : String := ""
  ts_usec : Int := 0
  caplen : Nat := 0

/-- The conversion `%06d` of `snprintf`: at least six characters, padded with
zeros after the sign. -/
def printf_06d (i : Int) : String :=
  if i < 0 then
    "-" ++ String.mk (List.replicate (5 - (toString i.natAbs).length) '0') ++ toString i.natAbs
  else
    String.mk (List.replicate (6 - (toString i.natAbs).length) '0') ++ toString i.natAbs

/-- The helper `format_timestamp`: `snprintf(buf, 28, "%.*s.%06dZ", 19, buft,
usec)` keeps at most 19 characters of `buft` and at most 27 characters in
all. -/
def format_timestamp (header : pcap_pkthdr) : String :=
  String.mk
    ((header.ts_buft.data.take 19 ++ ['.'] ++ (printf_06d header.ts_usec).data ++ ['Z']).take 27)

/-- The outcome of the demultiplexing part of `parsePacket`: the frame is
dropped, or a `PacketInfo` is handed to the ARP, the TCP or the UDP dispatch. -/
inductive Demux where
  | dropped
  | arp (info : PacketInfo)
  | tcp (info : PacketInfo)
  | udp (info : PacketInfo)

/-- The length in bytes of the IP header, `ip_header->hl * 4`; the bit field
`hl` is the low nibble of the first byte of the IP header (offset 14). -/
def ip_header_len (packet : List Nat) : Nat := byteAt packet 14 % 16 * 4

/-- The IP Total Length field, `ntohs(ip_header->len)`. -/
def ip_total_len (packet : List Nat) : Nat := safe_ntohs packet 16

/-- The length in bytes of the TCP header, `tcp_header->off * 4`; the bit field
`off` is the high nibble of byte 12 of the TCP header. -/
def tcp_header_len (packet : List Nat) : Nat :=
  byteAt packet (14 + ip_header_len packet + 12) / 16 * 4

/-- The demultiplexing part of `PacketParser::parsePacket`: the `PacketInfo`
built from a captured frame (the packet pointer is not null). -/
def demux (header : pcap_pkthdr) (packet : List Nat) : Demux :=
  if header.caplen < 14 then Demux.dropped
  else
    let eth_type := safe_ntohs packet 12
    let l3_payload_size : Int := (header.caplen : Int) - 14
    let src_mac_str := mac_to_string packet 6
    let dst_mac_str := mac_to_string packet 0
    if eth_type = 0x0806 then
      Demux.arp
        { timestamp := format_timestamp header
          src_mac := src_mac_str
          dst_mac := dst_mac_str
          eth_type := eth_type
          payload := packet.drop 14
          payload_size := l3_payload_size }
    else if eth_type = 0x0800 then
      if toSizeT l3_payload_size < 20 then Demux.dropped
      else
        let src_ip_str := inet_ntop packet (14 + 12)
        let dst_ip_str := inet_ntop packet (14 + 16)
        let l4 := 14 + ip_header_len packet
        let l4_payload_size : Int := (ip_total_len packet : Int) - (ip_header_len packet : Int)
        if byteAt packet (14 + 9) = 6 then
          if toSizeT l4_payload_size < 20 then Demux.dropped
          else
            let l7_payload_size : Int := l4_payload_size - (tcp_header_len packet : Int)
            let src_port := safe_ntohs packet l4
            let dst_port := safe_ntohs packet (l4 + 2)
            Demux.tcp
              { timestamp := format_timestamp header
                src_mac := src_mac_str
                dst_mac := dst_mac_str
                eth_type := eth_type
                src_ip := src_ip_str
                dst_ip := dst_ip_str
                src_port := src_port
                dst_port := dst_port
                protocol := 6
                tcp_seq := safe_ntohl packet (l4 + 4)
                tcp_ack := safe_ntohl packet (l4 + 8)
                tcp_flags := byteAt packet (l4 + 13)
                payload := packet.drop (l4 + tcp_header_len packet)
                payload_size := l7_payload_size
                flow_id := get_canonical_flow_id src_ip_str src_port dst_ip_str dst_port }
        else if byteAt packet (14 + 9) = 17 then
          if toSizeT l4_payload_size < 8 then Demux.dropped
          else
            let l7_payload_size : Int := l4_payload_size - 8
            let src_port := safe_ntohs packet l4
            let dst_port := safe_ntohs packet (l4 + 2)
            Demux.udp
              { timestamp := format_timestamp header
                src_mac := src_mac_str
                dst_mac := dst_mac_str
                eth_type := eth_type
                src_ip := src_ip_str
                dst_ip := dst_ip_str
                src_port := src_port
                dst_port := dst_port
                protocol := 17
                tcp_seq := 0
                tcp_ack := 0
                tcp_flags := 0
                payload := packet.drop (l4 + 8)
                payload_size := l7_payload_size
                flow_id := get_canonical_flow_id src_ip_str src_port dst_ip_str dst_port }
        else Demux.dropped
    else Demux.dropped

/-! ## Worker parsers and dispatch (`PacketParser.cpp`) -/

/-- The UDP dispatch of `PacketParser::parsePacket`: the name of the parser
whose `parse` is called for `info`. The first loop is that of the TCP
dispatch; when no parser claims the packet, the second loop calls the first
parser named `unknown`. -/
def dispatchUdp (parsers : List ParserEntry) (info : PacketInfo) : Option String :=
  match parsers.find? (claims info) with
  | some p => some p.getName
  | none => (parsers.find? fun p => p.getName = "unknown").map fun p => p.getName

/-- A parser object of a worker: its class, the pointer `m_asset_manager` of
the base class (a field of the state for the three stateful classes) and its
state. -/
inductive ProtocolParser where
  | arp (m_asset_manager : Option AssetManager)
  | tcp_session (m_asset_manager : Option AssetManager)
  | modbus (self : ModbusParser)
  | s7comm (self : S7CommParser)
  | xgt_fen (self : XgtFenParser)
  | dnp3 (m_asset_manager : Option AssetManager)
  | generic (m_name : String) (m_asset_manager : Option AssetManager)
  | dns (m_asset_manager : Option AssetManager)
  | unknown (m_asset_manager : Option AssetManager)

namespace ProtocolParser

/-- The virtual method `getName`. -/
def getName : ProtocolParser → String
  | arp _ => ArpParser.getName
  | tcp_session _ => TcpSessionParser.getName
  | modbus _ => ModbusParser.getName
  | s7comm _ => S7CommParser.getName
  | xgt_fen _ => XgtFenParser.getName
  | dnp3 _ => Dnp3Parser.getName
  | generic m_name _ => GenericParser.getName m_name
  | dns _ => DnsParser.getName
  | unknown _ => UnknownParser.getName

/-- The virtual method `isProtocol`. -/
def isProtocol : ProtocolParser → PacketInfo → Bool
  | arp _ => ArpParser.isProtocol
  | tcp_session _ => TcpSessionParser.isProtocol
  | modbus _ => ModbusParser.isProtocol
  | s7comm _ => S7CommParser.isProtocol
  | xgt_fen _ => XgtFenParser.isProtocol
  | dnp3 _ => Dnp3Parser.isProtocol
  | generic m_name _ => GenericParser.isProtocol m_name
  | dns _ => DnsParser.isProtocol
  | unknown _ => UnknownParser.isProtocol

/-- The virtual method `parse`: the parser after the call and the records given
to `addUnifiedRecord`. `now` and `now_req` are the clock readings of the call. -/
def parse (now now_req : Nat) (info : PacketInfo) :
    ProtocolParser → ProtocolParser × List UnifiedRecord
  | arp am => (arp am, ArpParser.parse am info)
  | tcp_session am => (tcp_session am, TcpSessionParser.parse am info)
  | modbus self => ((self.parse now now_req info).1 |> modbus, (self.parse now now_req info).2)
  | s7comm self => ((self.parse now_req info).1 |> s7comm, (self.parse now_req info).2)
  | xgt_fen self => (xgt_fen self, self.parse info)
  | dnp3 am => (dnp3 am, Dnp3Parser.parse am info)
  | generic m_name am => (generic m_name am, GenericParser.parse m_name am info)
  | dns am => (dns am, DnsParser.parse am info)
  | unknown am => (unknown am, UnknownParser.parse am info)

/-- What the dispatch loop uses of the parser. -/
def entry (p : ProtocolParser) : ParserEntry := ⟨p.getName, p.isProtocol⟩

end ProtocolParser

/-- The parsers that `PacketParser::createParsersForWorker` creates for a
worker, in registration order, each with the asset manager set; `now` is the
clock reading of the `ModbusParser` constructor. -/
def createWorkerParsers (m_assetManager : AssetManager) (now : Nat) : List ProtocolParser :=
  [ ProtocolParser.arp (some m_assetManager),
    ProtocolParser.tcp_session (some m_assetManager),
    ProtocolParser.modbus
      { m_assetManager := m_assetManager
        m_asset_manager := some m_assetManager
        m_pending_requests := fun _ _ => none
        m_last_cleanup := now },
    ProtocolParser.s7comm
      { m_assetManager := m_assetManager
        m_asset_manager := some m_assetManager
        m_pending_requests := fun _ _ => none },
    ProtocolParser.xgt_fen
      { m_assetManager := m_assetManager, m_asset_manager := some m_assetManager },
    ProtocolParser.dnp3 (some m_assetManager),
    ProtocolParser.generic "dhcp" (some m_assetManager),
    ProtocolParser.dns (some m_assetManager),
    ProtocolParser.generic "ethernet_ip" (some m_assetManager),
    ProtocolParser.generic "iec104" (some m_assetManager),
    ProtocolParser.generic "mms" (some m_assetManager),
    ProtocolParser.generic "opc_ua" (some m_assetManager),
    ProtocolParser.generic "bacnet" (some m_assetManager),
    ProtocolParser.unknown (some m_assetManager) ]

/-- A dispatch loop of `parsePacket`: `parse` is called on the first parser
that passes the test `q`, and the loop ends. The result is the parsers after
the call and the emitted records, or `none` when no parser passes the test. -/
def callFirst (q : ProtocolParser → Bool) (now now_req : Nat) (info : PacketInfo) :
    List ProtocolParser → Option (List ProtocolParser × List UnifiedRecord)
  | [] => none
  | p :: ps =>
    if q p then some ((p.parse now now_req info).1 :: ps, (p.parse now now_req info).2)
    else
      match callFirst q now now_req info ps with
      | some (ps', rs) => some (p :: ps', rs)
      | none => none

/-- The dispatch of `parsePacket` for a `PacketInfo`: first the parsers that
claim the packet, then the fallback parser named `fallback`. -/
def dispatch (fallback : String) (parsers : List ProtocolParser) (now now_req : Nat)
    (info : PacketInfo) : List ProtocolParser × List UnifiedRecord :=
  match callFirst (fun p => claims info p.entry) now now_req info parsers with
  | some r => r
  | none =>
    match callFirst (fun p => p.getName = fallback) now now_req info parsers with
    | some r => r
    | none => (parsers, [])

/-- The method `PacketParser::parsePacket` on the parsers of one worker: the
parsers after the call and the records given to `addUnifiedRecord`. An ARP
frame goes to the parser named `arp`; a TCP packet to the first parser that
claims it, else to `tcp_session`; a UDP packet likewise, else to `unknown`. -/
def parsePacket (parsers : List ProtocolParser) (now now_req : Nat) (header : pcap_pkthdr)
    (packet : List Nat) : List ProtocolParser × List UnifiedRecord :=
  match demux header packet with
  | Demux.dropped => (parsers, [])
  | Demux.arp info =>
    match callFirst (fun p => p.getName = "arp") now now_req info parsers with
    | some r => r
    | none => (parsers, [])
  | Demux.tcp info => dispatch "tcp_session" parsers now now_req info
  | Demux.udp info => dispatch "unknown" parsers now now_req info

/-! ## Concrete frames and packets of the later scenarios -/

/-- The 64-byte ACK frame of `test_ip_length.cpp`: Ethernet header, 20-byte IP
header with Total Length 40, 20-byte TCP header from port 502 to port 40000,
and 10 bytes of residual data after the IP datagram. -/
def ack_frame : List Nat :=
  [0x00, 0x11, 0x22, 0x33, 0x44, 0x55, 0x66, 0x77, 0x88, 0x99, 0xaa, 0xbb, 0x08, 0x00,
   0x45, 0x00, 0x00, 0x28, 0x00, 0x01, 0x00, 0x00, 0x40, 0x06, 0x00, 0x00,
   192, 168, 0, 20, 192, 168, 0, 10,
   0x01, 0xf6, 0x9c, 0x40, 0, 0, 0, 1, 0, 0, 0, 2, 0x50, 0x10, 0x20, 0x00, 0, 0, 0, 0,
   0x00, 0x00, 0x00, 0x00, 0x00, 0x07, 0x00, 0x04, 0x04, 0x00]

/-- The capture header of `ack_frame`: 64 captured bytes. -/
def ack_header : pcap_pkthdr :=
  { ts_buft := "2011-10-08T07:07:09", ts_usec := 742511, caplen := 64 }

/-- A TCP packet from port 502 to port 102 whose 246-byte payload passes both
the S7Comm admission (TPKT byte `03`, COTP byte `f0`, S7 protocol id `32`) and
the Modbus admission (bytes 2 and 3 zero, MBAP Length `00 f0` = 240 = 246 - 6). -/
def s7_on_modbus_port : PacketInfo :=
  { protocol := 6, src_ip := "192.168.0.20", src_port := 502, dst_ip := "192.168.0.30"
    dst_port := 102
    payload := [0x03, 0x00, 0x00, 0x00, 0x00, 0xf0, 0x80, 0x32] ++ List.replicate 238 0
    payload_size := 246 }

/-- The dispatch order in the words of the specification: the name of the first
parser, in the order modbus, s7comm, xgt_fen, dnp3, dhcp, dns, ethernet_ip,
iec104, mms, opc_ua, bacnet, whose `isProtocol` answers true, if there is one. -/
def firstClaiming_spec (info : PacketInfo) : Option String :=
  if ModbusParser.isProtocol info then some "modbus"
  else if S7CommParser.isProtocol info then some "s7comm"
  else if XgtFenParser.isProtocol info then some "xgt_fen"
  else if Dnp3Parser.isProtocol info then some "dnp3"
  else if GenericParser.isProtocol "dhcp" info then some "dhcp"
  else if DnsParser.isProtocol info then some "dns"
  else if GenericParser.isProtocol "ethernet_ip" info then some "ethernet_ip"
  else if GenericParser.isProtocol "iec104" info then some "iec104"
  else if GenericParser.isProtocol "mms" info then some "mms"
  else if GenericParser.isProtocol "opc_ua" info then some "opc_ua"
  else if GenericParser.isProtocol "bacnet" info then some "bacnet"
  else none

/-- The TCP dispatch in the words of the specification: the first claiming
parser, else `tcp_session`. -/
def dispatchTcp_spec (info : PacketInfo) : String :=
  (firstClaiming_spec info).getD "tcp_session"

/-- The UDP dispatch in the words of the specification: the first claiming
parser, else `unknown`. -/
def dispatchUdp_spec (info : PacketInfo) : String :=
  (firstClaiming_spec info).getD "unknown"

/-- The fields of a record that `createUnifiedRecord` fills from the packet,
the parser name and the direction: `timestamp`, `protocol`, `smac`, `dmac`,
`sip`, `dip`, `dir`. -/
def UnifiedRecord.common (r : UnifiedRecord) :
    String × String × String × String × String × String × String :=
  (r.timestamp, r.protocol, r.smac, r.dmac, r.sip, r.dip, r.dir)

/-- The common fields that a parser named `name` gives to a record of the
packet `info` with direction `dir`. -/
def PacketInfo.common (info : PacketInfo) (name dir : String) :
    String × String × String × String × String × String × String :=
  (info.timestamp, name, info.src_mac, info.dst_mac, info.src_ip, info.dst_ip, dir)

/-- An ARP request frame of 42 bytes: sender `aa:bb:cc:dd:ee:ff` / `10.0.0.1`,
target `00:00:00:00:00:00` / `10.0.0.2`. -/
def arp_frame : List Nat :=
  [0xff, 0xff, 0xff, 0xff, 0xff, 0xff, 0xaa, 0xbb, 0xcc, 0xdd, 0xee, 0xff, 0x08, 0x06,
   0x00, 0x01, 0x08, 0x00, 0x06, 0x04, 0x00, 0x01,
   0xaa, 0xbb, 0xcc, 0xdd, 0xee, 0xff, 10, 0, 0, 1,
   0x00, 0x00, 0x00, 0x00, 0x00, 0x00, 10, 0, 0, 2]

/-- The capture header of `arp_frame`: 42 captured bytes. -/
def arp_header : pcap_pkthdr :=
  { ts_buft := "2011-10-08T07:07:09", ts_usec := 1, caplen := 42 }

/-- The fixed set of protocol names of the specification. -/
def protocolNames_spec : List String :=
  ["arp", "dns", "dnp3", "modbus", "s7comm", "xgt_fen", "tcp_session", "unknown", "dhcp",
   "ethernet_ip", "iec104", "mms", "opc_ua", "bacnet"]

/-- An S7Comm parser with an empty asset catalogue and an empty pending table. -/
def s7_empty : S7CommParser :=
  { m_assetManager := {}, m_asset_manager := some {}, m_pending_requests := fun _ _ => none }

/-- The job of the pairing scenario: TPKT and COTP (7 bytes), S7 header with
ROSCTR 1, PDU reference 42, parameter length 14, data length 0; parameter
block with function 0x04 and one item of area 0x84, DB 1, bit address 0x80
(byte address 0x10). -/
def s7_job : PacketInfo :=
  { protocol := 6, src_ip := "192.168.0.10", src_port := 40000, dst_ip := "192.168.0.30"
    dst_port := 102, flow_id := "192.168.0.10:40000-192.168.0.30:102"
    payload :=
      [0x03, 0x00, 0x00, 0x1f, 0x02, 0xf0, 0x80,
       0x32, 0x01, 0x00, 0x00, 0x00, 0x2a, 0x00, 0x0e, 0x00, 0x00,
       0x04, 0x01,
       0x12, 0x0a, 0x10, 0x02, 0x00, 0x01, 0x00, 0x01, 0x84, 0x00, 0x00, 0x80]
    payload_size := 31 }

/-- The ack-data of the pairing scenario: ROSCTR 3, PDU reference 42, parameter
length 2, data length 6; data item with return code 0xff and bit length 16. -/
def s7_ack_data : PacketInfo :=
  { protocol := 6, src_ip := "192.168.0.30", src_port := 102, dst_ip := "192.168.0.10"
    dst_port := 40000, flow_id := "192.168.0.10:40000-192.168.0.30:102"
    payload :=
      [0x03, 0x00, 0x00, 0x1b, 0x02, 0xf0, 0x80,
       0x32, 0x03, 0x00, 0x00, 0x00, 0x2a, 0x00, 0x02, 0x00, 0x06, 0x00, 0x00,
       0x04, 0x01,
       0xff, 0x04, 0x00, 0x10, 0xab, 0xcd]
    payload_size := 27 }

/-- The fields of a record that describe the item count and item 0 of an S7Comm
parameter block: `s7_ic`, `s7_tsz`, `s7_amt`, `s7_ar`, `s7_db`, `s7_addr`. -/
def UnifiedRecord.s7_item (r : UnifiedRecord) :
    String × String × String × String × String × String :=
  (r.s7_ic, r.s7_tsz, r.s7_amt, r.s7_ar, r.s7_db, r.s7_addr)

/-- An XGT FEnet parser with an empty asset catalogue. -/
def xgt_empty : XgtFenParser := { m_assetManager := {}, m_asset_manager := some {} }

/-- A continuous read response of 48 bytes: the header `LSIS-XGT` with source
of frame 0x11, invoke id 1 and length 28; the instruction with command 0x0055,
data type 0x0014, error status 0, block count 1 and data size 16, followed by
16 data bytes. -/
def xgt_read_response : PacketInfo :=
  { protocol := 6, src_ip := "192.168.0.40", src_port := 2004, dst_ip := "192.168.0.10"
    dst_port := 40000, flow_id := "192.168.0.10:40000-192.168.0.40:2004"
    payload :=
      [0x4C, 0x53, 0x49, 0x53, 0x2D, 0x58, 0x47, 0x54, 0x00, 0x00, 0x00, 0x00, 0xA0, 0x11,
       0x01, 0x00, 0x1c, 0x00, 0x00, 0x00,
       0x55, 0x00, 0x14, 0x00, 0x00, 0x00, 0x00, 0x00, 0x01, 0x00, 0x10, 0x00,
       0x01, 0x02, 0x03, 0x04, 0x05, 0x06, 0x07, 0x08, 0x09, 0x0a, 0x0b, 0x0c, 0x0d, 0x0e,
       0x0f, 0xab]
    payload_size := 48 }

/-! ## XGT FEnet parser: bytes consumed by `parseInstruction` -/

namespace XgtFenParser

/-- The response branch of `parseInstruction` up to the point where the
function either returns `true` early (error status) or reaches its final test:
the instruction filled so far and the value of `offset` at that point; `none`
when the branch returns `false` before. -/
def responseOffset (p : List Nat) (base inst_size : Nat) (is_read_cmd : Bool)
    (instruction : XgtFenInstruction) : Option (XgtFenInstruction × Nat) :=
  let offset := 6
  if inst_size < offset + 2 then none
  else
    let instruction := { instruction with errorStatus := read_le16 p (base + offset) }
    let offset := offset + 2
    if inst_size < offset + 2 then none
    else
      let instruction :=
        { instruction with errorInfoOrBlockCount := read_le16 p (base + offset) }
      let offset := offset + 2
      if instruction.errorStatus ≠ XGT_ERROR_STATUS_OK then some (instruction, offset)
      else if is_read_cmd then
        if instruction.is_continuous then
          if inst_size < offset + 2 then none
          else
            let instruction := { instruction with dataSize := read_le16 p (base + offset) }
            let offset := offset + 2
            if inst_size < offset + instruction.dataSize then none
            else
              let instruction :=
                { instruction with
                  continuousReadData := bytesSlice p (base + offset) instruction.dataSize }
              some (instruction, offset + instruction.dataSize)
        else
          let instruction :=
            { instruction with blockCount := instruction.errorInfoOrBlockCount }
          match readDataBlocks p base inst_size instruction.blockCount offset [] with
          | none => none
          | some (readData, offset) => some ({ instruction with readData := readData }, offset)
      else
        some ({ instruction with blockCount := instruction.errorInfoOrBlockCount }, offset)

/-- The request branch of `parseInstruction` up to its final test: the
instruction filled so far and the value of `offset`; `none` when the branch
returns `false` before. -/
def requestOffset (p : List Nat) (base inst_size : Nat) (is_write_cmd : Bool)
    (instruction : XgtFenInstruction) : Option (XgtFenInstruction × Nat) :=
  let offset := 6
  if inst_size < offset + 2 then none
  else
    let instruction := { instruction with blockCount := read_le16 p (base + offset) }
    let offset := offset + 2
    if instruction.is_continuous then
      if instruction.blockCount ≠ 1 then none
      else if inst_size < offset + 2 then none
      else
        let var_len := read_le16 p (base + offset)
        let offset := offset + 2
        if inst_size < offset + var_len then none
        else
          let instruction :=
            { instruction with variableName := bytesToString p (base + offset) var_len }
          let offset := offset + var_len
          if inst_size < offset + 2 then none
          else
            let instruction := { instruction with dataSize := read_le16 p (base + offset) }
            let offset := offset + 2
            if is_write_cmd then
              if inst_size < offset + instruction.dataSize then none
              else
                let instruction :=
                  { instruction with
                    continuousReadData := bytesSlice p (base + offset) instruction.dataSize }
                some (instruction, offset + instruction.dataSize)
            else some (instruction, offset)
    else
      match readVariables p base inst_size instruction.blockCount offset [] with
      | none => none
      | some (vars, offset) =>
        let instruction := { instruction with variableList := vars }
        if is_write_cmd then
          match readDataBlocks p base inst_size instruction.blockCount offset [] with
          | none => none
          | some (writeData, offset) => some ({ instruction with writeData := writeData }, offset)
        else some (instruction, offset)

/-- The method `XgtFenParser::parseInstruction` up to the point where it
returns `true` early or reaches the final test `offset != inst_size`: the
instruction and the number of bytes consumed (the value of `offset`). -/
def instructionOffset (p : List Nat) (base inst_size : Nat) (header : XgtFenHeader) :
    Option (XgtFenInstruction × Nat) :=
  if inst_size < 4 then none
  else
    let instruction : XgtFenInstruction :=
      { command := read_le16 p base
        dataType := read_le16 p (base + 2)
        is_continuous := read_le16 p (base + 2) = XGT_DTYPE_CONTINUOUS }
    let is_response := header.sourceOfFrame = 0x11
    let is_request := header.sourceOfFrame = 0x33
    let is_read_cmd : Bool :=
      instruction.command = XGT_CMD_READ_REQ ∨ instruction.command = XGT_CMD_READ_RESP
    let is_write_cmd : Bool :=
      instruction.command = XGT_CMD_WRITE_REQ ∨ instruction.command = XGT_CMD_WRITE_RESP
    if ¬ is_read_cmd ∧ ¬ is_write_cmd then none
    else if inst_size < 4 + 2 then none
    else
      let instruction := { instruction with reserved := read_le16 p (base + 4) }
      if is_response then responseOffset p base inst_size is_read_cmd instruction
      else if is_request then requestOffset p base inst_size is_write_cmd instruction
      else none

/-- The end of `parseInstruction`: an error response has returned `true`
already; otherwise the bytes consumed have to equal the instruction size. -/
def finalTest (inst_size : Nat) (r : XgtFenInstruction × Nat) : Option XgtFenInstruction :=
  if r.1.errorStatus ≠ XGT_ERROR_STATUS_OK then some r.1 else checkConsumed inst_size r.2 r.1

end XgtFenParser


/-- The continuous read response `xgt_read_response` followed by one extra byte
inside the declared size: header length 29, payload size 49. -/
def xgt_read_response_extra : PacketInfo :=
  { protocol := 6, src_ip := "192.168.0.40", src_port := 2004, dst_ip := "192.168.0.10"
    dst_port := 40000, flow_id := "192.168.0.10:40000-192.168.0.40:2004"
    payload :=
      [0x4C, 0x53, 0x49, 0x53, 0x2D, 0x58, 0x47, 0x54, 0x00, 0x00, 0x00, 0x00, 0xA0, 0x11,
       0x01, 0x00, 0x1d, 0x00, 0x00, 0x00,
       0x55, 0x00, 0x14, 0x00, 0x00, 0x00, 0x00, 0x00, 0x01, 0x00, 0x10, 0x00,
       0x01, 0x02, 0x03, 0x04, 0x05, 0x06, 0x07, 0x08, 0x09, 0x0a, 0x0b, 0x0c, 0x0d, 0x0e,
       0x0f, 0xab, 0xcd]
    payload_size := 49 }

/-- An error response: source of frame 0x11, header length 13; command 0x0055,
data type 0x0002, error status 0xffff, error information 0x0011, followed by
three more bytes. -/
def xgt_error_response : PacketInfo :=
  { protocol := 6, src_ip := "192.168.0.40", src_port := 2004, dst_ip := "192.168.0.10"
    dst_port := 40000, flow_id := "192.168.0.10:40000-192.168.0.40:2004"
    payload :=
      [0x4C, 0x53, 0x49, 0x53, 0x2D, 0x58, 0x47, 0x54, 0x00, 0x00, 0x00, 0x00, 0xA0, 0x11,
       0x01, 0x00, 0x0d, 0x00, 0x00, 0x00,
       0x55, 0x00, 0x02, 0x00, 0x00, 0x00, 0xff, 0xff, 0x11, 0x00, 0x01, 0x02, 0x03]
    payload_size := 33 }

/-! ## Unified writer (`UnifiedWriter.h`, `UnifiedWriter.cpp`) -/

/-- The conversion `%d` of `sscanf`: white space is skipped, an optional sign
is read, then the longest run of decimal digits; the result is the number and
the rest of the input, or `none` when there is no digit. The number is not
reduced to the range of `int`: a value outside it is undefined in C. -/
def scan_d (cs : List Char) : Option (Int × List Char) :=
  let cs := cs.dropWhile isspace
  let neg := cs.head? = some '-'
  let ds := (skipSign cs).takeWhile Char.isDigit
  if ds = [] then none
  else
    some (if neg then -(digitsValue ds : Int) else (digitsValue ds : Int),
      (skipSign cs).dropWhile Char.isDigit)

/-- An ordinary character of an `sscanf` format: it has to be the next
character of the input. -/
def scan_char (c : Char) (cs : List Char) : Option (List Char) :=
  match cs with
  | x :: r => if x = c then some r else none
  | [] => none

/-- The call `sscanf(ts, "%d-%d-%dT%d:%d:%d", &year, &mon, &mday, &hour, &min,
&sec)` on fields that are 0 before the call (`struct tm tm_time = {}`): the
conversion stops at the first directive that does not match, and the fields
not reached keep the value 0. -/
def sscanf_timestamp (ts : List Char) : Int × Int × Int × Int × Int × Int :=
  match scan_d ts with
  | none => (0, 0, 0, 0, 0, 0)
  | some (year, r) =>
    match (scan_char '-' r).bind scan_d with
    | none => (year, 0, 0, 0, 0, 0)
    | some (mon, r) =>
      match (scan_char '-' r).bind scan_d with
      | none => (year, mon, 0, 0, 0, 0)
      | some (mday, r) =>
        match (scan_char 'T' r).bind scan_d with
        | none => (year, mon, mday, 0, 0, 0)
        | some (hour, r) =>
          match (scan_char ':' r).bind scan_d with
          | none => (year, mon, mday, hour, 0, 0)
          | some (min, r) =>
            match (scan_char ':' r).bind scan_d with
            | none => (year, mon, mday, hour, min, 0)
            | some (sec, _) => (year, mon, mday, hour, min, sec)

/-- The stream output `std::setfill('0') << std::setw(w) << i` of an `int`:
the decimal text, filled on the left with `0` up to `w` characters. -/
def setw_fill (w : Nat) (i : Int) : String :=
  String.mk (List.replicate (w - (toString i).length) '0') ++ toString i

/-- The state of a `UnifiedWriter`: the interval in minutes and the records
kept per time slot. The `std::map` `m_time_slots` is the function from the
slot label to the vector of records, empty for a label that is not a key. -/
structure UnifiedWriter where
  m_interval_minutes : Int
  m_time_slots : String → List UnifiedRecord

/-- The two-digit decimal text of a number below 100. -/
def digits2 (n : Nat) : String :=
  String.mk [Nat.digitChar (n / 10 % 10), Nat.digitChar (n % 10)]

/-- The four-digit decimal text of a number below 10000. -/
def digits4 (n : Nat) : String :=
  String.mk [Nat.digitChar (n / 1000 % 10), Nat.digitChar (n / 100 % 10),
    Nat.digitChar (n / 10 % 10), Nat.digitChar (n % 10)]

namespace UnifiedWriter

/-- The method `UnifiedWriter::getTimeSlot`. The result is the empty string for
a timestamp of fewer than 19 characters (with an interval other than 0). -/
def getTimeSlot (self : UnifiedWriter) (timestamp : String) : String :=
  if self.m_interval_minutes = 0 then "output_all"
  else if timestamp.length < 19 then ""
  else
    let ts := timestamp.data.take 19
    let (year, mon, mday, hour, min, _) := sscanf_timestamp ts
    let tm_year := year - 1900
    let tm_mon := mon - 1
    let slot_minute := (min.tdiv self.m_interval_minutes) * self.m_interval_minutes
    "output_" ++ setw_fill 4 (tm_year + 1900) ++ setw_fill 2 (tm_mon + 1) ++ setw_fill 2 mday ++
      "_" ++ setw_fill 2 hour ++ setw_fill 2 slot_minute

end UnifiedWriter


/-- A timestamp of the form `YYYY-MM-DDThh:mm:ss` followed by `rest`, such as
the fraction of a second and `Z`. -/
def timestampText (year mon mday hour min sec : Nat) (rest : String) : String :=
  digits4 year ++ "-" ++ digits2 mon ++ "-" ++ digits2 mday ++ "T" ++ digits2 hour ++ ":" ++
    digits2 min ++ ":" ++ digits2 sec ++ rest

namespace UnifiedWriter

/-- The method `UnifiedWriter::escapeCSV`: the loop appends every character to
`result`, a double quote twice. -/
def escapeCSV (s : String) : String :=
  if s = "" then ""
  else if ¬ (s.data.any fun c => c = ',' ∨ c = '"' ∨ c = '\n') then s
  else
    let result := "\""
    let result :=
      s.data.foldl (fun result c => if c = '"' then result ++ "\"\"" else result.push c) result
    result ++ "\""

/-- The text of the specification for `escapeCSV`: a field without comma,
double quote and newline is left as it is; any other field has every double
quote doubled and is wrapped in one pair of double quotes. -/
def escapeCSV_spec (s : String) : String :=
  if ∀ c ∈ s.data, c ≠ ',' ∧ c ≠ '"' ∧ c ≠ '\n' then s
  else
    "\"" ++ String.mk (s.data.flatMap fun c => if c = '"' then ['"', '"'] else [c]) ++ "\""

/-- The method `UnifiedWriter::addRecord`: the record is appended to the vector
of its time slot, unless the label is empty. The backend callback does not
touch the time slots and is left out. -/
def addRecord (self : UnifiedWriter) (record : UnifiedRecord) : UnifiedWriter :=
  let time_slot := self.getTimeSlot record.timestamp
  if time_slot ≠ "" then
    { self with
      m_time_slots := fun slot =>
        if slot = time_slot then self.m_time_slots slot ++ [record]
        else self.m_time_slots slot }
  else self

/-- The comparison of `std::stable_sort` in `writeTimeSlot`, read as "`a` may
stay in front of `b`": `b.timestamp < a.timestamp` does not hold, where `<` of
`std::string` is the lexicographic order of the characters. -/
def timestampLE (a b : UnifiedRecord) : Prop := ¬ b.timestamp.data < a.timestamp.data

instance : DecidableRel timestampLE := fun a b =>
  inferInstanceAs (Decidable (¬ b.timestamp.data < a.timestamp.data))

/-- The call `std::stable_sort(records.begin(), records.end(), comp)` with
`comp(a, b) = a.timestamp < b.timestamp`. The result of a stable sort is
determined by its contract (sorted, a permutation, equivalent elements in
their old order); insertion sort computes it. -/
def stable_sort (records : List UnifiedRecord) : List UnifiedRecord :=
  records.insertionSort timestampLE

/-- The method `UnifiedWriter::writeTimeSlot` on the records of one slot: the
records for which a CSV row and a JSON line are written, in the order of
writing. Nothing is written for an empty slot or when one of the two files
cannot be opened. -/
def writeTimeSlot (records : List UnifiedRecord) (csv_is_open jsonl_is_open : Bool) :
    List UnifiedRecord :=
  if records = [] then []
  else
    let records := stable_sort records
    if ¬ csv_is_open then []
    else if ¬ jsonl_is_open then []
    else records

/-- The method `UnifiedWriter::flush`: every slot is written and the slots are
cleared. The result is the writer after the call and, per slot label, the
records written to the files of that slot; `csv_is_open` and `jsonl_is_open`
tell whether the files of a slot can be opened. -/
def flush (self : UnifiedWriter) (csv_is_open jsonl_is_open : String → Bool) :
    UnifiedWriter × (String → List UnifiedRecord) :=
  ({ self with m_time_slots := fun _ => [] },
    fun slot => writeTimeSlot (self.m_time_slots slot) (csv_is_open slot) (jsonl_is_open slot))

end UnifiedWriter

/-- The records of `test_stable_sort.cpp`, added with the next request first:
a request, the three register rows of its response (addresses 12, 13, 14, one
timestamp) and the next request. -/
def stable_sort_records : List UnifiedRecord :=
  [{ timestamp := "2025-09-22T02:52:00.798610Z", protocol := "modbus", dir := "request" },
   { timestamp := "2025-09-22T02:52:00.776322Z", protocol := "modbus", dir := "response"
     modbus_regs_addr := "12" },
   { timestamp := "2025-09-22T02:52:00.771679Z", protocol := "modbus", dir := "request" },
   { timestamp := "2025-09-22T02:52:00.776322Z", protocol := "modbus", dir := "response"
     modbus_regs_addr := "13" },
   { timestamp := "2025-09-22T02:52:00.776322Z", protocol := "modbus", dir := "response"
     modbus_regs_addr := "14" }]

/-! ## Asynchronous Redis writer (`RedisAsyncWriter.h`) -/

/-- The number of values of `size_t` (64 bits). -/
def SIZE_RANGE : Nat := 2 ^ 64

/-- The enumeration `WriteTask::Type`. -/
inductive WriteTaskType where
  | STREAM_WRITE
  | COUNTER_INCR
  | ASSET_CACHE
deriving DecidableEq

/-- The task of the write queue, `struct WriteTask`. -/
structure WriteTask where
  type : WriteTaskType
  key : String := ""
  value : String := ""
  json_data : String := ""
deriving DecidableEq

/-- The outcome of one `redisGetReply` call in `processBatch`: the call fails,
or it succeeds with a null reply, an error reply or any other reply. -/
inductive GetReply where
  | failed
  | null_reply
  | error_reply
  | ok_reply
deriving DecidableEq

/-- The state of a `RedisAsyncWriter` that `enqueue` and the writer threads
share: the capacity, the queue (front first) and the two counters, which are
`std::atomic<size_t>`. -/
structure RedisAsyncWriter where
  m_max_queue_size : Nat
  m_queue : List WriteTask
  m_total_written : Nat
  m_total_dropped : Nat
deriving DecidableEq

namespace RedisAsyncWriter

/-- The constructor: the `int` argument `queue_size` is converted to the
`size_t` member `m_max_queue_size`; the queue is empty and the counters are 0. -/
def construct (queue_size : Int) : RedisAsyncWriter :=
  { m_max_queue_size := toSizeT queue_size, m_queue := [], m_total_written := 0
    m_total_dropped := 0 }

/-- The method `RedisAsyncWriter::enqueue`: the writer after the call and the
result. -/
def enqueue (self : RedisAsyncWriter) (task : WriteTask) : RedisAsyncWriter × Bool :=
  if self.m_queue.length ≥ self.m_max_queue_size then
    ({ self with m_total_dropped := (self.m_total_dropped + 1) % SIZE_RANGE }, false)
  else ({ self with m_queue := self.m_queue ++ [task] }, true)

/-- Consecutive calls of `enqueue`, one per task and with no writer thread in
between: the writer after the calls and the results in order. -/
def enqueueAll (self : RedisAsyncWriter) : List WriteTask → RedisAsyncWriter × List Bool
  | [] => (self, [])
  | task :: tasks =>
    let r := self.enqueue task
    let rest := enqueueAll r.1 tasks
    (rest.1, r.2 :: rest.2)

/-- The loop of `writerWorker` that moves tasks from the front of the queue to
the local `batch` while the queue is not empty and the batch holds fewer than
50 tasks: the queue and the batch after the loop. -/
def drainLoop : List WriteTask → List WriteTask → List WriteTask × List WriteTask
  | [], batch => ([], batch)
  | task :: queue, batch =>
    if batch.length < 50 then drainLoop queue (batch ++ [task]) else (task :: queue, batch)

/-- The loop of `writerWorker` for a batch without connection: every task goes
back to the queue while there is room and is counted as dropped otherwise. -/
def requeueLoop (self : RedisAsyncWriter) : List WriteTask → RedisAsyncWriter
  | [] => self
  | task :: batch =>
    if self.m_queue.length < self.m_max_queue_size then
      requeueLoop { self with m_queue := self.m_queue ++ [task] } batch
    else
      requeueLoop { self with m_total_dropped := (self.m_total_dropped + 1) % SIZE_RANGE } batch

/-- The method `RedisAsyncWriter::processBatch`: one reply is read per task of
the batch, `replies i` being the outcome of the call number `i`; the result is
the number of replies that are present and not of the error type. -/
def processBatch (replies : Nat → GetReply) (batch : List WriteTask) : Nat :=
  ((List.range batch.length).filter fun i => replies i = GetReply.ok_reply).length

end RedisAsyncWriter

/-- The steps that change a `RedisAsyncWriter` and the local batches of its
writer threads: a call of `enqueue`; in the thread `worker`, the drain of the
queue into the batch (under the lock), the branch taken when no connection is
available, and the processing of the batch with the given reply outcomes. The
steps may come in any order; the runs of the program are among them. -/
inductive WriterEvent where
  | enqueue (task : WriteTask)
  | drain (worker : Nat)
  | no_connection (worker : Nat)
  | process (worker : Nat) (replies : Nat → GetReply)

/-- An observation point of a run: the shared writer, the local `batch` of
every writer thread, and two numbers kept for the account only: the number of
tasks passed to `enqueue` so far and the number of tasks whose reply was
missing or an error. -/
structure WriterRun where
  writer : RedisAsyncWriter
  batches : List (List WriteTask)
  total_enqueued : Nat
  total_failed : Nat

namespace WriterRun

/-- The run after `start()` on a fresh writer: empty queue, `num_writers`
threads with empty batches. -/
def start (queue_size : Int) (num_writers : Nat) : WriterRun :=
  { writer := RedisAsyncWriter.construct queue_size
    batches := List.replicate num_writers []
    total_enqueued := 0
    total_failed := 0 }

/-- The number of tasks held in the local batches of the writer threads. -/
def in_flight (run : WriterRun) : Nat := (run.batches.map List.length).sum

/-- One step of a run. A step that names a thread that does not exist changes
nothing. -/
def step (run : WriterRun) : WriterEvent → WriterRun
  | WriterEvent.enqueue task =>
    { run with
      writer := (run.writer.enqueue task).1
      total_enqueued := run.total_enqueued + 1 }
  | WriterEvent.drain worker =>
    if worker < run.batches.length then
      let r := RedisAsyncWriter.drainLoop run.writer.m_queue (run.batches.getD worker [])
      { run with
        writer := { run.writer with m_queue := r.1 }
        batches := run.batches.set worker r.2 }
    else run
  | WriterEvent.no_connection worker =>
    if worker < run.batches.length then
      { run with
        writer := run.writer.requeueLoop (run.batches.getD worker [])
        batches := run.batches.set worker [] }
    else run
  | WriterEvent.process worker replies =>
    if worker < run.batches.length then
      let batch := run.batches.getD worker []
      let written := RedisAsyncWriter.processBatch replies batch
      { run with
        writer :=
          { run.writer with
            m_total_written := (run.writer.m_total_written + written) % SIZE_RANGE }
        batches := run.batches.set worker []
        total_failed := run.total_failed + (batch.length - written) }
    else run

/-- The run after a sequence of steps. -/
def steps (run : WriterRun) (events : List WriterEvent) : WriterRun :=
  events.foldl step run

end WriterRun

/-- Whether a step is a call of `enqueue`. -/
def WriterEvent.isEnqueue : WriterEvent → Bool
  | WriterEvent.enqueue _ => true
  | _ => false

/-- A stream write task. -/
def sample_task : WriteTask :=
  { type := WriteTaskType.STREAM_WRITE, key := "stream:packets", json_data := "\x7b\x7d" }

/-- A run of seven steps: three tasks are passed to `enqueue`, thread 0 drains
them and gets one good reply and two error replies, a fourth task is passed to
`enqueue` and drained by thread 1. -/
def sample_events : List WriterEvent :=
  [WriterEvent.enqueue sample_task, WriterEvent.enqueue sample_task,
   WriterEvent.enqueue sample_task, WriterEvent.drain 0,
   WriterEvent.process 0 (fun i => if i = 0 then GetReply.ok_reply else GetReply.error_reply),
   WriterEvent.enqueue sample_task, WriterEvent.drain 1]

/-! ## Document store client (`ElasticsearchClient.h`, `ElasticsearchClient.cpp`) -/

/-- The configuration `struct ElasticsearchConfig` with its default values. -/
structure ElasticsearchConfig where
  host : String := "192.168.4.140"
  port : Int := 9200
  username : String := ""
  password : String := ""
  index_prefix : String := "ics-packets"
  bulk_size : Int := 100
  flush_interval_ms : Int := 1000
  use_https : Bool := false
deriving DecidableEq

/-- The state of an `ElasticsearchClient`: the configuration, the connection
flag and the bulk buffer. -/
structure ElasticsearchClient where
  m_config : ElasticsearchConfig
  m_connected : Bool
  m_bulk_buffer : List String
deriving DecidableEq

namespace ElasticsearchClient

/-- The constructor `ElasticsearchClient::ElasticsearchClient`: a bulk size of
0 or above 100 becomes 100, a flush interval of 0 or above 1000 becomes 1000. -/
def construct (config : ElasticsearchConfig) : ElasticsearchClient :=
  let m_config := config
  let m_config :=
    if m_config.bulk_size = 0 ∨ m_config.bulk_size > 100 then { m_config with bulk_size := 100 }
    else m_config
  let m_config :=
    if m_config.flush_interval_ms = 0 ∨ m_config.flush_interval_ms > 1000 then
      { m_config with flush_interval_ms := 1000 }
    else m_config
  { m_config := m_config, m_connected := false, m_bulk_buffer := [] }

/-- The method `ElasticsearchClient::flushBulkInternal`; `send_ok` is the
result of `sendRequest`. -/
def flushBulkInternal (self : ElasticsearchClient) (buffer : List String) (send_ok : Bool) :
    Bool :=
  if buffer = [] then true
  else if ¬ self.m_connected then false
  else send_ok

/-- The value `static_cast<size_t>(m_config.bulk_size * 2)` that `addToBulk`
compares the buffer size with; `none` when the `int` product overflows, which
is undefined. -/
def bulkThreshold (self : ElasticsearchClient) : Option Nat :=
  if self.m_config.bulk_size * 2 < -2147483648 ∨ 2147483647 < self.m_config.bulk_size * 2 then
    none
  else some (toSizeT (self.m_config.bulk_size * 2))

/-- The method `ElasticsearchClient::addToBulk`: the client after the call and
the result, or `none` when the behaviour is undefined. `action_dump` and
`document_dump` are the texts of `action.dump()` and `document.dump()`, and
`send_ok` is the result of `sendRequest` in case the buffer is sent. -/
def addToBulk (self : ElasticsearchClient) (action_dump document_dump : String)
    (send_ok : Bool) : Option (ElasticsearchClient × Bool) :=
  if ¬ self.m_connected then some (self, false)
  else
    let m_bulk_buffer := self.m_bulk_buffer ++ [action_dump]
    let m_bulk_buffer := m_bulk_buffer ++ [document_dump]
    match self.bulkThreshold with
    | none => none
    | some threshold =>
      if m_bulk_buffer.length ≥ threshold then
        let buffer_copy := m_bulk_buffer
        some ({ self with m_bulk_buffer := [] }, self.flushBulkInternal buffer_copy send_ok)
      else some ({ self with m_bulk_buffer := m_bulk_buffer }, true)

/-- The method `ElasticsearchClient::flushBulk` (the periodic flusher does the
same with a non-empty buffer). -/
def flushBulk (self : ElasticsearchClient) (send_ok : Bool) : ElasticsearchClient × Bool :=
  if self.m_bulk_buffer = [] then (self, true)
  else
    let buffer_copy := self.m_bulk_buffer
    ({ self with m_bulk_buffer := [] }, self.flushBulkInternal buffer_copy send_ok)

/-- The method `ElasticsearchClient::connect`; `test_ok` tells whether the
connection test succeeds. -/
def connect (self : ElasticsearchClient) (test_ok : Bool) : ElasticsearchClient × Bool :=
  if ¬ test_ok then (self, false) else ({ self with m_connected := true }, true)

/-- The method `ElasticsearchClient::disconnect`. -/
def disconnect (self : ElasticsearchClient) (send_ok : Bool) : ElasticsearchClient :=
  { (self.flushBulk send_ok).1 with m_connected := false }

end ElasticsearchClient

/-- The calls that change an `ElasticsearchClient`. -/
inductive BulkEvent where
  | connect (test_ok : Bool)
  | disconnect (send_ok : Bool)
  | addToBulk (action_dump document_dump : String) (send_ok : Bool)
  | flushBulk (send_ok : Bool)
deriving DecidableEq

namespace ElasticsearchClient

/-- The client after one call; `none` when the behaviour is undefined. -/
def call (self : ElasticsearchClient) : BulkEvent → Option ElasticsearchClient
  | BulkEvent.connect test_ok => some (self.connect test_ok).1
  | BulkEvent.disconnect send_ok => some (self.disconnect send_ok)
  | BulkEvent.addToBulk action_dump document_dump send_ok =>
    (self.addToBulk action_dump document_dump send_ok).map fun r => r.1
  | BulkEvent.flushBulk send_ok => some (self.flushBulk send_ok).1

/-- The client after a sequence of calls. -/
def calls (self : ElasticsearchClient) : List BulkEvent → Option ElasticsearchClient
  | [] => some self
  | e :: es => (self.call e).bind fun next => next.calls es

end ElasticsearchClient

/-- A run of calls: the client connects and three documents are added. -/
def bulk_events : List BulkEvent :=
  [BulkEvent.connect true, BulkEvent.addToBulk "a1" "d1" true,
   BulkEvent.addToBulk "a2" "d2" true, BulkEvent.addToBulk "a3" "d3" true]

/-! ## Inputs for the pending-table sweeps -/

/-- A Modbus parser that holds one pending request, stored at clock reading 0
under flow key `f` and request key 259, and that last swept at reading 0. -/
def stale_pending : ModbusParser :=
  { emptyParser with
    m_pending_requests := fun flow rk =>
      if flow = "f" ∧ rk = 259 then
        some { function_code := 3, start_address := 0, timestamp := 0 }
      else none }

/-- The packets that one worker hands to `S7CommParser::parse` one after the
other, each with the clock reading of its call; the result is the parser after
the last call. -/
def S7CommParser.parseAll (self : S7CommParser) (packets : List (Nat × PacketInfo)) :
    S7CommParser :=
  packets.foldl (fun self p => (self.parse p.1 p.2).1) self

/-- The job of the pairing scenario sent again with PDU reference 43. -/
def s7_job_later : PacketInfo :=
  { s7_job with payload := s7_job.payload.set 12 0x2b }

/-! ## Worker thread count (`PacketParser.cpp`, constructor) -/

/-- The value that the constructor `PacketParser::PacketParser` gives
`m_num_threads`: `num_threads` is the `int` argument and `hw_threads` the
`unsigned int` returned by `std::thread::hardware_concurrency()`. The default
branch is taken for `num_threads <= 0` and computes
`std::max(1u, std::min(8u, hw_threads / 2))`; the other branch computes
`std::min(num_threads, 16)`. -/
def PacketParser.threadCount (num_threads : Int) (hw_threads : Nat) : Int :=
  if num_threads ≤ 0 then ((max 1 (min 8 (hw_threads / 2)) : Nat) : Int)
  else min num_threads 16

/-! ## The bulk mutex and the network call (`ElasticsearchClient.cpp`) -/

/-- What the bulk methods do to `m_bulk_mutex` and to the network, in program
order: `lock` is the constructor of `std::lock_guard<std::mutex> lock(m_bulk_mutex)`,
`unlock` its destructor at the end of the enclosing scope, and `send` the call
of `sendRequest` in `flushBulkInternal` with the lines of the buffer. -/
inductive BulkAction where
  | lock
  | unlock
  | send (lines : List String)
deriving DecidableEq

/-- The state of the mutex at each `send` of a sequence of actions: `true`
when the mutex is held. `held` is the state before the first action. -/
def BulkAction.lockAtSends : Bool → List BulkAction → List Bool
  | _, [] => []
  | _, BulkAction.lock :: rest => BulkAction.lockAtSends true rest
  | _, BulkAction.unlock :: rest => BulkAction.lockAtSends false rest
  | held, BulkAction.send _ :: rest => held :: BulkAction.lockAtSends held rest

namespace ElasticsearchClient

/-- The actions of `flushBulkInternal`: the buffer is sent when it is not
empty and the client is connected. The method does not touch `m_bulk_mutex`. -/
def flushBulkInternal_actions (self : ElasticsearchClient) (buffer : List String) :
    List BulkAction :=
  if buffer = [] then []
  else if ¬ self.m_connected then []
  else [BulkAction.send buffer]

/-- The actions of `addToBulk`, `none` when the behaviour is undefined. The
lock guard is a local variable of the function body, constructed after the
connection test; `return flushBulkInternal(buffer_copy)` evaluates the call
before the local variables are destroyed. -/
def addToBulk_actions (self : ElasticsearchClient) (action_dump document_dump : String) :
    Option (List BulkAction) :=
  if ¬ self.m_connected then some []
  else
    let m_bulk_buffer := self.m_bulk_buffer ++ [action_dump]
    let m_bulk_buffer := m_bulk_buffer ++ [document_dump]
    match self.bulkThreshold with
    | none => none
    | some threshold =>
      if m_bulk_buffer.length ≥ threshold then
        let buffer_copy := m_bulk_buffer
        some ([BulkAction.lock] ++ self.flushBulkInternal_actions buffer_copy ++
          [BulkAction.unlock])
      else some [BulkAction.lock, BulkAction.unlock]

/-- The actions of `flushBulk`: the lock guard is the first statement of the
function body and lives until the function has returned. -/
def flushBulk_actions (self : ElasticsearchClient) : List BulkAction :=
  if self.m_bulk_buffer = [] then [BulkAction.lock, BulkAction.unlock]
  else
    let buffer_copy := self.m_bulk_buffer
    [BulkAction.lock] ++ self.flushBulkInternal_actions buffer_copy ++ [BulkAction.unlock]

/-- The actions of one round of `autoFlushLoop` after the sleep: the block
that holds the lock guard contains the call of `flushBulkInternal`. -/
def autoFlushLoop_actions (self : ElasticsearchClient) : List BulkAction :=
  [BulkAction.lock] ++
    (if self.m_bulk_buffer ≠ [] then
      let buffer_copy := self.m_bulk_buffer
      self.flushBulkInternal_actions buffer_copy
    else []) ++
    [BulkAction.unlock]

end ElasticsearchClient

/-- A connected client with bulk size 1 and an empty buffer. -/
def bulk_client_one : ElasticsearchClient :=
  { m_config := { bulk_size := 1 }, m_connected := true, m_bulk_buffer := [] }

/-! ## Function code fields of a Modbus record -/

/-- The fields of a record that the function code decoding of
`ModbusParser::parse` fills: `modbus_fc`, `modbus_err`, `modbus_bc`,
`modbus_addr`, `modbus_qty`, `modbus_val`. -/
def UnifiedRecord.modbus_decoded (r : UnifiedRecord) :
    String × String × String × String × String × String :=
  (r.modbus_fc, r.modbus_err, r.modbus_bc, r.modbus_addr, r.modbus_qty, r.modbus_val)

/-- A write-multiple-registers request: transaction id 2, function code 16,
start address 10, quantity 2, byte count 4 and the register bytes
`00 01 00 02`. -/
def write_request : PacketInfo :=
  { protocol := 6, src_ip := "192.168.0.10", src_port := 40000, dst_ip := "192.168.0.20"
    dst_port := 502
    payload := [0, 2, 0, 0, 0, 11, 1, 16, 0, 10, 0, 2, 4, 0, 1, 0, 2]
    payload_size := 17 }

/-- The write-multiple-registers request `write_request` sent from port 502 to
port 502. -/
def write_loopback : PacketInfo := { write_request with src_port := 502 }

/-- A read-holding-registers request (function code 3, start address 256,
quantity 3) sent from port 502 to port 502. -/
def read_loopback : PacketInfo :=
  { scenario_request with
    src_port := 502, payload := [0, 1, 0, 0, 0, 6, 1, 3, 1, 0, 0, 3] }

/-! ## Variable blocks of an XGT request in the words of the specification -/

/-- The two bytes of a 16-bit value, least significant byte first. -/
def le16_bytes (v : Nat) : List Nat := [v % 256, v / 256 % 256]

/-- The variable part of an individual request as the specification describes
it: per name the little-endian 16-bit name length and then the name bytes. -/
def variableBlocks_spec (names : List (List Nat)) : List Nat :=
  names.flatMap fun n => le16_bytes n.length ++ n

/-- The text of a name given by its bytes, one character per byte. -/
def nameText (n : List Nat) : String := bytesToString n 0 n.length

/-- An individual read request of 41 bytes: the header `LSIS-XGT` with source
of frame 0x33, invoke id 1 and length 21; the instruction with command 0x0054,
data type 0x0002, block count 2 and the names `%DB20` and `%MW1`. -/
def xgt_read_request : PacketInfo :=
  { protocol := 6, src_ip := "192.168.0.10", src_port := 40000, dst_ip := "192.168.0.40"
    dst_port := 2004, flow_id := "192.168.0.10:40000-192.168.0.40:2004"
    payload :=
      [0x4C, 0x53, 0x49, 0x53, 0x2D, 0x58, 0x47, 0x54, 0x00, 0x00, 0x00, 0x00, 0xA0, 0x33,
       0x01, 0x00, 0x15, 0x00, 0x00, 0x00,
       0x54, 0x00, 0x02, 0x00, 0x00, 0x00, 0x02, 0x00,
       0x05, 0x00, 0x25, 0x44, 0x42, 0x32, 0x30,
       0x04, 0x00, 0x25, 0x4D, 0x57, 0x31]
    payload_size := 41 }

/-! ## Frames whose IP Total Length disagrees with the captured length -/

/-- The Ethernet, IP and TCP headers of `ack_frame` (54 bytes) with the IP
Total Length set to 1500: a frame captured with a snapshot length of 54. -/
def truncated_frame : List Nat :=
  ((ack_frame.take 54).set 16 0x05).set 17 0xdc

/-- The capture header of `truncated_frame`: 54 captured bytes. -/
def truncated_header : pcap_pkthdr :=
  { ts_buft := "2011-10-08T07:07:09", ts_usec := 742511, caplen := 54 }

/-- The frame `ack_frame` with the IP Total Length set to 0. -/
def zero_length_frame : List Nat :=
  (ack_frame.set 16 0x00).set 17 0x00

/-! ## XGT FEnet parser: the reads of `parseInstruction` -/

namespace XgtFenParser

/-- The reads of one of the block loops of `parseInstruction` (the loops over
the variable names, the read data and the write data have the same shape): per
block the 16-bit length and then that many bytes. A read is the pair of its
offset in the instruction and its length; `n` is the number of iterations that
are left and `offset` the value of `offset` before the iteration. -/
def blockReads (p : List Nat) (base inst_size : Nat) : Nat → Nat → List (Nat × Nat)
  | 0, _ => []
  | n + 1, offset =>
    if inst_size < offset + 2 then []
    else
      let data_len := read_le16 p (base + offset)
      let len_read := (offset, 2)
      let offset := offset + 2
      if inst_size < offset + data_len then [len_read]
      else
        len_read :: (offset, data_len) ::
          blockReads p base inst_size n (offset + data_len)

/-- The reads of the response branch of `parseInstruction`, in program order. -/
def responseReads (p : List Nat) (base inst_size : Nat) (is_read_cmd : Bool)
    (instruction : XgtFenInstruction) : List (Nat × Nat) :=
  let offset := 6
  if inst_size < offset + 2 then []
  else
    let instruction := { instruction with errorStatus := read_le16 p (base + offset) }
    let reads := [(offset, 2)]
    let offset := offset + 2
    if inst_size < offset + 2 then reads
    else
      let instruction :=
        { instruction with errorInfoOrBlockCount := read_le16 p (base + offset) }
      let reads := reads ++ [(offset, 2)]
      let offset := offset + 2
      if instruction.errorStatus ≠ XGT_ERROR_STATUS_OK then reads
      else if is_read_cmd then
        if instruction.is_continuous then
          if inst_size < offset + 2 then reads
          else
            let instruction := { instruction with dataSize := read_le16 p (base + offset) }
            let reads := reads ++ [(offset, 2)]
            let offset := offset + 2
            if inst_size < offset + instruction.dataSize then reads
            else reads ++ [(offset, instruction.dataSize)]
        else
          let instruction :=
            { instruction with blockCount := instruction.errorInfoOrBlockCount }
          reads ++ blockReads p base inst_size instruction.blockCount offset
      else reads

/-- The reads of the request branch of `parseInstruction`, in program order. -/
def requestReads (p : List Nat) (base inst_size : Nat) (is_write_cmd : Bool)
    (instruction : XgtFenInstruction) : List (Nat × Nat) :=
  let offset := 6
  if inst_size < offset + 2 then []
  else
    let instruction := { instruction with blockCount := read_le16 p (base + offset) }
    let reads := [(offset, 2)]
    let offset := offset + 2
    if instruction.is_continuous then
      if instruction.blockCount ≠ 1 then reads
      else if inst_size < offset + 2 then reads
      else
        let var_len := read_le16 p (base + offset)
        let reads := reads ++ [(offset, 2)]
        let offset := offset + 2
        if inst_size < offset + var_len then reads
        else
          let reads := reads ++ [(offset, var_len)]
          let offset := offset + var_len
          if inst_size < offset + 2 then reads
          else
            let instruction := { instruction with dataSize := read_le16 p (base + offset) }
            let reads := reads ++ [(offset, 2)]
            let offset := offset + 2
            if is_write_cmd then
              if inst_size < offset + instruction.dataSize then reads
              else reads ++ [(offset, instruction.dataSize)]
            else reads
    else
      let reads := reads ++ blockReads p base inst_size instruction.blockCount offset
      match readVariables p base inst_size instruction.blockCount offset [] with
      | none => reads
      | some (_, offset) =>
        if is_write_cmd then
          reads ++ blockReads p base inst_size instruction.blockCount offset
        else reads

/-- The reads of `XgtFenParser::parseInstruction` on the instruction that
starts at payload offset `base`, in program order: pairs of the offset in the
instruction and the number of bytes read there. -/
def instructionReads (p : List Nat) (base inst_size : Nat) (header : XgtFenHeader) :
    List (Nat × Nat) :=
  if inst_size < 4 then []
  else
    let instruction : XgtFenInstruction :=
      { command := read_le16 p base
        dataType := read_le16 p (base + 2)
        is_continuous := read_le16 p (base + 2) = XGT_DTYPE_CONTINUOUS }
    let reads := [(0, 2), (2, 2)]
    let is_response := header.sourceOfFrame = 0x11
    let is_request := header.sourceOfFrame = 0x33
    let is_read_cmd : Bool :=
      instruction.command = XGT_CMD_READ_REQ ∨ instruction.command = XGT_CMD_READ_RESP
    let is_write_cmd : Bool :=
      instruction.command = XGT_CMD_WRITE_REQ ∨ instruction.command = XGT_CMD_WRITE_RESP
    if ¬ is_read_cmd ∧ ¬ is_write_cmd then reads
    else if inst_size < 4 + 2 then reads
    else
      let instruction := { instruction with reserved := read_le16 p (base + 4) }
      let reads := reads ++ [(4, 2)]
      if is_response then reads ++ responseReads p base inst_size is_read_cmd instruction
      else if is_request then reads ++ requestReads p base inst_size is_write_cmd instruction
      else reads

end XgtFenParser

/-- The offset after a sequence of reads that follow one another without a gap,
starting at `offset`; `none` when a read does not start where the one before
it ended. -/
def XgtFenParser.readsEnd : Nat → List (Nat × Nat) → Option Nat
  | offset, [] => some offset
  | offset, r :: rs => if r.1 = offset then XgtFenParser.readsEnd (offset + r.2) rs else none

/-! ## S7Comm parser: the reads of `parse` -/

namespace S7CommParser

/-- The reads of the header fields at the start of `parse`, as pairs of the
payload offset and the number of bytes: the PDU reference, the ROSCTR byte,
the parameter length and the data length. -/
def headerReads : List (Nat × Nat) :=
  [(s7_pdu + 4, 2), (s7_pdu + 1, 1), (s7_pdu + 6, 2), (s7_pdu + 8, 2)]

/-- The reads that `parse` makes while it fills the request information of a
job: `param[0]` and `param[1]` with `param = s7_pdu + 10`. -/
def newReqReads (info : PacketInfo) : List (Nat × Nat) :=
  let s7_pdu_len : Int := info.payload_size - 7
  let param := s7_pdu + 10
  if param_len info > 0 ∧ s7_pdu_len ≥ 10 + (param_len info : Int) then
    let function_code := byteAt info.payload param
    if (function_code = 0x04 ∨ function_code = 0x05) ∧ param_len info ≥ 2 then
      [(param, 1), (param + 1, 1)]
    else [(param, 1)]
  else []

/-- The reads of the loop over the request items: per item the area byte, the
DB number for area 0x84, the three address bytes and, for item 0, the syntax
id, the transport size and the amount. -/
def paramItemReads (p : List Nat) (param_end : Nat) : Nat → Nat → Nat → List (Nat × Nat)
  | 0, _, _ => []
  | n + 1, i, item_ptr =>
    if item_ptr + 12 > param_end then []
    else
      let area := byteAt p (item_ptr + 8)
      [(item_ptr + 8, 1)] ++
        (if area = 0x84 then [(item_ptr + 6, 2)] else []) ++
        [(item_ptr + 9, 3)] ++
        (if i = 0 then [(item_ptr + 2, 1), (item_ptr + 3, 1), (item_ptr + 4, 2)] else []) ++
        paramItemReads p param_end n (i + 1) (item_ptr + 12)

/-- The reads of the parameter part of `parse`. -/
def paramReads (info : PacketInfo) : List (Nat × Nat) :=
  let s7_pdu_len : Int := info.payload_size - 7
  if param_len info > 0 ∧ s7_pdu_len ≥ (header_size info : Int) + (param_len info : Int) then
    let param := s7_pdu + header_size info
    if (byteAt info.payload param = 0x04 ∨ byteAt info.payload param = 0x05) ∧
        param_len info ≥ 2 then
      let item_count := byteAt info.payload (param + 1)
      [(param, 1), (param + 1, 1)] ++
        paramItemReads info.payload (param + param_len info) item_count 0 (param + 2)
    else [(param, 1)]
  else []

/-- The reads of the loop over the data items: per item the return code and,
for return code 0xff with four bytes left, the bit length. -/
def dataItemReads (p : List Nat) (data_end : Nat) : Nat → Nat → List (Nat × Nat)
  | 0, _ => []
  | n + 1, data_item_ptr =>
    if data_item_ptr + 1 > data_end then []
    else
      let return_code := byteAt p data_item_ptr
      (data_item_ptr, 1) ::
        if return_code = 0xff then
          if data_item_ptr + 4 > data_end then
            dataItemReads p data_end n (data_item_ptr + 1)
          else
            let read_len_bits := safe_ntohs p (data_item_ptr + 2)
            let read_len_bytes := (read_len_bits + 7) / 8 % 65536
            (data_item_ptr + 2, 2) ::
              if data_item_ptr + 4 + read_len_bytes ≤ data_end then
                let next := data_item_ptr + 4 + read_len_bytes
                dataItemReads p data_end n (if read_len_bytes % 2 ≠ 0 then next + 1 else next)
              else dataItemReads p data_end n (data_item_ptr + 4)
        else dataItemReads p data_end n (data_item_ptr + 1)

/-- The reads of the data part of `parse`. -/
def dataReads (info : PacketInfo) (req : S7CommRequestInfo) : List (Nat × Nat) :=
  let s7_pdu_len : Int := info.payload_size - 7
  if data_len info > 0 ∧
      s7_pdu_len ≥ (header_size info : Int) + (param_len info : Int) + (data_len info : Int) then
    let data_ptr := s7_pdu + header_size info + param_len info
    if rosctr info = 3 ∧ req.items ≠ [] then
      dataItemReads info.payload (data_ptr + data_len info) req.items.length data_ptr
    else []
  else []

/-- The reads of the payload that `S7CommParser::parse` makes, in program
order, as pairs of the payload offset and the number of bytes; `now` is the
clock reading stored with a request. -/
def parseReads (self : S7CommParser) (now : Nat) (info : PacketInfo) : List (Nat × Nat) :=
  let s7_pdu_len : Int := info.payload_size - 7
  if s7_pdu_len < 10 then []
  else
    match (if rosctr info = 0x02 ∨ rosctr info = 0x03 then
        self.m_pending_requests info.flow_id (pdu_ref info) else none) with
    | some req => headerReads ++ paramReads info ++ dataReads info req
    | none =>
      if rosctr info = 0x01 then
        headerReads ++ newReqReads info ++ paramReads info ++ dataReads info (new_req now info)
      else headerReads

end S7CommParser

/-! ## Unified writer: the CSV file (`UnifiedWriter.cpp`) -/

namespace UnifiedWriter

/-- The text that the method `UnifiedWriter::writeCsvHeader` writes: the column
names separated by commas and a newline. -/
def writeCsvHeader : String :=
  "@timestamp,protocol,smac,dmac,sip,sp,dip,dp,sq,ak,fl,dir," ++
  "src_asset,dst_asset," ++
  "arp.op,arp.tmac,arp.tip," ++
  "dns.tid,dns.fl,dns.qc,dns.ac," ++
  "dnp3.len,dnp3.ctrl,dnp3.dest,dnp3.src," ++
  "len," ++
  "modbus.tid,modbus.fc,modbus.err,modbus.bc,modbus.addr,modbus.qty,modbus.val,modbus.regs.addr,modbus.regs.val,modbus.translated_addr,modbus.description," ++
  "s7comm.prid,s7comm.ros,s7comm.fn,s7comm.ic,s7comm.syn,s7comm.tsz,s7comm.amt,s7comm.db,s7comm.ar,s7comm.addr,s7comm.rc,s7comm.len,s7comm.description," ++
  "xgt_fen.prid,xgt_fen.companyId,xgt_fen.plcinfo,xgt_fen.cpuinfo,xgt_fen.source,xgt_fen.len,xgt_fen.fenetpos,xgt_fen.cmd,xgt_fen.dtype,xgt_fen.blkcnt,xgt_fen.errstat,xgt_fen.errinfo,xgt_fen.vars,xgt_fen.datasize,xgt_fen.data,xgt_fen.translated_addr,xgt_fen.description\n"

/-- The fields of a record in the order in which the row statement of
`writeTimeSlot` passes them to `escapeCSV`. -/
def csvFields (record : UnifiedRecord) : List String :=
  [record.timestamp, record.protocol, record.smac, record.dmac, record.sip, record.sp,
   record.dip, record.dp, record.sq, record.ak, record.fl, record.dir, record.src_asset_name,
   record.dst_asset_name, record.arp_op, record.arp_tmac, record.arp_tip, record.dns_tid,
   record.dns_fl, record.dns_qc, record.dns_ac, record.dnp3_len, record.dnp3_ctrl,
   record.dnp3_dest, record.dnp3_src, record.len, record.modbus_tid, record.modbus_fc,
   record.modbus_err, record.modbus_bc, record.modbus_addr, record.modbus_qty,
   record.modbus_val, record.modbus_regs_addr, record.modbus_regs_val,
   record.modbus_translated_addr, record.modbus_description, record.s7_prid, record.s7_ros,
   record.s7_fn, record.s7_ic, record.s7_syn, record.s7_tsz, record.s7_amt, record.s7_db,
   record.s7_ar, record.s7_addr, record.s7_rc, record.s7_len, record.s7_description,
   record.xgt_prid, record.xgt_companyId, record.xgt_plcinfo, record.xgt_cpuinfo,
   record.xgt_source, record.xgt_len, record.xgt_fenetpos, record.xgt_cmd, record.xgt_dtype,
   record.xgt_blkcnt, record.xgt_errstat, record.xgt_errinfo, record.xgt_vars,
   record.xgt_datasize, record.xgt_data, record.xgt_translated_addr, record.xgt_description]

/-- The row that `writeTimeSlot` writes for a record: the escaped fields
separated by commas, and a newline. -/
def csvRow (record : UnifiedRecord) : String :=
  String.intercalate "," ((csvFields record).map escapeCSV) ++ "\n"

/-- The text of the CSV file that `writeTimeSlot` leaves for a slot: `none`
when no file is written (an empty slot, or the CSV file cannot be opened), the
header alone when the JSONL file cannot be opened, and otherwise the header
followed by the rows of the records in sorted order. -/
def csvFile (records : List UnifiedRecord) (csv_is_open jsonl_is_open : Bool) :
    Option String :=
  if records = [] then none
  else
    let records := stable_sort records
    if ¬ csv_is_open then none
    else if ¬ jsonl_is_open then some writeCsvHeader
    else some (writeCsvHeader ++ String.join (records.map csvRow))

end UnifiedWriter

/-- The record whose fields hold the keys under which the JSONL part of
`writeTimeSlot` writes them (`"@timestamp"` for `timestamp`, `"src_asset"`
for `src_asset_name`, `"s7comm.prid"` for `s7_prid` and so on). -/
def key_record : UnifiedRecord :=
  { timestamp := "@timestamp", protocol := "protocol", smac := "smac", dmac := "dmac",
    sip := "sip", sp := "sp", dip := "dip", dp := "dp", sq := "sq", ak := "ak", fl := "fl",
    dir := "dir", src_asset_name := "src_asset", dst_asset_name := "dst_asset",
    arp_op := "arp.op", arp_tmac := "arp.tmac", arp_tip := "arp.tip", dns_tid := "dns.tid",
    dns_fl := "dns.fl", dns_qc := "dns.qc", dns_ac := "dns.ac", dnp3_len := "dnp3.len",
    dnp3_ctrl := "dnp3.ctrl", dnp3_dest := "dnp3.dest", dnp3_src := "dnp3.src", len := "len",
    modbus_tid := "modbus.tid", modbus_fc := "modbus.fc", modbus_err := "modbus.err",
    modbus_bc := "modbus.bc", modbus_addr := "modbus.addr", modbus_qty := "modbus.qty",
    modbus_val := "modbus.val", modbus_regs_addr := "modbus.regs.addr",
    modbus_regs_val := "modbus.regs.val", modbus_translated_addr := "modbus.translated_addr",
    modbus_description := "modbus.description", s7_prid := "s7comm.prid",
    s7_ros := "s7comm.ros", s7_fn := "s7comm.fn", s7_ic := "s7comm.ic", s7_syn := "s7comm.syn",
    s7_tsz := "s7comm.tsz", s7_amt := "s7comm.amt", s7_db := "s7comm.db", s7_ar := "s7comm.ar",
    s7_addr := "s7comm.addr", s7_rc := "s7comm.rc", s7_len := "s7comm.len",
    s7_description := "s7comm.description", xgt_prid := "xgt_fen.prid",
    xgt_companyId := "xgt_fen.companyId", xgt_plcinfo := "xgt_fen.plcinfo",
    xgt_cpuinfo := "xgt_fen.cpuinfo", xgt_source := "xgt_fen.source", xgt_len := "xgt_fen.len",
    xgt_fenetpos := "xgt_fen.fenetpos", xgt_cmd := "xgt_fen.cmd", xgt_dtype := "xgt_fen.dtype",
    xgt_blkcnt := "xgt_fen.blkcnt", xgt_errstat := "xgt_fen.errstat",
    xgt_errinfo := "xgt_fen.errinfo", xgt_vars := "xgt_fen.vars",
    xgt_datasize := "xgt_fen.datasize", xgt_data := "xgt_fen.data",
    xgt_translated_addr := "xgt_fen.translated_addr", xgt_description := "xgt_fen.description" }


/-! ## Reading a CSV text by the rules of RFC 4180 -/

/-- The characters `TEXTDATA` of RFC 4180, `%x20-21 / %x23-2B / %x2D-7E`: the
printable ASCII characters other than the double quote and the comma. -/
def rfcTextData (c : Char) : Bool :=
  decide ((0x20 ≤ c.toNat ∧ c.toNat ≤ 0x21) ∨ (0x23 ≤ c.toNat ∧ c.toNat ≤ 0x2B) ∨
    (0x2D ≤ c.toNat ∧ c.toNat ≤ 0x7E))

/-- The position of the reader: at the start of a field, inside a field
without quotes, inside a quoted field, right after a double quote inside a
quoted field (the end of the field or the first half of a doubled quote), or
right after a carriage return outside quotes (the first half of the line break
`CRLF`). -/
inductive CsvMode where
  | fieldStart
  | unquoted
  | quoted
  | quoteSeen
  | crSeen
deriving DecidableEq

/-- A reader for CSV text by the grammar of RFC 4180. A record is
`field *(COMMA field)`; a field without quotes (`non-escaped`) holds `TEXTDATA`
only; a quoted field (`escaped`) starts and ends with a double quote and holds
`TEXTDATA`, commas, carriage returns, line feeds and doubled double quotes,
each of which stands for one double quote. A record ends at the line break
`CRLF` of RFC 4180 or at a bare line feed, which is what `writeTimeSlot`
writes; the last record may lack the line break. The arguments are the
position, the records and the fields of the current record read so far, the
characters of the current field and the rest of the text; the result is `none`
for a text outside the grammar. -/
def readCsv_spec :
    CsvMode → List (List String) → List String → List Char → List Char →
      Option (List (List String))
  | CsvMode.fieldStart, rows, fields, _, [] =>
    if fields = [] then some rows else some (rows ++ [fields ++ [""]])
  | CsvMode.unquoted, rows, fields, acc, [] => some (rows ++ [fields ++ [String.mk acc]])
  | CsvMode.quoted, _, _, _, [] => none
  | CsvMode.quoteSeen, rows, fields, acc, [] => some (rows ++ [fields ++ [String.mk acc]])
  | CsvMode.crSeen, _, _, _, [] => none
  | CsvMode.fieldStart, rows, fields, _, c :: cs =>
    if c = '"' then readCsv_spec CsvMode.quoted rows fields [] cs
    else if c = ',' then readCsv_spec CsvMode.fieldStart rows (fields ++ [""]) [] cs
    else if c = '\n' then readCsv_spec CsvMode.fieldStart (rows ++ [fields ++ [""]]) [] [] cs
    else if c = '\r' then readCsv_spec CsvMode.crSeen rows fields [] cs
    else if rfcTextData c then readCsv_spec CsvMode.unquoted rows fields [c] cs
    else none
  | CsvMode.unquoted, rows, fields, acc, c :: cs =>
    if c = ',' then
      readCsv_spec CsvMode.fieldStart rows (fields ++ [String.mk acc]) [] cs
    else if c = '\n' then
      readCsv_spec CsvMode.fieldStart (rows ++ [fields ++ [String.mk acc]]) [] [] cs
    else if c = '\r' then readCsv_spec CsvMode.crSeen rows fields acc cs
    else if rfcTextData c then readCsv_spec CsvMode.unquoted rows fields (acc ++ [c]) cs
    else none
  | CsvMode.quoted, rows, fields, acc, c :: cs =>
    if c = '"' then readCsv_spec CsvMode.quoteSeen rows fields acc cs
    else if rfcTextData c ∨ c = ',' ∨ c = '\r' ∨ c = '\n' then
      readCsv_spec CsvMode.quoted rows fields (acc ++ [c]) cs
    else none
  | CsvMode.quoteSeen, rows, fields, acc, c :: cs =>
    if c = '"' then readCsv_spec CsvMode.quoted rows fields (acc ++ ['"']) cs
    else if c = ',' then
      readCsv_spec CsvMode.fieldStart rows (fields ++ [String.mk acc]) [] cs
    else if c = '\n' then
      readCsv_spec CsvMode.fieldStart (rows ++ [fields ++ [String.mk acc]]) [] [] cs
    else if c = '\r' then readCsv_spec CsvMode.crSeen rows fields acc cs
    else none
  | CsvMode.crSeen, rows, fields, acc, c :: cs =>
    if c = '\n' then
      readCsv_spec CsvMode.fieldStart (rows ++ [fields ++ [String.mk acc]]) [] [] cs
    else none

/-- The field values that a text of RFC 4180 can carry in the form in which
`escapeCSV` writes them: a value without comma, double quote and line feed is
written without quotes and has to consist of `TEXTDATA`; any other value is
written in quotes and may hold `TEXTDATA`, commas, double quotes, line feeds
and carriage returns. -/
def csvRecoverable (s : String) : Prop :=
  if ∀ c ∈ s.data, c ≠ ',' ∧ c ≠ '"' ∧ c ≠ '\n' then ∀ c ∈ s.data, rfcTextData c = true
  else ∀ c ∈ s.data, rfcTextData c = true ∨ c = ',' ∨ c = '"' ∨ c = '\n' ∨ c = '\r'

instance : DecidablePred csvRecoverable := fun s =>
  inferInstanceAs (Decidable
    (if ∀ c ∈ s.data, c ≠ ',' ∧ c ≠ '"' ∧ c ≠ '\n' then ∀ c ∈ s.data, rfcTextData c = true
    else ∀ c ∈ s.data, rfcTextData c = true ∨ c = ',' ∨ c = '"' ∨ c = '\n' ∨ c = '\r'))

/-- A Modbus request record. -/
def csv_record_plain : UnifiedRecord :=
  { timestamp := "2025-09-22T02:52:00.798610Z", protocol := "modbus", dir := "request"
    modbus_fc := "3" }

/-- An XGT record, earlier than `csv_record_plain`, whose variables hold a
comma, a double quote, a carriage return and a line feed. -/
def csv_record_quoted : UnifiedRecord :=
  { timestamp := "2025-09-22T02:52:00.776322Z", protocol := "xgt_fen", dir := "request"
    xgt_vars := "%DB20,\"x\"\r\n%MW1", xgt_description := "pump" }

/-- The two records of one slot, in the order in which they were added. -/
def csv_records : List UnifiedRecord := [csv_record_plain, csv_record_quoted]

/-- A record whose last field, the description, ends in a carriage return and
holds no comma, double quote or line feed. -/
def csv_record_cr : UnifiedRecord :=
  { timestamp := "2025-09-22T02:52:00.776322Z", protocol := "xgt_fen", dir := "request"
    xgt_description := "pump\r" }

/-! ## Decimal literals -/

theorem digitChar_isDigit (k : Nat) (hk : k < 10) :
    (Nat.digitChar k).isDigit = true ∧ (Nat.digitChar k).toNat - 48 = k := by
  interval_cases k <;> exact ⟨by decide, by decide⟩

theorem digitsValue_append_singleton (l : List Char) (c : Char) :
    digitsValue (l ++ [c]) = digitsValue l * 10 + (c.toNat - 48) := by
  simp [digitsValue, List.foldl_append]

/-- With enough fuel `Nat.toDigitsCore` puts a non-empty run of decimal digits
that denotes `n` in front of the accumulator. -/
theorem toDigitsCore_run (fuel : Nat) :
    ∀ (n : Nat) (ds : List Char), n < fuel →
      ∃ l : List Char, Nat.toDigitsCore 10 fuel n ds = l ++ ds ∧ l ≠ [] ∧
        (∀ c ∈ l, c.isDigit = true) ∧ digitsValue l = n := by
  induction fuel with
  | zero => intro n ds h; omega
  | succ fuel ih =>
    intro n ds h
    obtain ⟨hd, hv⟩ := digitChar_isDigit (n % 10) (Nat.mod_lt _ (by decide))
    by_cases h0 : n / 10 = 0
    · refine ⟨[Nat.digitChar (n % 10)], ?_, by simp, ?_, ?_⟩
      · simp [Nat.toDigitsCore, h0]
      · intro c hc
        simp only [List.mem_singleton] at hc
        rw [hc]; exact hd
      · have : digitsValue [Nat.digitChar (n % 10)] = (Nat.digitChar (n % 10)).toNat - 48 := by
          simp [digitsValue]
        rw [this, hv]; omega
    · obtain ⟨l, hl, hne, hall, hval⟩ := ih (n / 10) (Nat.digitChar (n % 10) :: ds) (by omega)
      refine ⟨l ++ [Nat.digitChar (n % 10)], ?_, by simp, ?_, ?_⟩
      · simp [Nat.toDigitsCore, h0, hl]
      · intro c hc
        rcases List.mem_append.mp hc with hc | hc
        · exact hall c hc
        · simp only [List.mem_singleton] at hc
          rw [hc]; exact hd
      · rw [digitsValue_append_singleton, hval, hv]; omega

/-- The decimal literal of `n` is a non-empty run of digits that denotes `n`. -/
theorem toString_data_spec (n : Nat) :
    (toString n).data ≠ [] ∧ (∀ c ∈ (toString n).data, c.isDigit = true) ∧
      digitsValue (toString n).data = n := by
  obtain ⟨l, hl, hne, hall, hval⟩ := toDigitsCore_run (n + 1) n [] (by omega)
  have : (toString n).data = l := by
    show (Nat.repr n).data = l
    simp [Nat.repr, Nat.toDigits, hl, List.asString]
  rw [this]
  exact ⟨hne, hall, hval⟩

theorem isspace_of_isDigit (c : Char) (h : c.isDigit = true) : isspace c = false := by
  by_contra hs
  simp only [isspace, Bool.not_eq_false, Bool.decide_or, Bool.or_eq_true, decide_eq_true_eq] at hs
  rcases hs with hs | hs | hs | hs | hs | hs <;> (subst hs; revert h; decide)

theorem takeWhile_eq_self_of_all {α : Type} (p : α → Bool) (l : List α)
    (h : ∀ c ∈ l, p c = true) : l.takeWhile p = l := by
  induction l with
  | nil => rfl
  | cons a t ih =>
    have ha := h a (List.mem_cons_self a t)
    simp only [List.takeWhile_cons, ha, if_true]
    rw [ih (fun c hc => h c (List.mem_cons_of_mem a hc))]

theorem digits_scan (ds : List Char) (hne : ds ≠ []) (hall : ∀ c ∈ ds, c.isDigit = true) :
    ds.dropWhile isspace = ds ∧ ds.head? ≠ some '-' ∧ skipSign ds = ds ∧
      ds.takeWhile Char.isDigit = ds := by
  cases ds with
  | nil => exact absurd rfl hne
  | cons a t =>
    have ha := hall a (List.mem_cons_self a t)
    have hsp := isspace_of_isDigit a ha
    have hm : a ≠ '-' := by rintro rfl; revert ha; decide
    have hp : a ≠ '+' := by rintro rfl; revert ha; decide
    refine ⟨?_, ?_, ?_, takeWhile_eq_self_of_all _ _ hall⟩
    · simp [List.dropWhile_cons, hsp]
    · simpa using hm
    · unfold skipSign
      split
      · rename_i h; injection h with h1 _; exact absurd h1 hm
      · rename_i h; injection h with h1 _; exact absurd h1 hp
      · rfl

/-- On a non-empty run of digits `std::stoi` yields the denoted number, and
throws when that number is above `INT_MAX`. -/
theorem stoi_digits (ds : List Char) (hne : ds ≠ []) (hall : ∀ c ∈ ds, c.isDigit = true) :
    stoi (String.mk ds) =
      if 2147483647 < digitsValue ds then none else some (digitsValue ds : Int) := by
  obtain ⟨h1, h2, h3, h4⟩ := digits_scan ds hne hall
  unfold stoi
  simp only [h1, h2, h3, h4, hne, if_false, decide_False, Bool.false_eq_true]
  split_ifs <;> first | rfl | omega

/-- On a non-empty run of digits `std::stoul` yields the denoted number, and
throws when that number does not fit an `unsigned long`. -/
theorem stoul_digits (ds : List Char) (hne : ds ≠ []) (hall : ∀ c ∈ ds, c.isDigit = true) :
    stoul (String.mk ds) =
      if ULONG_RANGE ≤ digitsValue ds then none else some (digitsValue ds) := by
  obtain ⟨h1, h2, h3, h4⟩ := digits_scan ds hne hall
  unfold stoul
  simp only [h1, h2, h3, h4, hne, if_false, decide_False, Bool.false_eq_true]

/-- Reading back a decimal literal with `std::stoi`. -/
theorem stoi_toString (n : Nat) (h : n ≤ 2147483647) : stoi (toString n) = some (n : Int) := by
  obtain ⟨hne, hall, hval⟩ := toString_data_spec n
  have := stoi_digits (toString n).data hne hall
  rw [hval] at this
  rw [show toString n = String.mk (toString n).data from rfl, this, if_neg (by omega)]

/-- Reading back a decimal literal with `std::stoul`. -/
theorem stoul_toString (n : Nat) (h : n < ULONG_RANGE) : stoul (toString n) = some n := by
  obtain ⟨hne, hall, hval⟩ := toString_data_spec n
  have := stoul_digits (toString n).data hne hall
  rw [hval] at this
  rw [show toString n = String.mk (toString n).data from rfl, this, if_neg (by omega)]

theorem toString_ne_empty (n : Nat) : toString n ≠ "" := by
  intro h
  have := (toString_data_spec n).1
  rw [h] at this
  exact this rfl

theorem toString_tdiv_two (v : Nat) : toString ((v : Int).tdiv 2) = toString (v / 2) := by
  have : (v : Int).tdiv 2 = ((v / 2 : Nat) : Int) := by
    simp [Int.tdiv]
  rw [this]; rfl

/-! ## Address translation: auxiliary facts -/

theorem regex_match_some (s t n : List Char) (h : AssetManager.regex_match s = some (t, n)) :
    ∃ a b, s = '%' :: a :: b :: n ∧ t = [a, b] ∧ n ≠ [] ∧ ∀ c ∈ n, c.isDigit = true := by
  unfold AssetManager.regex_match at h
  split at h
  · rename_i a b ds
    split_ifs at h with hc
    simp only [Option.some.injEq, Prod.mk.injEq] at h
    obtain ⟨rfl, rfl⟩ := h
    refine ⟨a, b, rfl, rfl, hc.2.2.1, ?_⟩
    have := hc.2.2.2
    simpa [List.all_eq_true] using this
  · exact absurd h (by simp)

/-- The result of `translateXgtAddress` on a string of the form `%` + `DB`,
`MB` or `PB` + digits. -/
theorem translateXgt_form (t : String) (ds : List Char) (p : String)
    (hp : (t, p) ∈ [("DB", "D"), ("MB", "M"), ("PB", "P")])
    (hne : ds ≠ []) (hall : ∀ c ∈ ds, c.isDigit = true) :
    AssetManager.translateXgtAddress ("%" ++ t ++ String.mk ds) =
      if digitsValue ds ≤ 2147483647 then p ++ toString (digitsValue ds / 2) else "" := by
  have hall' : ds.all Char.isDigit = true := by simpa [List.all_eq_true] using hall
  have hst := stoi_digits ds hne hall
  simp only [List.mem_cons, Prod.mk.injEq, List.mem_singleton, List.not_mem_nil, or_false] at hp
  have hv : stoi (String.mk ds) =
      if digitsValue ds ≤ 2147483647 then some (digitsValue ds : Int) else none := by
    rw [hst]; split_ifs <;> first | rfl | omega
  rcases hp with ⟨rfl, rfl⟩ | ⟨rfl, rfl⟩ | ⟨rfl, rfl⟩
  · have hs : "%" ++ "DB" ++ String.mk ds = String.mk ('%' :: 'D' :: 'B' :: ds) := rfl
    have hrm : AssetManager.regex_match ('%' :: 'D' :: 'B' :: ds) = some (['D', 'B'], ds) := by
      simp [AssetManager.regex_match, hne, hall']
    rw [hs]
    unfold AssetManager.translateXgtAddress
    rw [if_neg (by simp [String.ext_iff])]
    simp only [hrm, hv]
    rw [if_pos (by decide)]
    split_ifs <;> simp [toString_tdiv_two]
  · have hs : "%" ++ "MB" ++ String.mk ds = String.mk ('%' :: 'M' :: 'B' :: ds) := rfl
    have hrm : AssetManager.regex_match ('%' :: 'M' :: 'B' :: ds) = some (['M', 'B'], ds) := by
      simp [AssetManager.regex_match, hne, hall']
    rw [hs]
    unfold AssetManager.translateXgtAddress
    rw [if_neg (by simp [String.ext_iff])]
    simp only [hrm, hv]
    rw [if_neg (by decide), if_pos (by decide)]
    split_ifs <;> simp [toString_tdiv_two]
  · have hs : "%" ++ "PB" ++ String.mk ds = String.mk ('%' :: 'P' :: 'B' :: ds) := rfl
    have hrm : AssetManager.regex_match ('%' :: 'P' :: 'B' :: ds) = some (['P', 'B'], ds) := by
      simp [AssetManager.regex_match, hne, hall']
    rw [hs]
    unfold AssetManager.translateXgtAddress
    rw [if_neg (by simp [String.ext_iff])]
    simp only [hrm, hv]
    rw [if_neg (by decide), if_neg (by decide), if_pos (by decide)]
    split_ifs <;> simp [toString_tdiv_two]

/-- Every string that is not of that form is mapped to the empty string. -/
theorem translateXgt_other (s : String)
    (h : ¬ ∃ (t p : String) (ds : List Char),
      (t, p) ∈ [("DB", "D"), ("MB", "M"), ("PB", "P")] ∧ ds ≠ [] ∧
        (∀ c ∈ ds, c.isDigit = true) ∧ s = "%" ++ t ++ String.mk ds) :
    AssetManager.translateXgtAddress s = "" := by
  unfold AssetManager.translateXgtAddress
  split_ifs with hc
  · rfl
  · cases hrm : AssetManager.regex_match s.data with
    | none => rfl
    | some tn =>
      obtain ⟨t, n⟩ := tn
      obtain ⟨a, b, hs, ht, hne, hall⟩ := regex_match_some s.data t n hrm
      simp only []
      by_cases h1 : String.mk t = "DB"
      · exact absurd ⟨"DB", "D", n, by simp, hne, hall, by
          rw [← h1, ht]; apply String.ext; simp [hs]⟩ h
      by_cases h2 : String.mk t = "MB"
      · exact absurd ⟨"MB", "M", n, by simp, hne, hall, by
          rw [← h2, ht]; apply String.ext; simp [hs]⟩ h
      by_cases h3 : String.mk t = "PB"
      · exact absurd ⟨"PB", "P", n, by simp, hne, hall, by
          rw [← h3, ht]; apply String.ext; simp [hs]⟩ h
      simp [h1, h2, h3]

/-! ## Modbus parser: auxiliary facts -/

theorem byteAt_lt (p : List Nat) (i : Nat) : byteAt p i < 256 :=
  Nat.mod_lt _ (by decide)

theorem safe_ntohs_lt (p : List Nat) (off : Nat) : safe_ntohs p off < 65536 := by
  have h1 := byteAt_lt p off
  have h2 := byteAt_lt p (off + 1)
  unfold safe_ntohs
  omega

theorem createUnifiedRecord_modbus_fields (name : String) (am : Option AssetManager)
    (info : PacketInfo) (direction : String) :
    let r := BaseProtocolParser.createUnifiedRecord name am info direction
    r.protocol = name ∧ r.modbus_addr = "" ∧ r.modbus_regs_addr = "" ∧ r.modbus_regs_val = "" ∧
      r.modbus_translated_addr = "" := by
  unfold BaseProtocolParser.createUnifiedRecord
  cases am with
  | none => simp
  | some a =>
    simp only []
    split_ifs <;> simp

theorem baseRecord_fields (self : ModbusParser) (info : PacketInfo) :
    (self.baseRecord info).len = toString (info.payload_size - 7) ∧
    (self.baseRecord info).modbus_fc = toString (ModbusParser.current_fc info) ∧
    (self.baseRecord info).modbus_addr = "" ∧
    (self.baseRecord info).modbus_regs_addr = "" ∧
    (self.baseRecord info).modbus_regs_val = "" ∧
    (self.baseRecord info).modbus_translated_addr = "" := by
  have h := createUnifiedRecord_modbus_fields ModbusParser.getName self.m_asset_manager info
    (if info.dst_port = 502 then "request" else "response")
  simp only [] at h
  unfold ModbusParser.baseRecord
  exact ⟨rfl, rfl, h.2.1, h.2.2.1, h.2.2.2.1, h.2.2.2.2⟩

theorem mem_registerRecords (self : ModbusParser) (info : PacketInfo) (record r : UnifiedRecord)
    (n start : Nat) (h : r ∈ ModbusParser.registerRecords self info record n start) :
    r.len = record.len := by
  unfold ModbusParser.registerRecords at h
  simp only [List.mem_map, List.mem_range] at h
  obtain ⟨i, -, rfl⟩ := h
  rfl

theorem decode_len (self : ModbusParser) (info : PacketInfo) (record : UnifiedRecord)
    (req : Option ModbusRequestInfo) :
    match self.decode info record req with
    | Sum.inl rs => ∀ r ∈ rs, r.len = record.len
    | Sum.inr r => r.len = record.len := by
  unfold ModbusParser.decode
  simp only []
  split_ifs <;> first
    | rfl
    | (intro r hr; rw [mem_registerRecords _ _ _ _ _ _ hr])

theorem finish_len (self : ModbusParser) (record r : UnifiedRecord)
    (h : r ∈ self.finish record) : r.len = record.len := by
  unfold ModbusParser.finish at h
  split_ifs at h
  · split at h
    · simp at h
    · simp only [List.mem_singleton] at h
      rw [h]
  · simp only [List.mem_singleton] at h
    rw [h]

theorem isProtocol_size (info : PacketInfo) (h : ModbusParser.isProtocol info = true) :
    8 ≤ info.payload_size ∧ (info.src_port = 502 ∨ info.dst_port = 502) := by
  unfold ModbusParser.isProtocol at h
  simp only [] at h
  split_ifs at h with h1 h2 h3 h4 h5
  exact ⟨by omega, by omega⟩

/-- The parser state after `parse` of a packet with at least one PDU byte. -/
theorem parse_state (self : ModbusParser) (now now_req : Nat) (info : PacketInfo)
    (h : 8 ≤ info.payload_size) :
    (self.parse now now_req info).1 = (self.cleanupOldRequests now).storeRequest now_req info := by
  unfold ModbusParser.parse
  simp only []
  rw [if_neg (by omega)]
  split <;> rfl

theorem storeRequest_lookup (self : ModbusParser) (now : Nat) (info : PacketInfo)
    (h : info.src_port ≠ 502) :
    (self.storeRequest now info).m_pending_requests (ModbusParser.flow_key info)
      (ModbusParser.req_key info) = some (ModbusParser.new_req now info) := by
  unfold ModbusParser.storeRequest
  rw [if_neg h]
  simp

theorem storeRequest_response (self : ModbusParser) (now : Nat) (info : PacketInfo)
    (h : info.src_port = 502) : self.storeRequest now info = self := by
  unfold ModbusParser.storeRequest
  rw [if_pos h]

/-- An entry survives `cleanupOldRequests` when no sweep is due or when it is
at most five minutes old. -/
theorem cleanup_keeps (self : ModbusParser) (now : Nat) (flow : String) (rk : Nat)
    (r : ModbusRequestInfo) (h : self.m_pending_requests flow rk = some r)
    (hk : (now - self.m_last_cleanup) / 1000000000 < 60 ∨
      (now - r.timestamp) / 60000000000 ≤ 5) :
    (self.cleanupOldRequests now).m_pending_requests flow rk = some r := by
  unfold ModbusParser.cleanupOldRequests
  split_ifs with hs
  · exact h
  · rcases hk with hk | hk
    · exact absurd hk hs
    · simp only [h]
      rw [if_neg (by omega)]

theorem req_key_eq (info : PacketInfo) :
    ModbusParser.req_key info =
      (ModbusParser.trans_id info <<< 8) ||| ModbusParser.current_fc info := by
  unfold ModbusParser.req_key
  have h := safe_ntohs_lt info.payload 0
  have : ModbusParser.trans_id info <<< 8 < 2 ^ 32 := by
    unfold ModbusParser.trans_id
    rw [Nat.shiftLeft_eq]
    omega
  rw [Nat.mod_eq_of_lt this]

theorem new_req_start (now : Nat) (info : PacketInfo) (h : 10 ≤ info.payload_size)
    (hf : ModbusParser.current_fc info ∈ [1, 2, 3, 4, 5, 6, 15, 16]) :
    ModbusParser.new_req now info =
      { function_code := ModbusParser.current_fc info
        start_address := safe_ntohs info.payload 8
        timestamp := now } := by
  unfold ModbusParser.new_req
  simp only [List.mem_cons, List.mem_singleton, List.not_mem_nil, or_false] at hf
  have hc : info.payload_size - 7 ≥ 3 ∧
      ((ModbusParser.current_fc info ≥ 1 ∧ ModbusParser.current_fc info ≤ 6) ∨
        (ModbusParser.current_fc info = 15 ∨ ModbusParser.current_fc info = 16)) := by
    refine ⟨by omega, ?_⟩
    omega
  simp only [hc, and_self, if_true]
  rfl

theorem flow_key_response (req resp : PacketInfo)
    (hdst : req.dst_port = 502) (hsrc : req.src_port ≠ 502)
    (h1 : resp.src_ip = req.dst_ip) (h2 : resp.src_port = 502)
    (h3 : resp.dst_ip = req.src_ip) (h4 : resp.dst_port = req.src_port) :
    ModbusParser.flow_key resp = ModbusParser.flow_key req := by
  unfold ModbusParser.flow_key
  simp only [h2, if_true, if_neg hsrc, h1, h3, h4, hdst]

/-- The entry that a response finds after the matching request has been
parsed. -/
theorem lookup_after_request (self : ModbusParser) (now1 now1' now2 : Nat)
    (req resp : PacketInfo)
    (hsz : 10 ≤ req.payload_size) (hsrc : req.src_port ≠ 502) (h2 : resp.src_port = 502)
    (hfk : ModbusParser.flow_key resp = ModbusParser.flow_key req)
    (hrk : ModbusParser.req_key resp = ModbusParser.req_key req)
    (hfs : ModbusParser.current_fc req ∈ [1, 2, 3, 4, 5, 6, 15, 16])
    (hns : (now2 - (self.parse now1 now1' req).1.m_last_cleanup) / 1000000000 < 60 ∨
      (now2 - now1') / 60000000000 ≤ 5) :
    ((self.parse now1 now1' req).1.cleanupOldRequests now2).req_info_ptr resp =
      some { function_code := ModbusParser.current_fc req
             start_address := safe_ntohs req.payload 8
             timestamp := now1' } := by
  have hst := storeRequest_lookup (self.cleanupOldRequests now1) now1' req hsrc
  rw [new_req_start now1' req hsz hfs] at hst
  unfold ModbusParser.req_info_ptr
  rw [if_pos h2, hfk, hrk]
  apply cleanup_keeps _ _ _ _ _ (by rw [parse_state _ _ _ _ (by omega)]; exact hst)
  exact hns

theorem fc_of_byte (info : PacketInfo) (fc : Nat) (hb : byteAt info.payload 7 = fc)
    (hfc : fc ∈ [1, 2, 3, 4]) :
    byteAt info.payload ModbusParser.pdu &&& 0x80 = 0 ∧ ModbusParser.current_fc info = fc := by
  unfold ModbusParser.current_fc ModbusParser.pdu
  rw [hb]
  simp only [List.mem_cons, List.mem_singleton, List.not_mem_nil, or_false] at hfc
  rcases hfc with rfl | rfl | rfl | rfl <;> exact ⟨by decide, by decide⟩

/-- The records of `parse` when the register loop runs: a response to function
code 1..4 without exception bit, with a positive byte count and its data. -/
theorem parse_fanout (self : ModbusParser) (now now_req : Nat) (info : PacketInfo) (fc : Nat)
    (h2 : info.src_port = 502) (hsz : 8 ≤ info.payload_size)
    (hb : byteAt info.payload 7 = fc) (hfc : fc ∈ [1, 2, 3, 4])
    (hbc : 0 < byteAt info.payload 8)
    (hdata : (2 : Int) + (byteAt info.payload 8 : Int) ≤ info.payload_size - 7) :
    (self.parse now now_req info).2 =
      ModbusParser.registerRecords (self.cleanupOldRequests now) info
        { (self.cleanupOldRequests now).baseRecord info with
          modbus_bc := toString (byteAt info.payload 8) }
        (byteAt info.payload 8 / 2)
        (match (self.cleanupOldRequests now).req_info_ptr info with
          | some r => r.start_address
          | none => 0) := by
  obtain ⟨hx, hc⟩ := fc_of_byte info fc hb hfc
  have hfc' : fc = 1 ∨ fc = 2 ∨ fc = 3 ∨ fc = 4 := by simpa using hfc
  unfold ModbusParser.parse
  simp only []
  rw [if_neg (by omega), storeRequest_response _ _ _ h2]
  unfold ModbusParser.decode
  simp only [hc]
  rw [if_neg (by rw [hx]; simp), if_pos hfc', if_pos h2, if_pos (by omega)]
  have hp : ModbusParser.pdu + 1 = 8 := rfl
  rw [hp, if_pos ⟨hbc, by omega⟩]

theorem registerRecords_length (self : ModbusParser) (info : PacketInfo) (record : UnifiedRecord)
    (n start : Nat) : (ModbusParser.registerRecords self info record n start).length = n := by
  simp [ModbusParser.registerRecords]

theorem registerRecords_get (self : ModbusParser) (info : PacketInfo) (record : UnifiedRecord)
    (n start i : Nat) (hi : i < n) :
    ∃ r, (ModbusParser.registerRecords self info record n start)[i]? = some r ∧
      r.modbus_regs_addr = toString ((start + i) % 65536) ∧
      r.modbus_regs_val = toString (safe_ntohs info.payload (9 + 2 * i)) ∧
      r.modbus_translated_addr =
        AssetManager.translateModbusAddress record.modbus_fc ((start + i) % 65536) := by
  simp only [ModbusParser.registerRecords, List.getElem?_map, List.getElem?_range hi,
    Option.map_some']
  refine ⟨_, rfl, rfl, ?_, rfl⟩
  simp only [ModbusParser.pdu]
  rw [show 7 + 2 + i * 2 = 9 + 2 * i by omega]

set_option maxRecDepth 100000 in
/-- A first PDU byte has no exception bit and function code 1..4 exactly when
it is one of 1, 2, 3, 4. -/
theorem byte_fc_iff : ∀ b < 256,
    (b &&& 0x80 = 0 ∧ (b &&& 0x7F = 1 ∨ b &&& 0x7F = 2 ∨ b &&& 0x7F = 3 ∨ b &&& 0x7F = 4)) ↔
      b ∈ [1, 2, 3, 4] := by
  decide

/-- Outside the register loop the function code decoding goes on with one
record, whose `modbus_addr` is unchanged or the decimal literal of a 16-bit
value. -/
theorem decode_not_fanout (self : ModbusParser) (info : PacketInfo) (record : UnifiedRecord)
    (req : Option ModbusRequestInfo)
    (hn : ¬ (byteAt info.payload 7 ∈ [1, 2, 3, 4] ∧ info.src_port = 502 ∧
      0 < byteAt info.payload 8 ∧
      (2 : Int) + (byteAt info.payload 8 : Int) ≤ info.payload_size - 7)) :
    ∃ r, self.decode info record req = Sum.inr r ∧
      r.modbus_regs_addr = record.modbus_regs_addr ∧
      r.modbus_regs_val = record.modbus_regs_val ∧
      r.modbus_translated_addr = record.modbus_translated_addr ∧
      (r.modbus_addr = record.modbus_addr ∨ ∃ a, a < 65536 ∧ r.modbus_addr = toString a) := by
  have hiff := byte_fc_iff (byteAt info.payload 7) (byteAt_lt _ _)
  unfold ModbusParser.decode
  simp only [ModbusParser.current_fc, ModbusParser.pdu]
  split_ifs with h1 h2 h3 h4 h5 h6 h7 h8 h9 h10 h11 h12 h13
  all_goals first
    | exact ⟨_, rfl, rfl, rfl, rfl, Or.inl rfl⟩
    | exact ⟨_, rfl, rfl, rfl, rfl, Or.inr ⟨_, safe_ntohs_lt _ _, rfl⟩⟩
    | (exfalso; apply hn
       refine ⟨hiff.mp ⟨by simpa using h1, h3⟩, h4, h6.1, ?_⟩
       have := h6.2
       simp only [Nat.reduceAdd] at this
       omega)

theorem finish_singleton (self : ModbusParser) (record : UnifiedRecord)
    (h : record.modbus_addr = "" ∨ ∃ a, a < 65536 ∧ record.modbus_addr = toString a) :
    ∃ r, self.finish record = [r] ∧
      r.modbus_regs_addr = record.modbus_regs_addr ∧
      r.modbus_regs_val = record.modbus_regs_val ∧
      r.modbus_addr = record.modbus_addr ∧
      (record.modbus_addr = "" → r.modbus_translated_addr = record.modbus_translated_addr) := by
  unfold ModbusParser.finish
  by_cases he : record.modbus_addr = ""
  · rw [if_neg (by simpa using he)]
    exact ⟨_, rfl, rfl, rfl, rfl, fun _ => rfl⟩
  · rw [if_pos he]
    rcases h with h | ⟨a, ha, hs⟩
    · exact absurd h he
    · rw [hs, stoul_toString a (by unfold ULONG_RANGE; omega)]
      exact ⟨_, rfl, rfl, rfl, rfl, fun h0 => absurd h0 (toString_ne_empty a)⟩

/-- In every other case `parse` emits exactly one record, with empty register
fields. -/
theorem parse_not_fanout (self : ModbusParser) (now now_req : Nat) (info : PacketInfo)
    (hsz : 8 ≤ info.payload_size)
    (hn : ¬ (byteAt info.payload 7 ∈ [1, 2, 3, 4] ∧ info.src_port = 502 ∧
      0 < byteAt info.payload 8 ∧
      (2 : Int) + (byteAt info.payload 8 : Int) ≤ info.payload_size - 7)) :
    ∃ r, (self.parse now now_req info).2 = [r] ∧ r.modbus_regs_addr = "" ∧
      r.modbus_regs_val = "" ∧ (r.modbus_addr = "" → r.modbus_translated_addr = "") := by
  obtain ⟨hb1, hb2, hb3, hb4, hb5, hb6⟩ :=
    baseRecord_fields ((self.cleanupOldRequests now).storeRequest now_req info) info
  obtain ⟨r, hd, ha, hv, ht, hm⟩ :=
    decode_not_fanout ((self.cleanupOldRequests now).storeRequest now_req info) info
      (((self.cleanupOldRequests now).storeRequest now_req info).baseRecord info)
      ((self.cleanupOldRequests now).req_info_ptr info) hn
  rw [hb3] at hm
  obtain ⟨r', hf, ha', hv', hm', ht'⟩ :=
    finish_singleton ((self.cleanupOldRequests now).storeRequest now_req info) r hm
  refine ⟨r', ?_, by rw [ha', ha, hb4], by rw [hv', hv, hb5], fun h0 => ?_⟩
  · unfold ModbusParser.parse
    simp only []
    rw [if_neg (by omega), hd]
    exact hf
  · rw [ht' (by rw [← hm']; exact h0), ht, hb6]

/-! ## Theorems -/

/-- C1: `ModbusParser::isProtocol` answers true exactly when the L4 protocol is
TCP (6), one of the two ports is 502, the payload has at least 8 bytes, payload
bytes 2 and 3 are zero, the big-endian MBAP Length at bytes 4..5 is at least 2
and the payload size equals 6 + MBAP Length. The 10-byte ACK payload
`00 00 00 00 00 07 00 04 04 00` is rejected on every packet that carries it and
the 12-byte request `00 00 00 00 00 06 00 03 00 3F 00 02` is accepted on TCP
port 502. -/
theorem C1_isProtocol_iff :
    (∀ info : PacketInfo,
      ModbusParser.isProtocol info = true ↔
        (info.protocol = 6 ∧ (info.src_port = 502 ∨ info.dst_port = 502) ∧
          8 ≤ info.payload_size ∧
          byteAt info.payload 2 = 0 ∧ byteAt info.payload 3 = 0 ∧
          2 ≤ safe_ntohs info.payload 4 ∧
          info.payload_size = 6 + (safe_ntohs info.payload 4 : Int))) ∧
    (∀ info : PacketInfo,
      ModbusParser.isProtocol { info with payload := ack_packet, payload_size := 10 } = false) ∧
    (∀ info : PacketInfo,
      ModbusParser.isProtocol
        { info with protocol := 6, dst_port := 502, payload := real_modbus, payload_size := 12 }
        = true) := by
  refine ⟨?_, ?_, ?_⟩
  · intro info
    unfold ModbusParser.isProtocol
    simp only []
    split_ifs with h1 h2 h3 h4 h5
    all_goals first
      | (simp only [Bool.false_eq_true, false_iff]; intro h; omega)
      | (simp only [true_iff]; refine ⟨?_, ?_, ?_, ?_, ?_, ?_, ?_⟩ <;> omega)
  · intro info
    simp [ModbusParser.isProtocol, ack_packet, byteAt, safe_ntohs]
  · intro info
    simp [ModbusParser.isProtocol, real_modbus, byteAt, safe_ntohs]

/-- C2 (counterexample): a request for two registers from start address 65535
and its response. The second record carries `regs.addr` 0, not
`base + 1 = 65536`. -/
theorem C2_counterexample :
    ModbusParser.isProtocol wrap_request = true ∧
    ModbusParser.isProtocol wrap_response = true ∧
    ((emptyParser.parse 0 0 wrap_request).1.cleanupOldRequests 1).req_info_ptr wrap_response =
      some { function_code := 3, start_address := 65535, timestamp := 0 } ∧
    ((emptyParser.parse 0 0 wrap_request).1.parse 1 1 wrap_response).2.map
      (fun r => r.modbus_regs_addr) = ["65535", "0"] ∧
    "0" ≠ toString (65535 + 1) := by
  decide

/-- C2 (amended): for every admitted Modbus response (source port 502) with
function code 1..4, no exception bit, byte count `bc > 0` and at least `bc`
data bytes after the byte-count byte, for which the pending table holds the
matching request with start address `base`, `parse` emits one record per
16-bit register, `floor(bc / 2)` records in the order `i = 0, 1, ...`: record
`i` has `regs.addr = (base + i) mod 65536` (so `base + i` whenever that is
below 65536), `regs.val` = the big-endian 16-bit value of data bytes `2i` and
`2i + 1`, and `translated_addr = translateModbusAddress(fc, regs.addr)`. For
the request tid=1, FC=3, start=12, qty=3 followed within five minutes by the
response with byte count 6 and data `00 0A 00 0B 00 0C`, on every parser, the
records have `regs.addr` 12, 13, 14, `regs.val` 10, 11, 12 and
`translated_addr` "300013", "300014", "300015". -/
theorem C2_register_fanout :
    (∀ (self : ModbusParser) (now now_req : Nat) (info : PacketInfo) (fc : Nat)
        (req : ModbusRequestInfo),
      ModbusParser.isProtocol info = true → info.src_port = 502 →
      byteAt info.payload 7 = fc → fc ∈ [1, 2, 3, 4] →
      0 < byteAt info.payload 8 →
      (2 : Int) + (byteAt info.payload 8 : Int) ≤ info.payload_size - 7 →
      (self.cleanupOldRequests now).req_info_ptr info = some req →
      (self.parse now now_req info).2.length = byteAt info.payload 8 / 2 ∧
      ∀ i < byteAt info.payload 8 / 2,
        ∃ r, (self.parse now now_req info).2[i]? = some r ∧
          r.modbus_regs_addr = toString ((req.start_address + i) % 65536) ∧
          r.modbus_regs_val = toString (safe_ntohs info.payload (9 + 2 * i)) ∧
          r.modbus_translated_addr =
            AssetManager.translateModbusAddress (toString fc)
              ((req.start_address + i) % 65536) ∧
          (req.start_address + i < 65536 →
            r.modbus_regs_addr = toString (req.start_address + i) ∧
            r.modbus_translated_addr =
              AssetManager.translateModbusAddress (toString fc) (req.start_address + i))) ∧
    (∀ (self : ModbusParser) (now1 now1' now2 now2' : Nat),
      (now2 - now1') / 60000000000 ≤ 5 →
      ((self.parse now1 now1' scenario_request).1.parse now2 now2' scenario_response).2.map
        (fun r => (r.modbus_regs_addr, r.modbus_regs_val, r.modbus_translated_addr)) =
        [("12", "10", "300013"), ("13", "11", "300014"), ("14", "12", "300015")]) := by
  constructor
  · intro self now now_req info fc req hadm h2 hb hfc hbc hdata hreq
    have hsz := (isProtocol_size info hadm).1
    rw [parse_fanout self now now_req info fc h2 hsz hb hfc hbc hdata, hreq]
    refine ⟨registerRecords_length _ _ _ _ _, fun i hi => ?_⟩
    obtain ⟨r, hr, ha, hv, ht⟩ := registerRecords_get (self.cleanupOldRequests now) info
      { (self.cleanupOldRequests now).baseRecord info with
        modbus_bc := toString (byteAt info.payload 8) }
      (byteAt info.payload 8 / 2) req.start_address i hi
    have hfcs : ({ (self.cleanupOldRequests now).baseRecord info with
        modbus_bc := toString (byteAt info.payload 8) } : UnifiedRecord).modbus_fc =
        toString fc := by
      show ((self.cleanupOldRequests now).baseRecord info).modbus_fc = toString fc
      rw [(baseRecord_fields _ info).2.1, (fc_of_byte info fc hb hfc).2]
    rw [hfcs] at ht
    refine ⟨r, hr, ha, hv, ht, fun hlt => ?_⟩
    rw [Nat.mod_eq_of_lt hlt] at ha ht
    exact ⟨ha, ht⟩
  · intro self now1 now1' now2 now2' hage
    have hl := lookup_after_request self now1 now1' now2 scenario_request scenario_response
      (by decide) (by decide) (by decide) (by decide) (by decide) (by decide) (Or.inr hage)
    rw [parse_fanout _ now2 now2' scenario_response 3 (by decide) (by decide) (by decide)
      (by decide) (by decide) (by decide), hl]
    have hfcs : (((self.parse now1 now1' scenario_request).1.cleanupOldRequests now2).baseRecord
        scenario_response).modbus_fc = "3" := by
      rw [(baseRecord_fields _ scenario_response).2.1]
      decide
    simp only [ModbusParser.registerRecords, List.map_map]
    have h8 : byteAt scenario_response.payload 8 / 2 = 3 := by decide
    rw [h8]
    simp only [List.range_succ, List.range_zero, List.nil_append, List.map_cons, List.map_nil,
      List.cons_append, Function.comp, hfcs]
    decide

/-- C2 (witness): the general part of the amended statement at the response of
the scenario, on the parser that has processed the request of the scenario. -/
theorem C2_register_fanout_witness :
    ((emptyParser.parse 0 0 scenario_request).1.parse 1 1 scenario_response).2.length = 3 ∧
    ∀ i < 3, ∃ r,
      ((emptyParser.parse 0 0 scenario_request).1.parse 1 1 scenario_response).2[i]? = some r ∧
        r.modbus_regs_addr = toString ((12 + i) % 65536) ∧
        r.modbus_regs_val = toString (safe_ntohs scenario_response.payload (9 + 2 * i)) ∧
        r.modbus_translated_addr =
          AssetManager.translateModbusAddress (toString 3) ((12 + i) % 65536) ∧
        (12 + i < 65536 →
          r.modbus_regs_addr = toString (12 + i) ∧
          r.modbus_translated_addr = AssetManager.translateModbusAddress (toString 3) (12 + i)) :=
  C2_register_fanout.1 (emptyParser.parse 0 0 scenario_request).1 1 1 scenario_response 3
    { function_code := 3, start_address := 12, timestamp := 0 }
    (by decide) (by decide) (by decide) (by decide) (by decide) (by decide) (by decide)

/-- C3: request/response correlation across the two directions of a flow. A
request from a client (port other than 502) to a server (port 502) with
function code `f` in {1..6, 15, 16} that carries a start address (at least 3
PDU bytes) is processed, and then a response from the server to the client
with the same transaction id and function code is looked up with no sweep in
between (or with the request at most five minutes old). Both packets use the
flow key `ip_c:port_c->ip_s:502` and the request key `(t << 8) | f`, and the
entry found for the response holds the start address of the request. -/
theorem C3_correlation (self : ModbusParser) (now1 now1' now2 : Nat) (req resp : PacketInfo)
    (f : Nat)
    (_hreq : ModbusParser.isProtocol req = true) (_hresp : ModbusParser.isProtocol resp = true)
    (hdst : req.dst_port = 502) (hsrc : req.src_port ≠ 502)
    (h1 : resp.src_ip = req.dst_ip) (h2 : resp.src_port = 502)
    (h3 : resp.dst_ip = req.src_ip) (h4 : resp.dst_port = req.src_port)
    (ht : ModbusParser.trans_id resp = ModbusParser.trans_id req)
    (hf : ModbusParser.current_fc req = f) (hf' : ModbusParser.current_fc resp = f)
    (hfs : f ∈ [1, 2, 3, 4, 5, 6, 15, 16]) (hlen : 10 ≤ req.payload_size)
    (hns : (now2 - (self.parse now1 now1' req).1.m_last_cleanup) / 1000000000 < 60 ∨
      (now2 - now1') / 60000000000 ≤ 5) :
    ModbusParser.flow_key req =
      req.src_ip ++ ":" ++ toString req.src_port ++ "->" ++ req.dst_ip ++ ":" ++ "502" ∧
    ModbusParser.flow_key resp = ModbusParser.flow_key req ∧
    ModbusParser.req_key req = (ModbusParser.trans_id req <<< 8) ||| f ∧
    ModbusParser.req_key resp = ModbusParser.req_key req ∧
    ((self.parse now1 now1' req).1.cleanupOldRequests now2).req_info_ptr resp =
      some { function_code := f
             start_address := safe_ntohs req.payload 8
             timestamp := now1' } := by
  have hfk := flow_key_response req resp hdst hsrc h1 h2 h3 h4
  have hrk : ModbusParser.req_key resp = ModbusParser.req_key req := by
    unfold ModbusParser.req_key
    rw [ht, hf, hf']
  refine ⟨?_, hfk, ?_, hrk, ?_⟩
  · unfold ModbusParser.flow_key
    simp only [if_neg hsrc, hdst]
    rfl
  · rw [req_key_eq, hf]
  · have h := lookup_after_request self now1 now1' now2 req resp hlen hsrc h2 hfk hrk
      (by rw [hf]; exact hfs) hns
    rw [hf] at h
    exact h

/-- C3 (witness): the request and the response of the fan-out scenario, on a
parser with an empty pending table. -/
theorem C3_correlation_witness :
    ModbusParser.flow_key scenario_request =
      scenario_request.src_ip ++ ":" ++ toString scenario_request.src_port ++ "->" ++
        scenario_request.dst_ip ++ ":" ++ "502" ∧
    ModbusParser.flow_key scenario_response = ModbusParser.flow_key scenario_request ∧
    ModbusParser.req_key scenario_request =
      (ModbusParser.trans_id scenario_request <<< 8) ||| 3 ∧
    ModbusParser.req_key scenario_response = ModbusParser.req_key scenario_request ∧
    ((emptyParser.parse 0 0 scenario_request).1.cleanupOldRequests 1).req_info_ptr
        scenario_response =
      some { function_code := 3
             start_address := safe_ntohs scenario_request.payload 8
             timestamp := 0 } :=
  C3_correlation emptyParser 0 0 1 scenario_request scenario_response 3
    (by decide) (by decide) (by decide) (by decide) (by decide) (by decide) (by decide)
    (by decide) (by decide) (by decide) (by decide) (by decide) (by decide) (by decide)

/-- C4: every record that `ModbusParser::parse` emits for an admitted packet has
`len` equal to the decimal rendering of `payload_size - 7`, whatever the
function code and the direction are, the records of a register fan-out
included. -/
theorem C4_len_is_pdu_length (self : ModbusParser) (now now_req : Nat) (info : PacketInfo)
    (_hadm : ModbusParser.isProtocol info = true) :
    ∀ r ∈ (self.parse now now_req info).2, r.len = toString (info.payload_size - 7) := by
  intro r hr
  unfold ModbusParser.parse at hr
  simp only [] at hr
  split_ifs at hr with hlen
  · simp at hr
  · have hd := decode_len ((self.cleanupOldRequests now).storeRequest now_req info) info
      (((self.cleanupOldRequests now).storeRequest now_req info).baseRecord info)
      ((self.cleanupOldRequests now).req_info_ptr info)
    have hb := (baseRecord_fields ((self.cleanupOldRequests now).storeRequest now_req info) info).1
    split at hr
    · rename_i rs heq
      rw [heq] at hd
      rw [hd r hr, hb]
    · rename_i rec heq
      rw [heq] at hd
      rw [finish_len _ _ _ hr, hd, hb]

/-- C4 (witness): the request of the fan-out scenario, whose payload has 12
bytes, gives a record with `len` "5". -/
theorem C4_len_is_pdu_length_witness :
    ModbusParser.isProtocol scenario_request = true ∧
    ∀ r ∈ (emptyParser.parse 0 0 scenario_request).2,
      r.len = toString (scenario_request.payload_size - 7) :=
  ⟨by decide, C4_len_is_pdu_length emptyParser 0 0 scenario_request (by decide)⟩

/-- C6 (counterexample): a read-holding-registers response with one register
and no pending request. The emitted record has `regs.addr` "0" and
`translated_addr` "300001": both are filled, from base address 0. -/
theorem C6_counterexample :
    ModbusParser.isProtocol orphan_response = true ∧
    (emptyParser.cleanupOldRequests 0).m_pending_requests
      (ModbusParser.flow_key orphan_response) (ModbusParser.req_key orphan_response) = none ∧
    (emptyParser.parse 0 0 orphan_response).2.map
      (fun r => (r.modbus_regs_addr, r.modbus_regs_val, r.modbus_translated_addr)) =
      [("0", "10", "300001")] := by
  decide

/-- C6 (amended): for every admitted Modbus response (source port 502) for
which the pending table holds no entry under its flow key and request key:
unless the packet is a response to function code 1..4 without exception bit
with byte count `bc > 0` and at least `bc` data bytes, `parse` emits exactly
one record, whose `regs.addr` and `regs.val` are empty and whose
`translated_addr` is empty unless the packet carries an address of its own;
when it is such a response with `bc >= 2`, `parse` emits `floor(bc / 2)`
records computed from base address 0: record `i` has `regs.addr = i` and
`translated_addr = translateModbusAddress(fc, i)`. -/
theorem C6_correlation_miss (self : ModbusParser) (now now_req : Nat) (info : PacketInfo)
    (hadm : ModbusParser.isProtocol info = true) (h2 : info.src_port = 502)
    (hmiss : (self.cleanupOldRequests now).m_pending_requests
      (ModbusParser.flow_key info) (ModbusParser.req_key info) = none) :
    (¬ (byteAt info.payload 7 ∈ [1, 2, 3, 4] ∧ 0 < byteAt info.payload 8 ∧
        (2 : Int) + (byteAt info.payload 8 : Int) ≤ info.payload_size - 7) →
      ∃ r, (self.parse now now_req info).2 = [r] ∧ r.modbus_regs_addr = "" ∧
        r.modbus_regs_val = "" ∧ (r.modbus_addr = "" → r.modbus_translated_addr = "")) ∧
    ((byteAt info.payload 7 ∈ [1, 2, 3, 4] ∧ 2 ≤ byteAt info.payload 8 ∧
        (2 : Int) + (byteAt info.payload 8 : Int) ≤ info.payload_size - 7) →
      (self.parse now now_req info).2.length = byteAt info.payload 8 / 2 ∧
      0 < byteAt info.payload 8 / 2 ∧
      ∀ i < byteAt info.payload 8 / 2,
        ∃ r, (self.parse now now_req info).2[i]? = some r ∧
          r.modbus_regs_addr = toString i ∧
          r.modbus_regs_val = toString (safe_ntohs info.payload (9 + 2 * i)) ∧
          r.modbus_translated_addr =
            AssetManager.translateModbusAddress (toString (byteAt info.payload 7)) i) := by
  have hsz := (isProtocol_size info hadm).1
  constructor
  · intro hn
    exact parse_not_fanout self now now_req info hsz (fun h => hn ⟨h.1, h.2.2.1, h.2.2.2⟩)
  · rintro ⟨hfc, hbc, hdata⟩
    have hreq : (self.cleanupOldRequests now).req_info_ptr info = none := by
      unfold ModbusParser.req_info_ptr
      rw [if_pos h2, hmiss]
    rw [parse_fanout self now now_req info _ h2 hsz rfl hfc (by omega) hdata, hreq]
    refine ⟨registerRecords_length _ _ _ _ _, by omega, fun i hi => ?_⟩
    obtain ⟨r, hr, ha, hv, ht⟩ := registerRecords_get (self.cleanupOldRequests now) info
      { (self.cleanupOldRequests now).baseRecord info with
        modbus_bc := toString (byteAt info.payload 8) }
      (byteAt info.payload 8 / 2) 0 i hi
    have hfcs : ({ (self.cleanupOldRequests now).baseRecord info with
        modbus_bc := toString (byteAt info.payload 8) } : UnifiedRecord).modbus_fc =
        toString (byteAt info.payload 7) := by
      show ((self.cleanupOldRequests now).baseRecord info).modbus_fc = _
      rw [(baseRecord_fields _ info).2.1, (fc_of_byte info _ rfl hfc).2]
    have hb := byteAt_lt info.payload 8
    have hi' : (0 + i) % 65536 = i := by
      rw [Nat.zero_add, Nat.mod_eq_of_lt (by omega)]
    rw [hfcs, hi'] at ht
    rw [hi'] at ha
    exact ⟨r, hr, ha, hv, ht⟩

/-- C6 (witness): the amended statement at the response of the fan-out
scenario on a parser with an empty pending table. -/
theorem C6_correlation_miss_witness :
    ∃ r, (emptyParser.parse 0 0 scenario_response).2[1]? = some r ∧
      r.modbus_regs_addr = toString 1 ∧
      r.modbus_regs_val = toString (safe_ntohs scenario_response.payload (9 + 2 * 1)) ∧
      r.modbus_translated_addr =
        AssetManager.translateModbusAddress (toString (byteAt scenario_response.payload 7)) 1 :=
  ((C6_correlation_miss emptyParser 0 0 scenario_response (by decide) (by decide)
    (by decide)).2 (by decide)).2.2 1 (by decide)

/-- C7 (failing input): the admitted read-coils response with byte count 1 makes
`parse` emit no record at all, on every parser; an admitted packet makes
`parse` emit nothing exactly when it is a response to function code 1..4
without exception bit whose byte count is 1 and that carries its data byte. -/
theorem C7_coil_response_emits_nothing :
    ModbusParser.isProtocol coil_response = true ∧
    (∀ (self : ModbusParser) (now now_req : Nat),
      (self.parse now now_req coil_response).2 = []) ∧
    (∀ (self : ModbusParser) (now now_req : Nat) (info : PacketInfo),
      ModbusParser.isProtocol info = true →
      ((self.parse now now_req info).2 = [] ↔
        (byteAt info.payload 7 ∈ [1, 2, 3, 4] ∧ info.src_port = 502 ∧
          byteAt info.payload 8 = 1 ∧ 10 ≤ info.payload_size))) := by
  have key : ∀ (self : ModbusParser) (now now_req : Nat) (info : PacketInfo),
      ModbusParser.isProtocol info = true →
      ((self.parse now now_req info).2 = [] ↔
        (byteAt info.payload 7 ∈ [1, 2, 3, 4] ∧ info.src_port = 502 ∧
          byteAt info.payload 8 = 1 ∧ 10 ≤ info.payload_size)) := by
    intro self now now_req info hadm
    have hsz := (isProtocol_size info hadm).1
    by_cases hfan : byteAt info.payload 7 ∈ [1, 2, 3, 4] ∧ info.src_port = 502 ∧
        0 < byteAt info.payload 8 ∧
        (2 : Int) + (byteAt info.payload 8 : Int) ≤ info.payload_size - 7
    · obtain ⟨hfc, h2, hbc, hdata⟩ := hfan
      rw [parse_fanout self now now_req info _ h2 hsz rfl hfc hbc hdata]
      rw [← List.length_eq_zero, registerRecords_length]
      constructor
      · intro h
        exact ⟨hfc, h2, by omega, by omega⟩
      · rintro ⟨-, -, h1, -⟩
        rw [h1]
    · obtain ⟨r, hr, -⟩ := parse_not_fanout self now now_req info hsz hfan
      rw [hr]
      constructor
      · intro h
        exact absurd h (by simp)
      · rintro ⟨hfc, h2, h1, h10⟩
        exact absurd ⟨hfc, h2, by omega, by rw [h1]; omega⟩ hfan
  refine ⟨by decide, fun self now now_req => ?_, key⟩
  exact (key self now now_req coil_response (by decide)).mpr
    ⟨by decide, by decide, by decide, by decide⟩

/-- A function code string of decimal digits that denote a number above the
range of `int` makes `std::stoi` throw, and the result is the empty string. -/
theorem translateModbus_beyond_int (ds : List Char) (addr : Nat) (hne : ds ≠ [])
    (hall : ∀ c ∈ ds, c.isDigit = true) (hv : 2147483647 < digitsValue ds) :
    AssetManager.translateModbusAddress (String.mk ds) addr = "" := by
  unfold AssetManager.translateModbusAddress
  have he : String.mk ds ≠ "" := by
    intro h
    exact hne (congrArg String.data h)
  rw [if_neg he, stoi_digits ds hne hall, if_pos hv]

/-- C9 (counterexample): `%DB2147483648` has the claimed form, with digits that
denote 2147483648, and is mapped to the empty string, not to `D1073741824`. -/
theorem C9_counterexample :
    AssetManager.translateXgtAddress "%DB2147483648" = "" ∧
    AssetManager.translateXgtAddress "%DB2147483648" ≠ "D" ++ toString (2147483648 / 2) := by
  decide

/-- C9 (amended): `translateXgtAddress` maps every string `%` + `DB`, `MB` or
`PB` + one or more decimal digits that denote a number `n` up to 2147483647 to
`D`, `M` or `P` followed by the decimal literal of `floor(n / 2)`, so that
`%DB<2n>` and `%DB<2n+1>` both give `D<n>`; it maps such a string whose digits
denote a larger number to the empty string, and every input that is not of
this form to the empty string. -/
theorem C9_translateXgtAddress :
    (∀ (t p : String) (ds : List Char),
      (t, p) ∈ [("DB", "D"), ("MB", "M"), ("PB", "P")] → ds ≠ [] →
      (∀ c ∈ ds, c.isDigit = true) → digitsValue ds ≤ 2147483647 →
      AssetManager.translateXgtAddress ("%" ++ t ++ String.mk ds) =
        p ++ toString (digitsValue ds / 2)) ∧
    (∀ (t p : String) (ds : List Char),
      (t, p) ∈ [("DB", "D"), ("MB", "M"), ("PB", "P")] → ds ≠ [] →
      (∀ c ∈ ds, c.isDigit = true) → 2147483647 < digitsValue ds →
      AssetManager.translateXgtAddress ("%" ++ t ++ String.mk ds) = "") ∧
    (∀ n : Nat, 2 * n + 1 ≤ 2147483647 →
      AssetManager.translateXgtAddress ("%DB" ++ toString (2 * n)) = "D" ++ toString n ∧
      AssetManager.translateXgtAddress ("%DB" ++ toString (2 * n + 1)) = "D" ++ toString n) ∧
    (∀ s : String,
      (¬ ∃ (t p : String) (ds : List Char),
        (t, p) ∈ [("DB", "D"), ("MB", "M"), ("PB", "P")] ∧ ds ≠ [] ∧
          (∀ c ∈ ds, c.isDigit = true) ∧ s = "%" ++ t ++ String.mk ds) →
      AssetManager.translateXgtAddress s = "") := by
  refine ⟨?_, ?_, ?_, translateXgt_other⟩
  · intro t p ds hp hne hall hv
    rw [translateXgt_form t ds p hp hne hall, if_pos hv]
  · intro t p ds hp hne hall hv
    rw [translateXgt_form t ds p hp hne hall, if_neg (by omega)]
  · intro n hn
    obtain ⟨hne0, hall0, hval0⟩ := toString_data_spec (2 * n)
    obtain ⟨hne1, hall1, hval1⟩ := toString_data_spec (2 * n + 1)
    have e0 : "%DB" ++ toString (2 * n) = "%" ++ "DB" ++ String.mk (toString (2 * n)).data := rfl
    have e1 : "%DB" ++ toString (2 * n + 1) =
        "%" ++ "DB" ++ String.mk (toString (2 * n + 1)).data := rfl
    rw [e0, e1, translateXgt_form "DB" _ "D" (by simp) hne0 hall0,
      translateXgt_form "DB" _ "D" (by simp) hne1 hall1, hval0, hval1,
      if_pos (by omega), if_pos (by omega)]
    have h0 : 2 * n / 2 = n := by omega
    have h1 : (2 * n + 1) / 2 = n := by omega
    rw [h0, h1]
    exact ⟨rfl, rfl⟩

/-- C9 (witness): the amended statement at `%DB007`, at `%MB9999999999`, at
`%DB10` and `%DB11`, and at `DB10`, which lacks the leading `%`. -/
theorem C9_translateXgtAddress_witness :
    AssetManager.translateXgtAddress "%DB007" = "D3" ∧
    AssetManager.translateXgtAddress "%MB9999999999" = "" ∧
    (AssetManager.translateXgtAddress "%DB10" = "D5" ∧
      AssetManager.translateXgtAddress "%DB11" = "D5") ∧
    AssetManager.translateXgtAddress "DB10" = "" :=
  ⟨C9_translateXgtAddress.1 "DB" "D" ['0', '0', '7'] (by simp) (by simp) (by decide) (by decide),
   C9_translateXgtAddress.2.1 "MB" "M" "9999999999".data (by simp) (by decide) (by decide)
     (by decide),
   C9_translateXgtAddress.2.2.1 5 (by decide),
   C9_translateXgtAddress.2.2.2 "DB10" (by
     rintro ⟨t, p, ds, hp, -, -, hs⟩
     simp only [List.mem_cons, Prod.mk.injEq, List.mem_singleton, List.not_mem_nil,
       or_false] at hp
     have hd := congrArg (fun x : String => x.data.head?) hs
     rcases hp with ⟨rfl, -⟩ | ⟨rfl, -⟩ | ⟨rfl, -⟩ <;> simp at hd)⟩

/-- C10: `translateS7Address(area, db, addr)` is `"DB" + db + "," + addr` when
the area string is exactly `"132"` and the empty string for every other area
string. -/
theorem C10_translateS7Address (area_str db_str addr_str : String) :
    AssetManager.translateS7Address area_str db_str addr_str =
      if area_str = "132" then "DB" ++ db_str ++ "," ++ addr_str else "" := by
  unfold AssetManager.translateS7Address
  by_cases h : area_str = "132" <;> simp [h]

/-! ## IP normaliser: auxiliary facts -/

/-- The test `hasSubstr` holds exactly when the pattern is a contiguous part of
the text. -/
theorem hasSubstr_iff (pat l : List Char) : hasSubstr pat l = true ↔ pat <:+: l := by
  induction l with
  | nil =>
    unfold hasSubstr
    rw [List.isPrefixOf_iff_prefix, List.prefix_nil, List.infix_nil]
  | cons c cs ih =>
    unfold hasSubstr
    rw [Bool.or_eq_true, List.isPrefixOf_iff_prefix, ih, List.infix_cons_iff]

theorem hasSubstr_false_of_infix (pat l l2 : List Char) (h : l <:+: l2)
    (h2 : hasSubstr pat l2 = false) : hasSubstr pat l = false := by
  cases hh : hasSubstr pat l with
  | false => rfl
  | true =>
    have := (hasSubstr_iff pat l2).2 (((hasSubstr_iff pat l).1 hh).trans h)
    rw [this] at h2
    exact absurd h2 (by decide)

/-- The characters of `trim str` are a contiguous part of `str`. -/
theorem trim_part (str : String) : (trim str).data <:+: str.data := by
  unfold trim
  have h1 : ((str.data.dropWhile isTrimChar).reverse.dropWhile isTrimChar).reverse <+:
      str.data.dropWhile isTrimChar := by
    have := List.dropWhile_suffix isTrimChar (l := (str.data.dropWhile isTrimChar).reverse)
    have := List.reverse_prefix.2 this
    rwa [List.reverse_reverse] at this
  exact h1.isInfix.trans (List.dropWhile_suffix isTrimChar).isInfix

theorem dropWhile_eq_self_of_head (p : Char → Bool) (b a : List Char) (hb : b <+: a)
    (ha : ∀ c t, a = c :: t → p c = false) : b.dropWhile p = b := by
  cases b with
  | nil => rfl
  | cons c t =>
    obtain ⟨s, hs⟩ := hb
    have := ha c (t ++ s) (by rw [← hs]; rfl)
    rw [List.dropWhile_cons, this]
    rfl

theorem dropWhile_head (p : Char → Bool) (l : List Char) :
    ∀ c t, l.dropWhile p = c :: t → p c = false := by
  induction l with
  | nil => intro c t h; simp at h
  | cons x xs ih =>
    intro c t h
    rw [List.dropWhile_cons] at h
    by_cases hx : p x = true
    · rw [if_pos hx] at h
      exact ih c t h
    · rw [if_neg hx] at h
      injection h with h1 h2
      rw [← h1]
      simpa using hx

/-- The helper `trim` is idempotent. -/
theorem trim_trim (str : String) : trim (trim str) = trim str := by
  unfold trim
  simp only []
  have hpre : ((str.data.dropWhile isTrimChar).reverse.dropWhile isTrimChar).reverse <+:
      str.data.dropWhile isTrimChar := by
    have := List.dropWhile_suffix isTrimChar (l := (str.data.dropWhile isTrimChar).reverse)
    have := List.reverse_prefix.2 this
    rwa [List.reverse_reverse] at this
  rw [dropWhile_eq_self_of_head isTrimChar _ _ hpre (dropWhile_head isTrimChar str.data),
    List.reverse_reverse,
    dropWhile_eq_self_of_head isTrimChar _ _ (List.prefix_refl _)
      (dropWhile_head isTrimChar (str.data.dropWhile isTrimChar).reverse)]

/-- The characters of `normalizeIp ip` are a contiguous part of the text of
`ip` with commas replaced and cut at the first `/`. -/
theorem normalizeIp_part (ip : String) :
    (normalizeIp ip).data <:+:
      (ip.data.map fun c => if c = ',' then '.' else c).takeWhile fun c => c ≠ '/' := by
  unfold normalizeIp
  simp only []
  split_ifs
  · refine (trim_part _).trans ?_
    refine (List.takeWhile_prefix _).isInfix.trans ?_
    refine (trim_part _).trans ?_
    exact ((List.drop_suffix 1 _).trans (List.dropWhile_suffix _)).isInfix
  · exact trim_part _
  · exact trim_part _

/-- The result of `normalizeIp` contains neither a comma nor a slash. -/
theorem normalizeIp_clean (ip : String) :
    ∀ c ∈ (normalizeIp ip).data, c ≠ ',' ∧ c ≠ '/' := by
  intro c hc
  have ht := (normalizeIp_part ip).subset hc
  refine ⟨?_, ?_⟩
  · have hm := (List.takeWhile_sublist _).subset ht
    rw [List.mem_map] at hm
    obtain ⟨d, _, hd⟩ := hm
    rw [← hd]
    split_ifs with h
    · decide
    · exact h
  · have := List.mem_takeWhile_imp ht
    simpa using this

/-- On a text without comma and slash that does not contain `modbus:`,
`normalizeIp` is `trim`. -/
theorem normalizeIp_of_clean (y : String) (hclean : ∀ c ∈ y.data, c ≠ ',' ∧ c ≠ '/')
    (hno : hasSubstr "modbus:".data y.data = false) : normalizeIp y = trim y := by
  have hmap : (y.data.map fun c => if c = ',' then '.' else c) = y.data := by
    conv_rhs => rw [← List.map_id y.data]
    apply List.map_congr_left
    intro c hc
    rw [if_neg (hclean c hc).1]
    rfl
  have htake : (y.data.takeWhile fun c => c ≠ '/') = y.data := by
    rw [List.takeWhile_eq_self_iff]
    intro c hc
    simpa using (hclean c hc).2
  unfold normalizeIp
  simp only [hmap, htake, hno, Bool.false_eq_true, if_false]

/-- On a text without comma and slash that contains `modbus:`, `normalizeIp`
gives a shorter text. -/
theorem normalizeIp_of_clean_modbus (y : String) (hclean : ∀ c ∈ y.data, c ≠ ',' ∧ c ≠ '/')
    (hyes : hasSubstr "modbus:".data y.data = true) :
    (normalizeIp y).data.length < y.data.length := by
  have hmap : (y.data.map fun c => if c = ',' then '.' else c) = y.data := by
    conv_rhs => rw [← List.map_id y.data]
    apply List.map_congr_left
    intro c hc
    rw [if_neg (hclean c hc).1]
    rfl
  have htake : (y.data.takeWhile fun c => c ≠ '/') = y.data := by
    rw [List.takeWhile_eq_self_iff]
    intro c hc
    simpa using (hclean c hc).2
  have hcolon : ':' ∈ y.data :=
    ((hasSubstr_iff _ _).1 hyes).subset (by decide)
  have hany : (y.data.any fun c => c = ':') = true := by
    rw [List.any_eq_true]
    exact ⟨':', hcolon, by simp⟩
  have hdrop : ((y.data.dropWhile fun c => c ≠ ':').drop 1).length < y.data.length := by
    have hne : (y.data.dropWhile fun c => c ≠ ':') ≠ [] := by
      intro h
      rw [List.dropWhile_eq_nil_iff] at h
      have := h ':' hcolon
      simp at this
    have h1 : (y.data.dropWhile fun c => c ≠ ':').length ≤ y.data.length :=
      (List.dropWhile_suffix _).length_le
    have h2 : 0 < (y.data.dropWhile fun c => c ≠ ':').length := List.length_pos.2 hne
    rw [List.length_drop]
    omega
  unfold normalizeIp
  simp only [hmap, htake, hyes, hany, if_true]
  refine lt_of_le_of_lt ?_ hdrop
  refine (trim_part _).length_le.trans ?_
  refine (List.takeWhile_prefix _).length_le.trans ?_
  exact (trim_part _).length_le

/-- A text that does not contain `modbus:` has a normal form that does not
contain it either. -/
theorem normalizeIp_no_modbus (x : String) (h : hasSubstr "modbus:".data x.data = false) :
    hasSubstr "modbus:".data (normalizeIp x).data = false := by
  have hm : hasSubstr "modbus:".data (x.data.map fun c => if c = ',' then '.' else c) =
      false := by
    cases hh : hasSubstr "modbus:".data (x.data.map fun c => if c = ',' then '.' else c) with
    | false => rfl
    | true =>
      obtain ⟨s, t, hst⟩ := (hasSubstr_iff _ _).1 hh
      obtain ⟨l1, l2, hx, h1, h2⟩ := List.map_eq_append_iff.1 hst.symm
      obtain ⟨l3, l4, hl1, h3, h4⟩ := List.map_eq_append_iff.1 h1
      have hl4 : l4 = "modbus:".data := by
        rw [← h4]
        conv_lhs => rw [← List.map_id l4]
        apply List.map_congr_left
        intro c hc
        have hmem : (if c = ',' then '.' else c) ∈ "modbus:".data := by
          rw [← h4]
          exact List.mem_map_of_mem _ hc
        by_cases hcc : c = ','
        · rw [if_pos hcc] at hmem
          exact absurd hmem (by decide)
        · rw [if_neg hcc]
          rfl
      have : "modbus:".data <:+: x.data := ⟨l3, l2, by rw [hx, hl1, hl4]⟩
      rw [(hasSubstr_iff _ _).2 this] at h
      exact absurd h (by decide)
  exact hasSubstr_false_of_infix _ _ _
    ((normalizeIp_part x).trans (List.takeWhile_prefix _).isInfix) hm

/-- C11 (counterexample): a text with a doubled `modbus:` marker is normalised
to a text that a second pass changes again. -/
theorem C11_counterexample :
    normalizeIp "modbus:modbus:1.2.3.4" = "modbus:1.2.3.4" ∧
    normalizeIp (normalizeIp "modbus:modbus:1.2.3.4") = "1.2.3.4" ∧
    normalizeIp (normalizeIp "modbus:modbus:1.2.3.4") ≠ normalizeIp "modbus:modbus:1.2.3.4" := by
  decide

/-- C11: `normalizeIp` is idempotent at x exactly when the normal form of x
does not contain `modbus:`; this is the case for every x that does not contain
`modbus:` itself, and the normal form of a normal form without `modbus:` is a
fixed point. -/
theorem C11_normalizeIp_idempotent :
    (∀ x : String, normalizeIp (normalizeIp x) = normalizeIp x ↔
      hasSubstr "modbus:".data (normalizeIp x).data = false) ∧
    (∀ x : String, hasSubstr "modbus:".data x.data = false →
      normalizeIp (normalizeIp x) = normalizeIp x) ∧
    normalizeIp (normalizeIp "modbus: 192,168.10.25/502") =
      normalizeIp "modbus: 192,168.10.25/502" ∧
    normalizeIp "modbus: 192,168.10.25/502" = "192.168.10.25" := by
  have hidem : ∀ x : String, hasSubstr "modbus:".data (normalizeIp x).data = false →
      normalizeIp (normalizeIp x) = normalizeIp x := by
    intro x hno
    rw [normalizeIp_of_clean _ (normalizeIp_clean x) hno]
    have : ∃ s, normalizeIp x = trim s := ⟨_, rfl⟩
    obtain ⟨s, hs⟩ := this
    rw [hs, trim_trim]
  refine ⟨fun x => ⟨fun heq => ?_, hidem x⟩, fun x h => hidem x (normalizeIp_no_modbus x h),
    by decide, by decide⟩
  cases hh : hasSubstr "modbus:".data (normalizeIp x).data with
  | false => rfl
  | true =>
    have hlt := normalizeIp_of_clean_modbus _ (normalizeIp_clean x) hh
    rw [heq] at hlt
    exact absurd hlt (lt_irrefl _)

/-! ## Canonical flow id and frame demultiplexer -/

/-- C12: the canonical flow id is direction-independent,
`get_canonical_flow_id(a, p, b, q) = get_canonical_flow_id(b, q, a, p)`, and
the result lists first the endpoint that is smaller under the order by IP
string, then by numeric port. -/
theorem C12_canonical_flow_id (a b : String) (p q : Nat) :
    get_canonical_flow_id a p b q = get_canonical_flow_id b q a p ∧
    get_canonical_flow_id a p b q =
      if a < b ∨ (a = b ∧ p ≤ q) then
        a ++ ":" ++ toString p ++ "-" ++ b ++ ":" ++ toString q
      else
        b ++ ":" ++ toString q ++ "-" ++ a ++ ":" ++ toString p := by
  unfold get_canonical_flow_id
  rcases lt_trichotomy a b with h | h | h
  · have h1 : ¬ (a > b ∨ (a = b ∧ p > q)) := by
      rintro (h' | ⟨h', -⟩)
      · exact lt_asymm h h'
      · exact absurd h' (ne_of_lt h)
    have h2 : b > a ∨ (b = a ∧ q > p) := Or.inl h
    have h3 : a < b ∨ (a = b ∧ p ≤ q) := Or.inl h
    rw [if_neg h1, if_pos h2, if_pos h3]
    exact ⟨rfl, rfl⟩
  · subst h
    rcases Nat.lt_trichotomy p q with hp | hp | hp
    · have h1 : ¬ (a > a ∨ (a = a ∧ p > q)) := by
        rintro (h' | ⟨-, h'⟩)
        · exact lt_irrefl a h'
        · omega
      have h2 : a > a ∨ (a = a ∧ q > p) := Or.inr ⟨rfl, hp⟩
      have h3 : a < a ∨ (a = a ∧ p ≤ q) := Or.inr ⟨rfl, by omega⟩
      rw [if_neg h1, if_pos h2, if_pos h3]
      exact ⟨rfl, rfl⟩
    · subst hp
      have h1 : ¬ (a > a ∨ (a = a ∧ p > p)) := by
        rintro (h' | ⟨-, h'⟩)
        · exact lt_irrefl a h'
        · omega
      have h3 : a < a ∨ (a = a ∧ p ≤ p) := Or.inr ⟨rfl, le_refl p⟩
      rw [if_neg h1, if_pos h3]
      exact ⟨rfl, rfl⟩
    · have h1 : a > a ∨ (a = a ∧ p > q) := Or.inr ⟨rfl, hp⟩
      have h2 : ¬ (a > a ∨ (a = a ∧ q > p)) := by
        rintro (h' | ⟨-, h'⟩)
        · exact lt_irrefl a h'
        · omega
      have h3 : ¬ (a < a ∨ (a = a ∧ p ≤ q)) := by
        rintro (h' | ⟨-, h'⟩)
        · exact lt_irrefl a h'
        · omega
      rw [if_pos h1, if_neg h2, if_neg h3]
      exact ⟨rfl, rfl⟩
  · have h1 : a > b ∨ (a = b ∧ p > q) := Or.inl h
    have h2 : ¬ (b > a ∨ (b = a ∧ q > p)) := by
      rintro (h' | ⟨h', -⟩)
      · exact lt_asymm h h'
      · exact absurd h' (ne_of_lt h)
    have h3 : ¬ (a < b ∨ (a = b ∧ p ≤ q)) := by
      rintro (h' | ⟨h', -⟩)
      · exact lt_asymm h h'
      · exact absurd h'.symm (ne_of_lt h)
    rw [if_pos h1, if_neg h2, if_neg h3]
    exact ⟨rfl, rfl⟩

theorem demux_tcp_size (header : pcap_pkthdr) (packet : List Nat) (info : PacketInfo)
    (h : demux header packet = Demux.tcp info) :
    info.payload_size =
      (ip_total_len packet : Int) - (ip_header_len packet : Int) - (tcp_header_len packet : Int) := by
  unfold demux at h
  simp only [] at h
  split_ifs at h
  injection h with h
  rw [← h]

theorem demux_udp_size (header : pcap_pkthdr) (packet : List Nat) (info : PacketInfo)
    (h : demux header packet = Demux.udp info) :
    info.payload_size = (ip_total_len packet : Int) - (ip_header_len packet : Int) - 8 := by
  unfold demux at h
  simp only [] at h
  split_ifs at h
  injection h with h
  rw [← h]

/-- C16: for every IPv4/TCP frame that `parsePacket` accepts, the payload size
handed to the parsers is `ip_total_length - 4*IHL - 4*tcp_data_offset`, and for
UDP `ip_total_length - 4*IHL - 8`; it is computed from the bytes of the frame
and does not depend on the captured length. For the 64-byte captured ACK frame
with IP Total Length 40 and 20-byte IP and TCP headers the payload size is 0,
while the captured length would give 64 - 14 - 20 - 20 = 10. -/
theorem C16_payload_size_from_ip_total_length (header : pcap_pkthdr) (packet : List Nat) :
    (∀ info, demux header packet = Demux.tcp info →
      info.payload_size =
        (safe_ntohs packet 16 : Int) - 4 * (byteAt packet 14 % 16 : Nat) -
          4 * (byteAt packet (14 + byteAt packet 14 % 16 * 4 + 12) / 16 : Nat)) ∧
    (∀ info, demux header packet = Demux.udp info →
      info.payload_size = (safe_ntohs packet 16 : Int) - 4 * (byteAt packet 14 % 16 : Nat) - 8) ∧
    (∀ header' info info', demux header packet = Demux.tcp info →
      demux header' packet = Demux.tcp info' → info.payload_size = info'.payload_size) ∧
    (∀ header' info info', demux header packet = Demux.udp info →
      demux header' packet = Demux.udp info' → info.payload_size = info'.payload_size) ∧
    (∃ info, demux ack_header ack_frame = Demux.tcp info ∧ info.payload_size = 0 ∧
      (ack_header.caplen : Int) - 14 - 20 - 20 = 10) := by
  refine ⟨fun info h => ?_, fun info h => ?_, fun header' info info' h h' => ?_,
    fun header' info info' h h' => ?_, ?_⟩
  · rw [demux_tcp_size header packet info h]
    simp only [ip_total_len, ip_header_len, tcp_header_len]
    push_cast
    ring
  · rw [demux_udp_size header packet info h]
    simp only [ip_total_len, ip_header_len]
    push_cast
    ring
  · rw [demux_tcp_size header packet info h, demux_tcp_size header' packet info' h']
  · rw [demux_udp_size header packet info h, demux_udp_size header' packet info' h']
  · refine ⟨_, rfl, ?_, by decide⟩
    decide

/-! ## Dispatch -/

/-- The first dispatch loop on the registered parsers: the parsers are asked in
the order modbus, s7comm, xgt_fen, dnp3, dhcp, dns, ethernet_ip, iec104, mms,
opc_ua, bacnet. -/
theorem find_claims_registry (info : PacketInfo) :
    (createParsersForWorker.find? (claims info)).map (fun p => p.getName) =
      firstClaiming_spec info := by
  unfold firstClaiming_spec
  have hc : ∀ (n : String) (f : PacketInfo → Bool),
      claims info ⟨n, f⟩ = if n = "tcp_session" ∨ n = "unknown" ∨ n = "arp" then false
        else f info := fun _ _ => rfl
  simp only [createParsersForWorker, List.find?_cons, hc, ArpParser.getName,
    TcpSessionParser.getName, ModbusParser.getName, S7CommParser.getName, XgtFenParser.getName,
    Dnp3Parser.getName, DnsParser.getName, UnknownParser.getName]
  simp only [show ("arp" : String) = "tcp_session" ∨ ("arp" : String) = "unknown" ∨
      ("arp" : String) = "arp" from by decide,
    show ("tcp_session" : String) = "tcp_session" ∨ ("tcp_session" : String) = "unknown" ∨
      ("tcp_session" : String) = "arp" from by decide,
    show ("unknown" : String) = "tcp_session" ∨ ("unknown" : String) = "unknown" ∨
      ("unknown" : String) = "arp" from by decide,
    show ¬ (("modbus" : String) = "tcp_session" ∨ ("modbus" : String) = "unknown" ∨
      ("modbus" : String) = "arp") from by decide,
    show ¬ (("s7comm" : String) = "tcp_session" ∨ ("s7comm" : String) = "unknown" ∨
      ("s7comm" : String) = "arp") from by decide,
    show ¬ (("xgt_fen" : String) = "tcp_session" ∨ ("xgt_fen" : String) = "unknown" ∨
      ("xgt_fen" : String) = "arp") from by decide,
    show ¬ (("dnp3" : String) = "tcp_session" ∨ ("dnp3" : String) = "unknown" ∨
      ("dnp3" : String) = "arp") from by decide,
    show ¬ (("dhcp" : String) = "tcp_session" ∨ ("dhcp" : String) = "unknown" ∨
      ("dhcp" : String) = "arp") from by decide,
    show ¬ (("dns" : String) = "tcp_session" ∨ ("dns" : String) = "unknown" ∨
      ("dns" : String) = "arp") from by decide,
    show ¬ (("ethernet_ip" : String) = "tcp_session" ∨ ("ethernet_ip" : String) = "unknown" ∨
      ("ethernet_ip" : String) = "arp") from by decide,
    show ¬ (("iec104" : String) = "tcp_session" ∨ ("iec104" : String) = "unknown" ∨
      ("iec104" : String) = "arp") from by decide,
    show ¬ (("mms" : String) = "tcp_session" ∨ ("mms" : String) = "unknown" ∨
      ("mms" : String) = "arp") from by decide,
    show ¬ (("opc_ua" : String) = "tcp_session" ∨ ("opc_ua" : String) = "unknown" ∨
      ("opc_ua" : String) = "arp") from by decide,
    show ¬ (("bacnet" : String) = "tcp_session" ∨ ("bacnet" : String) = "unknown" ∨
      ("bacnet" : String) = "arp") from by decide,
    if_true, if_false, List.find?_nil]
  cases ModbusParser.isProtocol info
  swap
  · rfl
  cases S7CommParser.isProtocol info
  swap
  · rfl
  cases XgtFenParser.isProtocol info
  swap
  · rfl
  cases Dnp3Parser.isProtocol info
  swap
  · rfl
  cases GenericParser.isProtocol "dhcp" info
  swap
  · rfl
  cases DnsParser.isProtocol info
  swap
  · rfl
  cases GenericParser.isProtocol "ethernet_ip" info
  swap
  · rfl
  cases GenericParser.isProtocol "iec104" info
  swap
  · rfl
  cases GenericParser.isProtocol "mms" info
  swap
  · rfl
  cases GenericParser.isProtocol "opc_ua" info
  swap
  · rfl
  cases GenericParser.isProtocol "bacnet" info <;> rfl

theorem callFirst_eq_none (q : ProtocolParser → Bool) (now now_req : Nat) (info : PacketInfo)
    (ps : List ProtocolParser) (h : ps.find? q = none) :
    callFirst q now now_req info ps = none := by
  induction ps with
  | nil => rfl
  | cons p ps ih =>
    rw [List.find?_cons] at h
    cases hq : q p with
    | true => rw [hq] at h; exact absurd h (by simp)
    | false =>
      rw [hq] at h
      simp only [callFirst, hq, Bool.false_eq_true, if_false, ih h]

theorem callFirst_isSome (q : ProtocolParser → Bool) (now now_req : Nat) (info : PacketInfo)
    (ps : List ProtocolParser) (p : ProtocolParser) (h : ps.find? q = some p) :
    (callFirst q now now_req info ps).isSome = true := by
  induction ps with
  | nil => exact absurd h (by simp)
  | cons x ps ih =>
    rw [List.find?_cons] at h
    cases hq : q x with
    | true => simp [callFirst, hq]
    | false =>
      rw [hq] at h
      have := ih h
      simp only [callFirst, hq, Bool.false_eq_true, if_false]
      cases hcf : callFirst q now now_req info ps with
      | none => rw [hcf] at this; exact absurd this (by simp)
      | some r => rfl

/-- With distinct parser names, calling the first parser that passes the test
is calling the parser that bears the name of that parser. -/
theorem callFirst_by_name (q : ProtocolParser → Bool) (now now_req : Nat) (info : PacketInfo)
    (ps : List ProtocolParser) (p : ProtocolParser)
    (hnd : (ps.map fun x => x.getName).Nodup) (h : ps.find? q = some p) :
    callFirst q now now_req info ps =
      callFirst (fun x => x.getName = p.getName) now now_req info ps := by
  induction ps with
  | nil => exact absurd h (by simp)
  | cons x ps ih =>
    rw [List.find?_cons] at h
    rw [List.map_cons, List.nodup_cons] at hnd
    cases hq : q x with
    | true =>
      rw [hq] at h
      injection h with h
      subst h
      simp [callFirst, hq]
    | false =>
      rw [hq] at h
      have hp : p ∈ ps := List.mem_of_find?_eq_some h
      have hne : ¬ (x.getName = p.getName) := by
        intro he
        exact hnd.1 (he ▸ List.mem_map_of_mem (fun x => x.getName) hp)
      simp only [callFirst, hq, Bool.false_eq_true, if_false, hne, decide_False, ih hnd.2 h]

theorem registry_names_nodup : (createParsersForWorker.map fun p => p.getName).Nodup := by
  decide

theorem find_claims_objects (ps : List ProtocolParser) (info : PacketInfo)
    (h : ps.map ProtocolParser.entry = createParsersForWorker) :
    (ps.find? fun p => claims info p.entry).map (fun p => p.getName) =
      firstClaiming_spec info := by
  rw [← find_claims_registry, ← h, List.find?_map, Option.map_map]
  rfl

theorem worker_names (ps : List ProtocolParser)
    (h : ps.map ProtocolParser.entry = createParsersForWorker) :
    (ps.map fun x => x.getName) = createParsersForWorker.map fun p => p.getName := by
  rw [← h, List.map_map]
  rfl

/-- C13 (counterexample): a TCP packet from port 502 to port 102 that passes the
S7Comm admission and also the Modbus admission. The dispatch calls the Modbus
parser, which is registered before the S7Comm parser, not `s7comm`. -/
theorem C13_counterexample :
    s7_on_modbus_port.protocol = 6 ∧ s7_on_modbus_port.dst_port = 102 ∧
    S7CommParser.isProtocol s7_on_modbus_port = true ∧
    dispatchTcp createParsersForWorker s7_on_modbus_port = some "modbus" ∧
    dispatchTcp createParsersForWorker s7_on_modbus_port ≠ some "s7comm" := by
  decide

/-- C13 (amended): for every TCP or UDP `PacketInfo` the dispatch calls `parse`
on exactly one parser: the first, in the registration order modbus, s7comm,
xgt_fen, dnp3, dhcp, dns, ethernet_ip, iec104, mms, opc_ua, bacnet, whose
`isProtocol` answers true (`tcp_session`, `unknown` and `arp` are never asked),
and if none answers true the `tcp_session` parser for TCP and the `unknown`
parser for UDP; on the parser objects of a worker this is one call of `parse`,
on the parser of that name. Consequently a TCP port-102 packet that passes the
S7Comm admission is never handled by `mms`; it is handled by `s7comm` unless
the Modbus parser, which is asked first, admits it as well. -/
theorem C13_dispatch_order :
    (∀ info : PacketInfo,
      dispatchTcp createParsersForWorker info = some (dispatchTcp_spec info) ∧
      dispatchUdp createParsersForWorker info = some (dispatchUdp_spec info)) ∧
    (∀ (ps : List ProtocolParser) (now now_req : Nat) (info : PacketInfo),
      ps.map ProtocolParser.entry = createParsersForWorker →
      (callFirst (fun p => p.getName = dispatchTcp_spec info) now now_req info ps).isSome = true ∧
      dispatch "tcp_session" ps now now_req info =
        (callFirst (fun p => p.getName = dispatchTcp_spec info) now now_req info ps).getD
          (ps, []) ∧
      (callFirst (fun p => p.getName = dispatchUdp_spec info) now now_req info ps).isSome = true ∧
      dispatch "unknown" ps now now_req info =
        (callFirst (fun p => p.getName = dispatchUdp_spec info) now now_req info ps).getD
          (ps, [])) ∧
    (∀ info : PacketInfo,
      info.protocol = 6 → (info.src_port = 102 ∨ info.dst_port = 102) →
      S7CommParser.isProtocol info = true →
      dispatchTcp createParsersForWorker info ≠ some "mms" ∧
      (ModbusParser.isProtocol info = false →
        dispatchTcp createParsersForWorker info = some "s7comm") ∧
      (ModbusParser.isProtocol info = true →
        dispatchTcp createParsersForWorker info = some "modbus")) := by
  have hname : ∀ info : PacketInfo,
      dispatchTcp createParsersForWorker info = some (dispatchTcp_spec info) ∧
      dispatchUdp createParsersForWorker info = some (dispatchUdp_spec info) := by
    intro info
    have hf := find_claims_registry info
    unfold dispatchTcp dispatchUdp dispatchTcp_spec dispatchUdp_spec
    cases hfi : createParsersForWorker.find? (claims info) with
    | none =>
      rw [hfi] at hf
      rw [← hf]
      exact ⟨by decide, by decide⟩
    | some p =>
      rw [hfi] at hf
      rw [← hf]
      exact ⟨rfl, rfl⟩
  have hobj : ∀ (fallback : String) (ps : List ProtocolParser) (now now_req : Nat)
      (info : PacketInfo), ps.map ProtocolParser.entry = createParsersForWorker →
      (createParsersForWorker.find? fun p => p.getName = fallback).isSome = true →
      (callFirst (fun p => p.getName = (firstClaiming_spec info).getD fallback)
        now now_req info ps).isSome = true ∧
      dispatch fallback ps now now_req info =
        (callFirst (fun p => p.getName = (firstClaiming_spec info).getD fallback)
          now now_req info ps).getD (ps, []) := by
    intro fallback ps now now_req info hps hfb
    have hf := find_claims_objects ps info hps
    have hnd : (ps.map fun x => x.getName).Nodup := by
      rw [worker_names ps hps]; exact registry_names_nodup
    unfold dispatch
    cases hfi : ps.find? (fun p => claims info p.entry) with
    | none =>
      rw [hfi] at hf
      rw [← hf, callFirst_eq_none _ now now_req info ps hfi]
      simp only [Option.map_none', Option.getD_none]
      have hsome : (ps.find? fun p => decide (p.getName = fallback)).isSome = true := by
        rw [← hps, List.find?_map] at hfb
        simpa [Function.comp, ProtocolParser.entry] using hfb
      cases hfind : ps.find? (fun p => decide (p.getName = fallback)) with
      | none => rw [hfind] at hsome; exact absurd hsome (by simp)
      | some p =>
        have hs := callFirst_isSome _ now now_req info ps p hfind
        refine ⟨hs, ?_⟩
        cases hcf : callFirst (fun p => decide (p.getName = fallback)) now now_req info ps with
        | none => rw [hcf] at hs; exact absurd hs (by simp)
        | some r => rfl
    | some p =>
      rw [hfi] at hf
      rw [← hf]
      simp only [Option.map_some', Option.getD_some]
      have hs := callFirst_isSome _ now now_req info ps p hfi
      rw [callFirst_by_name _ now now_req info ps p hnd hfi] at hs ⊢
      refine ⟨hs, ?_⟩
      cases hcf : callFirst (fun x => decide (x.getName = p.getName)) now now_req info ps with
      | none => rw [hcf] at hs; exact absurd hs (by simp)
      | some r => rfl
  refine ⟨hname, ?_, ?_⟩
  · intro ps now now_req info hps
    obtain ⟨h1, h2⟩ := hobj "tcp_session" ps now now_req info hps (by decide)
    obtain ⟨h3, h4⟩ := hobj "unknown" ps now now_req info hps (by decide)
    exact ⟨h1, h2, h3, h4⟩
  · intro info _ _ hs7
    rw [(hname info).1]
    unfold dispatchTcp_spec firstClaiming_spec
    cases hm : ModbusParser.isProtocol info with
    | true => simp
    | false => simp [hs7]

/-! ## Common record fields -/

theorem createUnifiedRecord_common (name : String) (am : Option AssetManager)
    (info : PacketInfo) (direction : String) :
    (BaseProtocolParser.createUnifiedRecord name am info direction).common =
      info.common name direction := by
  unfold BaseProtocolParser.createUnifiedRecord
  cases am with
  | none => rfl
  | some a =>
    simp only []
    split_ifs <;> rfl

theorem stateless_parse_common (am : Option AssetManager) (info : PacketInfo)
    (r : UnifiedRecord) :
    (r ∈ ArpParser.parse am info → ∃ d, r.common = info.common ArpParser.getName d) ∧
    (r ∈ TcpSessionParser.parse am info →
      ∃ d, r.common = info.common TcpSessionParser.getName d) ∧
    (r ∈ Dnp3Parser.parse am info → ∃ d, r.common = info.common Dnp3Parser.getName d) ∧
    (r ∈ DnsParser.parse am info → ∃ d, r.common = info.common DnsParser.getName d) ∧
    (r ∈ UnknownParser.parse am info → ∃ d, r.common = info.common UnknownParser.getName d) ∧
    (∀ m_name, r ∈ GenericParser.parse m_name am info →
      ∃ d, r.common = info.common (GenericParser.getName m_name) d) := by
  refine ⟨?_, ?_, ?_, ?_, ?_, ?_⟩
  · intro h
    unfold ArpParser.parse at h
    split_ifs at h
    · simp at h
    · simp only [List.mem_singleton] at h
      exact ⟨_, by rw [h]; exact createUnifiedRecord_common _ _ _ _⟩
  · intro h
    unfold TcpSessionParser.parse at h
    simp only [List.mem_singleton] at h
    exact ⟨_, by rw [h]; exact createUnifiedRecord_common _ _ _ _⟩
  · intro h
    unfold Dnp3Parser.parse at h
    simp only [List.mem_singleton] at h
    exact ⟨_, by rw [h]; exact createUnifiedRecord_common _ _ _ _⟩
  · intro h
    unfold DnsParser.parse at h
    split_ifs at h
    · simp at h
    · simp only [List.mem_singleton] at h
      exact ⟨_, by rw [h]; exact createUnifiedRecord_common _ _ _ _⟩
  · intro h
    unfold UnknownParser.parse at h
    simp only [List.mem_singleton] at h
    exact ⟨_, by rw [h]; exact createUnifiedRecord_common _ _ _ _⟩
  · intro m_name h
    unfold GenericParser.parse at h
    simp only [List.mem_singleton] at h
    exact ⟨_, by rw [h]; exact createUnifiedRecord_common _ _ _ _⟩

theorem modbus_decode_common (self : ModbusParser) (info : PacketInfo) (record : UnifiedRecord)
    (req : Option ModbusRequestInfo) :
    match self.decode info record req with
    | Sum.inl rs => ∀ r ∈ rs, r.common = record.common
    | Sum.inr r => r.common = record.common := by
  unfold ModbusParser.decode
  simp only []
  split_ifs <;> first
    | rfl
    | (intro r hr
       unfold ModbusParser.registerRecords at hr
       simp only [List.mem_map, List.mem_range] at hr
       obtain ⟨i, -, rfl⟩ := hr
       rfl)

theorem modbus_finish_common (self : ModbusParser) (record r : UnifiedRecord)
    (h : r ∈ self.finish record) : r.common = record.common := by
  unfold ModbusParser.finish at h
  split_ifs at h
  · split at h
    · simp at h
    · simp only [List.mem_singleton] at h
      rw [h]; rfl
  · simp only [List.mem_singleton] at h
    rw [h]

theorem modbus_parse_common (self : ModbusParser) (now now_req : Nat) (info : PacketInfo)
    (r : UnifiedRecord) (hr : r ∈ (self.parse now now_req info).2) :
    ∃ d, r.common = info.common ModbusParser.getName d := by
  unfold ModbusParser.parse at hr
  simp only [] at hr
  split_ifs at hr with hlen
  · simp at hr
  · have hd := modbus_decode_common ((self.cleanupOldRequests now).storeRequest now_req info) info
      (((self.cleanupOldRequests now).storeRequest now_req info).baseRecord info)
      ((self.cleanupOldRequests now).req_info_ptr info)
    have hb : (((self.cleanupOldRequests now).storeRequest now_req info).baseRecord info).common =
        info.common ModbusParser.getName (if info.dst_port = 502 then "request" else "response") :=
      createUnifiedRecord_common _ _ _ _
    split at hr
    · rename_i rs heq
      rw [heq] at hd
      exact ⟨_, by rw [hd r hr, hb]⟩
    · rename_i rec heq
      rw [heq] at hd
      exact ⟨_, by rw [modbus_finish_common _ _ _ hr, hd, hb]⟩

/-! ## S7Comm parser: auxiliary facts -/

theorem paramItemWalk_later (am : AssetManager) (p : List Nat) (e : Nat) (n : Nat) :
    ∀ (i ptr : Nat) (r : UnifiedRecord), i ≠ 0 →
      S7CommParser.paramItemWalk am p e n i ptr r = r := by
  induction n with
  | zero => intro i ptr r _; rfl
  | succ n ih =>
    intro i ptr r hi
    unfold S7CommParser.paramItemWalk
    simp only [hi, if_false]
    split_ifs
    · rfl
    · exact ih (i + 1) (ptr + 12) r (by omega)

theorem paramItemWalk_first (am : AssetManager) (p : List Nat) (e n ptr : Nat)
    (r : UnifiedRecord) :
    S7CommParser.paramItemWalk am p e (n + 1) 0 ptr r =
      S7CommParser.paramItemWalk am p e 1 0 ptr r := by
  unfold S7CommParser.paramItemWalk
  simp only [if_true]
  split_ifs
  · rfl
  · rw [paramItemWalk_later am p e n 1 (ptr + 12) _ (by omega)]
    rfl
  · rw [paramItemWalk_later am p e n 1 (ptr + 12) _ (by omega)]
    rfl

theorem dataItemWalk_later (p : List Nat) (e : Nat) (n : Nat) :
    ∀ (i ptr : Nat) (r : UnifiedRecord), i ≠ 0 →
      S7CommParser.dataItemWalk p e n i ptr r = r := by
  induction n with
  | zero => intro i ptr r _; rfl
  | succ n ih =>
    intro i ptr r hi
    unfold S7CommParser.dataItemWalk
    simp only [hi, if_false]
    split_ifs <;> first | rfl | exact ih _ _ r (by omega)

theorem dataItemWalk_first (p : List Nat) (e n ptr : Nat) (r : UnifiedRecord) :
    S7CommParser.dataItemWalk p e (n + 1) 0 ptr r =
      S7CommParser.dataItemWalk p e 1 0 ptr r := by
  unfold S7CommParser.dataItemWalk
  simp only [if_true]
  split_ifs <;> first
    | rfl
    | (rw [dataItemWalk_later p e n 1 _ _ (by omega)]; rfl)

theorem paramItemWalk_common (am : AssetManager) (p : List Nat) (e n ptr : Nat)
    (r : UnifiedRecord) :
    (S7CommParser.paramItemWalk am p e n 0 ptr r).common = r.common := by
  cases n with
  | zero => rfl
  | succ n =>
    rw [paramItemWalk_first]
    unfold S7CommParser.paramItemWalk
    simp only [if_true]
    split_ifs <;> rfl

theorem dataItemWalk_common (p : List Nat) (e n ptr : Nat) (r : UnifiedRecord) :
    (S7CommParser.dataItemWalk p e n 0 ptr r).common = r.common := by
  cases n with
  | zero => rfl
  | succ n =>
    rw [dataItemWalk_first]
    unfold S7CommParser.dataItemWalk
    simp only [if_true]
    split_ifs <;> rfl

theorem s7_buildRecord_common (self : S7CommParser) (info : PacketInfo) (direction : String)
    (req : S7CommRequestInfo) :
    (self.buildRecord info direction req).common = info.common S7CommParser.getName direction := by
  have hc := createUnifiedRecord_common S7CommParser.getName self.m_asset_manager info direction
  unfold S7CommParser.buildRecord
  simp only []
  have hd : ∀ r : UnifiedRecord, (S7CommParser.dataFields info req r).common = r.common := by
    intro r
    unfold S7CommParser.dataFields
    simp only []
    split_ifs
    · exact dataItemWalk_common _ _ _ _ _
    · rfl
    · rfl
  have hp : ∀ r : UnifiedRecord, (self.paramFields info r).common = r.common := by
    intro r
    unfold S7CommParser.paramFields
    simp only []
    split_ifs
    · rw [paramItemWalk_common]; rfl
    · rfl
    · rfl
  rw [hd, hp]
  exact hc

/-- A response: ROSCTR 2 or 3 with a pending request under the flow id and the
PDU reference. One record is emitted and the pending request is erased. -/
theorem s7_parse_response (self : S7CommParser) (now : Nat) (info : PacketInfo)
    (req : S7CommRequestInfo) (hlen : 17 ≤ info.payload_size)
    (hros : S7CommParser.rosctr info = 0x02 ∨ S7CommParser.rosctr info = 0x03)
    (hreq : self.m_pending_requests info.flow_id (S7CommParser.pdu_ref info) = some req) :
    self.parse now info =
      ({ self with
          m_pending_requests := fun flow ref =>
            if flow = info.flow_id ∧ ref = S7CommParser.pdu_ref info then none
            else self.m_pending_requests flow ref },
        [self.buildRecord info "response" req]) := by
  unfold S7CommParser.parse
  simp only []
  rw [if_neg (by omega), if_pos hros, hreq]

/-- A job: ROSCTR 1. One record is emitted and the request is stored under the
flow id and the PDU reference. -/
theorem s7_parse_request (self : S7CommParser) (now : Nat) (info : PacketInfo)
    (hlen : 17 ≤ info.payload_size) (hros : S7CommParser.rosctr info = 0x01) :
    self.parse now info =
      ({ self with
          m_pending_requests := fun flow ref =>
            if flow = info.flow_id ∧ ref = S7CommParser.pdu_ref info then
              some (S7CommParser.new_req now info)
            else self.m_pending_requests flow ref },
        [S7CommParser.buildRecord
          { self with
            m_pending_requests := fun flow ref =>
              if flow = info.flow_id ∧ ref = S7CommParser.pdu_ref info then
                some (S7CommParser.new_req now info)
              else self.m_pending_requests flow ref }
          info "request" (S7CommParser.new_req now info)]) := by
  unfold S7CommParser.parse
  simp only []
  rw [if_neg (by omega), if_neg (by rw [hros]; decide)]
  simp only [hros, if_true]

/-- Every other packet: nothing is emitted and the parser is unchanged. -/
theorem s7_parse_ignored (self : S7CommParser) (now : Nat) (info : PacketInfo)
    (h : info.payload_size < 17 ∨
      (S7CommParser.rosctr info ≠ 0x01 ∧
        ((S7CommParser.rosctr info = 0x02 ∨ S7CommParser.rosctr info = 0x03) →
          self.m_pending_requests info.flow_id (S7CommParser.pdu_ref info) = none))) :
    self.parse now info = (self, []) := by
  unfold S7CommParser.parse
  simp only []
  by_cases hlen : info.payload_size - 7 < 10
  · rw [if_pos hlen]
  · rw [if_neg hlen]
    rcases h with h | ⟨h1, h2⟩
    · omega
    · by_cases hros : S7CommParser.rosctr info = 0x02 ∨ S7CommParser.rosctr info = 0x03
      · rw [if_pos hros, h2 hros]
        simp only [h1, if_false]
      · rw [if_neg hros]
        simp only [h1, if_false]

theorem s7_parse_common (self : S7CommParser) (now : Nat) (info : PacketInfo)
    (r : UnifiedRecord) (hr : r ∈ (self.parse now info).2) :
    ∃ d, r.common = info.common S7CommParser.getName d := by
  by_cases hlen : 17 ≤ info.payload_size
  · by_cases h1 : S7CommParser.rosctr info = 0x01
    · rw [s7_parse_request self now info hlen h1] at hr
      simp only [List.mem_singleton] at hr
      exact ⟨_, by rw [hr]; exact s7_buildRecord_common _ _ _ _⟩
    · by_cases h23 : S7CommParser.rosctr info = 0x02 ∨ S7CommParser.rosctr info = 0x03
      · cases hreq : self.m_pending_requests info.flow_id (S7CommParser.pdu_ref info) with
        | none =>
          rw [s7_parse_ignored self now info (Or.inr ⟨h1, fun _ => hreq⟩)] at hr
          simp at hr
        | some req =>
          rw [s7_parse_response self now info req hlen h23 hreq] at hr
          simp only [List.mem_singleton] at hr
          exact ⟨_, by rw [hr]; exact s7_buildRecord_common _ _ _ _⟩
      · rw [s7_parse_ignored self now info (Or.inr ⟨h1, fun h => absurd h h23⟩)] at hr
        simp at hr
  · rw [s7_parse_ignored self now info (Or.inl (by omega))] at hr
    simp at hr

/-! ## Records of a worker -/

theorem instructionFields_common (self : XgtFenParser) (instruction : XgtFenInstruction)
    (record : UnifiedRecord) :
    (self.instructionFields instruction record).common = record.common := by
  unfold XgtFenParser.instructionFields
  simp only []
  split_ifs <;> rfl

theorem xgt_parse_common (self : XgtFenParser) (info : PacketInfo) (r : UnifiedRecord)
    (hr : r ∈ self.parse info) : ∃ d, r.common = info.common XgtFenParser.getName d := by
  unfold XgtFenParser.parse at hr
  split at hr
  · simp at hr
  · rename_i header hh
    simp only [] at hr
    have hc := createUnifiedRecord_common XgtFenParser.getName self.m_asset_manager info
      (if header.sourceOfFrame = 0x33 then "request"
        else if header.sourceOfFrame = 0x11 then "response" else "unknown")
    split at hr
    · simp only [List.mem_singleton] at hr
      exact ⟨_, by rw [hr, instructionFields_common]; exact hc⟩
    · simp only [List.mem_singleton] at hr
      exact ⟨_, by rw [hr]; exact hc⟩

/-- Every record that a parser object emits carries the packet's time stamp,
addresses and the name of the parser; `parse` keeps the class of the parser. -/
theorem parse_common (p : ProtocolParser) (now now_req : Nat) (info : PacketInfo) :
    (p.parse now now_req info).1.entry = p.entry ∧
    ∀ r ∈ (p.parse now now_req info).2, ∃ d, r.common = info.common p.getName d := by
  cases p with
  | arp am => exact ⟨rfl, fun r hr => (stateless_parse_common am info r).1 hr⟩
  | tcp_session am => exact ⟨rfl, fun r hr => (stateless_parse_common am info r).2.1 hr⟩
  | modbus self => exact ⟨rfl, fun r hr => modbus_parse_common self now now_req info r hr⟩
  | s7comm self => exact ⟨rfl, fun r hr => s7_parse_common self now_req info r hr⟩
  | xgt_fen self => exact ⟨rfl, fun r hr => xgt_parse_common self info r hr⟩
  | dnp3 am => exact ⟨rfl, fun r hr => (stateless_parse_common am info r).2.2.1 hr⟩
  | generic m_name am =>
    exact ⟨rfl, fun r hr => (stateless_parse_common am info r).2.2.2.2.2 m_name hr⟩
  | dns am => exact ⟨rfl, fun r hr => (stateless_parse_common am info r).2.2.2.1 hr⟩
  | unknown am => exact ⟨rfl, fun r hr => (stateless_parse_common am info r).2.2.2.2.1 hr⟩

theorem callFirst_common (q : ProtocolParser → Bool) (now now_req : Nat) (info : PacketInfo)
    (ps ps' : List ProtocolParser) (rs : List UnifiedRecord)
    (h : callFirst q now now_req info ps = some (ps', rs)) :
    ps'.map ProtocolParser.entry = ps.map ProtocolParser.entry ∧
    ∃ p ∈ ps, ∀ r ∈ rs, ∃ d, r.common = info.common p.getName d := by
  induction ps generalizing ps' rs with
  | nil => exact absurd h (by simp [callFirst])
  | cons x ps ih =>
    unfold callFirst at h
    split_ifs at h with hq
    · simp only [Option.some.injEq, Prod.mk.injEq] at h
      obtain ⟨rfl, rfl⟩ := h
      have hx := parse_common x now now_req info
      exact ⟨by simp [hx.1], x, List.mem_cons_self _ _, hx.2⟩
    · cases hcf : callFirst q now now_req info ps with
      | none => rw [hcf] at h; exact absurd h (by simp)
      | some r' =>
        obtain ⟨ps'', rs''⟩ := r'
        rw [hcf] at h
        simp only [Option.some.injEq, Prod.mk.injEq] at h
        obtain ⟨rfl, rfl⟩ := h
        obtain ⟨h1, p, hp, h2⟩ := ih ps'' rs'' hcf
        exact ⟨by simp [h1], p, List.mem_cons_of_mem _ hp, h2⟩

theorem dispatch_common (fallback : String) (ps : List ProtocolParser) (now now_req : Nat)
    (info : PacketInfo) :
    (dispatch fallback ps now now_req info).1.map ProtocolParser.entry =
      ps.map ProtocolParser.entry ∧
    ∀ r ∈ (dispatch fallback ps now now_req info).2,
      ∃ p ∈ ps, ∃ d, r.common = info.common p.getName d := by
  unfold dispatch
  cases h1 : callFirst (fun p => claims info p.entry) now now_req info ps with
  | some r1 =>
    obtain ⟨ps', rs⟩ := r1
    obtain ⟨hn, p, hp, hr⟩ := callFirst_common _ now now_req info ps ps' rs h1
    exact ⟨hn, fun r hmem => ⟨p, hp, hr r hmem⟩⟩
  | none =>
    simp only []
    cases h2 : callFirst (fun p => decide (p.getName = fallback)) now now_req info ps with
    | some r2 =>
      obtain ⟨ps', rs⟩ := r2
      obtain ⟨hn, p, hp, hr⟩ := callFirst_common _ now now_req info ps ps' rs h2
      exact ⟨hn, fun r hmem => ⟨p, hp, hr r hmem⟩⟩
    | none => exact ⟨rfl, fun r hmem => absurd hmem (by simp)⟩

/-- The records of `parsePacket` carry the common fields of the `PacketInfo`
that the demultiplexer built, and the name of a parser of the worker. -/
theorem parsePacket_common (ps : List ProtocolParser) (now now_req : Nat)
    (header : pcap_pkthdr) (packet : List Nat) :
    (parsePacket ps now now_req header packet).1.map ProtocolParser.entry =
      ps.map ProtocolParser.entry ∧
    ∀ r ∈ (parsePacket ps now now_req header packet).2,
      ∃ info, (demux header packet = Demux.arp info ∨ demux header packet = Demux.tcp info ∨
          demux header packet = Demux.udp info) ∧
        ∃ p ∈ ps, ∃ d, r.common = info.common p.getName d := by
  unfold parsePacket
  cases hd : demux header packet with
  | dropped => exact ⟨rfl, fun r hmem => absurd hmem (by simp)⟩
  | arp info =>
    simp only []
    cases h2 : callFirst (fun p => decide (p.getName = "arp")) now now_req info ps with
    | some r2 =>
      obtain ⟨ps', rs⟩ := r2
      obtain ⟨hn, p, hp, hr⟩ := callFirst_common _ now now_req info ps ps' rs h2
      exact ⟨hn, fun r hmem => ⟨info, Or.inl rfl, p, hp, hr r hmem⟩⟩
    | none => exact ⟨rfl, fun r hmem => absurd hmem (by simp)⟩
  | tcp info =>
    obtain ⟨hn, hr⟩ := dispatch_common "tcp_session" ps now now_req info
    exact ⟨hn, fun r hmem => ⟨info, Or.inr (Or.inl rfl), hr r hmem⟩⟩
  | udp info =>
    obtain ⟨hn, hr⟩ := dispatch_common "unknown" ps now now_req info
    exact ⟨hn, fun r hmem => ⟨info, Or.inr (Or.inr rfl), hr r hmem⟩⟩

theorem common_protocol (r : UnifiedRecord) (info : PacketInfo) (name d : String)
    (h : r.common = info.common name d) :
    r.timestamp = info.timestamp ∧ r.protocol = name ∧ r.smac = info.src_mac ∧
      r.dmac = info.dst_mac ∧ r.sip = info.src_ip ∧ r.dip = info.dst_ip ∧ r.dir = d := by
  unfold UnifiedRecord.common PacketInfo.common at h
  simp only [Prod.mk.injEq] at h
  exact h

/-- C14: every record emitted by a parser registered for a worker has its
protocol field in the fixed set of fourteen names: the protocol of a record is
the `getName()` of the parser that emits it, the registered names are exactly
these fourteen, and `parse` never changes the class of a parser. -/
theorem C14_protocol_in_fixed_set :
    (createParsersForWorker.map (fun p => p.getName) =
      ["arp", "tcp_session", "modbus", "s7comm", "xgt_fen", "dnp3", "dhcp", "dns",
       "ethernet_ip", "iec104", "mms", "opc_ua", "bacnet", "unknown"]) ∧
    (∀ n : String, n ∈ createParsersForWorker.map (fun p => p.getName) ↔
      n ∈ protocolNames_spec) ∧
    (∀ (am : AssetManager) (now : Nat),
      (createWorkerParsers am now).map ProtocolParser.entry = createParsersForWorker) ∧
    (∀ (p : ProtocolParser) (now now_req : Nat) (info : PacketInfo),
      ∀ r ∈ (p.parse now now_req info).2, r.protocol = p.getName) ∧
    (∀ (ps : List ProtocolParser) (now now_req : Nat) (header : pcap_pkthdr)
        (packet : List Nat),
      ps.map ProtocolParser.entry = createParsersForWorker →
      (parsePacket ps now now_req header packet).1.map ProtocolParser.entry =
        createParsersForWorker ∧
      ∀ r ∈ (parsePacket ps now now_req header packet).2, r.protocol ∈ protocolNames_spec) := by
  have hset : ∀ n : String, n ∈ createParsersForWorker.map (fun p => p.getName) ↔
      n ∈ protocolNames_spec := by
    intro n
    have e : createParsersForWorker.map (fun p => p.getName) =
      ["arp", "tcp_session", "modbus", "s7comm", "xgt_fen", "dnp3", "dhcp", "dns",
       "ethernet_ip", "iec104", "mms", "opc_ua", "bacnet", "unknown"] := by decide
    rw [e]
    unfold protocolNames_spec
    simp only [List.mem_cons, List.mem_singleton, List.not_mem_nil, or_false]
    tauto
  refine ⟨by decide, hset, fun am now => rfl, ?_, ?_⟩
  · intro p now now_req info r hr
    obtain ⟨d, hd⟩ := (parse_common p now now_req info).2 r hr
    exact (common_protocol r info _ d hd).2.1
  · intro ps now now_req header packet hps
    obtain ⟨hn, hr⟩ := parsePacket_common ps now now_req header packet
    refine ⟨by rw [hn, hps], fun r hmem => ?_⟩
    obtain ⟨info, -, p, hp, d, hd⟩ := hr r hmem
    rw [(common_protocol r info _ d hd).2.1, ← hset, ← worker_names ps hps]
    exact List.mem_map_of_mem (fun x => x.getName) hp

theorem append_sep_ne_empty (a sep b : String) (h : sep ≠ "") : a ++ sep ++ b ≠ "" := by
  intro he
  have hd := congrArg String.data he
  simp only [String.data_append] at hd
  have : sep.data = [] := by
    have h1 := List.append_eq_nil.mp hd
    exact (List.append_eq_nil.mp h1.1).2
  exact h (String.ext this)

theorem mac_to_string_ne_empty (p : List Nat) (off : Nat) : mac_to_string p off ≠ "" := by
  unfold mac_to_string
  exact append_sep_ne_empty _ ":" _ (by decide)

theorem inet_ntop_ne_empty (p : List Nat) (off : Nat) : inet_ntop p off ≠ "" := by
  unfold inet_ntop
  exact append_sep_ne_empty _ "." _ (by decide)

theorem format_timestamp_ne_empty (header : pcap_pkthdr) : format_timestamp header ≠ "" := by
  unfold format_timestamp
  intro he
  have hd := congrArg String.data he
  simp only [] at hd
  have hlen := congrArg List.length hd
  simp only [List.length_take, List.length_append, List.length_cons, List.length_nil,
    String.length] at hlen
  have : ("" : String).data.length = 0 := rfl
  omega

/-- The common fields of the `PacketInfo` that the demultiplexer builds. -/
theorem demux_fields (header : pcap_pkthdr) (packet : List Nat) (info : PacketInfo) :
    (demux header packet = Demux.arp info →
      safe_ntohs packet 12 = 0x0806 ∧ info.timestamp = format_timestamp header ∧
      info.src_mac = mac_to_string packet 6 ∧ info.dst_mac = mac_to_string packet 0 ∧
      info.src_ip = "" ∧ info.dst_ip = "") ∧
    ((demux header packet = Demux.tcp info ∨ demux header packet = Demux.udp info) →
      safe_ntohs packet 12 = 0x0800 ∧ info.timestamp = format_timestamp header ∧
      info.src_mac = mac_to_string packet 6 ∧ info.dst_mac = mac_to_string packet 0 ∧
      info.src_ip = inet_ntop packet 26 ∧ info.dst_ip = inet_ntop packet 30) := by
  constructor
  · intro h
    unfold demux at h
    simp only [] at h
    split_ifs at h with h1 h2
    injection h with h
    rw [← h]
    exact ⟨h2, rfl, rfl, rfl, rfl, rfl⟩
  · intro h
    unfold demux at h
    simp only [] at h
    split_ifs at h with h1 h2 h3 h4 h5 h6 h7 h8
    · rcases h with h | h <;> exact absurd h (by simp)
    · rcases h with h | h <;> exact absurd h (by simp)
    · rcases h with h | h <;> exact absurd h (by simp)
    · rcases h with h | h <;> exact absurd h (by simp)
    · rcases h with h | h
      · injection h with h
        rw [← h]
        exact ⟨h3, rfl, rfl, rfl, rfl, rfl⟩
      · exact absurd h (by simp)
    · rcases h with h | h <;> exact absurd h (by simp)
    · rcases h with h | h
      · exact absurd h (by simp)
      · injection h with h
        rw [← h]
        exact ⟨h3, rfl, rfl, rfl, rfl, rfl⟩
    · rcases h with h | h <;> exact absurd h (by simp)
    · rcases h with h | h <;> exact absurd h (by simp)

/-- C15 (counterexample): an ARP request frame. The ARP branch of `parsePacket`
builds a `PacketInfo` without IP addresses, and the one record that the ARP
parser emits has empty `sip` and `dip`. -/
theorem C15_counterexample :
    (parsePacket (createWorkerParsers {} 0) 0 0 arp_header arp_frame).2.map
      (fun r => (r.protocol, r.sip, r.dip)) = [("arp", "", "")] := by
  decide

/-- C15 (amended): for every record that the parsers of a worker emit from a
frame, the fields `timestamp`, `protocol`, `smac` and `dmac` are non-empty; for
a TCP or UDP packet (EtherType 0x0800) `sip` and `dip` are non-empty as well,
and for an ARP frame (EtherType 0x0806) `sip` and `dip` are empty. -/
theorem C15_common_fields_set (ps : List ProtocolParser) (now now_req : Nat)
    (header : pcap_pkthdr) (packet : List Nat)
    (hps : ps.map ProtocolParser.entry = createParsersForWorker) :
    ∀ r ∈ (parsePacket ps now now_req header packet).2,
      r.timestamp ≠ "" ∧ r.protocol ≠ "" ∧ r.smac ≠ "" ∧ r.dmac ≠ "" ∧
      (safe_ntohs packet 12 = 0x0800 → r.sip ≠ "" ∧ r.dip ≠ "") ∧
      (safe_ntohs packet 12 = 0x0806 → r.sip = "" ∧ r.dip = "") := by
  intro r hmem
  obtain ⟨info, hd, p, hp, d, hc⟩ := (parsePacket_common ps now now_req header packet).2 r hmem
  obtain ⟨h1, h2, h3, h4, h5, h6, -⟩ := common_protocol r info _ d hc
  have hname : p.getName ∈ createParsersForWorker.map (fun p => p.getName) := by
    rw [← worker_names ps hps]
    exact List.mem_map_of_mem (fun x => x.getName) hp
  have hne : ∀ n ∈ createParsersForWorker.map (fun p => p.getName), n ≠ "" := by decide
  rw [h1, h2, h3, h4, h5, h6]
  rcases hd with hd | hd
  · obtain ⟨e, t, s, dm, si, di⟩ := (demux_fields header packet info).1 hd
    rw [t, s, dm, si, di]
    refine ⟨format_timestamp_ne_empty _, hne _ hname, mac_to_string_ne_empty _ _,
      mac_to_string_ne_empty _ _, fun h => ?_, fun _ => ⟨rfl, rfl⟩⟩
    rw [e] at h
    exact absurd h (by decide)
  · obtain ⟨e, t, s, dm, si, di⟩ := (demux_fields header packet info).2 hd
    rw [t, s, dm, si, di]
    refine ⟨format_timestamp_ne_empty _, hne _ hname, mac_to_string_ne_empty _ _,
      mac_to_string_ne_empty _ _, fun _ => ⟨inet_ntop_ne_empty _ _, inet_ntop_ne_empty _ _⟩,
      fun h => ?_⟩
    rw [e] at h
    exact absurd h (by decide)

/-- C15 (witness): the 64-byte ACK frame on the parsers of a new worker. -/
theorem C15_common_fields_set_witness :
    (createWorkerParsers {} 0).map ProtocolParser.entry = createParsersForWorker ∧
    ∀ r ∈ (parsePacket (createWorkerParsers {} 0) 0 0 ack_header ack_frame).2,
      r.timestamp ≠ "" ∧ r.protocol ≠ "" ∧ r.smac ≠ "" ∧ r.dmac ≠ "" ∧
      (safe_ntohs ack_frame 12 = 0x0800 → r.sip ≠ "" ∧ r.dip ≠ "") ∧
      (safe_ntohs ack_frame 12 = 0x0806 → r.sip = "" ∧ r.dip = "") :=
  ⟨rfl, C15_common_fields_set (createWorkerParsers {} 0) 0 0 ack_header ack_frame rfl⟩

theorem s7_isProtocol_size (info : PacketInfo) (h : S7CommParser.isProtocol info = true) :
    17 ≤ info.payload_size := by
  unfold S7CommParser.isProtocol at h
  simp only [decide_eq_true_eq] at h
  exact h.2.2.1

/-- C17: for every packet admitted by `S7CommParser::isProtocol`: with ROSCTR
0x01 `parse` emits exactly one record, with `dir = request`, and stores a
pending entry under (flow_id, pdu_reference), leaving the other entries as they
are; with ROSCTR 0x02 or 0x03 and a pending entry under (flow_id,
pdu_reference) it emits exactly one record, with `dir = response`; in every
other case it emits no record and returns the parser unchanged. -/
theorem C17_s7_direction (self : S7CommParser) (now : Nat) (info : PacketInfo)
    (hadm : S7CommParser.isProtocol info = true) :
    (S7CommParser.rosctr info = 0x01 →
      (∃ r, (self.parse now info).2 = [r] ∧ r.dir = "request") ∧
      (self.parse now info).1.m_pending_requests info.flow_id (S7CommParser.pdu_ref info) =
        some (S7CommParser.new_req now info) ∧
      ∀ flow ref, ¬ (flow = info.flow_id ∧ ref = S7CommParser.pdu_ref info) →
        (self.parse now info).1.m_pending_requests flow ref =
          self.m_pending_requests flow ref) ∧
    (∀ req, (S7CommParser.rosctr info = 0x02 ∨ S7CommParser.rosctr info = 0x03) →
      self.m_pending_requests info.flow_id (S7CommParser.pdu_ref info) = some req →
      ∃ r, (self.parse now info).2 = [r] ∧ r.dir = "response") ∧
    (S7CommParser.rosctr info ≠ 0x01 →
      ((S7CommParser.rosctr info = 0x02 ∨ S7CommParser.rosctr info = 0x03) →
        self.m_pending_requests info.flow_id (S7CommParser.pdu_ref info) = none) →
      self.parse now info = (self, [])) := by
  have hlen := s7_isProtocol_size info hadm
  refine ⟨fun h1 => ?_, fun req h23 hreq => ?_, fun h1 hnone => ?_⟩
  · rw [s7_parse_request self now info hlen h1]
    refine ⟨⟨_, rfl, ?_⟩, ?_, ?_⟩
    · exact (common_protocol _ info _ _ (s7_buildRecord_common _ info "request" _)).2.2.2.2.2.2
    · simp
    · intro flow ref hne
      simp only [hne, if_false]
  · rw [s7_parse_response self now info req hlen h23 hreq]
    exact ⟨_, rfl,
      (common_protocol _ info _ _ (s7_buildRecord_common _ info "response" _)).2.2.2.2.2.2⟩
  · exact s7_parse_ignored self now info (Or.inr ⟨h1, hnone⟩)

/-- C17 (witness): the job of the pairing scenario (ROSCTR 1, PDU reference 42)
on a parser with an empty pending table. -/
theorem C17_s7_direction_witness :
    (∃ r, (s7_empty.parse 0 s7_job).2 = [r] ∧ r.dir = "request") ∧
    (s7_empty.parse 0 s7_job).1.m_pending_requests s7_job.flow_id (S7CommParser.pdu_ref s7_job) =
      some (S7CommParser.new_req 0 s7_job) ∧
    ∀ flow ref, ¬ (flow = s7_job.flow_id ∧ ref = S7CommParser.pdu_ref s7_job) →
      (s7_empty.parse 0 s7_job).1.m_pending_requests flow ref =
        s7_empty.m_pending_requests flow ref :=
  (C17_s7_direction s7_empty 0 s7_job (by decide)).1 (by decide)

/-- The first data item of an ack-data with return code 0xff and a complete
four-byte item header: item 0 sets the return code and the length in bytes. -/
theorem dataItemWalk_success (p : List Nat) (e n ptr : Nat) (r : UnifiedRecord)
    (h4 : ptr + 4 ≤ e) (hrc : byteAt p ptr = 0xff) :
    S7CommParser.dataItemWalk p e (n + 1) 0 ptr r =
      { r with
        s7_rc := "255"
        s7_len := toString ((safe_ntohs p (ptr + 2) + 7) / 8) } := by
  have hL := safe_ntohs_lt p (ptr + 2)
  have hmod : (safe_ntohs p (ptr + 2) + 7) / 8 % 65536 = (safe_ntohs p (ptr + 2) + 7) / 8 :=
    Nat.mod_eq_of_lt (by omega)
  unfold S7CommParser.dataItemWalk
  simp only [if_true, hrc, hmod]
  rw [if_neg (by omega), if_neg (by omega)]
  split_ifs <;> rw [dataItemWalk_later p e n 1 _ _ (by omega)] <;> rfl

/-- The parameter part of `parse` leaves the PDU reference, the return code and
the length of the record as they are. -/
theorem paramFields_keeps (self : S7CommParser) (info : PacketInfo) (r : UnifiedRecord) :
    (self.paramFields info r).s7_prid = r.s7_prid ∧
    (self.paramFields info r).s7_rc = r.s7_rc ∧
    (self.paramFields info r).s7_len = r.s7_len := by
  unfold S7CommParser.paramFields
  simp only []
  split_ifs
  · generalize byteAt info.payload (S7CommParser.s7_pdu + S7CommParser.header_size info + 1) = n
    cases n with
    | zero => exact ⟨rfl, rfl, rfl⟩
    | succ n =>
      rw [paramItemWalk_first]
      unfold S7CommParser.paramItemWalk
      simp only [if_true]
      split_ifs <;> exact ⟨rfl, rfl, rfl⟩
  · exact ⟨rfl, rfl, rfl⟩
  · exact ⟨rfl, rfl, rfl⟩

/-- The request stored for a job with function 0x04 whose parameter block fits
the PDU has as many items as the item count says. -/
theorem new_req_items (now : Nat) (job : PacketInfo)
    (hplen : 2 ≤ S7CommParser.param_len job)
    (hfit : (10 : Int) + (S7CommParser.param_len job : Int) ≤ job.payload_size - 7)
    (hfn : byteAt job.payload 17 = 0x04 ∨ byteAt job.payload 17 = 0x05) :
    (S7CommParser.new_req now job).items = List.replicate (byteAt job.payload 18) {} := by
  unfold S7CommParser.new_req
  simp only [S7CommParser.s7_pdu]
  rw [if_pos ⟨by omega, by omega⟩, if_pos ⟨hfn, hplen⟩]

set_option maxRecDepth 100000 in
/-- The record of an ack-data (ROSCTR 3) whose request has items and whose data
section starts with return code 0xff and a bit length. -/
theorem s7_buildRecord_ack_data (self : S7CommParser) (ack : PacketInfo)
    (req : S7CommRequestInfo) (hitems : req.items ≠ [])
    (hros : S7CommParser.rosctr ack = 0x03)
    (hdlen : 4 ≤ S7CommParser.data_len ack)
    (hfit : (12 : Int) + (S7CommParser.param_len ack : Int) + (S7CommParser.data_len ack : Int) ≤
      ack.payload_size - 7)
    (hrc : byteAt ack.payload (19 + S7CommParser.param_len ack) = 0xff) :
    (self.buildRecord ack "response" req).s7_prid = toString (S7CommParser.pdu_ref ack) ∧
    (self.buildRecord ack "response" req).s7_rc = "255" ∧
    (self.buildRecord ack "response" req).s7_len =
      toString ((safe_ntohs ack.payload (21 + S7CommParser.param_len ack) + 7) / 8) := by
  have hh : S7CommParser.header_size ack = 12 := by
    unfold S7CommParser.header_size
    rw [hros]
    rfl
  obtain ⟨n, hn⟩ : ∃ n, req.items.length = n + 1 := by
    cases h : req.items with
    | nil => exact absurd h hitems
    | cons a t => exact ⟨t.length, rfl⟩
  unfold S7CommParser.buildRecord S7CommParser.dataFields
  simp only [hh, S7CommParser.s7_pdu]
  rw [if_pos ⟨by omega, by omega⟩, if_pos ⟨hros, hitems⟩, hn,
    dataItemWalk_success _ _ _ _ _ (by omega) (by rw [← hrc])]
  simp only []
  refine ⟨?_, trivial, ?_⟩
  · exact (paramFields_keeps self ack _).1
  · rw [show 7 + 12 + S7CommParser.param_len ack + 2 = 21 + S7CommParser.param_len ack by omega]

/-- C18: S7Comm job and ack-data pairing. After a job (ROSCTR 1, function 0x04,
item count at least 1, parameter block inside the PDU) has been parsed, an
ack-data (ROSCTR 3) with the same PDU reference on the same flow id whose data
section starts with return code 0xff and the bit length L yields exactly one
record, a response with `s7_prid` the PDU reference, `s7_rc = 255` and
`s7_len = (L + 7) / 8`; the pending entry is erased afterwards and a second
identical ack-data emits no record. -/
theorem C18_s7_job_ack_pairing (self : S7CommParser) (now now2 now3 : Nat)
    (job ack : PacketInfo)
    (hjob_adm : S7CommParser.isProtocol job = true)
    (hjob_ros : S7CommParser.rosctr job = 0x01)
    (hjob_plen : 2 ≤ S7CommParser.param_len job)
    (hjob_fit : (10 : Int) + (S7CommParser.param_len job : Int) ≤ job.payload_size - 7)
    (hjob_fn : byteAt job.payload 17 = 0x04)
    (hjob_ic : 1 ≤ byteAt job.payload 18)
    (hack_adm : S7CommParser.isProtocol ack = true)
    (hack_ros : S7CommParser.rosctr ack = 0x03)
    (hack_ref : S7CommParser.pdu_ref ack = S7CommParser.pdu_ref job)
    (hack_flow : ack.flow_id = job.flow_id)
    (hack_dlen : 4 ≤ S7CommParser.data_len ack)
    (hack_fit : (12 : Int) + (S7CommParser.param_len ack : Int) +
      (S7CommParser.data_len ack : Int) ≤ ack.payload_size - 7)
    (hack_rc : byteAt ack.payload (19 + S7CommParser.param_len ack) = 0xff) :
    (∃ r, ((self.parse now job).1.parse now2 ack).2 = [r] ∧
      r.dir = "response" ∧
      r.s7_prid = toString (S7CommParser.pdu_ref job) ∧
      r.s7_rc = "255" ∧
      r.s7_len =
        toString ((safe_ntohs ack.payload (21 + S7CommParser.param_len ack) + 7) / 8)) ∧
    ((self.parse now job).1.parse now2 ack).1.m_pending_requests job.flow_id
      (S7CommParser.pdu_ref job) = none ∧
    (((self.parse now job).1.parse now2 ack).1.parse now3 ack).2 = [] := by
  have hjl := s7_isProtocol_size job hjob_adm
  have hal := s7_isProtocol_size ack hack_adm
  have hitems : (S7CommParser.new_req now job).items ≠ [] := by
    rw [new_req_items now job hjob_plen hjob_fit (Or.inl hjob_fn)]
    intro h
    have := congrArg List.length h
    simp at this
    omega
  rw [s7_parse_request self now job hjl hjob_ros]
  simp only []
  rw [s7_parse_response _ now2 ack (S7CommParser.new_req now job) hal (Or.inr hack_ros)
    (by simp [hack_flow, hack_ref])]
  simp only []
  refine ⟨⟨_, rfl, ?_, ?_⟩, ?_, ?_⟩
  · exact (common_protocol _ ack _ _ (s7_buildRecord_common _ ack "response" _)).2.2.2.2.2.2
  · have h := s7_buildRecord_ack_data
      { self with
        m_pending_requests := fun flow ref =>
          if flow = job.flow_id ∧ ref = S7CommParser.pdu_ref job then
            some (S7CommParser.new_req now job)
          else self.m_pending_requests flow ref }
      ack (S7CommParser.new_req now job) hitems hack_ros hack_dlen hack_fit hack_rc
    rw [hack_ref] at h
    exact h
  · simp [hack_flow, hack_ref]
  · rw [s7_parse_ignored _ now3 ack (Or.inr ⟨by rw [hack_ros]; decide, fun _ => by simp⟩)]

/-- C18 (witness): the scenario with PDU reference 42 and bit length 16; the
response record has `s7_prid = 42`, `s7_rc = 255` and `s7_len = 2`. -/
theorem C18_s7_job_ack_pairing_witness :
    (∃ r, ((s7_empty.parse 0 s7_job).1.parse 1 s7_ack_data).2 = [r] ∧
      r.dir = "response" ∧ r.s7_prid = "42" ∧ r.s7_rc = "255" ∧ r.s7_len = "2") ∧
    ((s7_empty.parse 0 s7_job).1.parse 1 s7_ack_data).1.m_pending_requests s7_job.flow_id
      (S7CommParser.pdu_ref s7_job) = none ∧
    (((s7_empty.parse 0 s7_job).1.parse 1 s7_ack_data).1.parse 2 s7_ack_data).2 = [] :=
  C18_s7_job_ack_pairing s7_empty 0 1 2 s7_job s7_ack_data (by decide) (by decide) (by decide)
    (by decide) (by decide) (by decide) (by decide) (by decide) (by decide) (by decide)
    (by decide) (by decide) (by decide)

/-- The value of `s7_addr_to_int` is the 24-bit big-endian value of the three
bytes. -/
theorem s7_addr_to_int_eq (p : List Nat) (off : Nat) :
    S7CommParser.s7_addr_to_int p off =
      byteAt p off * 65536 + byteAt p (off + 1) * 256 + byteAt p (off + 2) := by
  have ha := byteAt_lt p off
  have hb := byteAt_lt p (off + 1)
  have hc := byteAt_lt p (off + 2)
  unfold S7CommParser.s7_addr_to_int
  generalize byteAt p off = a at *
  generalize byteAt p (off + 1) = b at *
  generalize byteAt p (off + 2) = c at *
  rw [Nat.shiftLeft_eq, Nat.shiftLeft_eq]
  have h1 : a * 2 ^ 16 ||| b * 2 ^ 8 = 2 ^ 8 * (2 ^ 8 * a + b) := by
    have := Nat.mul_add_lt_is_or (show 2 ^ 8 * b < 2 ^ 16 by omega) a
    rw [show a * 2 ^ 16 = 2 ^ 16 * a by ring, show b * 2 ^ 8 = 2 ^ 8 * b by ring, ← this]
    ring
  rw [h1, ← Nat.mul_add_lt_is_or (show c < 2 ^ 8 by omega)]
  ring

/-- The fresh record of `createUnifiedRecord` has empty S7Comm item fields. -/
theorem createUnifiedRecord_s7_item (name : String) (am : Option AssetManager)
    (info : PacketInfo) (direction : String) :
    (BaseProtocolParser.createUnifiedRecord name am info direction).s7_item =
      ("", "", "", "", "", "") := by
  unfold BaseProtocolParser.createUnifiedRecord
  cases am with
  | none => rfl
  | some a =>
    simp only []
    split_ifs <;> rfl

/-- The data part of `parse` leaves the item fields of the record as they are. -/
theorem dataFields_s7_item (info : PacketInfo) (req : S7CommRequestInfo) (r : UnifiedRecord) :
    (S7CommParser.dataFields info req r).s7_item = r.s7_item := by
  unfold S7CommParser.dataFields
  simp only []
  split_ifs
  · generalize req.items.length = n
    cases n with
    | zero => rfl
    | succ n =>
      rw [dataItemWalk_first]
      unfold S7CommParser.dataItemWalk
      simp only [if_true]
      split_ifs <;> rfl
  · rfl
  · rfl

/-- The first complete item of the parameter block: item 0 sets the item fields
of the record. -/
theorem paramItemWalk_item (am : AssetManager) (p : List Nat) (e n ptr : Nat)
    (r : UnifiedRecord) (h : ptr + 12 ≤ e) :
    (S7CommParser.paramItemWalk am p e (n + 1) 0 ptr r).s7_item =
      (r.s7_ic,
        toString (byteAt p (ptr + 3)),
        toString (safe_ntohs p (ptr + 4)),
        toString (byteAt p (ptr + 8)),
        (if byteAt p (ptr + 8) = 0x84 then toString (safe_ntohs p (ptr + 6)) else r.s7_db),
        toString (S7CommParser.s7_addr_to_int p (ptr + 9) >>> 3)) := by
  rw [paramItemWalk_first]
  unfold S7CommParser.paramItemWalk
  simp only [if_true]
  rw [if_neg (by omega)]
  split_ifs <;> rfl

/-- Every record that `S7CommParser::parse` emits is the record built from the
packet, for some direction and some request information. -/
theorem s7_parse_records (self : S7CommParser) (now : Nat) (info : PacketInfo)
    (r : UnifiedRecord) (hr : r ∈ (self.parse now info).2) :
    ∃ s d req, r = S7CommParser.buildRecord s info d req := by
  by_cases hlen : 17 ≤ info.payload_size
  · by_cases h1 : S7CommParser.rosctr info = 0x01
    · rw [s7_parse_request self now info hlen h1] at hr
      simp only [List.mem_singleton] at hr
      exact ⟨_, _, _, hr⟩
    · by_cases h23 : S7CommParser.rosctr info = 0x02 ∨ S7CommParser.rosctr info = 0x03
      · cases hreq : self.m_pending_requests info.flow_id (S7CommParser.pdu_ref info) with
        | none =>
          rw [s7_parse_ignored self now info (Or.inr ⟨h1, fun _ => hreq⟩)] at hr
          simp at hr
        | some req =>
          rw [s7_parse_response self now info req hlen h23 hreq] at hr
          simp only [List.mem_singleton] at hr
          exact ⟨_, _, _, hr⟩
      · rw [s7_parse_ignored self now info (Or.inr ⟨h1, fun h => absurd h h23⟩)] at hr
        simp at hr
  · rw [s7_parse_ignored self now info (Or.inl (by omega))] at hr
    simp at hr

set_option maxRecDepth 100000 in
/-- The item fields of the record built from a packet whose parameter block has
function 0x04 or 0x05, an item count of at least one and room for one item. -/
theorem s7_buildRecord_item (self : S7CommParser) (info : PacketInfo) (direction : String)
    (req : S7CommRequestInfo)
    (hplen : 14 ≤ S7CommParser.param_len info)
    (hfit : (S7CommParser.header_size info : Int) + (S7CommParser.param_len info : Int) ≤
      info.payload_size - 7)
    (hfn : byteAt info.payload (S7CommParser.s7_pdu + S7CommParser.header_size info) = 0x04 ∨
      byteAt info.payload (S7CommParser.s7_pdu + S7CommParser.header_size info) = 0x05)
    (hic : 1 ≤ byteAt info.payload (S7CommParser.s7_pdu + S7CommParser.header_size info + 1)) :
    (self.buildRecord info direction req).s7_item =
      (toString (byteAt info.payload (S7CommParser.s7_pdu + S7CommParser.header_size info + 1)),
        toString (byteAt info.payload
          (S7CommParser.s7_pdu + S7CommParser.header_size info + 2 + 3)),
        toString (safe_ntohs info.payload
          (S7CommParser.s7_pdu + S7CommParser.header_size info + 2 + 4)),
        toString (byteAt info.payload
          (S7CommParser.s7_pdu + S7CommParser.header_size info + 2 + 8)),
        (if byteAt info.payload
            (S7CommParser.s7_pdu + S7CommParser.header_size info + 2 + 8) = 0x84 then
          toString (safe_ntohs info.payload
            (S7CommParser.s7_pdu + S7CommParser.header_size info + 2 + 6))
        else ""),
        toString (S7CommParser.s7_addr_to_int info.payload
          (S7CommParser.s7_pdu + S7CommParser.header_size info + 2 + 9) >>> 3)) := by
  obtain ⟨n, hn⟩ : ∃ n,
      byteAt info.payload (S7CommParser.s7_pdu + S7CommParser.header_size info + 1) = n + 1 :=
    ⟨_, (Nat.sub_add_cancel hic).symm⟩
  have h0 := createUnifiedRecord_s7_item S7CommParser.getName self.m_asset_manager info direction
  unfold S7CommParser.buildRecord
  simp only []
  rw [dataFields_s7_item]
  unfold S7CommParser.paramFields
  simp only []
  rw [if_pos ⟨by omega, by omega⟩, if_pos ⟨hfn, by omega⟩, hn,
    paramItemWalk_item _ _ _ _ _ _ (by omega)]
  simp only [UnifiedRecord.s7_item, Prod.mk.injEq] at h0
  simp only [h0.2.2.2.2.1]

/-- C19: for every record that `S7CommParser::parse` emits for a packet whose
parameter block has function 0x04 or 0x05, an item count of at least one and
room for one complete 12-byte item, with `item` the offset of item 0 (two bytes
after the start of the parameter block): `s7_ic` is the declared item count,
`s7_tsz` is item byte 3, `s7_amt` the big-endian 16-bit value of item bytes 4
and 5, `s7_ar` item byte 8, `s7_db` the big-endian 16-bit value of item bytes 6
and 7 when the area byte is 0x84 and empty otherwise, and `s7_addr` is V / 8
for the 24-bit big-endian value V of item bytes 9 to 11. -/
theorem C19_s7_item_fields (self : S7CommParser) (now : Nat) (info : PacketInfo) (item : Nat)
    (hitem : item = S7CommParser.s7_pdu + S7CommParser.header_size info + 2)
    (hplen : 14 ≤ S7CommParser.param_len info)
    (hfit : (S7CommParser.header_size info : Int) + (S7CommParser.param_len info : Int) ≤
      info.payload_size - 7)
    (hfn : byteAt info.payload (item - 2) = 0x04 ∨ byteAt info.payload (item - 2) = 0x05)
    (hic : 1 ≤ byteAt info.payload (item - 1)) :
    ∀ r ∈ (self.parse now info).2,
      r.s7_ic = toString (byteAt info.payload (item - 1)) ∧
      r.s7_tsz = toString (byteAt info.payload (item + 3)) ∧
      r.s7_amt =
        toString (byteAt info.payload (item + 4) * 256 + byteAt info.payload (item + 5)) ∧
      r.s7_ar = toString (byteAt info.payload (item + 8)) ∧
      r.s7_db =
        (if byteAt info.payload (item + 8) = 0x84 then
          toString (byteAt info.payload (item + 6) * 256 + byteAt info.payload (item + 7))
        else "") ∧
      r.s7_addr =
        toString ((byteAt info.payload (item + 9) * 65536 +
          byteAt info.payload (item + 10) * 256 + byteAt info.payload (item + 11)) / 8) := by
  intro r hr
  obtain ⟨s, d, req, rfl⟩ := s7_parse_records self now info r hr
  subst hitem
  have h := s7_buildRecord_item s info d req hplen hfit hfn hic
  simp only [UnifiedRecord.s7_item, Prod.mk.injEq] at h
  obtain ⟨h1, h2, h3, h4, h5, h6⟩ := h
  rw [s7_addr_to_int_eq, Nat.shiftRight_eq_div_pow] at h6
  refine ⟨h1, h2, ?_, h4, ?_, h6⟩
  · rw [h3]
    rfl
  · rw [h5]
    rfl

/-- C19 (witness): the job of the pairing scenario, whose item 0 starts at
offset 19: transport size 2, amount 1, DB 1, area 0x84, bit address 0x80. -/
theorem C19_s7_item_fields_witness :
    (s7_empty.parse 0 s7_job).2 ≠ [] ∧
    ∀ r ∈ (s7_empty.parse 0 s7_job).2,
      r.s7_ic = "1" ∧ r.s7_tsz = "2" ∧ r.s7_amt = "1" ∧ r.s7_ar = "132" ∧ r.s7_db = "1" ∧
      r.s7_addr = "16" :=
  ⟨by decide, C19_s7_item_fields s7_empty 0 s7_job 19 (by decide) (by decide) (by decide)
    (by decide) (by decide)⟩

/-- The company id of a payload admitted by `XgtFenParser::isProtocol`. -/
theorem xgt_isProtocol_companyId (info : PacketInfo)
    (h : XgtFenParser.isProtocol info = true) :
    20 ≤ info.payload_size ∧ bytesToString info.payload 0 8 = "LSIS-XGT" := by
  unfold XgtFenParser.isProtocol at h
  simp only [decide_eq_true_eq] at h
  refine ⟨h.2.2.1, ?_⟩
  have h8 := congrArg (List.map Char.ofNat) h.2.2.2
  rw [List.map_map] at h8
  unfold bytesToString
  have : ((List.range 8).map fun i => Char.ofNat (byteAt info.payload (0 + i))) =
      (List.range 8).map (Char.ofNat ∘ byteAt info.payload) := by
    apply List.map_congr_left
    intro i _
    simp
  rw [this, h8]
  decide

/-- The instruction decoded from a continuous read response without error: the
member `blockCount` keeps its initial value 0. -/
theorem parseInstruction_continuous_read_response (p : List Nat) (header : XgtFenHeader)
    (hsrc : header.sourceOfFrame = 0x11)
    (hcmd : read_le16 p 20 = 0x0055)
    (hdt : read_le16 p 22 = 0x0014)
    (herr : read_le16 p 26 = 0) :
    XgtFenParser.parseInstruction p 20 (12 + read_le16 p 30) header =
      some
        { command := 0x0055
          dataType := 0x0014
          is_continuous := true
          reserved := read_le16 p 24
          errorStatus := 0
          errorInfoOrBlockCount := read_le16 p 28
          dataSize := read_le16 p 30
          continuousReadData := bytesSlice p 32 (read_le16 p 30) } := by
  unfold XgtFenParser.parseInstruction
  simp only [hcmd, hdt, hsrc, XgtFenParser.XGT_CMD_READ_REQ, XgtFenParser.XGT_CMD_READ_RESP,
    XgtFenParser.XGT_CMD_WRITE_REQ, XgtFenParser.XGT_CMD_WRITE_RESP,
    XgtFenParser.XGT_DTYPE_CONTINUOUS]
  rw [if_neg (by omega), if_neg (by decide), if_neg (by omega), if_pos (by decide)]
  unfold XgtFenParser.parseResponse
  simp only [herr, XgtFenParser.XGT_ERROR_STATUS_OK, Nat.reduceAdd]
  rw [if_neg (by omega), if_neg (by omega), if_neg (by decide), if_pos (by decide),
    if_pos (by decide), if_neg (by omega), if_neg (by omega)]
  unfold XgtFenParser.checkConsumed
  rw [if_neg (by simp)]
  simp

/-- The header decoded from a payload admitted by `XgtFenParser::isProtocol`. -/
theorem xgt_parseHeader_admitted (info : PacketInfo)
    (hadm : XgtFenParser.isProtocol info = true) (hsz : info.payload_size < 18446744073709551616) :
    ∃ header, XgtFenParser.parseHeader info.payload (toSizeT info.payload_size) = some header ∧
      header.sourceOfFrame = byteAt info.payload 13 ∧
      header.length = read_le16 info.payload 16 := by
  obtain ⟨h20, hid⟩ := xgt_isProtocol_companyId info hadm
  unfold XgtFenParser.parseHeader
  rw [if_neg (by unfold toSizeT; omega)]
  simp only [hid, ne_eq, not_true_eq_false, if_false]
  exact ⟨_, rfl, rfl, rfl⟩

/-- The instruction fields of a record for a continuous read response. -/
theorem instructionFields_continuous_read_response (self : XgtFenParser) (p : List Nat)
    (record : UnifiedRecord) (hn : 1 ≤ read_le16 p 30) :
    ∃ r,
      XgtFenParser.instructionFields self
        { command := 0x0055
          dataType := 0x0014
          is_continuous := true
          reserved := read_le16 p 24
          errorStatus := 0
          errorInfoOrBlockCount := read_le16 p 28
          dataSize := read_le16 p 30
          continuousReadData := bytesSlice p 32 (read_le16 p 30) } record = r ∧
      r.xgt_cmd = "85" ∧ r.xgt_dtype = "20" ∧ r.xgt_errstat = "0" ∧ r.xgt_blkcnt = "0" ∧
      r.xgt_errinfo = toString (read_le16 p 28) ∧
      r.xgt_datasize = toString (read_le16 p 30) ∧
      r.xgt_data = bytesToHexString (bytesSlice p 32 (read_le16 p 30)) := by
  have hne : bytesSlice p 32 (read_le16 p 30) ≠ [] := by
    intro h
    have := congrArg List.length h
    simp [bytesSlice] at this
    omega
  unfold XgtFenParser.instructionFields
  simp only [hne, ne_eq, not_false_eq_true, not_true_eq_false, if_true, if_false]
  rw [if_pos (by omega)]
  exact ⟨_, rfl, rfl, rfl, rfl, rfl, rfl, rfl, rfl⟩

/-- C20: for every XGT-admitted payload that is a well-formed continuous read
response (source of frame 0x11, command 0x0055, data type 0x0014, error status
0, block-count field 1, data size n at least 1 followed by exactly n data
bytes, header length equal to the instruction size) `XgtFenParser::parse` emits
one record with `xgt_cmd = 85`, `xgt_dtype = 20`, `xgt_errstat = 0`,
`xgt_datasize = n` and `xgt_data` the two-digit hexadecimal text of the n data
bytes; but `xgt_blkcnt` is 0, not 1: the continuous branch never assigns
`blockCount`, and the block-count field only reaches `xgt_errinfo`. -/
theorem C20_continuous_read_response (self : XgtFenParser) (info : PacketInfo)
    (hadm : XgtFenParser.isProtocol info = true)
    (hsrc : byteAt info.payload 13 = 0x11)
    (hcmd : read_le16 info.payload 20 = 0x0055)
    (hdt : read_le16 info.payload 22 = 0x0014)
    (herr : read_le16 info.payload 26 = 0)
    (hblk : read_le16 info.payload 28 = 1)
    (hn : 1 ≤ read_le16 info.payload 30)
    (hlen : read_le16 info.payload 16 = 12 + read_le16 info.payload 30)
    (hsize : info.payload_size = 32 + (read_le16 info.payload 30 : Int)) :
    ∃ r, self.parse info = [r] ∧
      r.dir = "response" ∧
      r.xgt_cmd = "85" ∧ r.xgt_dtype = "20" ∧ r.xgt_errstat = "0" ∧
      r.xgt_blkcnt = "0" ∧ r.xgt_errinfo = "1" ∧
      r.xgt_datasize = toString (read_le16 info.payload 30) ∧
      r.xgt_data = bytesToHexString (bytesSlice info.payload 32 (read_le16 info.payload 30)) := by
  have hlt : read_le16 info.payload 30 < 65536 := by
    have h1 := byteAt_lt info.payload 30
    have h2 := byteAt_lt info.payload (30 + 1)
    unfold read_le16
    omega
  obtain ⟨header, hh, hs, hl⟩ := xgt_parseHeader_admitted info hadm (by omega)
  have hsz : min header.length (if info.payload_size > 20 then info.payload_size - 20 else 0).toNat =
      12 + read_le16 info.payload 30 := by
    rw [if_pos (by omega), hl, hlen, hsize]
    have : ((32 : Int) + (read_le16 info.payload 30 : Int) - 20).toNat =
        12 + read_le16 info.payload 30 := by omega
    rw [this, Nat.min_self]
  unfold XgtFenParser.parse
  rw [hh]
  simp only []
  rw [hsz, parseInstruction_continuous_read_response info.payload header (hs.trans hsrc) hcmd hdt
    herr]
  simp only []
  obtain ⟨r, hr, h1, h2, h3, h4, h5, h6, h7⟩ :=
    instructionFields_continuous_read_response self info.payload
      { BaseProtocolParser.createUnifiedRecord XgtFenParser.getName self.m_asset_manager info
          (if header.sourceOfFrame = 0x33 then "request"
            else if header.sourceOfFrame = 0x11 then "response" else "unknown") with
        len := toString header.length
        xgt_prid := toString header.invokeId
        xgt_companyId := header.companyId
        xgt_plcinfo := toString header.plcInfo
        xgt_cpuinfo := toString header.cpuInfo
        xgt_source := toString header.sourceOfFrame
        xgt_len := toString header.length
        xgt_fenetpos := toString header.fenetPosition } hn
  refine ⟨r, by rw [← hr], ?_, h1, h2, h3, h4, by rw [h5, hblk]; rfl, h6, h7⟩
  have hc := instructionFields_common self
    { command := 0x0055
      dataType := 0x0014
      is_continuous := true
      reserved := read_le16 info.payload 24
      errorStatus := 0
      errorInfoOrBlockCount := read_le16 info.payload 28
      dataSize := read_le16 info.payload 30
      continuousReadData := bytesSlice info.payload 32 (read_le16 info.payload 30) }
    { BaseProtocolParser.createUnifiedRecord XgtFenParser.getName self.m_asset_manager info
        (if header.sourceOfFrame = 0x33 then "request"
          else if header.sourceOfFrame = 0x11 then "response" else "unknown") with
      len := toString header.length
      xgt_prid := toString header.invokeId
      xgt_companyId := header.companyId
      xgt_plcinfo := toString header.plcInfo
      xgt_cpuinfo := toString header.cpuInfo
      xgt_source := toString header.sourceOfFrame
      xgt_len := toString header.length
      xgt_fenetpos := toString header.fenetPosition }
  rw [hr] at hc
  have hd := (common_protocol _ info _ _
    (hc.trans (createUnifiedRecord_common XgtFenParser.getName self.m_asset_manager info
      (if header.sourceOfFrame = 0x33 then "request"
        else if header.sourceOfFrame = 0x11 then "response" else "unknown")))).2.2.2.2.2.2
  rw [hd, hs, hsrc]
  rfl

/-- C20 (witness): the continuous read response of 16 data bytes: the record
has block count 0 although the block-count field of the payload is 1. -/
theorem C20_continuous_read_response_witness :
    ∃ r, xgt_empty.parse xgt_read_response = [r] ∧
      r.dir = "response" ∧
      r.xgt_cmd = "85" ∧ r.xgt_dtype = "20" ∧ r.xgt_errstat = "0" ∧
      r.xgt_blkcnt = "0" ∧ r.xgt_errinfo = "1" ∧
      r.xgt_datasize = "16" ∧
      r.xgt_data = "0102030405060708090a0b0c0d0e0fab" :=
  C20_continuous_read_response xgt_empty xgt_read_response (by decide) (by decide) (by decide)
    (by decide) (by decide) (by decide) (by decide) (by decide) (by decide)

/-! ## XGT FEnet parser: bytes consumed -/

theorem parseResponse_eq (p : List Nat) (base inst_size : Nat) (is_read_cmd : Bool)
    (instruction : XgtFenInstruction) :
    XgtFenParser.parseResponse p base inst_size is_read_cmd instruction =
      (XgtFenParser.responseOffset p base inst_size is_read_cmd instruction).bind
        (XgtFenParser.finalTest inst_size) := by
  unfold XgtFenParser.parseResponse XgtFenParser.responseOffset XgtFenParser.finalTest
  simp only []
  split_ifs with h1 h2 h3 h4 h5 h6 h7 <;> try rfl
  · simp [h3]
  · simp [not_not.1 h3]
  · cases XgtFenParser.readDataBlocks p base inst_size (read_le16 p (base + (6 + 2)))
      (6 + 2 + 2) [] with
    | none => rfl
    | some r => simp [not_not.1 h3]
  · simp [not_not.1 h3]

theorem parseRequest_eq (p : List Nat) (base inst_size : Nat) (is_write_cmd : Bool)
    (instruction : XgtFenInstruction)
    (h0 : instruction.errorStatus = XgtFenParser.XGT_ERROR_STATUS_OK) :
    XgtFenParser.parseRequest p base inst_size is_write_cmd instruction =
      (XgtFenParser.requestOffset p base inst_size is_write_cmd instruction).bind
        (XgtFenParser.finalTest inst_size) := by
  unfold XgtFenParser.parseRequest XgtFenParser.requestOffset XgtFenParser.finalTest
  simp only []
  split_ifs <;> try rfl
  · simp [h0]
  · simp [h0]
  · cases XgtFenParser.readVariables p base inst_size (read_le16 p (base + 6)) (6 + 2) [] with
    | none => rfl
    | some r =>
      simp only []
      cases XgtFenParser.readDataBlocks p base inst_size (read_le16 p (base + 6)) r.2 [] with
      | none => rfl
      | some r2 => simp [h0]
  · cases XgtFenParser.readVariables p base inst_size (read_le16 p (base + 6)) (6 + 2) [] with
    | none => rfl
    | some r => simp [h0]

theorem parseInstruction_eq (p : List Nat) (base inst_size : Nat) (header : XgtFenHeader) :
    XgtFenParser.parseInstruction p base inst_size header =
      (XgtFenParser.instructionOffset p base inst_size header).bind
        (XgtFenParser.finalTest inst_size) := by
  unfold XgtFenParser.parseInstruction XgtFenParser.instructionOffset
  simp only []
  split_ifs <;> try rfl
  · exact parseResponse_eq _ _ _ _ _
  · exact parseRequest_eq _ _ _ _ _ rfl

theorem readDataBlocks_mono (p : List Nat) (base n m : Nat) (hm : n ≤ m) :
    ∀ (k offset : Nat) (acc : List (Nat × List Nat)) (r : List (Nat × List Nat) × Nat),
      XgtFenParser.readDataBlocks p base n k offset acc = some r →
      XgtFenParser.readDataBlocks p base m k offset acc = some r := by
  intro k
  induction k with
  | zero => intro offset acc r h; exact h
  | succ k ih =>
    intro offset acc r h
    unfold XgtFenParser.readDataBlocks at h ⊢
    simp only [] at h ⊢
    split_ifs at h with h1 h2
    rw [if_neg (by omega), if_neg (by omega)]
    exact ih _ _ _ h

theorem readVariables_mono (p : List Nat) (base n m : Nat) (hm : n ≤ m) :
    ∀ (k offset : Nat) (acc : List (Nat × String)) (r : List (Nat × String) × Nat),
      XgtFenParser.readVariables p base n k offset acc = some r →
      XgtFenParser.readVariables p base m k offset acc = some r := by
  intro k
  induction k with
  | zero => intro offset acc r h; exact h
  | succ k ih =>
    intro offset acc r h
    unfold XgtFenParser.readVariables at h ⊢
    simp only [] at h ⊢
    split_ifs at h with h1 h2
    rw [if_neg (by omega), if_neg (by omega)]
    exact ih _ _ _ h

theorem responseOffset_mono (p : List Nat) (base n m : Nat) (hm : n ≤ m) (rc : Bool)
    (inst : XgtFenInstruction) (r : XgtFenInstruction × Nat)
    (h : XgtFenParser.responseOffset p base n rc inst = some r) :
    XgtFenParser.responseOffset p base m rc inst = some r := by
  unfold XgtFenParser.responseOffset at h ⊢
  simp only [] at h ⊢
  split_ifs at h with h1 h2 h3 h4 h5 h6 h7
  · rw [if_neg (by omega), if_neg (by omega), if_pos h3]
    exact h
  · rw [if_neg (by omega), if_neg (by omega), if_neg h3, if_pos h4, if_pos h5,
      if_neg (by omega), if_neg (by omega)]
    exact h
  · rw [if_neg (by omega), if_neg (by omega), if_neg h3, if_pos h4, if_neg h5]
    cases hrd : XgtFenParser.readDataBlocks p base n (read_le16 p (base + (6 + 2)))
      (6 + 2 + 2) [] with
    | none => rw [hrd] at h; simp at h
    | some x =>
      rw [hrd] at h
      rw [readDataBlocks_mono p base n m hm _ _ _ _ hrd]
      exact h
  · rw [if_neg (by omega), if_neg (by omega), if_neg h3, if_neg h4]
    exact h

theorem requestOffset_mono (p : List Nat) (base n m : Nat) (hm : n ≤ m) (wc : Bool)
    (inst : XgtFenInstruction) (r : XgtFenInstruction × Nat)
    (h : XgtFenParser.requestOffset p base n wc inst = some r) :
    XgtFenParser.requestOffset p base m wc inst = some r := by
  unfold XgtFenParser.requestOffset at h ⊢
  simp only [] at h ⊢
  split_ifs at h with h1 h2 h3 h4 h5 h6 h7 h8
  · rw [if_neg (by omega), if_pos h2, if_neg h3, if_neg (by omega), if_neg (by omega),
      if_neg (by omega), if_pos h7, if_neg (by omega)]
    exact h
  · rw [if_neg (by omega), if_pos h2, if_neg h3, if_neg (by omega), if_neg (by omega),
      if_neg (by omega), if_neg h7]
    exact h
  · rename_i h8
    rw [if_neg (by omega), if_neg h2]
    cases hrv : XgtFenParser.readVariables p base n (read_le16 p (base + 6)) (6 + 2) [] with
    | none => rw [hrv] at h; simp at h
    | some x =>
      rw [hrv] at h
      rw [readVariables_mono p base n m hm _ _ _ _ hrv]
      simp only [] at h ⊢
      rw [if_pos h8]
      cases hrd : XgtFenParser.readDataBlocks p base n (read_le16 p (base + 6)) x.2 [] with
      | none => rw [hrd] at h; simp at h
      | some y =>
        rw [hrd] at h
        rw [readDataBlocks_mono p base n m hm _ _ _ _ hrd]
        exact h
  · rename_i h8
    rw [if_neg (by omega), if_neg h2]
    cases hrv : XgtFenParser.readVariables p base n (read_le16 p (base + 6)) (6 + 2) [] with
    | none => rw [hrv] at h; simp at h
    | some x =>
      rw [hrv] at h
      rw [readVariables_mono p base n m hm _ _ _ _ hrv]
      simp only [] at h ⊢
      rw [if_neg h8]
      exact h

theorem instructionOffset_mono (p : List Nat) (base n m : Nat) (hm : n ≤ m)
    (header : XgtFenHeader) (r : XgtFenInstruction × Nat)
    (h : XgtFenParser.instructionOffset p base n header = some r) :
    XgtFenParser.instructionOffset p base m header = some r := by
  unfold XgtFenParser.instructionOffset at h ⊢
  simp only [] at h ⊢
  split_ifs at h with h1 h2 h3 h4 h5
  · rw [if_neg (by omega), if_neg h2, if_neg (by omega), if_pos h4]
    exact responseOffset_mono p base n m hm _ _ _ h
  · rw [if_neg (by omega), if_neg h2, if_neg (by omega), if_neg h4, if_pos h5]
    exact requestOffset_mono p base n m hm _ _ _ h

/-- The record that `XgtFenParser::parse` fills before it looks at the outcome
of `parseInstruction`. -/
theorem xgt_parse_header (self : XgtFenParser) (info : PacketInfo) (header : XgtFenHeader)
    (hh : XgtFenParser.parseHeader info.payload (toSizeT info.payload_size) = some header) :
    ∃ record : UnifiedRecord,
      (self.parse info =
        match XgtFenParser.parseInstruction info.payload 20
          (min header.length (if info.payload_size > 20 then info.payload_size - 20 else 0).toNat)
          header with
        | some instruction => [XgtFenParser.instructionFields self instruction record]
        | none => [record]) ∧
      record.len = toString header.length ∧ record.xgt_len = toString header.length ∧
      record.xgt_cmd = "" ∧ record.xgt_dtype = "" ∧ record.xgt_vars = "" ∧ record.xgt_data = "" ∧
      record.xgt_datasize = "" := by
  have hb : ∀ d,
      (BaseProtocolParser.createUnifiedRecord XgtFenParser.getName self.m_asset_manager info
        d).xgt_cmd = "" ∧
      (BaseProtocolParser.createUnifiedRecord XgtFenParser.getName self.m_asset_manager info
        d).xgt_dtype = "" ∧
      (BaseProtocolParser.createUnifiedRecord XgtFenParser.getName self.m_asset_manager info
        d).xgt_vars = "" ∧
      (BaseProtocolParser.createUnifiedRecord XgtFenParser.getName self.m_asset_manager info
        d).xgt_data = "" ∧
      (BaseProtocolParser.createUnifiedRecord XgtFenParser.getName self.m_asset_manager info
        d).xgt_datasize = "" := by
    intro d
    unfold BaseProtocolParser.createUnifiedRecord
    cases self.m_asset_manager with
    | none => exact ⟨rfl, rfl, rfl, rfl, rfl⟩
    | some a =>
      simp only []
      split_ifs <;> exact ⟨rfl, rfl, rfl, rfl, rfl⟩
  unfold XgtFenParser.parse
  rw [hh]
  simp only []
  exact ⟨_, rfl, rfl, rfl, (hb _).1, (hb _).2.1, (hb _).2.2.1, (hb _).2.2.2.1, (hb _).2.2.2.2⟩

theorem instructionFields_len (self : XgtFenParser) (instruction : XgtFenInstruction)
    (record : UnifiedRecord) :
    (self.instructionFields instruction record).len = record.len ∧
    (self.instructionFields instruction record).xgt_len = record.xgt_len := by
  unfold XgtFenParser.instructionFields
  simp only []
  split_ifs <;> exact ⟨rfl, rfl⟩

/-- C21: for every packet admitted by `XgtFenParser::isProtocol` (with a payload
size in the range of `int`), `parse` emits exactly one record, and its `len`
and `xgt_len` are the little-endian 16-bit length field at payload offset 16,
whatever the payload size is and whether or not the instruction parses. -/
theorem C21_xgt_len_is_header_length (self : XgtFenParser) (info : PacketInfo)
    (hadm : XgtFenParser.isProtocol info = true)
    (hint : info.payload_size ≤ 2147483647) :
    ∃ r, self.parse info = [r] ∧
      r.len = toString (read_le16 info.payload 16) ∧
      r.xgt_len = toString (read_le16 info.payload 16) := by
  obtain ⟨header, hh, -, hl⟩ := xgt_parseHeader_admitted info hadm (by omega)
  obtain ⟨record, hp, h1, h2, -, -, -, -, -⟩ := xgt_parse_header self info header hh
  rw [hp, ← hl]
  cases XgtFenParser.parseInstruction info.payload 20
      (min header.length (if info.payload_size > 20 then info.payload_size - 20 else 0).toNat)
      header with
  | none => exact ⟨_, rfl, h1, h2⟩
  | some i =>
    exact ⟨_, rfl, (instructionFields_len self i record).1.trans h1,
      (instructionFields_len self i record).2.trans h2⟩

/-- C21 (witness): a payload whose instruction does not parse (one byte more
than the instruction consumes); the record has `len = 29`. -/
theorem C21_xgt_len_is_header_length_witness :
    ∃ r, xgt_empty.parse xgt_read_response_extra = [r] ∧ r.len = "29" ∧ r.xgt_len = "29" :=
  C21_xgt_len_is_header_length xgt_empty xgt_read_response_extra (by decide) (by decide)

/-- An error response: with source of frame 0x11, a read or write command, at
least ten bytes and an error status other than 0, `parseInstruction` returns
`true` right after the error information, whatever the size and the bytes
that follow. -/
theorem parseInstruction_error_response (p : List Nat) (base n : Nat) (header : XgtFenHeader)
    (hsrc : header.sourceOfFrame = 0x11)
    (hcmd : read_le16 p base = 0x0054 ∨ read_le16 p base = 0x0055 ∨ read_le16 p base = 0x0058 ∨
      read_le16 p base = 0x0059)
    (hn : 10 ≤ n)
    (herr : read_le16 p (base + 6) ≠ 0) :
    XgtFenParser.parseInstruction p base n header =
      some
        { command := read_le16 p base
          dataType := read_le16 p (base + 2)
          is_continuous := read_le16 p (base + 2) = XgtFenParser.XGT_DTYPE_CONTINUOUS
          reserved := read_le16 p (base + 4)
          errorStatus := read_le16 p (base + 6)
          errorInfoOrBlockCount := read_le16 p (base + 8) } := by
  have hc : ¬ ((¬ (read_le16 p base = XgtFenParser.XGT_CMD_READ_REQ ∨
      read_le16 p base = XgtFenParser.XGT_CMD_READ_RESP)) ∧
      ¬ (read_le16 p base = XgtFenParser.XGT_CMD_WRITE_REQ ∨
        read_le16 p base = XgtFenParser.XGT_CMD_WRITE_RESP)) := by
    simp only [XgtFenParser.XGT_CMD_READ_REQ, XgtFenParser.XGT_CMD_READ_RESP,
      XgtFenParser.XGT_CMD_WRITE_REQ, XgtFenParser.XGT_CMD_WRITE_RESP]
    tauto
  unfold XgtFenParser.parseInstruction
  simp only [hsrc]
  rw [if_neg (by omega), if_neg (by simpa using hc), if_neg (by omega), if_pos (by decide)]
  unfold XgtFenParser.parseResponse
  simp only []
  rw [if_neg (by omega), if_neg (by omega), if_pos (by simpa [XgtFenParser.XGT_ERROR_STATUS_OK] using herr)]

/-- The fields that `parse` fills from the instruction of an error response. -/
theorem instructionFields_error_response (self : XgtFenParser) (c d res e ei : Nat)
    (b : Bool) (record : UnifiedRecord) :
    ∃ r,
      XgtFenParser.instructionFields self
        { command := c
          dataType := d
          is_continuous := b
          reserved := res
          errorStatus := e
          errorInfoOrBlockCount := ei } record = r ∧
      r.xgt_cmd = toString c ∧ r.xgt_dtype = toString d ∧ r.xgt_errstat = toString e ∧
      r.xgt_errinfo = toString ei ∧ r.xgt_blkcnt = "0" ∧ r.xgt_data = "" ∧ r.xgt_vars = "" ∧
      r.xgt_datasize = record.xgt_datasize := by
  unfold XgtFenParser.instructionFields
  simp only [ne_eq, not_true_eq_false, if_false, List.map_nil, gt_iff_lt, lt_self_iff_false]
  exact ⟨_, rfl, rfl, rfl, rfl, rfl, rfl, rfl, rfl, rfl⟩

/-- C22: an XGT response (source of frame 0x11) with a read or write command,
an instruction of at least 10 bytes and an error status other than 0x0000:
`parseInstruction` succeeds for every instruction size from 10 on and whatever
bytes follow the error information, the instruction holds no data, and the
record that `parse` emits carries the command, the data type, the error status
and the 16-bit field after it, with empty data. -/
theorem C22_xgt_error_response (self : XgtFenParser) (info : PacketInfo)
    (hadm : XgtFenParser.isProtocol info = true)
    (hint : info.payload_size ≤ 2147483647)
    (hsrc : byteAt info.payload 13 = 0x11)
    (hcmd : read_le16 info.payload 20 = 0x0054 ∨ read_le16 info.payload 20 = 0x0055 ∨
      read_le16 info.payload 20 = 0x0058 ∨ read_le16 info.payload 20 = 0x0059)
    (hlen : 10 ≤ read_le16 info.payload 16)
    (hsize : 30 ≤ info.payload_size)
    (herr : read_le16 info.payload 26 ≠ 0) :
    (∀ (n : Nat) (header : XgtFenHeader) (q : List Nat), 10 ≤ n → header.sourceOfFrame = 0x11 →
      (∀ i, i < 30 → byteAt q i = byteAt info.payload i) →
      XgtFenParser.parseInstruction q 20 n header =
        some
          { command := read_le16 info.payload 20
            dataType := read_le16 info.payload 22
            is_continuous := read_le16 info.payload 22 = XgtFenParser.XGT_DTYPE_CONTINUOUS
            reserved := read_le16 info.payload 24
            errorStatus := read_le16 info.payload 26
            errorInfoOrBlockCount := read_le16 info.payload 28 }) ∧
    ∃ r, self.parse info = [r] ∧
      r.xgt_cmd = toString (read_le16 info.payload 20) ∧
      r.xgt_dtype = toString (read_le16 info.payload 22) ∧
      r.xgt_errstat = toString (read_le16 info.payload 26) ∧
      r.xgt_errinfo = toString (read_le16 info.payload 28) ∧
      r.xgt_data = "" ∧ r.xgt_vars = "" ∧ r.xgt_datasize = "" := by
  have hgen : ∀ (n : Nat) (header : XgtFenHeader) (q : List Nat), 10 ≤ n →
      header.sourceOfFrame = 0x11 →
      (∀ i, i < 30 → byteAt q i = byteAt info.payload i) →
      XgtFenParser.parseInstruction q 20 n header =
        some
          { command := read_le16 info.payload 20
            dataType := read_le16 info.payload 22
            is_continuous := read_le16 info.payload 22 = XgtFenParser.XGT_DTYPE_CONTINUOUS
            reserved := read_le16 info.payload 24
            errorStatus := read_le16 info.payload 26
            errorInfoOrBlockCount := read_le16 info.payload 28 } := by
    intro n header q hn hs hq
    have hr : ∀ off, off + 1 < 30 → read_le16 q off = read_le16 info.payload off := by
      intro off ho
      unfold read_le16
      rw [hq off (by omega), hq (off + 1) ho]
    have h := parseInstruction_error_response q 20 n header hs
      (by rw [hr 20 (by omega)]; exact hcmd) hn (by rw [hr 26 (by omega)]; exact herr)
    rw [h, hr 20 (by omega), hr 22 (by omega), hr 24 (by omega), hr 26 (by omega),
      hr 28 (by omega)]
  refine ⟨hgen, ?_⟩
  obtain ⟨header, hh, hs, hl⟩ := xgt_parseHeader_admitted info hadm (by omega)
  obtain ⟨record, hp, -, -, -, -, -, -, hds⟩ := xgt_parse_header self info header hh
  have hsz : 10 ≤ min header.length
      (if info.payload_size > 20 then info.payload_size - 20 else 0).toNat := by
    rw [if_pos (by omega), hl]
    have : 10 ≤ (info.payload_size - 20).toNat := by omega
    exact le_min hlen this
  rw [hp, hgen _ header info.payload hsz (hs.trans hsrc) (fun _ _ => rfl)]
  obtain ⟨r, hr, h1, h2, h3, h4, -, h6, h7, h8⟩ :=
    instructionFields_error_response self (read_le16 info.payload 20)
      (read_le16 info.payload 22) (read_le16 info.payload 24) (read_le16 info.payload 26)
      (read_le16 info.payload 28)
      (decide (read_le16 info.payload 22 = XgtFenParser.XGT_DTYPE_CONTINUOUS)) record
  exact ⟨r, by rw [← hr], h1, h2, h3, h4, h6, h7, h8.trans hds⟩

/-- C22 (witness): the error response with error status 0xffff and error
information 0x0011, followed by three more bytes. -/
theorem C22_xgt_error_response_witness :
    ∃ r, xgt_empty.parse xgt_error_response = [r] ∧
      r.xgt_cmd = "85" ∧ r.xgt_dtype = "2" ∧ r.xgt_errstat = "65535" ∧ r.xgt_errinfo = "17" ∧
      r.xgt_data = "" ∧ r.xgt_vars = "" ∧ r.xgt_datasize = "" :=
  (C22_xgt_error_response xgt_empty xgt_error_response (by decide) (by decide) (by decide)
    (by decide) (by decide) (by decide) (by decide)).2

/-- A request never sets the error status. -/
theorem requestOffset_errorStatus (p : List Nat) (base n : Nat) (wc : Bool)
    (inst : XgtFenInstruction) (r : XgtFenInstruction × Nat)
    (h : XgtFenParser.requestOffset p base n wc inst = some r) :
    r.1.errorStatus = inst.errorStatus := by
  unfold XgtFenParser.requestOffset at h
  simp only [] at h
  split_ifs at h with h1 h2 h3 h4 h5 h6 h7 h8
  · injection h with h; rw [← h]
  · injection h with h; rw [← h]
  · cases hrv : XgtFenParser.readVariables p base n (read_le16 p (base + 6)) (6 + 2) [] with
    | none => rw [hrv] at h; simp at h
    | some x =>
      rw [hrv] at h
      simp only [] at h
      cases hrd : XgtFenParser.readDataBlocks p base n (read_le16 p (base + 6)) x.2 [] with
      | none => rw [hrd] at h; simp at h
      | some y =>
        rw [hrd] at h
        injection h with h; rw [← h]
  · cases hrv : XgtFenParser.readVariables p base n (read_le16 p (base + 6)) (6 + 2) [] with
    | none => rw [hrv] at h; simp at h
    | some x =>
      rw [hrv] at h
      injection h with h; rw [← h]

/-- Success of `parseInstruction` in terms of the bytes consumed. -/
theorem parseInstruction_some (p : List Nat) (base n : Nat) (header : XgtFenHeader)
    (i : XgtFenInstruction) (h : XgtFenParser.parseInstruction p base n header = some i) :
    ∃ off, XgtFenParser.instructionOffset p base n header = some (i, off) ∧
      (i.errorStatus = 0 → off = n) := by
  rw [parseInstruction_eq] at h
  cases ho : XgtFenParser.instructionOffset p base n header with
  | none => rw [ho] at h; simp at h
  | some r =>
    rw [ho] at h
    simp only [Option.some_bind, XgtFenParser.finalTest, XgtFenParser.checkConsumed,
      XgtFenParser.XGT_ERROR_STATUS_OK] at h
    split_ifs at h with h1 h2
    · injection h with h
      exact ⟨r.2, by rw [← h], fun h0 => absurd (h ▸ h0) h1⟩
    · injection h with h
      exact ⟨r.2, by rw [← h], fun _ => not_not.1 h2⟩

/-- C23: whenever `parseInstruction` succeeds with error status 0 (every
request, and every response without error), the number of bytes consumed
equals the instruction size given; the same bytes under a larger declared
size (extra bytes after a well-formed instruction) are rejected, and after a
rejected instruction `parse` emits its record without command, data type,
variables and data. The continuous read response of 28 bytes is accepted with
header length 28 and rejected with one extra byte and header length 29. -/
theorem C23_consumed_equals_size :
    (∀ (p : List Nat) (base n : Nat) (header : XgtFenHeader) (i : XgtFenInstruction),
      XgtFenParser.parseInstruction p base n header = some i → i.errorStatus = 0 →
      XgtFenParser.instructionOffset p base n header = some (i, n)) ∧
    (∀ (p : List Nat) (base n : Nat) (header : XgtFenHeader) (i : XgtFenInstruction),
      XgtFenParser.parseInstruction p base n header = some i → header.sourceOfFrame ≠ 0x11 →
      i.errorStatus = 0) ∧
    (∀ (p : List Nat) (base n : Nat) (header : XgtFenHeader) (i : XgtFenInstruction),
      XgtFenParser.parseInstruction p base n header = some i → i.errorStatus = 0 →
      ∀ m, n < m → XgtFenParser.parseInstruction p base m header = none) ∧
    (∀ (self : XgtFenParser) (info : PacketInfo) (header : XgtFenHeader),
      XgtFenParser.parseHeader info.payload (toSizeT info.payload_size) = some header →
      XgtFenParser.parseInstruction info.payload 20
        (min header.length (if info.payload_size > 20 then info.payload_size - 20 else 0).toNat)
        header = none →
      ∃ r, self.parse info = [r] ∧
        r.xgt_cmd = "" ∧ r.xgt_dtype = "" ∧ r.xgt_vars = "" ∧ r.xgt_data = "") ∧
    (xgt_empty.parse xgt_read_response).map
        (fun r => (r.xgt_len, r.xgt_cmd, r.xgt_dtype, r.xgt_data)) =
      [("28", "85", "20", "0102030405060708090a0b0c0d0e0fab")] ∧
    (xgt_empty.parse xgt_read_response_extra).map
        (fun r => (r.xgt_len, r.xgt_cmd, r.xgt_dtype, r.xgt_vars, r.xgt_data)) =
      [("29", "", "", "", "")] := by
  refine ⟨?_, ?_, ?_, ?_, by decide, by decide⟩
  · intro p base n header i h h0
    obtain ⟨off, ho, hoff⟩ := parseInstruction_some p base n header i h
    rw [ho, hoff h0]
  · intro p base n header i h hsrc
    obtain ⟨off, ho, -⟩ := parseInstruction_some p base n header i h
    unfold XgtFenParser.instructionOffset at ho
    simp only [] at ho
    split_ifs at ho with h1 h2 h3 h4
    · exact requestOffset_errorStatus _ _ _ _ _ _ ho
  · intro p base n header i h h0 m hm
    obtain ⟨off, ho, hoff⟩ := parseInstruction_some p base n header i h
    rw [parseInstruction_eq, instructionOffset_mono p base n m (by omega) header _ ho]
    simp only [Option.some_bind, XgtFenParser.finalTest, XgtFenParser.checkConsumed,
      XgtFenParser.XGT_ERROR_STATUS_OK]
    rw [if_neg (by simpa using h0), if_pos (by rw [hoff h0]; omega)]
  · intro self info header hh hnone
    obtain ⟨record, hp, -, -, h1, h2, h3, h4, -⟩ := xgt_parse_header self info header hh
    rw [hp, hnone]
    exact ⟨_, rfl, h1, h2, h3, h4⟩

/-! ## Decimal text of fixed width -/

theorem char_of_isDigit (c : Char) (h : c.isDigit = true) :
    c.toNat - 48 < 10 ∧ c = Nat.digitChar (c.toNat - 48) := by
  have h1 : 48 ≤ c.toNat ∧ c.toNat ≤ 57 := by
    simp only [Char.isDigit, Bool.and_eq_true, decide_eq_true_eq] at h
    exact ⟨h.1, h.2⟩
  have h2 := Char.ofNat_toNat c
  obtain ⟨h3, h4⟩ := h1
  interval_cases hc : c.toNat <;> exact ⟨by omega, by rw [← h2]; rfl⟩

theorem digitsValue_cons (c : Char) (l : List Char) :
    digitsValue (c :: l) = (c.toNat - 48) * 10 ^ l.length + digitsValue l := by
  induction l using List.reverseRecOn with
  | nil => simp [digitsValue]
  | append_singleton l a ih =>
    rw [← List.cons_append, digitsValue_append_singleton, digitsValue_append_singleton, ih,
      List.length_append, List.length_singleton, pow_succ]
    ring

theorem digitsValue_lt (l : List Char) (hl : ∀ c ∈ l, c.isDigit = true) :
    digitsValue l < 10 ^ l.length := by
  induction l using List.reverseRecOn with
  | nil => simp [digitsValue]
  | append_singleton l a ih =>
    have h1 := ih (fun c hc => hl c (List.mem_append_left _ hc))
    have h2 := (char_of_isDigit a (hl a (by simp))).1
    rw [digitsValue_append_singleton, List.length_append, List.length_singleton, pow_succ]
    omega

/-- Two runs of decimal digits of the same length that denote the same number
are equal. -/
theorem digits_unique (l1 : List Char) :
    ∀ l2 : List Char, l1.length = l2.length → (∀ c ∈ l1, c.isDigit = true) →
      (∀ c ∈ l2, c.isDigit = true) → digitsValue l1 = digitsValue l2 → l1 = l2 := by
  induction l1 with
  | nil =>
    intro l2 hlen _ _ _
    exact (List.length_eq_zero.1 hlen.symm).symm
  | cons a t ih =>
    intro l2 hlen h1 h2 hv
    cases l2 with
    | nil => simp at hlen
    | cons b u =>
      have hlen2 : t.length = u.length := by simpa using hlen
      have ha := char_of_isDigit a (h1 a (by simp))
      have hb := char_of_isDigit b (h2 b (by simp))
      have ht := digitsValue_lt t (fun c hc => h1 c (List.mem_cons_of_mem _ hc))
      have hu := digitsValue_lt u (fun c hc => h2 c (List.mem_cons_of_mem _ hc))
      rw [digitsValue_cons, digitsValue_cons, hlen2] at hv
      rw [hlen2] at ht
      have hpos : 0 < 10 ^ u.length := by positivity
      have hab : a.toNat - 48 = b.toNat - 48 := by
        generalize 10 ^ u.length = P at *
        generalize a.toNat - 48 = x at *
        generalize b.toNat - 48 = y at *
        rcases Nat.lt_trichotomy x y with h | h | h
        · have : (x + 1) * P ≤ y * P := Nat.mul_le_mul_right P h
          rw [Nat.add_mul] at this
          omega
        · exact h
        · have : (y + 1) * P ≤ x * P := Nat.mul_le_mul_right P h
          rw [Nat.add_mul] at this
          omega
      have hab2 : a = b := by rw [ha.2, hb.2, hab]
      rw [hab] at hv
      rw [hab2, ih u hlen2 (fun c hc => h1 c (List.mem_cons_of_mem _ hc))
        (fun c hc => h2 c (List.mem_cons_of_mem _ hc)) (by omega)]

theorem digitsValue_zeros (k : Nat) (l : List Char) :
    digitsValue (List.replicate k '0' ++ l) = digitsValue l := by
  induction k with
  | zero => rfl
  | succ k ih =>
    rw [List.replicate_succ, List.cons_append, digitsValue_cons, ih]
    simp

/-- The output of a natural number below `10 ^ w` with `setw(w)` and fill
character `0` is the run of `w` digits that denotes it. -/
theorem setw_fill_data (w n : Nat) (hw : 0 < w) (hn : n < 10 ^ w) :
    (setw_fill w (n : Nat)).data.length = w ∧
    (∀ c ∈ (setw_fill w (n : Nat)).data, c.isDigit = true) ∧
    digitsValue (setw_fill w (n : Nat)).data = n := by
  have hts : toString ((n : Nat) : Int) = toString n := rfl
  obtain ⟨hne, hall, hval⟩ := toString_data_spec n
  have hlen : (toString n).data.length ≤ w := Nat.repr_length n w hw hn
  have hpos : 0 < (toString n).data.length := List.length_pos.2 hne
  unfold setw_fill
  rw [hts]
  simp only [String.data_append, String.length]
  generalize (toString n).data = l at *
  refine ⟨?_, ?_, ?_⟩
  · rw [List.length_append, List.length_replicate]
    omega
  · intro c hc
    rcases List.mem_append.1 hc with h | h
    · rw [(List.mem_replicate.1 h).2]
      rfl
    · exact hall c h
  · rw [digitsValue_zeros, hval]

theorem setw_fill_two (n : Nat) (hn : n < 100) : setw_fill 2 (n : Nat) = digits2 n := by
  obtain ⟨h1, h2, h3⟩ := setw_fill_data 2 n (by decide) (by omega)
  obtain ⟨ha, -⟩ := digitChar_isDigit (n / 10 % 10) (Nat.mod_lt _ (by decide))
  obtain ⟨hb, -⟩ := digitChar_isDigit (n % 10) (Nat.mod_lt _ (by decide))
  have hva := (digitChar_isDigit (n / 10 % 10) (Nat.mod_lt _ (by decide))).2
  have hvb := (digitChar_isDigit (n % 10) (Nat.mod_lt _ (by decide))).2
  have : (setw_fill 2 (n : Nat)).data = (digits2 n).data := by
    apply digits_unique _ _ (by rw [h1]; rfl) h2
    · intro c hc
      simp only [digits2, List.mem_cons, List.mem_singleton, List.not_mem_nil, or_false] at hc
      rcases hc with rfl | rfl
      · exact ha
      · exact hb
    · rw [h3]
      simp only [digits2, digitsValue, List.foldl_cons, List.foldl_nil, hva, hvb]
      omega
  exact String.ext this

theorem setw_fill_four (n : Nat) (hn : n < 10000) : setw_fill 4 (n : Nat) = digits4 n := by
  obtain ⟨h1, h2, h3⟩ := setw_fill_data 4 n (by decide) (by omega)
  have ha := digitChar_isDigit (n / 1000 % 10) (Nat.mod_lt _ (by decide))
  have hb := digitChar_isDigit (n / 100 % 10) (Nat.mod_lt _ (by decide))
  have hc := digitChar_isDigit (n / 10 % 10) (Nat.mod_lt _ (by decide))
  have hd := digitChar_isDigit (n % 10) (Nat.mod_lt _ (by decide))
  have : (setw_fill 4 (n : Nat)).data = (digits4 n).data := by
    apply digits_unique _ _ (by rw [h1]; rfl) h2
    · intro c hcm
      simp only [digits4, List.mem_cons, List.mem_singleton, List.not_mem_nil, or_false] at hcm
      rcases hcm with rfl | rfl | rfl | rfl
      · exact ha.1
      · exact hb.1
      · exact hc.1
      · exact hd.1
    · rw [h3]
      simp only [digits4, digitsValue, List.foldl_cons, List.foldl_nil, ha.2, hb.2, hc.2, hd.2]
      omega
  exact String.ext this

/-! ## Unified writer: time slots -/

/-- The conversion `%d` on a non-empty run of digits that is followed by the
end of the input or by a character that is not a digit. -/
theorem scan_d_digits (ds r : List Char) (hne : ds ≠ []) (hall : ∀ c ∈ ds, c.isDigit = true)
    (hr : ∀ c t, r = c :: t → c.isDigit = false) :
    scan_d (ds ++ r) = some ((digitsValue ds : Int), r) := by
  have htr : r.takeWhile Char.isDigit = [] := by
    cases r with
    | nil => rfl
    | cons c t => simp [List.takeWhile_cons, hr c t rfl]
  have hdr : r.dropWhile Char.isDigit = r := by
    cases r with
    | nil => rfl
    | cons c t => simp [List.dropWhile_cons, hr c t rfl]
  cases ds with
  | nil => exact absurd rfl hne
  | cons a t =>
    have ha := hall a (List.mem_cons_self a t)
    have hsp := isspace_of_isDigit a ha
    have hm : a ≠ '-' := by rintro rfl; revert ha; decide
    have hp : a ≠ '+' := by rintro rfl; revert ha; decide
    have h1 : ((a :: t) ++ r).dropWhile isspace = (a :: t) ++ r := by
      simp [List.dropWhile_cons, hsp]
    have h2 : skipSign ((a :: t) ++ r) = (a :: t) ++ r := by
      show skipSign (a :: (t ++ r)) = _
      unfold skipSign
      split
      · rename_i h; injection h with h _; exact absurd h hm
      · rename_i h; injection h with h _; exact absurd h hp
      · rfl
    have h3 : ((a :: t) ++ r).takeWhile Char.isDigit = a :: t := by
      rw [List.takeWhile_append_of_pos (fun c hc => hall c hc), htr, List.append_nil]
    have h4 : ((a :: t) ++ r).dropWhile Char.isDigit = r := by
      rw [List.dropWhile_append_of_pos (fun c hc => hall c hc), hdr]
    have h5 : ((a :: t) ++ r).head? ≠ some '-' := by
      simpa using hm
    unfold scan_d
    simp only [h1, h2, h3, h4, h5, decide_False, Bool.false_eq_true, if_false]
    rfl

theorem digits2_data (n : Nat) :
    (digits2 n).data ≠ [] ∧ (∀ c ∈ (digits2 n).data, c.isDigit = true) ∧
    (n < 100 → digitsValue (digits2 n).data = n) ∧ (digits2 n).data.length = 2 := by
  have ha := digitChar_isDigit (n / 10 % 10) (Nat.mod_lt _ (by decide))
  have hb := digitChar_isDigit (n % 10) (Nat.mod_lt _ (by decide))
  refine ⟨by simp [digits2], ?_, ?_, rfl⟩
  · intro c hc
    simp only [digits2, List.mem_cons, List.mem_singleton, List.not_mem_nil, or_false] at hc
    rcases hc with rfl | rfl
    · exact ha.1
    · exact hb.1
  · intro hn
    simp only [digits2, digitsValue, List.foldl_cons, List.foldl_nil, ha.2, hb.2]
    omega

theorem digits4_data (n : Nat) :
    (digits4 n).data ≠ [] ∧ (∀ c ∈ (digits4 n).data, c.isDigit = true) ∧
    (n < 10000 → digitsValue (digits4 n).data = n) ∧ (digits4 n).data.length = 4 := by
  have ha := digitChar_isDigit (n / 1000 % 10) (Nat.mod_lt _ (by decide))
  have hb := digitChar_isDigit (n / 100 % 10) (Nat.mod_lt _ (by decide))
  have hc := digitChar_isDigit (n / 10 % 10) (Nat.mod_lt _ (by decide))
  have hd := digitChar_isDigit (n % 10) (Nat.mod_lt _ (by decide))
  refine ⟨by simp [digits4], ?_, ?_, rfl⟩
  · intro c hcm
    simp only [digits4, List.mem_cons, List.mem_singleton, List.not_mem_nil, or_false] at hcm
    rcases hcm with rfl | rfl | rfl | rfl
    · exact ha.1
    · exact hb.1
    · exact hc.1
    · exact hd.1
  · intro hn
    simp only [digits4, digitsValue, List.foldl_cons, List.foldl_nil, ha.2, hb.2, hc.2, hd.2]
    omega

/-- The fields that `sscanf` reads from the first 19 characters of a timestamp
`YYYY-MM-DDThh:mm:ss`. -/
theorem sscanf_timestamp_digits (year mon mday hour min sec : Nat)
    (hy : year < 10000) (hmo : mon < 100) (hd : mday < 100) (hh : hour < 100)
    (hmi : min < 100) (hs : sec < 100) :
    sscanf_timestamp
      ((digits4 year).data ++ '-' :: ((digits2 mon).data ++ '-' :: ((digits2 mday).data ++
        'T' :: ((digits2 hour).data ++ ':' :: ((digits2 min).data ++
          ':' :: ((digits2 sec).data ++ [])))))) =
      ((year : Int), (mon : Int), (mday : Int), (hour : Int), (min : Int), (sec : Int)) := by
  obtain ⟨y1, y2, y3, -⟩ := digits4_data year
  obtain ⟨a1, a2, a3, -⟩ := digits2_data mon
  obtain ⟨b1, b2, b3, -⟩ := digits2_data mday
  obtain ⟨c1, c2, c3, -⟩ := digits2_data hour
  obtain ⟨d1, d2, d3, -⟩ := digits2_data min
  obtain ⟨e1, e2, e3, -⟩ := digits2_data sec
  have hsep : ∀ (x : Char) (l : List Char), x.isDigit = false →
      ∀ c t, x :: l = c :: t → c.isDigit = false := by
    intro x l hx c t h
    injection h with h _
    rw [← h]; exact hx
  unfold sscanf_timestamp
  rw [scan_d_digits _ _ y1 y2 (hsep '-' _ (by decide)), y3 hy]
  simp only [scan_char, if_true, Option.some_bind]
  rw [scan_d_digits _ _ a1 a2 (hsep '-' _ (by decide)), a3 hmo]
  simp only [scan_char, if_true, Option.some_bind]
  rw [scan_d_digits _ _ b1 b2 (hsep 'T' _ (by decide)), b3 hd]
  simp only [scan_char, if_true, Option.some_bind]
  rw [scan_d_digits _ _ c1 c2 (hsep ':' _ (by decide)), c3 hh]
  simp only [scan_char, if_true, Option.some_bind]
  rw [scan_d_digits _ _ d1 d2 (hsep ':' _ (by decide)), d3 hmi]
  simp only [scan_char, if_true, Option.some_bind]
  rw [scan_d_digits _ _ e1 e2 (by intro c t h; simp at h), e3 hs]

theorem timestampText_data (year mon mday hour min sec : Nat) (rest : String) :
    (timestampText year mon mday hour min sec rest).data =
      ((digits4 year).data ++ '-' :: ((digits2 mon).data ++ '-' :: ((digits2 mday).data ++
        'T' :: ((digits2 hour).data ++ ':' :: ((digits2 min).data ++
          ':' :: ((digits2 sec).data ++ [])))))) ++ rest.data := by
  simp [timestampText, String.data_append]

theorem timestampText_take (year mon mday hour min sec : Nat) (rest : String) :
    19 ≤ (timestampText year mon mday hour min sec rest).length ∧
    (timestampText year mon mday hour min sec rest).data.take 19 =
      ((digits4 year).data ++ '-' :: ((digits2 mon).data ++ '-' :: ((digits2 mday).data ++
        'T' :: ((digits2 hour).data ++ ':' :: ((digits2 min).data ++
          ':' :: ((digits2 sec).data ++ [])))))) := by
  have hlen : ((digits4 year).data ++ '-' :: ((digits2 mon).data ++ '-' :: ((digits2 mday).data ++
        'T' :: ((digits2 hour).data ++ ':' :: ((digits2 min).data ++
          ':' :: ((digits2 sec).data ++ [])))))).length = 19 := rfl
  refine ⟨?_, ?_⟩
  · show 19 ≤ (timestampText year mon mday hour min sec rest).data.length
    rw [timestampText_data, List.length_append, hlen]
    omega
  · rw [timestampText_data, List.take_append_of_le_length (by rw [hlen]), ← hlen, List.take_length]

/-- The label of a timestamp `YYYY-MM-DDThh:mm:ss...` for an interval of `m`
minutes, `m` at least 1. -/
theorem getTimeSlot_digits (slots : String → List UnifiedRecord) (m : Nat)
    (year mon mday hour min sec : Nat) (rest : String) (hm : 1 ≤ m)
    (hy : year < 10000) (hmo : mon < 100) (hd : mday < 100) (hh : hour < 100)
    (hmi : min < 100) (hs : sec < 100) :
    UnifiedWriter.getTimeSlot { m_interval_minutes := (m : Int), m_time_slots := slots }
        (timestampText year mon mday hour min sec rest) =
      "output_" ++ digits4 year ++ digits2 mon ++ digits2 mday ++ "_" ++ digits2 hour ++
        digits2 (m * (min / m)) := by
  obtain ⟨hlen, htake⟩ := timestampText_take year mon mday hour min sec rest
  have hslot : ((min : Int).tdiv (m : Int)) * (m : Int) = ((m * (min / m) : Nat) : Int) := by
    have : (min : Int).tdiv (m : Int) = ((min / m : Nat) : Int) := by
      simp [Int.tdiv]
    rw [this]
    push_cast
    ring
  have hlt : m * (min / m) < 100 := lt_of_le_of_lt (Nat.mul_div_le min m) hmi
  unfold UnifiedWriter.getTimeSlot
  rw [if_neg (by simp only []; omega), if_neg (by omega)]
  simp only [htake, sscanf_timestamp_digits year mon mday hour min sec hy hmo hd hh hmi hs,
    hslot, sub_add_cancel]
  rw [setw_fill_four year hy, setw_fill_two mon hmo, setw_fill_two mday hd,
    setw_fill_two hour hh, setw_fill_two _ hlt]

/-- C24: `UnifiedWriter::getTimeSlot`. For interval 0 the label is `output_all`
for every timestamp; for an interval `m` of at least 1 and a timestamp of the
form `YYYY-MM-DDThh:mm:ss...` the label is `output_` followed by `YYYYMMDD`,
`_`, `hh` and the two-digit value `m * (mm / m)`; hence a second timestamp with
the same year, month, day, hour and `mm / m` gets the same label. -/
theorem C24_getTimeSlot (slots : String → List UnifiedRecord) (m : Nat)
    (year mon mday hour min sec : Nat) (rest : String) (min2 sec2 : Nat) (rest2 : String)
    (hm : 1 ≤ m)
    (hy : year < 10000) (hmo : mon < 100) (hd : mday < 100) (hh : hour < 100)
    (hmi : min < 100) (hs : sec < 100) (hmi2 : min2 < 100) (hs2 : sec2 < 100)
    (hsame : min2 / m = min / m) :
    (∀ ts, UnifiedWriter.getTimeSlot { m_interval_minutes := 0, m_time_slots := slots } ts =
      "output_all") ∧
    UnifiedWriter.getTimeSlot { m_interval_minutes := (m : Int), m_time_slots := slots }
        (timestampText year mon mday hour min sec rest) =
      "output_" ++ digits4 year ++ digits2 mon ++ digits2 mday ++ "_" ++ digits2 hour ++
        digits2 (m * (min / m)) ∧
    UnifiedWriter.getTimeSlot { m_interval_minutes := (m : Int), m_time_slots := slots }
        (timestampText year mon mday hour min2 sec2 rest2) =
      UnifiedWriter.getTimeSlot { m_interval_minutes := (m : Int), m_time_slots := slots }
        (timestampText year mon mday hour min sec rest) := by
  refine ⟨fun ts => ?_, ?_, ?_⟩
  · unfold UnifiedWriter.getTimeSlot
    rw [if_pos rfl]
  · exact getTimeSlot_digits slots m year mon mday hour min sec rest hm hy hmo hd hh hmi hs
  · rw [getTimeSlot_digits slots m year mon mday hour min sec rest hm hy hmo hd hh hmi hs,
      getTimeSlot_digits slots m year mon mday hour min2 sec2 rest2 hm hy hmo hd hh hmi2 hs2,
      hsame]

/-- C24 (witness): with an interval of 5 minutes the timestamps
`2023-05-10T02:24:15.123456Z` and `2023-05-10T02:21:00.000000Z` both get the
label `output_20230510_0220`. -/
theorem C24_getTimeSlot_witness :
    (∀ ts, UnifiedWriter.getTimeSlot { m_interval_minutes := 0, m_time_slots := fun _ => [] } ts =
      "output_all") ∧
    UnifiedWriter.getTimeSlot { m_interval_minutes := 5, m_time_slots := fun _ => [] }
        "2023-05-10T02:24:15.123456Z" = "output_20230510_0220" ∧
    UnifiedWriter.getTimeSlot { m_interval_minutes := 5, m_time_slots := fun _ => [] }
        "2023-05-10T02:21:00.000000Z" =
      UnifiedWriter.getTimeSlot { m_interval_minutes := 5, m_time_slots := fun _ => [] }
        "2023-05-10T02:24:15.123456Z" :=
  C24_getTimeSlot (fun _ => []) 5 2023 5 10 2 24 15 ".123456Z" 21 0 ".000000Z" (by decide)
    (by decide) (by decide) (by decide) (by decide) (by decide) (by decide) (by decide)
    (by decide) (by decide)

/-! ## Unified writer: CSV fields -/

theorem escape_loop (l : List Char) :
    ∀ acc : String,
      l.foldl (fun result c => if c = '"' then result ++ "\"\"" else result.push c) acc =
        acc ++ String.mk (l.flatMap fun c => if c = '"' then ['"', '"'] else [c]) := by
  induction l with
  | nil =>
    intro acc
    apply String.ext
    simp
  | cons a t ih =>
    intro acc
    rw [List.foldl_cons, ih]
    apply String.ext
    by_cases ha : a = '"'
    · simp [ha, String.data_append]
    · simp [ha, String.data_append]

theorem flatMap_quote_length (l : List Char) :
    l.length ≤ (l.flatMap fun c => if c = '"' then ['"', '"'] else [c]).length := by
  induction l with
  | nil => simp
  | cons a t ih =>
    rw [List.flatMap_cons, List.length_append, List.length_cons]
    by_cases ha : a = '"'
    · simp only [ha, if_true, List.length_cons, List.length_nil]; omega
    · simp only [ha, if_false, List.length_cons, List.length_nil]; omega

/-- C26: `UnifiedWriter::escapeCSV(s)` is `s` itself when `s` contains no comma,
double quote or newline, and otherwise `s` with every double quote doubled,
wrapped in one pair of double quotes; the result differs from `s` (the field
is quoted) exactly in the second case. -/
theorem C26_escapeCSV (s : String) :
    UnifiedWriter.escapeCSV s = UnifiedWriter.escapeCSV_spec s ∧
    ((∀ c ∈ s.data, c ≠ ',' ∧ c ≠ '"' ∧ c ≠ '\n') → UnifiedWriter.escapeCSV s = s) ∧
    (¬ (∀ c ∈ s.data, c ≠ ',' ∧ c ≠ '"' ∧ c ≠ '\n') →
      UnifiedWriter.escapeCSV s =
        "\"" ++ String.mk (s.data.flatMap fun c => if c = '"' then ['"', '"'] else [c]) ++
          "\"") ∧
    (UnifiedWriter.escapeCSV s = s ↔ ∀ c ∈ s.data, c ≠ ',' ∧ c ≠ '"' ∧ c ≠ '\n') ∧
    UnifiedWriter.escapeCSV "a,b" = "\"a,b\"" ∧
    UnifiedWriter.escapeCSV "say \"hi\"" = "\"say \"\"hi\"\"\"" ∧
    UnifiedWriter.escapeCSV "192.168.0.1" = "192.168.0.1" := by
  have hany : (s.data.any fun c => decide (c = ',' ∨ c = '"' ∨ c = '\n')) = true ↔
      ¬ (∀ c ∈ s.data, c ≠ ',' ∧ c ≠ '"' ∧ c ≠ '\n') := by
    rw [List.any_eq_true]
    constructor
    · rintro ⟨c, hc, h⟩ hall
      have := hall c hc
      simp only [decide_eq_true_eq] at h
      tauto
    · intro h
      push_neg at h
      obtain ⟨c, hc, h⟩ := h
      refine ⟨c, hc, ?_⟩
      simp only [decide_eq_true_eq]
      by_cases h1 : c = ','
      · exact Or.inl h1
      · by_cases h2 : c = '"'
        · exact Or.inr (Or.inl h2)
        · exact Or.inr (Or.inr (h h1 h2))
  have hplain : (∀ c ∈ s.data, c ≠ ',' ∧ c ≠ '"' ∧ c ≠ '\n') → UnifiedWriter.escapeCSV s = s := by
    intro h
    unfold UnifiedWriter.escapeCSV
    by_cases he : s = ""
    · rw [if_pos he, he]
    · rw [if_neg he, if_pos (by
        intro hc
        exact (hany.1 hc) h)]
  have hquoted : ¬ (∀ c ∈ s.data, c ≠ ',' ∧ c ≠ '"' ∧ c ≠ '\n') →
      UnifiedWriter.escapeCSV s =
        "\"" ++ String.mk (s.data.flatMap fun c => if c = '"' then ['"', '"'] else [c]) ++
          "\"" := by
    intro h
    have he : s ≠ "" := by
      rintro rfl
      exact h (by simp)
    unfold UnifiedWriter.escapeCSV
    rw [if_neg he, if_neg (by
      intro hc
      exact hc (hany.2 h))]
    simp only []
    rw [escape_loop]
  refine ⟨?_, hplain, hquoted, ⟨fun heq => ?_, hplain⟩, by decide, by decide, by decide⟩
  · unfold UnifiedWriter.escapeCSV_spec
    by_cases h : ∀ c ∈ s.data, c ≠ ',' ∧ c ≠ '"' ∧ c ≠ '\n'
    · rw [if_pos h, hplain h]
    · rw [if_neg h, hquoted h]
  · by_contra h
    have hq := hquoted h
    rw [heq] at hq
    have hlen := congrArg (fun t : String => t.data.length) hq
    simp only [String.data_append, List.length_append] at hlen
    have := flatMap_quote_length s.data
    simp only [List.length_singleton] at hlen
    omega

/-! ## Unified writer: time slots and flush -/

theorem timestampLE_iff (a b : UnifiedRecord) :
    UnifiedWriter.timestampLE a b ↔ a.timestamp ≤ b.timestamp := by
  unfold UnifiedWriter.timestampLE
  rw [String.le_iff_toList_le]
  exact not_lt

theorem timestampLE_total : IsTotal UnifiedRecord UnifiedWriter.timestampLE :=
  ⟨fun a b => by
    rw [timestampLE_iff, timestampLE_iff]
    exact le_total _ _⟩

theorem timestampLE_trans : IsTrans UnifiedRecord UnifiedWriter.timestampLE :=
  ⟨fun a b c => by
    rw [timestampLE_iff, timestampLE_iff, timestampLE_iff]
    exact le_trans⟩

/-- The slots after a sequence of `addRecord` calls: every slot with a label
other than the empty string holds its old records followed by the records of
the sequence that have this label, in the order of the calls. -/
theorem addRecord_foldl (rs : List UnifiedRecord) :
    ∀ self : UnifiedWriter,
      (rs.foldl UnifiedWriter.addRecord self).m_interval_minutes = self.m_interval_minutes ∧
      ∀ slot, slot ≠ "" →
        (rs.foldl UnifiedWriter.addRecord self).m_time_slots slot =
          self.m_time_slots slot ++ rs.filter fun r => self.getTimeSlot r.timestamp = slot := by
  induction rs with
  | nil =>
    intro self
    exact ⟨rfl, fun slot _ => by simp⟩
  | cons r rs ih =>
    intro self
    have hint : (self.addRecord r).m_interval_minutes = self.m_interval_minutes := by
      unfold UnifiedWriter.addRecord
      simp only []
      split_ifs <;> rfl
    have hget : ∀ ts, (self.addRecord r).getTimeSlot ts = self.getTimeSlot ts := by
      intro ts
      unfold UnifiedWriter.getTimeSlot
      rw [hint]
    obtain ⟨h1, h2⟩ := ih (self.addRecord r)
    rw [List.foldl_cons]
    refine ⟨h1.trans hint, fun slot hslot => ?_⟩
    rw [h2 slot hslot]
    simp only [hget]
    unfold UnifiedWriter.addRecord
    simp only []
    by_cases hr : self.getTimeSlot r.timestamp = slot
    · rw [if_pos (by rw [hr]; exact hslot)]
      simp only [hr, if_true, List.filter_cons, decide_True, List.append_assoc,
        List.singleton_append]
    · by_cases he : self.getTimeSlot r.timestamp = ""
      · rw [if_neg (by simpa using he)]
        simp only [List.filter_cons, hr, decide_False, Bool.false_eq_true, if_false]
      · rw [if_pos he]
        simp only [List.filter_cons, hr, decide_False, Bool.false_eq_true, if_false,
          if_neg (Ne.symm hr)]

/-- The contract of the stable sort: the result is a permutation, it is in
non-decreasing timestamp order, and the records of one timestamp keep their
order. -/
theorem stable_sort_spec (records : List UnifiedRecord) :
    (UnifiedWriter.stable_sort records).Perm records ∧
    (UnifiedWriter.stable_sort records).Pairwise (fun a b => a.timestamp ≤ b.timestamp) ∧
    ∀ t : String,
      (UnifiedWriter.stable_sort records).filter (fun r => r.timestamp = t) =
        records.filter (fun r => r.timestamp = t) := by
  haveI := timestampLE_total
  haveI := timestampLE_trans
  have hperm : (UnifiedWriter.stable_sort records).Perm records :=
    List.perm_insertionSort _ records
  refine ⟨hperm, ?_, fun t => ?_⟩
  · have h := List.sorted_insertionSort UnifiedWriter.timestampLE records
    exact List.Pairwise.imp (fun {a b} hab => (timestampLE_iff a b).1 hab) h
  · have hpw : (records.filter (fun r => r.timestamp = t)).Pairwise UnifiedWriter.timestampLE := by
      rw [List.pairwise_iff_forall_sublist]
      intro a b hab
      have ha := List.of_mem_filter (hab.subset (List.mem_cons_self a [b]))
      have hb := List.of_mem_filter
        (hab.subset (List.mem_cons_of_mem a (List.mem_singleton_self b)))
      simp only [decide_eq_true_eq] at ha hb
      rw [timestampLE_iff, ha, hb]
    have hsub : List.Sublist (records.filter (fun r => r.timestamp = t))
        (UnifiedWriter.stable_sort records) :=
      List.sublist_insertionSort hpw (List.filter_sublist records)
    have hsub2 := hsub.filter (fun r => decide (r.timestamp = t))
    rw [List.filter_filter] at hsub2
    simp only [Bool.and_self] at hsub2
    have hlen := (hperm.filter (fun r => decide (r.timestamp = t))).length_eq
    exact (hsub2.eq_of_length hlen.symm).symm

/-- C25: after any sequence of `addRecord` calls, `flush` writes for every slot
(with a label other than the empty string, whose files can be opened) a
permutation of the records of that slot, the records it held before followed
by the records added to it, in non-decreasing timestamp order, and for every
timestamp the records with that timestamp are written in the order in which
they were added; afterwards all slots are empty. -/
theorem C25_flush_stable_order (self : UnifiedWriter) (rs : List UnifiedRecord)
    (csv_is_open jsonl_is_open : String → Bool) (slot : String)
    (hslot : slot ≠ "") (hcsv : csv_is_open slot = true) (hjsonl : jsonl_is_open slot = true) :
    (((rs.foldl UnifiedWriter.addRecord self).flush csv_is_open jsonl_is_open).2 slot).Perm
      (self.m_time_slots slot ++ rs.filter fun r => self.getTimeSlot r.timestamp = slot) ∧
    (((rs.foldl UnifiedWriter.addRecord self).flush csv_is_open jsonl_is_open).2 slot).Pairwise
      (fun a b => a.timestamp ≤ b.timestamp) ∧
    (∀ t : String,
      (((rs.foldl UnifiedWriter.addRecord self).flush csv_is_open jsonl_is_open).2 slot).filter
          (fun r => r.timestamp = t) =
        (self.m_time_slots slot ++ rs.filter fun r => self.getTimeSlot r.timestamp = slot).filter
          (fun r => r.timestamp = t)) ∧
    ∀ s, ((rs.foldl UnifiedWriter.addRecord self).flush csv_is_open jsonl_is_open).1.m_time_slots
      s = [] := by
  obtain ⟨-, h⟩ := addRecord_foldl rs self
  have hw : ((rs.foldl UnifiedWriter.addRecord self).flush csv_is_open jsonl_is_open).2 slot =
      UnifiedWriter.stable_sort
        (self.m_time_slots slot ++ rs.filter fun r => self.getTimeSlot r.timestamp = slot) := by
    unfold UnifiedWriter.flush UnifiedWriter.writeTimeSlot
    simp only [h slot hslot, hcsv, hjsonl, not_true_eq_false, if_false]
    split_ifs with he
    · rw [he]
      rfl
    · rfl
  rw [hw]
  obtain ⟨h1, h2, h3⟩ := stable_sort_spec
    (self.m_time_slots slot ++ rs.filter fun r => self.getTimeSlot r.timestamp = slot)
  exact ⟨h1, h2, h3, fun s => rfl⟩

/-- C25 (witness): the records of `test_stable_sort.cpp` added to an empty
writer with interval 0; the three register rows of the response are written
in the order 12, 13, 14 between the two requests. -/
theorem C25_flush_stable_order_witness :
    ((((stable_sort_records.foldl UnifiedWriter.addRecord
        { m_interval_minutes := 0, m_time_slots := fun _ => [] }).flush
          (fun _ => true) (fun _ => true)).2 "output_all").map
        (fun r => (r.timestamp, r.modbus_regs_addr)) =
      [("2025-09-22T02:52:00.771679Z", ""), ("2025-09-22T02:52:00.776322Z", "12"),
       ("2025-09-22T02:52:00.776322Z", "13"), ("2025-09-22T02:52:00.776322Z", "14"),
       ("2025-09-22T02:52:00.798610Z", "")]) ∧
    (((stable_sort_records.foldl UnifiedWriter.addRecord
        { m_interval_minutes := 0, m_time_slots := fun _ => [] }).flush
          (fun _ => true) (fun _ => true)).2 "output_all").Pairwise
      (fun a b => a.timestamp ≤ b.timestamp) :=
  ⟨by decide,
    (C25_flush_stable_order { m_interval_minutes := 0, m_time_slots := fun _ => [] }
      stable_sort_records (fun _ => true) (fun _ => true) "output_all" (by decide) rfl rfl).2.1⟩

/-! ## ARP parser -/

/-- C27: for every ARP payload of at least 28 bytes `ArpParser::parse` emits one
record with `protocol = arp`, `dir` request for opcode 1, response for opcode
2 and other otherwise, `arp_op` the opcode in decimal, `arp_tmac` the six
target hardware address bytes as colon-separated two-digit lower-case
hexadecimal, `arp_tip` the four target protocol address bytes as a dotted
quad and `len` the payload size; a shorter payload emits nothing. The frame
`arp_frame` (opcode 1, target `00:00:00:00:00:00` / `10.0.0.2`) gives
`dir = request`, `arp_op = 1`, `arp_tmac = 00:00:00:00:00:00`,
`arp_tip = 10.0.0.2`. -/
theorem C27_arp_record (m_asset_manager : Option AssetManager) (info : PacketInfo)
    (hsize : 28 ≤ info.payload_size) (hint : info.payload_size ≤ 2147483647) :
    (∃ r, ArpParser.parse m_asset_manager info = [r] ∧
      r.protocol = "arp" ∧
      r.dir =
        (if safe_ntohs info.payload 6 = 1 then "request"
          else if safe_ntohs info.payload 6 = 2 then "response" else "other") ∧
      r.arp_op = toString (safe_ntohs info.payload 6) ∧
      r.arp_tmac =
        hex2 (byteAt info.payload 18) ++ ":" ++ hex2 (byteAt info.payload 19) ++ ":" ++
        hex2 (byteAt info.payload 20) ++ ":" ++ hex2 (byteAt info.payload 21) ++ ":" ++
        hex2 (byteAt info.payload 22) ++ ":" ++ hex2 (byteAt info.payload 23) ∧
      r.arp_tip =
        toString (byteAt info.payload 24) ++ "." ++ toString (byteAt info.payload 25) ++ "." ++
        toString (byteAt info.payload 26) ++ "." ++ toString (byteAt info.payload 27) ∧
      r.len = toString info.payload_size) ∧
    (∀ short : PacketInfo, 0 ≤ short.payload_size → short.payload_size < 28 →
      ArpParser.parse m_asset_manager short = []) ∧
    (parsePacket (createWorkerParsers {} 0) 0 0 arp_header arp_frame).2.map
        (fun r => (r.protocol, r.dir, r.arp_op, r.arp_tmac, r.arp_tip, r.len)) =
      [("arp", "request", "1", "00:00:00:00:00:00", "10.0.0.2", "28")] := by
  refine ⟨?_, ?_, by decide⟩
  · have hc := createUnifiedRecord_common ArpParser.getName m_asset_manager info
      (if safe_ntohs info.payload 6 = 1 then "request"
        else if safe_ntohs info.payload 6 = 2 then "response" else "other")
    have hp := common_protocol _ info _ _ hc
    unfold ArpParser.parse
    rw [if_neg (by unfold toSizeT; omega)]
    exact ⟨_, rfl, hp.2.1, hp.2.2.2.2.2.2, rfl, rfl, rfl, rfl⟩
  · intro short h0 h28
    unfold ArpParser.parse
    rw [if_pos (by unfold toSizeT; omega)]

/-- C27 (witness): the ARP payload of `arp_frame`, 28 bytes from offset 14. -/
theorem C27_arp_record_witness :
    ∃ r, ArpParser.parse (some {}) { payload := arp_frame.drop 14, payload_size := 28 } = [r] ∧
      r.protocol = "arp" ∧ r.dir = "request" ∧ r.arp_op = "1" ∧
      r.arp_tmac = "00:00:00:00:00:00" ∧ r.arp_tip = "10.0.0.2" ∧ r.len = "28" :=
  (C27_arp_record (some {}) { payload := arp_frame.drop 14, payload_size := 28 } (by decide)
    (by decide)).1

/-! ## Asynchronous Redis writer -/

/-- The method `enqueue` on a full queue and on a queue with room. -/
theorem enqueue_cases (self : RedisAsyncWriter) (task : WriteTask) :
    (self.m_max_queue_size ≤ self.m_queue.length →
      self.enqueue task =
        ({ self with m_total_dropped := (self.m_total_dropped + 1) % SIZE_RANGE }, false)) ∧
    (self.m_queue.length < self.m_max_queue_size →
      self.enqueue task = ({ self with m_queue := self.m_queue ++ [task] }, true)) := by
  unfold RedisAsyncWriter.enqueue
  refine ⟨fun h => ?_, fun h => ?_⟩
  · rw [if_pos h]
  · rw [if_neg (by omega)]

/-- Consecutive `enqueue` calls on a queue within its capacity: the calls
succeed while there is room and are dropped afterwards. -/
theorem enqueueAll_spec (tasks : List WriteTask) :
    ∀ self : RedisAsyncWriter,
      self.m_queue.length ≤ self.m_max_queue_size →
      self.m_total_dropped + tasks.length < SIZE_RANGE →
      (self.enqueueAll tasks).2 =
        List.replicate (min tasks.length (self.m_max_queue_size - self.m_queue.length)) true ++
          List.replicate (tasks.length - (self.m_max_queue_size - self.m_queue.length)) false ∧
      (self.enqueueAll tasks).1 =
        { self with
          m_queue := self.m_queue ++ tasks.take (self.m_max_queue_size - self.m_queue.length)
          m_total_dropped :=
            self.m_total_dropped +
              (tasks.length - (self.m_max_queue_size - self.m_queue.length)) } := by
  induction tasks with
  | nil =>
    intro self _ _
    simp [RedisAsyncWriter.enqueueAll]
  | cons task tasks ih =>
    intro self hq hd
    rw [List.length_cons] at hd
    unfold RedisAsyncWriter.enqueueAll
    simp only []
    by_cases hfull : self.m_max_queue_size ≤ self.m_queue.length
    · have hz : self.m_max_queue_size - self.m_queue.length = 0 := by omega
      have hmod : (self.m_total_dropped + 1) % SIZE_RANGE = self.m_total_dropped + 1 :=
        Nat.mod_eq_of_lt (by omega)
      rw [(enqueue_cases self task).1 hfull]
      obtain ⟨h1, h2⟩ := ih { self with m_total_dropped := (self.m_total_dropped + 1) % SIZE_RANGE }
        hq (by simp only [hmod]; omega)
      simp only [hz, hmod, Nat.min_zero, List.replicate_zero, List.nil_append, Nat.sub_zero,
        List.take_zero, List.append_nil, List.length_cons] at h1 h2 ⊢
      rw [h1, h2]
      exact ⟨(List.replicate_succ false _).symm, by congr 1; omega⟩
    · have hroom : self.m_queue.length < self.m_max_queue_size := by omega
      rw [(enqueue_cases self task).2 hroom]
      obtain ⟨h1, h2⟩ := ih { self with m_queue := self.m_queue ++ [task] }
        (by simp only [List.length_append, List.length_singleton]; omega) (by simp only []; omega)
      simp only [List.length_append, List.length_singleton] at h1 h2
      obtain ⟨k, hk⟩ : ∃ k, self.m_max_queue_size - self.m_queue.length = k + 1 :=
        ⟨self.m_max_queue_size - self.m_queue.length - 1, by omega⟩
      have hk2 : self.m_max_queue_size - (self.m_queue.length + 1) = k := by omega
      simp only [hk, hk2, List.length_cons, List.take_succ_cons, Nat.add_sub_add_right,
        Nat.add_min_add_right] at h1 h2 ⊢
      rw [h1, h2]
      refine ⟨?_, by simp⟩
      rw [List.replicate_succ, List.cons_append]

/-- C28: `RedisAsyncWriter::enqueue` on a queue that holds `max_queue_size`
tasks (or more) returns false, leaves the queue as it is and increments
`total_dropped` by one (modulo `2 ^ 64`, the counter being a `size_t`); on a
queue with fewer tasks it returns true, appends the task at the back and leaves
`total_dropped` as it is; a queue within its capacity stays within it. With
capacity 10, 20 consecutive calls on an empty queue give 10 times true, then
10 times false, with the first 10 tasks in the queue and 10 drops counted. -/
theorem C28_enqueue_drop_on_overflow (self : RedisAsyncWriter) (task : WriteTask) :
    (self.m_max_queue_size ≤ self.m_queue.length →
      (self.enqueue task).2 = false ∧
      (self.enqueue task).1.m_queue = self.m_queue ∧
      (self.enqueue task).1.m_total_dropped = (self.m_total_dropped + 1) % SIZE_RANGE ∧
      (self.m_total_dropped + 1 < SIZE_RANGE →
        (self.enqueue task).1.m_total_dropped = self.m_total_dropped + 1)) ∧
    (self.m_queue.length < self.m_max_queue_size →
      (self.enqueue task).2 = true ∧
      (self.enqueue task).1.m_queue = self.m_queue ++ [task] ∧
      (self.enqueue task).1.m_total_dropped = self.m_total_dropped) ∧
    (self.enqueue task).1.m_total_written = self.m_total_written ∧
    (self.enqueue task).1.m_max_queue_size = self.m_max_queue_size ∧
    (self.m_queue.length ≤ self.m_max_queue_size →
      (self.enqueue task).1.m_queue.length ≤ self.m_max_queue_size) ∧
    (∀ tasks : List WriteTask, tasks.length = 20 →
      ((RedisAsyncWriter.construct 10).enqueueAll tasks).2 =
        List.replicate 10 true ++ List.replicate 10 false ∧
      ((RedisAsyncWriter.construct 10).enqueueAll tasks).1.m_queue = tasks.take 10 ∧
      ((RedisAsyncWriter.construct 10).enqueueAll tasks).1.m_total_dropped = 10 ∧
      ∀ k, ((RedisAsyncWriter.construct 10).enqueueAll (tasks.take k)).1.m_queue.length ≤ 10) := by
  obtain ⟨hf, hr⟩ := enqueue_cases self task
  refine ⟨fun h => ?_, fun h => ?_, ?_, ?_, fun h => ?_, fun tasks hlen => ?_⟩
  · rw [hf h]
    exact ⟨rfl, rfl, rfl, fun hlt => Nat.mod_eq_of_lt hlt⟩
  · rw [hr h]
    exact ⟨rfl, rfl, rfl⟩
  · unfold RedisAsyncWriter.enqueue
    split_ifs <;> rfl
  · unfold RedisAsyncWriter.enqueue
    split_ifs <;> rfl
  · by_cases hfull : self.m_max_queue_size ≤ self.m_queue.length
    · rw [hf hfull]
      exact h
    · rw [hr (by omega)]
      simp only [List.length_append, List.length_singleton]
      omega
  · have hc : (RedisAsyncWriter.construct 10).m_max_queue_size = 10 := by decide
    have hq : (RedisAsyncWriter.construct 10).m_queue = [] := rfl
    have hd : (RedisAsyncWriter.construct 10).m_total_dropped = 0 := rfl
    obtain ⟨h1, h2⟩ := enqueueAll_spec tasks (RedisAsyncWriter.construct 10)
      (by rw [hq, hc]; decide) (by rw [hd, hlen]; decide)
    refine ⟨?_, ?_, ?_, fun k => ?_⟩
    · rw [h1, hq, hc, hlen]
      rfl
    · rw [h2, hq, hc]
      rfl
    · rw [h2, hq, hc, hd, hlen]
      rfl
    · obtain ⟨-, h3⟩ := enqueueAll_spec (tasks.take k) (RedisAsyncWriter.construct 10)
        (by rw [hq, hc]; decide)
        (by
          rw [hd]
          have h20 : (tasks.take k).length ≤ 20 := by
            rw [← hlen]
            exact List.length_take_le' k tasks
          have h64 : (20 : Nat) < SIZE_RANGE := by decide
          omega)
      rw [h3, hq, hc]
      simp only [List.nil_append, List.length_nil, Nat.sub_zero]
      exact List.length_take_le _ _

/-! ## Asynchronous Redis writer: the account of tasks -/

theorem drainLoop_length (queue : List WriteTask) :
    ∀ batch : List WriteTask,
      (RedisAsyncWriter.drainLoop queue batch).1.length +
        (RedisAsyncWriter.drainLoop queue batch).2.length = queue.length + batch.length := by
  induction queue with
  | nil => intro batch; rfl
  | cons task queue ih =>
    intro batch
    unfold RedisAsyncWriter.drainLoop
    split_ifs
    · rw [ih]
      simp only [List.length_append, List.length_cons, List.length_nil]
      omega
    · rfl

theorem requeueLoop_account (batch : List WriteTask) :
    ∀ self : RedisAsyncWriter, self.m_total_dropped + batch.length < SIZE_RANGE →
      (self.requeueLoop batch).m_total_dropped + (self.requeueLoop batch).m_queue.length =
        self.m_total_dropped + self.m_queue.length + batch.length ∧
      (self.requeueLoop batch).m_total_written = self.m_total_written ∧
      (self.requeueLoop batch).m_max_queue_size = self.m_max_queue_size ∧
      (self.m_queue.length ≤ self.m_max_queue_size →
        (self.requeueLoop batch).m_queue.length ≤ self.m_max_queue_size) := by
  induction batch with
  | nil => intro self _; exact ⟨rfl, rfl, rfl, fun h => h⟩
  | cons task batch ih =>
    intro self h
    rw [List.length_cons] at h
    unfold RedisAsyncWriter.requeueLoop
    split_ifs with hroom
    · obtain ⟨h1, h2, h3, h4⟩ := ih { self with m_queue := self.m_queue ++ [task] }
        (by simp only []; omega)
      simp only [List.length_append, List.length_singleton] at h1 h4
      refine ⟨by rw [h1, List.length_cons]; omega, h2, h3, fun _ => ?_⟩
      exact h4 (by omega)
    · have hmod : (self.m_total_dropped + 1) % SIZE_RANGE = self.m_total_dropped + 1 :=
        Nat.mod_eq_of_lt (by omega)
      obtain ⟨h1, h2, h3, h4⟩ :=
        ih { self with m_total_dropped := (self.m_total_dropped + 1) % SIZE_RANGE }
          (by simp only [hmod]; omega)
      simp only [hmod] at h1 h2 h3 h4 ⊢
      refine ⟨by rw [h1, List.length_cons]; omega, h2, h3, fun hq => ?_⟩
      exact h4 hq

theorem processBatch_le (replies : Nat → GetReply) (batch : List WriteTask) :
    RedisAsyncWriter.processBatch replies batch ≤ batch.length := by
  unfold RedisAsyncWriter.processBatch
  exact (List.length_filter_le _ _).trans (by rw [List.length_range])

theorem sum_length_set (batches : List (List WriteTask)) :
    ∀ (worker : Nat) (batch : List WriteTask), worker < batches.length →
      ((batches.set worker batch).map List.length).sum + (batches.getD worker []).length =
        (batches.map List.length).sum + batch.length := by
  induction batches with
  | nil => intro worker batch h; simp at h
  | cons b bs ih =>
    intro worker batch h
    cases worker with
    | zero =>
      simp only [List.set_cons_zero, List.map_cons, List.sum_cons, List.getD_cons_zero]
      omega
    | succ w =>
      have := ih w batch (by simpa using h)
      simp only [List.set_cons_succ, List.map_cons, List.sum_cons, List.getD_cons_succ]
      omega

theorem requeueLoop_capacity (batch : List WriteTask) :
    ∀ self : RedisAsyncWriter,
      (self.requeueLoop batch).m_max_queue_size = self.m_max_queue_size := by
  induction batch with
  | nil => intro self; rfl
  | cons t b ih =>
    intro self
    unfold RedisAsyncWriter.requeueLoop
    split_ifs
    · exact ih _
    · exact ih _

theorem step_total_enqueued (run : WriterRun) (e : WriterEvent) :
    (run.step e).total_enqueued = run.total_enqueued + (if e.isEnqueue then 1 else 0) ∧
    (run.step e).batches.length = run.batches.length ∧
    (run.step e).writer.m_max_queue_size = run.writer.m_max_queue_size := by
  cases e with
  | enqueue task =>
    refine ⟨rfl, rfl, ?_⟩
    show (run.writer.enqueue task).1.m_max_queue_size = _
    unfold RedisAsyncWriter.enqueue
    split_ifs <;> rfl
  | drain worker =>
    simp only [WriterRun.step, WriterEvent.isEnqueue, Bool.false_eq_true, if_false, Nat.add_zero]
    split_ifs
    · exact ⟨rfl, by simp, rfl⟩
    · exact ⟨rfl, rfl, rfl⟩
  | no_connection worker =>
    simp only [WriterRun.step, WriterEvent.isEnqueue, Bool.false_eq_true, if_false, Nat.add_zero]
    split_ifs
    · exact ⟨rfl, by simp, requeueLoop_capacity _ _⟩
    · exact ⟨rfl, rfl, rfl⟩
  | process worker replies =>
    simp only [WriterRun.step, WriterEvent.isEnqueue, Bool.false_eq_true, if_false, Nat.add_zero]
    split_ifs
    · exact ⟨rfl, by simp, rfl⟩
    · exact ⟨rfl, rfl, rfl⟩

/-- One step keeps the account: written, dropped, queued, in-flight and failed
tasks add up to the tasks passed to `enqueue`, as long as that number fits a
`size_t`. -/
theorem step_account (run : WriterRun) (e : WriterEvent)
    (hinv : run.writer.m_total_written + run.writer.m_total_dropped +
      run.writer.m_queue.length + run.in_flight + run.total_failed = run.total_enqueued)
    (hlt : (run.step e).total_enqueued < SIZE_RANGE) :
    (run.step e).writer.m_total_written + (run.step e).writer.m_total_dropped +
        (run.step e).writer.m_queue.length + (run.step e).in_flight + (run.step e).total_failed =
      (run.step e).total_enqueued := by
  rw [(step_total_enqueued run e).1] at hlt ⊢
  unfold WriterRun.in_flight at hinv ⊢
  cases e with
  | enqueue task =>
    simp only [WriterRun.step, WriterEvent.isEnqueue, if_true] at hlt ⊢
    by_cases hfull : run.writer.m_max_queue_size ≤ run.writer.m_queue.length
    · rw [(enqueue_cases run.writer task).1 hfull]
      simp only []
      rw [Nat.mod_eq_of_lt (by omega)]
      omega
    · rw [(enqueue_cases run.writer task).2 (by omega)]
      simp only [List.length_append, List.length_singleton]
      omega
  | drain worker =>
    simp only [WriterEvent.isEnqueue, Bool.false_eq_true, if_false, Nat.add_zero] at hlt ⊢
    simp only [WriterRun.step]
    by_cases hw : worker < run.batches.length
    · simp only [hw, if_true]
      have h1 := drainLoop_length run.writer.m_queue (run.batches.getD worker [])
      have h2 := sum_length_set run.batches worker
        (RedisAsyncWriter.drainLoop run.writer.m_queue (run.batches.getD worker [])).2 hw
      omega
    · simp only [hw, if_false]
      exact hinv
  | no_connection worker =>
    simp only [WriterEvent.isEnqueue, Bool.false_eq_true, if_false, Nat.add_zero] at hlt ⊢
    simp only [WriterRun.step]
    by_cases hw : worker < run.batches.length
    · simp only [hw, if_true]
      have h2 := sum_length_set run.batches worker [] hw
      simp only [List.length_nil] at h2
      obtain ⟨h3, h4, -, -⟩ := requeueLoop_account (run.batches.getD worker []) run.writer
        (by omega)
      omega
    · simp only [hw, if_false]
      exact hinv
  | process worker replies =>
    simp only [WriterEvent.isEnqueue, Bool.false_eq_true, if_false, Nat.add_zero] at hlt ⊢
    simp only [WriterRun.step]
    by_cases hw : worker < run.batches.length
    · simp only [hw, if_true]
      have h2 := sum_length_set run.batches worker [] hw
      have h3 := processBatch_le replies (run.batches.getD worker [])
      simp only [List.length_nil] at h2
      rw [Nat.mod_eq_of_lt (by omega)]
      omega
    · simp only [hw, if_false]
      exact hinv

theorem steps_total_enqueued (events : List WriterEvent) :
    ∀ run : WriterRun,
      (run.steps events).total_enqueued =
        run.total_enqueued + events.countP WriterEvent.isEnqueue := by
  induction events with
  | nil => intro run; rfl
  | cons e es ih =>
    intro run
    show ((run.step e).steps es).total_enqueued = _
    rw [ih, (step_total_enqueued run e).1, List.countP_cons]
    omega

theorem steps_account (events : List WriterEvent) :
    ∀ run : WriterRun,
      run.writer.m_total_written + run.writer.m_total_dropped + run.writer.m_queue.length +
        run.in_flight + run.total_failed = run.total_enqueued →
      (run.steps events).total_enqueued < SIZE_RANGE →
      (run.steps events).writer.m_total_written + (run.steps events).writer.m_total_dropped +
          (run.steps events).writer.m_queue.length + (run.steps events).in_flight +
          (run.steps events).total_failed =
        (run.steps events).total_enqueued := by
  induction events with
  | nil => intro run hinv _; exact hinv
  | cons e es ih =>
    intro run hinv hlt
    have hstep : (run.step e).total_enqueued < SIZE_RANGE := by
      have h := steps_total_enqueued es (run.step e)
      have h2 : ((run.step e).steps es).total_enqueued < SIZE_RANGE := hlt
      omega
    exact ih (run.step e) (step_account run e hinv hstep) hlt

/-- C29 (counterexample): one task is passed to `enqueue`, a writer thread
drains it into its batch and the reply is an error. After the drain, and again
after the batch has been processed, written, dropped and queued tasks add up
to 0 while one task has been passed to `enqueue`. -/
theorem C29_counterexample :
    (((WriterRun.start 10000 2).steps
        [WriterEvent.enqueue sample_task, WriterEvent.drain 0]).writer.m_total_written +
      ((WriterRun.start 10000 2).steps
        [WriterEvent.enqueue sample_task, WriterEvent.drain 0]).writer.m_total_dropped +
      ((WriterRun.start 10000 2).steps
        [WriterEvent.enqueue sample_task, WriterEvent.drain 0]).writer.m_queue.length = 0) ∧
    ((WriterRun.start 10000 2).steps
        [WriterEvent.enqueue sample_task, WriterEvent.drain 0]).total_enqueued = 1 ∧
    (((WriterRun.start 10000 2).steps
        [WriterEvent.enqueue sample_task, WriterEvent.drain 0,
          WriterEvent.process 0 fun _ => GetReply.error_reply]).writer.m_total_written +
      ((WriterRun.start 10000 2).steps
        [WriterEvent.enqueue sample_task, WriterEvent.drain 0,
          WriterEvent.process 0 fun _ => GetReply.error_reply]).writer.m_total_dropped +
      ((WriterRun.start 10000 2).steps
        [WriterEvent.enqueue sample_task, WriterEvent.drain 0,
          WriterEvent.process 0 fun _ => GetReply.error_reply]).writer.m_queue.length = 0) ∧
    ((WriterRun.start 10000 2).steps
        [WriterEvent.enqueue sample_task, WriterEvent.drain 0,
          WriterEvent.process 0 fun _ => GetReply.error_reply]).total_enqueued = 1 ∧
    ((WriterRun.start 10000 2).steps
        [WriterEvent.enqueue sample_task, WriterEvent.drain 0,
          WriterEvent.process 0 fun _ => GetReply.error_reply]).in_flight = 0 := by
  decide

/-- C29 (amended): in every state reachable from a fresh writer by `enqueue`
calls and writer-thread steps, as long as fewer than `2 ^ 64` tasks have been
passed to `enqueue`: written, dropped and queued tasks, the tasks held in the
batches of the writer threads and the tasks whose reply failed add up to the
number of tasks passed to `enqueue`. So `total_written + total_dropped +
queue_size` is at most that number, and equal to it exactly when no batch is
in flight and no reply has failed. -/
theorem C29_account (queue_size : Int) (num_writers : Nat) (events : List WriterEvent)
    (hlt : events.countP WriterEvent.isEnqueue < SIZE_RANGE) :
    ((WriterRun.start queue_size num_writers).steps events).total_enqueued =
      events.countP WriterEvent.isEnqueue ∧
    ((WriterRun.start queue_size num_writers).steps events).writer.m_total_written +
        ((WriterRun.start queue_size num_writers).steps events).writer.m_total_dropped +
        ((WriterRun.start queue_size num_writers).steps events).writer.m_queue.length +
        ((WriterRun.start queue_size num_writers).steps events).in_flight +
        ((WriterRun.start queue_size num_writers).steps events).total_failed =
      events.countP WriterEvent.isEnqueue ∧
    ((WriterRun.start queue_size num_writers).steps events).writer.m_total_written +
        ((WriterRun.start queue_size num_writers).steps events).writer.m_total_dropped +
        ((WriterRun.start queue_size num_writers).steps events).writer.m_queue.length ≤
      events.countP WriterEvent.isEnqueue ∧
    (((WriterRun.start queue_size num_writers).steps events).writer.m_total_written +
        ((WriterRun.start queue_size num_writers).steps events).writer.m_total_dropped +
        ((WriterRun.start queue_size num_writers).steps events).writer.m_queue.length =
      events.countP WriterEvent.isEnqueue ↔
      ((WriterRun.start queue_size num_writers).steps events).in_flight = 0 ∧
      ((WriterRun.start queue_size num_writers).steps events).total_failed = 0) := by
  have h0 := steps_total_enqueued events (WriterRun.start queue_size num_writers)
  have hs : (WriterRun.start queue_size num_writers).total_enqueued = 0 := rfl
  rw [hs, Nat.zero_add] at h0
  have hinv0 : (WriterRun.start queue_size num_writers).writer.m_total_written +
      (WriterRun.start queue_size num_writers).writer.m_total_dropped +
      (WriterRun.start queue_size num_writers).writer.m_queue.length +
      (WriterRun.start queue_size num_writers).in_flight +
      (WriterRun.start queue_size num_writers).total_failed =
      (WriterRun.start queue_size num_writers).total_enqueued := by
    simp [WriterRun.start, WriterRun.in_flight, RedisAsyncWriter.construct]
  have h := steps_account events (WriterRun.start queue_size num_writers) hinv0
    (by rw [h0]; exact hlt)
  rw [h0] at h
  refine ⟨h0, h, by omega, ?_⟩
  constructor
  · intro heq
    omega
  · rintro ⟨h1, h2⟩
    omega

/-- C29 (witness): the run `sample_events`: four tasks passed to `enqueue`, one
written, none dropped, none queued, one in flight, two failed. -/
theorem C29_account_witness :
    ((WriterRun.start 10000 2).steps sample_events).total_enqueued = 4 ∧
    ((WriterRun.start 10000 2).steps sample_events).writer.m_total_written +
        ((WriterRun.start 10000 2).steps sample_events).writer.m_total_dropped +
        ((WriterRun.start 10000 2).steps sample_events).writer.m_queue.length +
        ((WriterRun.start 10000 2).steps sample_events).in_flight +
        ((WriterRun.start 10000 2).steps sample_events).total_failed = 4 ∧
    ((WriterRun.start 10000 2).steps sample_events).writer.m_total_written = 1 ∧
    ((WriterRun.start 10000 2).steps sample_events).in_flight = 1 ∧
    ((WriterRun.start 10000 2).steps sample_events).total_failed = 2 :=
  ⟨(C29_account 10000 2 sample_events (by decide)).1,
    (C29_account 10000 2 sample_events (by decide)).2.1, by decide, by decide, by decide⟩

/-- C30 (counterexample): with a configured bulk size of -1 the constructor
keeps -1, the buffer is compared with `2 ^ 64 - 2` and `addToBulk` never
empties it: after 101 calls on a connected client it holds 202 lines. -/
theorem C30_counterexample :
    (ElasticsearchClient.construct { bulk_size := -1 }).m_config.bulk_size = -1 ∧
    ((((ElasticsearchClient.construct { bulk_size := -1 }).connect true).1.calls
        (List.replicate 101 (BulkEvent.addToBulk "a" "d" true))).map
      fun c => c.m_bulk_buffer.length) = some 202 := by
  decide

/-- The constructor leaves a bulk size of at most 100, and of at least 1 when
the configured value is not negative; the buffer is empty. -/
theorem construct_bulk_size (config : ElasticsearchConfig) :
    (ElasticsearchClient.construct config).m_config.bulk_size ≤ 100 ∧
    (0 ≤ config.bulk_size → 1 ≤ (ElasticsearchClient.construct config).m_config.bulk_size) ∧
    (config.bulk_size < 0 →
      (ElasticsearchClient.construct config).m_config.bulk_size = config.bulk_size) ∧
    (ElasticsearchClient.construct config).m_bulk_buffer = [] := by
  unfold ElasticsearchClient.construct
  refine ⟨?_, ?_, ?_, rfl⟩
  · dsimp only
    split_ifs <;> (try dsimp only) <;> omega
  · intro h
    dsimp only
    split_ifs <;> (try dsimp only) <;> omega
  · intro h
    dsimp only
    split_ifs <;> (try dsimp only) <;> omega

/-- The method `addToBulk` on a client with a bulk size from 1 to 100. -/
theorem addToBulk_spec (self : ElasticsearchClient) (action_dump document_dump : String)
    (send_ok : Bool) (h1 : 1 ≤ self.m_config.bulk_size) (h100 : self.m_config.bulk_size ≤ 100) :
    ∃ r, self.addToBulk action_dump document_dump send_ok = some r ∧
      r.1.m_config = self.m_config ∧
      r.1.m_bulk_buffer =
        (if self.m_connected = true then
          (if ((self.m_bulk_buffer.length + 2 : Nat) : Int) ≥ 2 * self.m_config.bulk_size then []
            else self.m_bulk_buffer ++ [action_dump, document_dump])
        else self.m_bulk_buffer) := by
  have ht : self.bulkThreshold = some (self.m_config.bulk_size * 2).toNat := by
    unfold ElasticsearchClient.bulkThreshold
    rw [if_neg (by omega)]
    unfold toSizeT
    congr 1
    omega
  unfold ElasticsearchClient.addToBulk
  by_cases hc : self.m_connected = true
  · rw [if_neg (by simpa using hc), ht, if_pos hc]
    simp only [List.length_append, List.length_singleton, List.append_assoc,
      List.singleton_append, List.length_cons, List.length_nil]
    by_cases hfull : ((self.m_bulk_buffer.length + 2 : Nat) : Int) ≥ 2 * self.m_config.bulk_size
    · rw [if_pos (by omega), if_pos hfull]
      exact ⟨_, rfl, rfl, rfl⟩
    · rw [if_neg (by omega), if_neg hfull]
      exact ⟨_, rfl, rfl, rfl⟩
  · rw [if_pos (by simpa using hc), if_neg hc]
    exact ⟨_, rfl, rfl, rfl⟩

/-- One call keeps the buffer even and below twice the bulk size. -/
theorem call_bounded (self : ElasticsearchClient) (e : BulkEvent)
    (h1 : 1 ≤ self.m_config.bulk_size) (h100 : self.m_config.bulk_size ≤ 100)
    (heven : self.m_bulk_buffer.length % 2 = 0)
    (hlt : (self.m_bulk_buffer.length : Int) < 2 * self.m_config.bulk_size) :
    ∃ next, self.call e = some next ∧ next.m_config = self.m_config ∧
      next.m_bulk_buffer.length % 2 = 0 ∧
      (next.m_bulk_buffer.length : Int) < 2 * next.m_config.bulk_size := by
  cases e with
  | connect test_ok =>
    simp only [ElasticsearchClient.call, ElasticsearchClient.connect]
    split_ifs
    · exact ⟨_, rfl, rfl, heven, hlt⟩
    · exact ⟨_, rfl, rfl, heven, hlt⟩
  | disconnect send_ok =>
    simp only [ElasticsearchClient.call, ElasticsearchClient.disconnect,
      ElasticsearchClient.flushBulk]
    split_ifs
    · exact ⟨_, rfl, rfl, heven, hlt⟩
    · exact ⟨_, rfl, rfl, rfl, by simp only [List.length_nil]; omega⟩
  | addToBulk action_dump document_dump send_ok =>
    obtain ⟨r, hr, hcfg, hbuf⟩ := addToBulk_spec self action_dump document_dump send_ok h1 h100
    simp only [ElasticsearchClient.call, hr, Option.map_some']
    refine ⟨_, rfl, hcfg, ?_, ?_⟩
    · rw [hbuf]
      split_ifs
      · rfl
      · simp only [List.length_append, List.length_cons, List.length_nil]
        omega
      · exact heven
    · rw [hbuf, hcfg]
      split_ifs with hc hfull
      · simp only [List.length_nil]
        omega
      · simp only [List.length_append, List.length_cons, List.length_nil]
        omega
      · exact hlt
  | flushBulk send_ok =>
    simp only [ElasticsearchClient.call, ElasticsearchClient.flushBulk]
    split_ifs
    · exact ⟨_, rfl, rfl, heven, hlt⟩
    · exact ⟨_, rfl, rfl, rfl, by simp only [List.length_nil]; omega⟩

theorem calls_bounded (events : List BulkEvent) :
    ∀ self : ElasticsearchClient,
      1 ≤ self.m_config.bulk_size → self.m_config.bulk_size ≤ 100 →
      self.m_bulk_buffer.length % 2 = 0 →
      (self.m_bulk_buffer.length : Int) < 2 * self.m_config.bulk_size →
      ∃ last, self.calls events = some last ∧ last.m_config = self.m_config ∧
        last.m_bulk_buffer.length % 2 = 0 ∧
        (last.m_bulk_buffer.length : Int) < 2 * last.m_config.bulk_size := by
  induction events with
  | nil => intro self _ _ heven hlt; exact ⟨self, rfl, rfl, heven, hlt⟩
  | cons e es ih =>
    intro self h1 h100 heven hlt
    obtain ⟨next, hn, hcfg, he, hl⟩ := call_bounded self e h1 h100 heven hlt
    obtain ⟨last, h2, h3, h4, h5⟩ := ih next (by rw [hcfg]; exact h1) (by rw [hcfg]; exact h100)
      he hl
    refine ⟨last, ?_, h3.trans hcfg, h4, h5⟩
    simp only [ElasticsearchClient.calls, hn, Option.some_bind, h2]

/-- C30: the constructor leaves a bulk size of at most 100 for every
configured value, and from 1 to 100 when the configured value is not negative.
In that case, after any sequence of `connect`, `disconnect`, `addToBulk` and
`flushBulk` calls on the constructed client the buffer holds an even number of
lines, fewer than twice the bulk size and so never more than 198; each
`addToBulk` on a connected client appends the action line and the document
line and empties the buffer as soon as it reaches twice the bulk size. -/
theorem C30_bulk_buffer_bounded (config : ElasticsearchConfig) (events : List BulkEvent)
    (hcfg : 0 ≤ config.bulk_size) :
    (∀ any : ElasticsearchConfig, (ElasticsearchClient.construct any).m_config.bulk_size ≤ 100) ∧
    1 ≤ (ElasticsearchClient.construct config).m_config.bulk_size ∧
    ∃ last, (ElasticsearchClient.construct config).calls events = some last ∧
      last.m_config = (ElasticsearchClient.construct config).m_config ∧
      last.m_bulk_buffer.length % 2 = 0 ∧
      (last.m_bulk_buffer.length : Int) < 2 * last.m_config.bulk_size ∧
      last.m_bulk_buffer.length ≤ 198 ∧
      ∀ (action_dump document_dump : String) (send_ok : Bool), last.m_connected = true →
        ∃ r, last.addToBulk action_dump document_dump send_ok = some r ∧
          r.1.m_bulk_buffer =
            (if ((last.m_bulk_buffer.length + 2 : Nat) : Int) ≥ 2 * last.m_config.bulk_size
              then []
              else last.m_bulk_buffer ++ [action_dump, document_dump]) := by
  obtain ⟨h100, h1, -, hbuf⟩ := construct_bulk_size config
  obtain ⟨last, hl, hc, he, hlt⟩ := calls_bounded events (ElasticsearchClient.construct config)
    (h1 hcfg) h100 (by rw [hbuf]; rfl) (by rw [hbuf]; simp only [List.length_nil]; have := h1 hcfg; omega)
  refine ⟨fun any => (construct_bulk_size any).1, h1 hcfg, last, hl, hc, he, hlt, ?_, ?_⟩
  · rw [hc] at hlt
    omega
  · intro a d ok hconn
    obtain ⟨r, hr, -, hb⟩ := addToBulk_spec last a d ok (by rw [hc]; exact h1 hcfg)
      (by rw [hc]; exact h100)
    rw [if_pos hconn] at hb
    exact ⟨r, hr, hb⟩

/-- C30 (witness): with a configured bulk size of 2 the buffer is emptied by
the second `addToBulk` and holds the two lines of the third document after
the run `bulk_events`. -/
theorem C30_bulk_buffer_bounded_witness :
    (((ElasticsearchClient.construct { bulk_size := 2 }).calls bulk_events).map
      fun c => c.m_bulk_buffer) = some ["a3", "d3"] ∧
    1 ≤ (ElasticsearchClient.construct { bulk_size := 2 }).m_config.bulk_size ∧
    ∃ last, (ElasticsearchClient.construct { bulk_size := 2 }).calls bulk_events = some last ∧
      last.m_config = (ElasticsearchClient.construct { bulk_size := 2 }).m_config ∧
      last.m_bulk_buffer.length % 2 = 0 ∧
      (last.m_bulk_buffer.length : Int) < 2 * last.m_config.bulk_size ∧
      last.m_bulk_buffer.length ≤ 198 ∧
      ∀ (action_dump document_dump : String) (send_ok : Bool), last.m_connected = true →
        ∃ r, last.addToBulk action_dump document_dump send_ok = some r ∧
          r.1.m_bulk_buffer =
            (if ((last.m_bulk_buffer.length + 2 : Nat) : Int) ≥ 2 * last.m_config.bulk_size
              then []
              else last.m_bulk_buffer ++ [action_dump, document_dump]) :=
  ⟨by decide, (C30_bulk_buffer_bounded { bulk_size := 2 } bulk_events (by decide)).2⟩

/-! ## Sweep of the Modbus pending table -/

/-- C31: `cleanupOldRequests` does nothing while fewer than 60 s have passed
since the last sweep; otherwise it records the sweep time, removes exactly the
pending requests whose age is at least six minutes (more than 5 whole minutes)
and keeps every younger one unchanged, so a request aged between five and six
minutes is kept; absent entries stay absent. Readings are in nanoseconds. -/
theorem C31_cleanup_sweep (self : ModbusParser) (now : Nat) :
    (now - self.m_last_cleanup < 60000000000 → self.cleanupOldRequests now = self) ∧
    (60000000000 ≤ now - self.m_last_cleanup →
      (self.cleanupOldRequests now).m_last_cleanup = now ∧
      ∀ flow rk,
        (self.m_pending_requests flow rk = none →
          (self.cleanupOldRequests now).m_pending_requests flow rk = none) ∧
        ∀ r, self.m_pending_requests flow rk = some r →
          (360000000000 ≤ now - r.timestamp →
            (self.cleanupOldRequests now).m_pending_requests flow rk = none) ∧
          (now - r.timestamp < 360000000000 →
            (self.cleanupOldRequests now).m_pending_requests flow rk = some r)) := by
  unfold ModbusParser.cleanupOldRequests
  refine ⟨fun h => ?_, fun h => ?_⟩
  · rw [if_pos (by omega)]
  · rw [if_neg (by omega)]
    refine ⟨rfl, fun flow rk => ⟨fun hn => ?_, fun r hr => ⟨fun ha => ?_, fun ha => ?_⟩⟩⟩
    · simp only [hn]
    · simp only [hr]
      rw [if_pos (by omega)]
    · simp only [hr]
      rw [if_neg (by omega)]

/-- C31, failing input: a request that is 5 minutes 30 seconds old when a sweep
runs (330 s after the previous sweep) is still pending afterwards, although
the sweep did run. -/
theorem C31_kept_after_five_minutes :
    (stale_pending.cleanupOldRequests 330000000000).m_last_cleanup = 330000000000 ∧
    (stale_pending.cleanupOldRequests 330000000000).m_pending_requests "f" 259 =
      some { function_code := 3, start_address := 0, timestamp := 0 } := by
  decide
/-! ## The S7Comm pending table is never swept -/

/-- One call of `S7CommParser::parse` keeps a pending entry unless the packet
is its response; only a job under the same key replaces the entry. -/
theorem s7_parse_keeps (self : S7CommParser) (now : Nat) (info : PacketInfo)
    (flow : String) (ref : Nat) (req : S7CommRequestInfo)
    (hreq : self.m_pending_requests flow ref = some req)
    (hno : ¬ (info.flow_id = flow ∧ S7CommParser.pdu_ref info = ref ∧
      17 ≤ info.payload_size ∧
      (S7CommParser.rosctr info = 0x02 ∨ S7CommParser.rosctr info = 0x03))) :
    ((self.parse now info).1.m_pending_requests flow ref).isSome = true ∧
    (¬ (info.flow_id = flow ∧ S7CommParser.pdu_ref info = ref ∧
        17 ≤ info.payload_size ∧ S7CommParser.rosctr info = 0x01) →
      (self.parse now info).1.m_pending_requests flow ref = some req) := by
  by_cases hlen : 17 ≤ info.payload_size
  · by_cases h1 : S7CommParser.rosctr info = 0x01
    · rw [s7_parse_request self now info hlen h1]
      dsimp only
      by_cases hk : flow = info.flow_id ∧ ref = S7CommParser.pdu_ref info
      · rw [if_pos hk]
        refine ⟨rfl, fun hj => ?_⟩
        exact absurd ⟨hk.1.symm, hk.2.symm, hlen, h1⟩ hj
      · rw [if_neg hk, hreq]
        exact ⟨rfl, fun _ => rfl⟩
    · by_cases h23 : S7CommParser.rosctr info = 0x02 ∨ S7CommParser.rosctr info = 0x03
      · cases hp : self.m_pending_requests info.flow_id (S7CommParser.pdu_ref info) with
        | none =>
          rw [s7_parse_ignored self now info (Or.inr ⟨h1, fun _ => hp⟩), hreq]
          exact ⟨rfl, fun _ => rfl⟩
        | some req2 =>
          rw [s7_parse_response self now info req2 hlen h23 hp]
          dsimp only
          have hk : ¬ (flow = info.flow_id ∧ ref = S7CommParser.pdu_ref info) :=
            fun hk => hno ⟨hk.1.symm, hk.2.symm, hlen, h23⟩
          rw [if_neg hk, hreq]
          exact ⟨rfl, fun _ => rfl⟩
      · rw [s7_parse_ignored self now info (Or.inr ⟨h1, fun h => absurd h h23⟩), hreq]
        exact ⟨rfl, fun _ => rfl⟩
  · rw [s7_parse_ignored self now info (Or.inl (by omega)), hreq]
    exact ⟨rfl, fun _ => rfl⟩

/-- C32: the S7Comm pending table has no sweep. Whatever the clock readings of
the later calls of `parse` are, a pending request stays pending through every
sequence of packets that does not contain its response (ROSCTR 2 or 3 with the
same flow id and PDU reference); it even stays unchanged when no job reuses
its key. No idle time removes it. -/
theorem C32_s7_pending_never_swept (self : S7CommParser) (packets : List (Nat × PacketInfo))
    (flow : String) (ref : Nat) (req : S7CommRequestInfo)
    (hreq : self.m_pending_requests flow ref = some req)
    (hno : ∀ p ∈ packets, ¬ (p.2.flow_id = flow ∧ S7CommParser.pdu_ref p.2 = ref ∧
      17 ≤ p.2.payload_size ∧
      (S7CommParser.rosctr p.2 = 0x02 ∨ S7CommParser.rosctr p.2 = 0x03))) :
    ((self.parseAll packets).m_pending_requests flow ref).isSome = true ∧
    ((∀ p ∈ packets, ¬ (p.2.flow_id = flow ∧ S7CommParser.pdu_ref p.2 = ref ∧
        17 ≤ p.2.payload_size ∧ S7CommParser.rosctr p.2 = 0x01)) →
      (self.parseAll packets).m_pending_requests flow ref = some req) := by
  induction packets generalizing self req with
  | nil =>
    unfold S7CommParser.parseAll
    simp only [List.foldl_nil]
    rw [hreq]
    exact ⟨rfl, fun _ => rfl⟩
  | cons p ps ih =>
    have hstep := s7_parse_keeps self p.1 p.2 flow ref req hreq (hno p (List.mem_cons_self _ _))
    have hrest : ∀ q ∈ ps, ¬ (q.2.flow_id = flow ∧ S7CommParser.pdu_ref q.2 = ref ∧
        17 ≤ q.2.payload_size ∧
        (S7CommParser.rosctr q.2 = 0x02 ∨ S7CommParser.rosctr q.2 = 0x03)) :=
      fun q hq => hno q (List.mem_cons_of_mem _ hq)
    have hfold : S7CommParser.parseAll self (p :: ps) =
        S7CommParser.parseAll (self.parse p.1 p.2).1 ps := by
      unfold S7CommParser.parseAll
      rw [List.foldl_cons]
    rw [hfold]
    obtain ⟨req2, hreq2⟩ := Option.isSome_iff_exists.1 hstep.1
    refine ⟨(ih _ req2 hreq2 hrest).1, fun hj => ?_⟩
    have hsame := hstep.2 (hj p (List.mem_cons_self _ _))
    exact (ih _ req hsame hrest).2 (fun q hq => hj q (List.mem_cons_of_mem _ hq))

/-- C32 (witness): the job with PDU reference 42 is stored at reading 0; a job
with reference 43 arrives ten minutes later and a foreign packet twenty minutes later: the
request with reference 42 is still pending, unchanged. -/
theorem C32_s7_pending_never_swept_witness :
    (s7_empty.parse 0 s7_job).1.m_pending_requests s7_job.flow_id 42 =
      some (S7CommParser.new_req 0 s7_job) ∧
    (((s7_empty.parse 0 s7_job).1.parseAll
        [(600000000000, s7_job_later), (1200000000000, s7_on_modbus_port)]).m_pending_requests
      s7_job.flow_id 42).isSome = true ∧
    ((s7_empty.parse 0 s7_job).1.parseAll
        [(600000000000, s7_job_later), (1200000000000, s7_on_modbus_port)]).m_pending_requests
      s7_job.flow_id 42 = some (S7CommParser.new_req 0 s7_job) := by
  have h := C32_s7_pending_never_swept (s7_empty.parse 0 s7_job).1
    [(600000000000, s7_job_later), (1200000000000, s7_on_modbus_port)]
    s7_job.flow_id 42 (S7CommParser.new_req 0 s7_job) (by decide) (by decide)
  exact ⟨by decide, h.1, h.2 (by decide)⟩
/-! ## Worker thread count -/

/-- C33: the worker thread count chosen by the `PacketParser` constructor is
max(1, min(8, cores / 2)) when the requested count is 0 and min(requested, 16)
when it is positive; for every requested count (a negative one is treated like
0) and every number of cores the result is between 1 and 16. -/
theorem C33_thread_count (num_threads : Int) (hw_threads : Nat) :
    PacketParser.threadCount 0 hw_threads = ((max 1 (min 8 (hw_threads / 2)) : Nat) : Int) ∧
    (0 < num_threads → PacketParser.threadCount num_threads hw_threads = min num_threads 16) ∧
    1 ≤ PacketParser.threadCount num_threads hw_threads ∧
    PacketParser.threadCount num_threads hw_threads ≤ 16 := by
  unfold PacketParser.threadCount
  refine ⟨by rw [if_pos (le_refl _)], fun h => by rw [if_neg (by omega)], ?_, ?_⟩
  · split_ifs <;> omega
  · split_ifs <;> omega
/-! ## The bulk mutex is held during the network call -/

/-- C34: in `addToBulk` (when the buffer reaches the threshold), in `flushBulk`
and in a round of the periodic flusher (with a non-empty buffer), on a
connected client the actions are: lock the bulk mutex, send the swapped-out
buffer, unlock. The network call is made while the mutex is held; the lock is
not released before `flushBulkInternal` runs. -/
theorem C34_send_under_lock (self : ElasticsearchClient) (action_dump document_dump : String)
    (threshold : Nat) (hc : self.m_connected = true)
    (ht : self.bulkThreshold = some threshold)
    (hfull : threshold ≤ self.m_bulk_buffer.length + 2) :
    self.addToBulk_actions action_dump document_dump =
      some [BulkAction.lock,
        BulkAction.send (self.m_bulk_buffer ++ [action_dump] ++ [document_dump]),
        BulkAction.unlock] ∧
    BulkAction.lockAtSends false
      [BulkAction.lock,
        BulkAction.send (self.m_bulk_buffer ++ [action_dump] ++ [document_dump]),
        BulkAction.unlock] = [true] ∧
    (self.m_bulk_buffer ≠ [] →
      self.flushBulk_actions =
        [BulkAction.lock, BulkAction.send self.m_bulk_buffer, BulkAction.unlock] ∧
      self.autoFlushLoop_actions =
        [BulkAction.lock, BulkAction.send self.m_bulk_buffer, BulkAction.unlock] ∧
      BulkAction.lockAtSends false
        [BulkAction.lock, BulkAction.send self.m_bulk_buffer, BulkAction.unlock] = [true]) := by
  refine ⟨?_, rfl, fun hne => ⟨?_, ?_, rfl⟩⟩
  · unfold ElasticsearchClient.addToBulk_actions ElasticsearchClient.flushBulkInternal_actions
    simp only [hc, ht, not_true_eq_false, if_false]
    rw [if_pos (by simp only [List.length_append, List.length_cons, List.length_nil]; omega)]
    simp
  · unfold ElasticsearchClient.flushBulk_actions ElasticsearchClient.flushBulkInternal_actions
    simp [hc, hne]
  · unfold ElasticsearchClient.autoFlushLoop_actions
      ElasticsearchClient.flushBulkInternal_actions
    simp [hc, hne]

/-- C34 (witness): with bulk size 1 the first `addToBulk` sends its two lines
while the bulk mutex is held. -/
theorem C34_send_under_lock_witness :
    bulk_client_one.addToBulk_actions "a1" "d1" =
      some [BulkAction.lock, BulkAction.send ["a1", "d1"], BulkAction.unlock] ∧
    BulkAction.lockAtSends false
      [BulkAction.lock, BulkAction.send ["a1", "d1"], BulkAction.unlock] = [true] := by
  have h := C34_send_under_lock bulk_client_one "a1" "d1" 2 (by decide) (by decide) (by decide)
  exact ⟨h.1, h.2.1⟩

/-- C34, failing input: a client whose buffer holds two lines sends them in
`flushBulk` and in the periodic flusher while the bulk mutex is held. -/
theorem C34_flush_holds_lock :
    BulkAction.lockAtSends false
      ({ bulk_client_one with m_bulk_buffer := ["a1", "d1"] }).flushBulk_actions = [true] ∧
    BulkAction.lockAtSends false
      ({ bulk_client_one with m_bulk_buffer := ["a1", "d1"] }).autoFlushLoop_actions = [true] ∧
    Option.map (BulkAction.lockAtSends false) (bulk_client_one.addToBulk_actions "a1" "d1") =
      some [true] := by
  decide

/-! ## Function code decoding of the Modbus parser -/

theorem createUnifiedRecord_modbus_decoded (name : String) (am : Option AssetManager)
    (info : PacketInfo) (direction : String) :
    (BaseProtocolParser.createUnifiedRecord name am info direction).modbus_decoded =
      ("", "", "", "", "", "") := by
  unfold BaseProtocolParser.createUnifiedRecord
  cases am with
  | none => rfl
  | some a =>
    simp only []
    split_ifs <;> rfl

theorem baseRecord_modbus_decoded (self : ModbusParser) (info : PacketInfo) :
    (self.baseRecord info).modbus_decoded =
      (toString (ModbusParser.current_fc info), "", "", "", "", "") := by
  have h := createUnifiedRecord_modbus_decoded ModbusParser.getName self.m_asset_manager info
    (if info.dst_port = 502 then "request" else "response")
  unfold UnifiedRecord.modbus_decoded at h ⊢
  unfold ModbusParser.baseRecord
  simp only [Prod.mk.injEq] at h ⊢
  exact ⟨trivial, h.2.1, h.2.2.1, h.2.2.2.1, h.2.2.2.2.1, h.2.2.2.2.2⟩

/-- The end of `parse` emits one record when `modbus_addr` is empty or the
decimal literal of a 16-bit value, and leaves the function code fields as they
are. -/
theorem finish_modbus_decoded (self : ModbusParser) (record : UnifiedRecord)
    (h : record.modbus_addr = "" ∨ ∃ a, a < 65536 ∧ record.modbus_addr = toString a) :
    ∃ r, self.finish record = [r] ∧ r.modbus_decoded = record.modbus_decoded := by
  unfold ModbusParser.finish
  by_cases he : record.modbus_addr = ""
  · rw [if_neg (by simpa using he)]
    exact ⟨_, rfl, rfl⟩
  · rw [if_pos he]
    rcases h with h | ⟨a, ha, hs⟩
    · exact absurd h he
    · rw [hs, stoul_toString a (by unfold ULONG_RANGE; omega)]
      refine ⟨_, rfl, ?_⟩
      simp only [UnifiedRecord.modbus_decoded, hs]

/-- The end of `parse` on a record whose function code fields are known. -/
theorem finish_decoded_eq (self : ModbusParser) (record : UnifiedRecord)
    (fields : String × String × String × String × String × String)
    (h : record.modbus_addr = "" ∨ ∃ a, a < 65536 ∧ record.modbus_addr = toString a)
    (hf : record.modbus_decoded = fields) :
    ∃ r, self.finish record = [r] ∧ r.modbus_decoded = fields := by
  obtain ⟨r, h1, h2⟩ := finish_modbus_decoded self record h
  exact ⟨r, h1, by rw [h2, hf]⟩

/-- The records of `parse` for a packet with at least one PDU byte: the
function code decoding of the base record, then the end of `parse`. -/
theorem parse_records (self : ModbusParser) (now now_req : Nat) (info : PacketInfo)
    (h : 8 ≤ info.payload_size) :
    (self.parse now now_req info).2 =
      match ((self.cleanupOldRequests now).storeRequest now_req info).decode info
          (((self.cleanupOldRequests now).storeRequest now_req info).baseRecord info)
          ((self.cleanupOldRequests now).req_info_ptr info) with
      | Sum.inl rs => rs
      | Sum.inr record =>
        ((self.cleanupOldRequests now).storeRequest now_req info).finish record := by
  unfold ModbusParser.parse
  simp only []
  rw [if_neg (by omega)]
  generalize ((self.cleanupOldRequests now).storeRequest now_req info).decode info
    (((self.cleanupOldRequests now).storeRequest now_req info).baseRecord info)
    ((self.cleanupOldRequests now).req_info_ptr info) = d
  cases d <;> rfl

/-- The function code decoding outside the register loop, case by case. -/
theorem decode_cases (self : ModbusParser) (info : PacketInfo) (record : UnifiedRecord)
    (req : Option ModbusRequestInfo) :
    (byteAt info.payload 7 &&& 0x80 ≠ 0 → 2 ≤ info.payload_size - 7 →
      self.decode info record req =
        Sum.inr { record with modbus_err := toString (byteAt info.payload 8) }) ∧
    (byteAt info.payload 7 &&& 0x80 = 0 →
      (ModbusParser.current_fc info = 5 ∨ ModbusParser.current_fc info = 6) →
      5 ≤ info.payload_size - 7 →
      self.decode info record req =
        Sum.inr { record with
          modbus_addr := toString (safe_ntohs info.payload 8)
          modbus_val := toString (safe_ntohs info.payload 10) }) ∧
    (byteAt info.payload 7 &&& 0x80 = 0 →
      (ModbusParser.current_fc info = 15 ∨ ModbusParser.current_fc info = 16) →
      info.src_port ≠ 502 → 6 ≤ info.payload_size - 7 →
      self.decode info record req =
        Sum.inr { record with
          modbus_addr := toString (safe_ntohs info.payload 8)
          modbus_qty := toString (safe_ntohs info.payload 10)
          modbus_bc := toString (byteAt info.payload 12) }) ∧
    (byteAt info.payload 7 &&& 0x80 = 0 →
      ((ModbusParser.current_fc info = 15 ∨ ModbusParser.current_fc info = 16) ∧
          info.src_port = 502 ∨
        (ModbusParser.current_fc info = 1 ∨ ModbusParser.current_fc info = 2 ∨
          ModbusParser.current_fc info = 3 ∨ ModbusParser.current_fc info = 4) ∧
          info.src_port ≠ 502) →
      5 ≤ info.payload_size - 7 →
      self.decode info record req =
        Sum.inr { record with
          modbus_addr := toString (safe_ntohs info.payload 8)
          modbus_qty := toString (safe_ntohs info.payload 10) }) := by
  refine ⟨fun hx hl => ?_, fun hx hfc hl => ?_, fun hx hfc hs hl => ?_, fun hx hfc hl => ?_⟩
  · unfold ModbusParser.decode
    simp only [ModbusParser.pdu]
    rw [if_pos hx, if_pos (by omega)]
  · unfold ModbusParser.decode
    simp only [ModbusParser.pdu]
    rw [if_neg (by simpa using hx), if_neg (by omega), if_pos hfc, if_pos (by omega)]
  · unfold ModbusParser.decode
    simp only [ModbusParser.pdu]
    rw [if_neg (by simpa using hx), if_neg (by omega), if_neg (by omega), if_pos hfc, if_neg hs,
      if_pos (by omega)]
  · unfold ModbusParser.decode
    simp only [ModbusParser.pdu]
    rcases hfc with ⟨hfc, hs⟩ | ⟨hfc, hs⟩
    · rw [if_neg (by simpa using hx), if_neg (by omega), if_neg (by omega), if_pos hfc,
        if_pos hs, if_pos (by omega)]
    · rw [if_neg (by simpa using hx), if_pos hfc, if_neg hs, if_pos (by omega)]

/-- C35 (amended): function code decoding of `ModbusParser::parse` on an
admitted packet, where a packet whose source port is 502 is decoded as a
response, also when its destination port is 502 as well, and every other
packet as a request. Without exception bit: FC 5 and 6 with at least 5 PDU
bytes give one record with addr = big-endian PDU bytes 1..2 and val =
big-endian PDU bytes 3..4; an FC 15/16 request with at least 6 PDU bytes gives
addr, qty = PDU bytes 3..4 and bc = PDU byte 5; an FC 15/16 response with at
least 5 PDU bytes gives addr and qty only; an FC 1..4 request with at least 5
PDU bytes gives addr and qty. With the exception bit and at least 2 PDU bytes
the record has err = PDU byte 1 in decimal and fc = the low 7 bits of PDU
byte 0. The six fields are listed as fc, err, bc, addr, qty, val; PDU byte i
is payload byte 7 + i. -/
theorem C35_function_code_decode (self : ModbusParser) (now now_req : Nat) (info : PacketInfo)
    (hadm : ModbusParser.isProtocol info = true) :
    (byteAt info.payload 7 &&& 0x80 = 0 →
      (ModbusParser.current_fc info = 5 ∨ ModbusParser.current_fc info = 6) →
      5 ≤ info.payload_size - 7 →
      ∃ r, (self.parse now now_req info).2 = [r] ∧
        r.modbus_decoded =
          (toString (ModbusParser.current_fc info), "", "",
            toString (safe_ntohs info.payload 8), "", toString (safe_ntohs info.payload 10))) ∧
    (byteAt info.payload 7 &&& 0x80 = 0 →
      (ModbusParser.current_fc info = 15 ∨ ModbusParser.current_fc info = 16) →
      info.src_port ≠ 502 → 6 ≤ info.payload_size - 7 →
      ∃ r, (self.parse now now_req info).2 = [r] ∧
        r.modbus_decoded =
          (toString (ModbusParser.current_fc info), "", toString (byteAt info.payload 12),
            toString (safe_ntohs info.payload 8), toString (safe_ntohs info.payload 10), "")) ∧
    (byteAt info.payload 7 &&& 0x80 = 0 →
      (ModbusParser.current_fc info = 15 ∨ ModbusParser.current_fc info = 16) →
      info.src_port = 502 → 5 ≤ info.payload_size - 7 →
      ∃ r, (self.parse now now_req info).2 = [r] ∧
        r.modbus_decoded =
          (toString (ModbusParser.current_fc info), "", "",
            toString (safe_ntohs info.payload 8), toString (safe_ntohs info.payload 10), "")) ∧
    (byteAt info.payload 7 &&& 0x80 = 0 →
      (ModbusParser.current_fc info = 1 ∨ ModbusParser.current_fc info = 2 ∨
        ModbusParser.current_fc info = 3 ∨ ModbusParser.current_fc info = 4) →
      info.src_port ≠ 502 → 5 ≤ info.payload_size - 7 →
      ∃ r, (self.parse now now_req info).2 = [r] ∧
        r.modbus_decoded =
          (toString (ModbusParser.current_fc info), "", "",
            toString (safe_ntohs info.payload 8), toString (safe_ntohs info.payload 10), "")) ∧
    (byteAt info.payload 7 &&& 0x80 ≠ 0 → 2 ≤ info.payload_size - 7 →
      ∃ r, (self.parse now now_req info).2 = [r] ∧
        r.modbus_decoded =
          (toString (byteAt info.payload 7 &&& 0x7F), toString (byteAt info.payload 8),
            "", "", "", "")) := by
  have hsz := (isProtocol_size info hadm).1
  have hp := parse_records self now now_req info hsz
  have hb := baseRecord_modbus_decoded
    ((self.cleanupOldRequests now).storeRequest now_req info) info
  have hba := (baseRecord_fields
    ((self.cleanupOldRequests now).storeRequest now_req info) info).2.2.1
  obtain ⟨d1, d2, d3, d4⟩ := decode_cases
    ((self.cleanupOldRequests now).storeRequest now_req info) info
    (((self.cleanupOldRequests now).storeRequest now_req info).baseRecord info)
    ((self.cleanupOldRequests now).req_info_ptr info)
  simp only [UnifiedRecord.modbus_decoded, Prod.mk.injEq] at hb
  obtain ⟨b1, b2, b3, b4, b5, b6⟩ := hb
  refine ⟨fun hx hfc hl => ?_, fun hx hfc hs hl => ?_, fun hx hfc hs hl => ?_,
    fun hx hfc hs hl => ?_, fun hx hl => ?_⟩
  · rw [hp, d2 hx hfc hl]
    refine finish_decoded_eq _ _ _ (Or.inr ⟨_, safe_ntohs_lt info.payload 8, rfl⟩) ?_
    simp only [UnifiedRecord.modbus_decoded, b1, b2, b3, b5]
  · rw [hp, d3 hx hfc hs hl]
    refine finish_decoded_eq _ _ _ (Or.inr ⟨_, safe_ntohs_lt info.payload 8, rfl⟩) ?_
    simp only [UnifiedRecord.modbus_decoded, b1, b2, b6]
  · rw [hp, d4 hx (Or.inl ⟨hfc, hs⟩) hl]
    refine finish_decoded_eq _ _ _ (Or.inr ⟨_, safe_ntohs_lt info.payload 8, rfl⟩) ?_
    simp only [UnifiedRecord.modbus_decoded, b1, b2, b3, b6]
  · rw [hp, d4 hx (Or.inr ⟨hfc, hs⟩) hl]
    refine finish_decoded_eq _ _ _ (Or.inr ⟨_, safe_ntohs_lt info.payload 8, rfl⟩) ?_
    simp only [UnifiedRecord.modbus_decoded, b1, b2, b3, b6]
  · rw [hp, d1 hx hl]
    refine finish_decoded_eq _ _ _ (Or.inl hba) ?_
    simp only [UnifiedRecord.modbus_decoded, b1, b3, b4, b5, b6]
    rfl

/-- C35 (witness): the write-multiple-registers request gives one record with
fc 16, bc 4, addr 10 and qty 2. -/
theorem C35_function_code_decode_witness :
    ModbusParser.isProtocol write_request = true ∧
    ∃ r, (emptyParser.parse 0 0 write_request).2 = [r] ∧
      r.modbus_decoded = ("16", "", "4", "10", "2", "") := by
  refine ⟨by decide, ?_⟩
  have h := (C35_function_code_decode emptyParser 0 0 write_request (by decide)).2.1
    (by decide) (by decide) (by decide) (by decide)
  exact h

/-- C35 (counterexample): a packet from port 502 to port 502 is a request by
its destination port and by the `dir` field of its record, and is decoded as
a response. The write-multiple-registers request sent this way (function code
16, 10 PDU bytes, PDU byte 5 = 4) gets addr and qty and no bc; the read
request (function code 3, 5 PDU bytes) gives no record at all. -/
theorem C35_counterexample :
    ModbusParser.isProtocol write_loopback = true ∧ write_loopback.dst_port = 502 ∧
    byteAt write_loopback.payload 7 &&& 0x80 = 0 ∧
    ModbusParser.current_fc write_loopback = 16 ∧ 6 ≤ write_loopback.payload_size - 7 ∧
    byteAt write_loopback.payload 12 = 4 ∧
    (∃ r, (emptyParser.parse 0 0 write_loopback).2 = [r] ∧ r.dir = "request" ∧
      r.modbus_bc = "" ∧ r.modbus_decoded = ("16", "", "", "10", "2", "")) ∧
    ModbusParser.isProtocol read_loopback = true ∧ read_loopback.dst_port = 502 ∧
    byteAt read_loopback.payload 7 &&& 0x80 = 0 ∧
    ModbusParser.current_fc read_loopback = 3 ∧ 5 ≤ read_loopback.payload_size - 7 ∧
    (emptyParser.parse 0 0 read_loopback).2 = [] :=
  ⟨by decide, by decide, by decide, by decide, by decide, by decide,
    ⟨_, rfl, by decide, by decide, by decide⟩,
    by decide, by decide, by decide, by decide, by decide, by decide⟩

/-! ## XGT requests -/

theorem byteAt_of_drop (p a rest : List Nat) (i j : Nat) (h : p.drop i = a ++ rest)
    (hj : j < a.length) : byteAt p (i + j) = byteAt a j := by
  unfold byteAt
  have h1 : p.getD (i + j) 0 = (p.drop i).getD j 0 := by
    simp only [List.getD_eq_getElem?_getD, List.getElem?_drop]
  rw [h1, h]
  simp only [List.getD_eq_getElem?_getD]
  rw [List.getElem?_append_left hj]

theorem drop_of_drop (p a rest : List Nat) (i : Nat) (h : p.drop i = a ++ rest) :
    p.drop (i + a.length) = rest := by
  have : p.drop (i + a.length) = (p.drop i).drop a.length := by
    rw [List.drop_drop]
  rw [this, h, List.drop_left]

theorem read_le16_of_drop (p rest : List Nat) (i v : Nat) (hv : v < 65536)
    (h : p.drop i = le16_bytes v ++ rest) : read_le16 p i = v := by
  unfold read_le16
  have h0 := byteAt_of_drop p (le16_bytes v) rest i 0 h (by simp [le16_bytes])
  have h1 := byteAt_of_drop p (le16_bytes v) rest i 1 h (by simp [le16_bytes])
  simp only [Nat.add_zero] at h0
  rw [h0, h1]
  simp only [byteAt, le16_bytes, List.getD_cons_zero, List.getD_cons_succ]
  omega

theorem bytesToString_of_drop (p n rest : List Nat) (i : Nat) (h : p.drop i = n ++ rest) :
    bytesToString p i n.length = nameText n := by
  unfold nameText bytesToString
  congr 1
  apply List.map_congr_left
  intro j hj
  rw [List.mem_range] at hj
  rw [byteAt_of_drop p n rest i j h hj, Nat.zero_add]
theorem variableBlocks_spec_cons (n : List Nat) (ns : List (List Nat)) :
    variableBlocks_spec (n :: ns) = le16_bytes n.length ++ (n ++ variableBlocks_spec ns) := by
  simp [variableBlocks_spec, List.flatMap_cons]

/-- The loop over the variable names on the blocks of the specification: it
reads every name and stops right after the last one. -/
theorem readVariables_blocks (p : List Nat) (base inst_size : Nat) :
    ∀ (names : List (List Nat)) (offset : Nat) (acc : List (Nat × String)) (rest : List Nat),
      (∀ n ∈ names, n.length < 65536) →
      p.drop (base + offset) = variableBlocks_spec names ++ rest →
      offset + (variableBlocks_spec names).length ≤ inst_size →
      XgtFenParser.readVariables p base inst_size names.length offset acc =
        some (acc ++ names.map (fun n => (n.length, nameText n)),
          offset + (variableBlocks_spec names).length) := by
  intro names
  induction names with
  | nil =>
    intro offset acc rest _ _ _
    simp [XgtFenParser.readVariables, variableBlocks_spec]
  | cons n ns ih =>
    intro offset acc rest hlen hdrop hsize
    rw [variableBlocks_spec_cons] at hdrop hsize ⊢
    have hn : n.length < 65536 := hlen n (List.mem_cons_self _ _)
    have hl2 : (le16_bytes n.length).length = 2 := rfl
    simp only [List.length_append, hl2] at hsize ⊢
    rw [List.append_assoc] at hdrop
    have hv := read_le16_of_drop p _ (base + offset) n.length hn hdrop
    have hd2 := drop_of_drop p _ _ (base + offset) hdrop
    rw [hl2, List.append_assoc] at hd2
    have hname := bytesToString_of_drop p n _ (base + offset + 2) hd2
    have hd3 := drop_of_drop p _ _ (base + offset + 2) hd2
    rw [List.length_cons]
    unfold XgtFenParser.readVariables
    simp only []
    rw [if_neg (by omega), hv, if_neg (by omega)]
    rw [show base + (offset + 2) = base + offset + 2 by omega, hname]
    have := ih (offset + 2 + n.length) (acc ++ [(n.length, nameText n)]) rest
      (fun m hm => hlen m (List.mem_cons_of_mem _ hm))
      (by rw [show base + (offset + 2 + n.length) = base + offset + 2 + n.length by omega]
          exact hd3)
      (by omega)
    rw [this]
    simp only [List.map_cons, List.append_assoc, List.singleton_append]
    congr 2
    omega
/-- The instruction of an individual read request: the block count and the
names read by `parseInstruction`. -/
theorem parseInstruction_individual_read_request (p rest : List Nat) (inst_size : Nat)
    (header : XgtFenHeader) (names : List (List Nat))
    (hsrc : header.sourceOfFrame = 0x33)
    (hcmd : read_le16 p 20 = 0x0054) (hdt : read_le16 p 22 ≠ 0x0014)
    (hk : read_le16 p 26 = names.length)
    (hlen : ∀ n ∈ names, n.length < 65536)
    (hdrop : p.drop 28 = variableBlocks_spec names ++ rest)
    (hsize : inst_size = 8 + (variableBlocks_spec names).length) :
    ∃ i, XgtFenParser.parseInstruction p 20 inst_size header = some i ∧
      i.blockCount = names.length ∧ i.variableName = "" ∧
      i.variableList = names.map (fun n => (n.length, nameText n)) := by
  have hrv := readVariables_blocks p 20 inst_size names 8 [] rest hlen hdrop (by omega)
  unfold XgtFenParser.parseInstruction
  simp only [hsrc, hcmd, XgtFenParser.XGT_CMD_READ_REQ, XgtFenParser.XGT_CMD_READ_RESP,
    XgtFenParser.XGT_CMD_WRITE_REQ, XgtFenParser.XGT_CMD_WRITE_RESP,
    XgtFenParser.XGT_DTYPE_CONTINUOUS]
  rw [if_neg (by omega), if_neg (by decide), if_neg (by omega), if_neg (by decide),
    if_pos (by decide)]
  unfold XgtFenParser.parseRequest
  simp only [hk, Nat.reduceAdd]
  rw [if_neg (by omega), if_neg (by simpa using hdt), hrv]
  simp only [List.nil_append]
  unfold XgtFenParser.checkConsumed
  rw [if_neg (by decide), if_neg (by omega)]
  exact ⟨_, rfl, rfl, rfl, rfl⟩
theorem translateXgtAddress_empty : AssetManager.translateXgtAddress "" = "" := by
  decide

/-- The block count, the variables and the translated address that `parse`
fills from a parsed instruction, on a record whose translated address is still
empty. -/
theorem instructionFields_vars (self : XgtFenParser) (i : XgtFenInstruction)
    (record : UnifiedRecord) (hr : record.xgt_translated_addr = "") :
    (self.instructionFields i record).xgt_blkcnt = toString i.blockCount ∧
    (self.instructionFields i record).xgt_vars =
      (if i.variableName ≠ "" then i.variableName
        else String.intercalate ";" (i.variableList.map fun v => v.2)) ∧
    (self.instructionFields i record).xgt_translated_addr =
      AssetManager.translateXgtAddress
        (if i.variableName ≠ "" then i.variableName
          else
            match i.variableList with
            | v :: _ => v.2
            | [] => "") := by
  unfold XgtFenParser.instructionFields
  simp only []
  by_cases hp : (if i.variableName ≠ "" then i.variableName
      else
        match i.variableList with
        | v :: _ => v.2
        | [] => "") = ""
  · rw [if_neg (by simpa using hp), hp, translateXgtAddress_empty]
    split_ifs <;> exact ⟨rfl, rfl, hr⟩
  · rw [if_pos (by exact hp)]
    split_ifs <;> exact ⟨rfl, rfl, rfl⟩

/-- The record that `XgtFenParser::parse` fills before it looks at the outcome
of `parseInstruction` has no instruction fields. -/
theorem xgt_parse_record (self : XgtFenParser) (info : PacketInfo) (header : XgtFenHeader)
    (hh : XgtFenParser.parseHeader info.payload (toSizeT info.payload_size) = some header) :
    ∃ record : UnifiedRecord,
      (self.parse info =
        match XgtFenParser.parseInstruction info.payload 20
          (min header.length (if info.payload_size > 20 then info.payload_size - 20 else 0).toNat)
          header with
        | some instruction => [XgtFenParser.instructionFields self instruction record]
        | none => [record]) ∧
      record.xgt_cmd = "" ∧ record.xgt_blkcnt = "" ∧ record.xgt_vars = "" ∧
      record.xgt_translated_addr = "" := by
  have hb : ∀ d,
      (BaseProtocolParser.createUnifiedRecord XgtFenParser.getName self.m_asset_manager info
        d).xgt_cmd = "" ∧
      (BaseProtocolParser.createUnifiedRecord XgtFenParser.getName self.m_asset_manager info
        d).xgt_blkcnt = "" ∧
      (BaseProtocolParser.createUnifiedRecord XgtFenParser.getName self.m_asset_manager info
        d).xgt_vars = "" ∧
      (BaseProtocolParser.createUnifiedRecord XgtFenParser.getName self.m_asset_manager info
        d).xgt_translated_addr = "" := by
    intro d
    unfold BaseProtocolParser.createUnifiedRecord
    cases self.m_asset_manager with
    | none => exact ⟨rfl, rfl, rfl, rfl⟩
    | some a =>
      simp only []
      split_ifs <;> exact ⟨rfl, rfl, rfl, rfl⟩
  unfold XgtFenParser.parse
  rw [hh]
  simp only []
  exact ⟨_, rfl, (hb _).1, (hb _).2.1, (hb _).2.2.1, (hb _).2.2.2⟩
/-- The instruction of a continuous request: block count 1, the name length and
the name, the data size and, for a write, the data bytes. -/
theorem parseInstruction_continuous_request (p : List Nat) (inst_size : Nat)
    (header : XgtFenHeader)
    (hsrc : header.sourceOfFrame = 0x33)
    (hcmd : read_le16 p 20 = 0x0054 ∨ read_le16 p 20 = 0x0058)
    (hdt : read_le16 p 22 = 0x0014) (hk : read_le16 p 26 = 1)
    (hsize : inst_size = 12 + read_le16 p 28 +
      (if read_le16 p 20 = 0x0058 then read_le16 p (30 + read_le16 p 28) else 0)) :
    ∃ i, XgtFenParser.parseInstruction p 20 inst_size header = some i ∧
      i.blockCount = 1 ∧ i.variableName = bytesToString p 30 (read_le16 p 28) ∧
      i.variableList = [] := by
  rcases hcmd with hcmd | hcmd
  · rw [hcmd, if_neg (by decide)] at hsize
    unfold XgtFenParser.parseInstruction
    simp only [hsrc, hcmd, XgtFenParser.XGT_CMD_READ_REQ, XgtFenParser.XGT_CMD_READ_RESP,
      XgtFenParser.XGT_CMD_WRITE_REQ, XgtFenParser.XGT_CMD_WRITE_RESP,
      XgtFenParser.XGT_DTYPE_CONTINUOUS]
    rw [if_neg (by omega), if_neg (by decide), if_neg (by omega), if_neg (by decide),
      if_pos (by decide)]
    unfold XgtFenParser.parseRequest
    simp only [hk, hdt, Nat.reduceAdd, decide_True, if_true]
    rw [if_neg (by omega), if_neg (by decide), if_neg (by omega), if_neg (by omega),
      if_neg (by omega)]
    unfold XgtFenParser.checkConsumed
    rw [if_neg (by decide), if_neg (by omega)]
    exact ⟨_, rfl, rfl, rfl, rfl⟩
  · rw [hcmd, if_pos (by decide)] at hsize
    unfold XgtFenParser.parseInstruction
    simp only [hsrc, hcmd, XgtFenParser.XGT_CMD_READ_REQ, XgtFenParser.XGT_CMD_READ_RESP,
      XgtFenParser.XGT_CMD_WRITE_REQ, XgtFenParser.XGT_CMD_WRITE_RESP,
      XgtFenParser.XGT_DTYPE_CONTINUOUS]
    rw [if_neg (by omega), if_neg (by decide), if_neg (by omega), if_neg (by decide),
      if_pos (by decide)]
    unfold XgtFenParser.parseRequest
    simp only [hk, hdt, Nat.reduceAdd, decide_True, if_true]
    rw [show 20 + (10 + read_le16 p 28) = 30 + read_le16 p 28 by omega]
    rw [if_neg (by omega), if_neg (by decide), if_neg (by omega), if_neg (by omega),
      if_neg (by omega)]
    rw [if_pos (by decide), if_neg (by omega)]
    unfold XgtFenParser.checkConsumed
    rw [if_neg (by omega)]
    exact ⟨_, rfl, rfl, rfl, rfl⟩

/-- A continuous request whose block count is not 1 is rejected, whatever the
command and the size are. -/
theorem parseInstruction_continuous_blockCount (p : List Nat) (base inst_size : Nat)
    (header : XgtFenHeader) (hsrc : header.sourceOfFrame = 0x33)
    (hdt : read_le16 p (base + 2) = 0x0014) (hk : read_le16 p (base + 6) ≠ 1) :
    XgtFenParser.parseInstruction p base inst_size header = none := by
  unfold XgtFenParser.parseInstruction
  simp only [hsrc, hdt, XgtFenParser.XGT_DTYPE_CONTINUOUS]
  split_ifs <;> try rfl
  all_goals first
    | (exfalso; omega)
    | (unfold XgtFenParser.parseRequest
       simp only [decide_True, if_true]
       split_ifs <;> rfl)
theorem intercalate_map_names (names : List (List Nat)) :
    (names.map (fun n => (n.length, nameText n))).map (fun v => v.2) = names.map nameText := by
  rw [List.map_map]
  rfl

/-- C36: XGT requests (source of frame 0x33) admitted by `isProtocol`. For an
individual read request (command 0x0054, data type other than 0x0014, block
count k >= 1, then k pairs of a little-endian 16-bit name length and that many
name bytes, the header length naming exactly these bytes) `parse` emits one
record with blkcnt = k, vars = the names joined by `;` and translated_addr =
translateXgtAddress of the first name. For a well-formed continuous request
(data type 0x0014, block count 1, name, data size and, for a write, the data)
the record has blkcnt 1, vars = the name and translated_addr =
translateXgtAddress of the name. A continuous request whose block count is not
1 fails to parse, for every size, and the record carries no instruction
field. -/
theorem C36_xgt_read_request (self : XgtFenParser) (info : PacketInfo)
    (hadm : XgtFenParser.isProtocol info = true) (hint : info.payload_size ≤ 2147483647)
    (hsrc : byteAt info.payload 13 = 0x33) :
    (∀ (names : List (List Nat)) (rest : List Nat),
      read_le16 info.payload 20 = 0x0054 → read_le16 info.payload 22 ≠ 0x0014 →
      read_le16 info.payload 26 = names.length → 1 ≤ names.length →
      (∀ n ∈ names, n.length < 65536) →
      info.payload.drop 28 = variableBlocks_spec names ++ rest →
      read_le16 info.payload 16 = 8 + (variableBlocks_spec names).length →
      20 + 8 + ((variableBlocks_spec names).length : Int) ≤ info.payload_size →
      ∃ r, self.parse info = [r] ∧ r.xgt_blkcnt = toString names.length ∧
        r.xgt_vars = String.intercalate ";" (names.map nameText) ∧
        r.xgt_translated_addr =
          AssetManager.translateXgtAddress (nameText (names.headD []))) ∧
    ((read_le16 info.payload 20 = 0x0054 ∨ read_le16 info.payload 20 = 0x0058) →
      read_le16 info.payload 22 = 0x0014 → read_le16 info.payload 26 = 1 →
      read_le16 info.payload 16 = 12 + read_le16 info.payload 28 +
        (if read_le16 info.payload 20 = 0x0058 then
          read_le16 info.payload (30 + read_le16 info.payload 28) else 0) →
      20 + (read_le16 info.payload 16 : Int) ≤ info.payload_size →
      ∃ r, self.parse info = [r] ∧ r.xgt_blkcnt = "1" ∧
        r.xgt_vars = bytesToString info.payload 30 (read_le16 info.payload 28) ∧
        r.xgt_translated_addr =
          AssetManager.translateXgtAddress
            (bytesToString info.payload 30 (read_le16 info.payload 28))) ∧
    (read_le16 info.payload 22 = 0x0014 → read_le16 info.payload 26 ≠ 1 →
      (∀ (inst_size : Nat) (header : XgtFenHeader), header.sourceOfFrame = 0x33 →
        XgtFenParser.parseInstruction info.payload 20 inst_size header = none) ∧
      ∃ r, self.parse info = [r] ∧ r.xgt_cmd = "" ∧ r.xgt_blkcnt = "" ∧ r.xgt_vars = "" ∧
        r.xgt_translated_addr = "") := by
  obtain ⟨header, hh, hs, hl⟩ := xgt_parseHeader_admitted info hadm (by omega)
  obtain ⟨record, hp, r1, r2, r3, r4⟩ := xgt_parse_record self info header hh
  rw [hsrc] at hs
  refine ⟨?_, ?_, ?_⟩
  · intro names rest hcmd hdt hk hk1 hlen hdrop hlength hsize
    have hmin : min header.length
        (if info.payload_size > 20 then info.payload_size - 20 else 0).toNat =
        8 + (variableBlocks_spec names).length := by
      rw [hl, hlength, if_pos (by omega)]
      omega
    obtain ⟨i, hi, i1, i2, i3⟩ := parseInstruction_individual_read_request info.payload rest
      (8 + (variableBlocks_spec names).length) header names hs hcmd hdt hk hlen hdrop rfl
    obtain ⟨f1, f2, f3⟩ := instructionFields_vars self i record r4
    rw [hp, hmin, hi]
    refine ⟨_, rfl, ?_, ?_, ?_⟩
    · rw [f1, i1]
    · rw [f2, i2, i3, intercalate_map_names]
      rfl
    · rw [f3, i2, i3]
      cases names with
      | nil => simp at hk1
      | cons n ns => rfl
  · intro hcmd hdt hk hlength hsize
    have hmin : min header.length
        (if info.payload_size > 20 then info.payload_size - 20 else 0).toNat =
        12 + read_le16 info.payload 28 +
          (if read_le16 info.payload 20 = 0x0058 then
            read_le16 info.payload (30 + read_le16 info.payload 28) else 0) := by
      rw [hl, ← hlength, if_pos (by omega)]
      omega
    obtain ⟨i, hi, i1, i2, i3⟩ := parseInstruction_continuous_request info.payload
      _ header hs hcmd hdt hk rfl
    obtain ⟨f1, f2, f3⟩ := instructionFields_vars self i record r4
    rw [hp, hmin, hi]
    refine ⟨_, rfl, ?_, ?_, ?_⟩
    · rw [f1, i1]
      rfl
    · rw [f2, i2, i3]
      split_ifs with he
      · rfl
      · rw [not_not.1 he]
        rfl
    · rw [f3, i2, i3]
      split_ifs with he
      · rfl
      · rw [not_not.1 he]
  · intro hdt hk
    have hnone := fun (inst_size : Nat) (header : XgtFenHeader)
        (h : header.sourceOfFrame = 0x33) =>
      parseInstruction_continuous_blockCount info.payload 20 inst_size header h hdt hk
    refine ⟨hnone, ?_⟩
    rw [hp, hnone _ header hs]
    exact ⟨_, rfl, r1, r2, r3, r4⟩

/-- C36 (witness): the individual read request for `%DB20` and `%MW1` gives a
record with block count 2, both names and the translated address `D10`. -/
theorem C36_xgt_read_request_witness :
    XgtFenParser.isProtocol xgt_read_request = true ∧
    ∃ r, xgt_empty.parse xgt_read_request = [r] ∧ r.xgt_blkcnt = "2" ∧
      r.xgt_vars = "%DB20;%MW1" ∧ r.xgt_translated_addr = "D10" := by
  obtain ⟨r, h1, h2, h3, h4⟩ :=
    (C36_xgt_read_request xgt_empty xgt_read_request (by decide) (by decide) (by decide)).1
      [[0x25, 0x44, 0x42, 0x32, 0x30], [0x25, 0x4D, 0x57, 0x31]] []
      (by decide) (by decide) (by decide) (by decide) (by decide) (by decide) (by decide)
      (by decide)
  exact ⟨by decide, r, h1, h2.trans (by decide), h3.trans (by decide), h4.trans (by decide)⟩

/-! ## The payload slice and the captured frame -/

/-- C37: for an IPv4 TCP or UDP frame that `parsePacket` accepts, the payload
slice (offset 14 + 4*IHL + L4 header length, size `payload_size`) lies inside
the captured frame exactly when the IP Total Length covers the two headers and
14 + IP Total Length is at most the captured length; neither is checked by the
code, so the slice can have a negative size or end after the captured frame. -/
theorem C37_slice_inside_iff (header : pcap_pkthdr) (packet : List Nat) :
    (∀ info, demux header packet = Demux.tcp info →
      ((0 ≤ info.payload_size ∧
          14 + (ip_header_len packet : Int) + (tcp_header_len packet : Int) +
            info.payload_size ≤ header.caplen) ↔
        (ip_header_len packet + tcp_header_len packet ≤ ip_total_len packet ∧
          14 + ip_total_len packet ≤ header.caplen))) ∧
    (∀ info, demux header packet = Demux.udp info →
      ((0 ≤ info.payload_size ∧
          14 + (ip_header_len packet : Int) + 8 + info.payload_size ≤ header.caplen) ↔
        (ip_header_len packet + 8 ≤ ip_total_len packet ∧
          14 + ip_total_len packet ≤ header.caplen))) := by
  refine ⟨fun info h => ?_, fun info h => ?_⟩
  · rw [demux_tcp_size header packet info h]
    omega
  · rw [demux_udp_size header packet info h]
    omega

/-- C37, failing inputs: a frame captured with 54 bytes whose IP Total Length
is 1500 is accepted with a payload size of 1460, so the slice ends 1460 bytes
after the captured frame; the 64-byte frame with IP Total Length 0 is accepted
with a payload size of -40. -/
theorem C37_counterexample :
    (∃ info, demux truncated_header truncated_frame = Demux.tcp info ∧
      info.payload_size = 1460 ∧ truncated_header.caplen = 54 ∧
      ¬ (14 + (ip_header_len truncated_frame : Int) + (tcp_header_len truncated_frame : Int) +
          info.payload_size ≤ truncated_header.caplen)) ∧
    (∃ info, demux ack_header zero_length_frame = Demux.tcp info ∧
      info.payload_size = -40 ∧ ¬ (0 ≤ info.payload_size)) := by
  refine ⟨⟨_, rfl, by decide, by decide, by decide⟩, ⟨_, rfl, by decide, by decide⟩⟩

/-! ## Reads of the XGT instruction parser -/

theorem read_le16_lt (p : List Nat) (off : Nat) : read_le16 p off < 65536 := by
  unfold read_le16
  have h1 := byteAt_lt p off
  have h2 := byteAt_lt p (off + 1)
  omega

/-- Every read of a block loop ends inside the instruction, and the loop makes
at most two reads per block. -/
theorem blockReads_bound (p : List Nat) (base inst_size : Nat) :
    ∀ (n offset : Nat),
      (∀ r ∈ XgtFenParser.blockReads p base inst_size n offset, r.1 + r.2 ≤ inst_size) ∧
      (XgtFenParser.blockReads p base inst_size n offset).length ≤ 2 * n := by
  intro n
  induction n with
  | zero =>
    intro offset
    simp [XgtFenParser.blockReads]
  | succ n ih =>
    intro offset
    unfold XgtFenParser.blockReads
    simp only []
    split_ifs with h1 h2
    · simp
    · refine ⟨fun r hr => ?_, by simp only [List.length_cons, List.length_nil]; omega⟩
      simp only [List.mem_singleton] at hr
      rw [hr]
      simp only []
      omega
    · obtain ⟨ih1, ih2⟩ := ih (offset + 2 + read_le16 p (base + offset))
      refine ⟨fun r hr => ?_, ?_⟩
      · simp only [List.mem_cons] at hr
        rcases hr with hr | hr | hr
        · rw [hr]
          simp only []
          omega
        · rw [hr]
          simp only []
          omega
        · exact ih1 r hr
      · simp only [List.length_cons]
        omega

theorem responseReads_bound (p : List Nat) (base inst_size : Nat) (is_read_cmd : Bool)
    (instruction : XgtFenInstruction) :
    (∀ r ∈ XgtFenParser.responseReads p base inst_size is_read_cmd instruction,
      r.1 + r.2 ≤ inst_size) ∧
    (XgtFenParser.responseReads p base inst_size is_read_cmd instruction).length ≤
      2 + 2 * 65535 := by
  have hb := blockReads_bound p base inst_size (read_le16 p (base + (6 + 2))) (6 + 2 + 2)
  have hk := read_le16_lt p (base + (6 + 2))
  unfold XgtFenParser.responseReads
  simp only []
  split_ifs
  all_goals refine ⟨?_, ?_⟩
  all_goals first
    | (simp only [List.length_append, List.length_cons, List.length_nil]; omega)
    | skip
  all_goals
    simp only [List.forall_mem_append, List.forall_mem_cons, List.forall_mem_singleton,
      List.not_mem_nil, false_implies, implies_true, and_true]
  all_goals first
    | omega
    | (split_ands <;> first | omega | exact hb.1)

set_option maxHeartbeats 2000000 in
theorem requestReads_bound (p : List Nat) (base inst_size : Nat) (is_write_cmd : Bool)
    (instruction : XgtFenInstruction) :
    (∀ r ∈ XgtFenParser.requestReads p base inst_size is_write_cmd instruction,
      r.1 + r.2 ≤ inst_size) ∧
    (XgtFenParser.requestReads p base inst_size is_write_cmd instruction).length ≤
      1 + 4 * 65535 := by
  have hb := blockReads_bound p base inst_size (read_le16 p (base + 6)) (6 + 2)
  have hb2 := fun off => blockReads_bound p base inst_size (read_le16 p (base + 6)) off
  have hk := read_le16_lt p (base + 6)
  unfold XgtFenParser.requestReads
  simp only []
  cases hrv : XgtFenParser.readVariables p base inst_size (read_le16 p (base + 6)) (6 + 2) [] with
  | none =>
    simp only []
    split_ifs
    all_goals refine ⟨?_, ?_⟩
    all_goals first
      | (simp only [List.length_append, List.length_cons, List.length_nil]; omega)
      | skip
    all_goals
      simp only [List.forall_mem_append, List.forall_mem_cons, List.forall_mem_singleton,
        List.not_mem_nil, false_implies, implies_true, and_true]
    all_goals first
      | omega
      | (split_ands <;> first | omega | exact hb.1)
  | some x =>
    rcases x with ⟨vs, off⟩
    have hx := hb2 off
    simp only []
    split_ifs
    all_goals refine ⟨?_, ?_⟩
    all_goals first
      | (simp only [List.length_append, List.length_cons, List.length_nil]; omega)
      | skip
    all_goals
      simp only [List.forall_mem_append, List.forall_mem_cons, List.forall_mem_singleton,
        List.not_mem_nil, false_implies, implies_true, and_true]
    all_goals first
      | omega
      | (split_ands <;> first | omega | exact hb.1 | exact hx.1)

/-! ## Reads of the S7Comm parser -/

/-- Every read of the item loop ends at or before the end of the parameter
block, and the loop makes at most six reads per item. -/
theorem paramItemReads_bound (p : List Nat) (param_end : Nat) :
    ∀ (n i item_ptr : Nat),
      (∀ r ∈ S7CommParser.paramItemReads p param_end n i item_ptr, r.1 + r.2 ≤ param_end) ∧
      (S7CommParser.paramItemReads p param_end n i item_ptr).length ≤ 6 * n := by
  intro n
  induction n with
  | zero =>
    intro i item_ptr
    simp [S7CommParser.paramItemReads]
  | succ n ih =>
    intro i item_ptr
    obtain ⟨ih1, ih2⟩ := ih (i + 1) (item_ptr + 12)
    unfold S7CommParser.paramItemReads
    simp only []
    split_ifs
    all_goals refine ⟨?_, ?_⟩
    all_goals first
      | (simp only [List.length_append, List.length_cons, List.length_nil]; omega)
      | skip
    all_goals
      simp only [List.forall_mem_append, List.forall_mem_cons, List.not_mem_nil,
        false_implies, implies_true, and_true]
    all_goals first
      | omega
      | (split_ands <;> first | omega | exact ih1)

/-- Every read of the data item loop ends at or before the end of the data
block, and the loop makes at most two reads per item. -/
theorem dataItemReads_bound (p : List Nat) (data_end : Nat) :
    ∀ (n data_item_ptr : Nat),
      (∀ r ∈ S7CommParser.dataItemReads p data_end n data_item_ptr, r.1 + r.2 ≤ data_end) ∧
      (S7CommParser.dataItemReads p data_end n data_item_ptr).length ≤ 2 * n := by
  intro n
  induction n with
  | zero =>
    intro data_item_ptr
    simp [S7CommParser.dataItemReads]
  | succ n ih =>
    intro data_item_ptr
    unfold S7CommParser.dataItemReads
    simp only []
    split_ifs
    all_goals refine ⟨?_, ?_⟩
    all_goals first
      | (simp only [List.length_cons, List.length_nil]
         first
           | omega
           | (have hl := (ih (data_item_ptr + 1)).2; omega)
           | (have hl := (ih (data_item_ptr + 4)).2; omega)
           | (have hl := (ih (data_item_ptr + 4 +
                (safe_ntohs p (data_item_ptr + 2) + 7) / 8 % 65536)).2; omega)
           | (have hl := (ih (data_item_ptr + 4 +
                (safe_ntohs p (data_item_ptr + 2) + 7) / 8 % 65536 + 1)).2; omega))
      | skip
    all_goals
      simp only [List.forall_mem_cons, List.not_mem_nil, false_implies, implies_true, and_true]
    all_goals first
      | omega
      | (split_ands <;> first | omega | exact (ih _).1)
theorem s7_paramReads_bound (info : PacketInfo) :
    (∀ r ∈ S7CommParser.paramReads info, ((r.1 + r.2 : Nat) : Int) ≤ info.payload_size) ∧
    (S7CommParser.paramReads info).length ≤ 2 + 6 * 255 := by
  have hb := paramItemReads_bound info.payload
    (S7CommParser.s7_pdu + S7CommParser.header_size info + S7CommParser.param_len info)
    (byteAt info.payload (S7CommParser.s7_pdu + S7CommParser.header_size info + 1)) 0
    (S7CommParser.s7_pdu + S7CommParser.header_size info + 2)
  have hc := byteAt_lt info.payload (S7CommParser.s7_pdu + S7CommParser.header_size info + 1)
  unfold S7CommParser.paramReads
  simp only []
  split_ifs with h1 h2
  · refine ⟨fun r hr => ?_, ?_⟩
    · simp only [List.mem_append, List.mem_cons, List.not_mem_nil, or_false] at hr
      simp only [S7CommParser.s7_pdu] at hr hb h1 h2 ⊢
      rcases hr with (hr | hr) | hr
      · rw [hr]
        simp only []
        omega
      · rw [hr]
        simp only []
        omega
      · have := hb.1 r hr
        omega
    · rw [List.length_append]
      have := hb.2
      simp only [List.length_cons, List.length_nil]
      omega
  · refine ⟨fun r hr => ?_, by simp⟩
    simp only [List.mem_singleton] at hr
    simp only [S7CommParser.s7_pdu] at h1 hr ⊢
    rw [hr]
    simp only []
    omega
  · simp

theorem s7_dataReads_bound (info : PacketInfo) (req : S7CommRequestInfo) :
    (∀ r ∈ S7CommParser.dataReads info req, ((r.1 + r.2 : Nat) : Int) ≤ info.payload_size) ∧
    (S7CommParser.dataReads info req).length ≤ 2 * req.items.length := by
  have hb := dataItemReads_bound info.payload
    (S7CommParser.s7_pdu + S7CommParser.header_size info + S7CommParser.param_len info +
      S7CommParser.data_len info) req.items.length
    (S7CommParser.s7_pdu + S7CommParser.header_size info + S7CommParser.param_len info)
  unfold S7CommParser.dataReads
  simp only []
  split_ifs with h1 h2
  · refine ⟨fun r hr => ?_, hb.2⟩
    have := hb.1 r hr
    simp only [S7CommParser.s7_pdu] at this h1
    omega
  · simp
  · simp

theorem s7_newReqReads_bound (info : PacketInfo) :
    ∀ r ∈ S7CommParser.newReqReads info, ((r.1 + r.2 : Nat) : Int) ≤ info.payload_size := by
  unfold S7CommParser.newReqReads
  simp only [S7CommParser.s7_pdu]
  split_ifs with h1 h2
  · intro r hr
    simp only [List.mem_cons, List.mem_singleton, List.not_mem_nil, or_false] at hr
    rcases hr with hr | hr <;> (rw [hr]; simp only []; omega)
  · intro r hr
    simp only [List.mem_singleton] at hr
    rw [hr]
    simp only []
    omega
  · simp

/-- C39: `S7CommParser::parse` never reads outside the payload: every read of
the header, of the parameter block with its item walk and of the data walk of
a response, at payload offset `r.1` with `r.2` bytes, ends at or before
`payload_size`, so each byte read has an offset below `payload_size`; this
holds for every parser state and every packet, admitted ones included. Both
walks terminate: the item walk makes at most six reads for each of at most 255
items and the data walk at most two reads per item of the stored request. -/
theorem C39_s7_reads_inside (self : S7CommParser) (now : Nat) (info : PacketInfo) :
    (∀ r ∈ self.parseReads now info,
      ((r.1 + r.2 : Nat) : Int) ≤ info.payload_size ∧
      ∀ o : Nat, r.1 ≤ o → o < r.1 + r.2 → (o : Int) < info.payload_size) ∧
    (S7CommParser.paramReads info).length ≤ 2 + 6 * 255 ∧
    (∀ req, (S7CommParser.dataReads info req).length ≤ 2 * req.items.length) := by
  have hh : ¬ info.payload_size - 7 < 10 →
      ∀ r ∈ S7CommParser.headerReads, ((r.1 + r.2 : Nat) : Int) ≤ info.payload_size := by
    intro h r hr
    simp only [S7CommParser.headerReads, S7CommParser.s7_pdu, List.mem_cons,
      List.mem_singleton, List.not_mem_nil, or_false] at hr
    rcases hr with hr | hr | hr | hr <;> (rw [hr]; simp only []; omega)
  have key : ∀ r ∈ self.parseReads now info, ((r.1 + r.2 : Nat) : Int) ≤ info.payload_size := by
    unfold S7CommParser.parseReads
    simp only []
    by_cases h1 : info.payload_size - 7 < 10
    · rw [if_pos h1]
      simp
    · rw [if_neg h1]
      generalize (if S7CommParser.rosctr info = 0x02 ∨ S7CommParser.rosctr info = 0x03 then
        self.m_pending_requests info.flow_id (S7CommParser.pdu_ref info) else none) = x
      cases x with
      | none =>
        simp only []
        split_ifs with h3
        · intro r hr
          simp only [List.mem_append] at hr
          rcases hr with ((hr | hr) | hr) | hr
          · exact hh h1 r hr
          · exact s7_newReqReads_bound info r hr
          · exact (s7_paramReads_bound info).1 r hr
          · exact (s7_dataReads_bound info _).1 r hr
        · exact hh h1
      | some req =>
        simp only []
        intro r hr
        simp only [List.mem_append] at hr
        rcases hr with (hr | hr) | hr
        · exact hh h1 r hr
        · exact (s7_paramReads_bound info).1 r hr
        · exact (s7_dataReads_bound info _).1 r hr
  refine ⟨fun r hr => ⟨key r hr, fun o _ h2 => ?_⟩, (s7_paramReads_bound info).2,
    fun req => (s7_dataReads_bound info req).2⟩
  have := key r hr
  omega

theorem readsEnd_append (a b : List (Nat × Nat)) :
    ∀ offset, XgtFenParser.readsEnd offset (a ++ b) =
      (XgtFenParser.readsEnd offset a).bind fun o => XgtFenParser.readsEnd o b := by
  induction a with
  | nil => intro offset; rfl
  | cons r rs ih =>
    intro offset
    simp only [List.cons_append, XgtFenParser.readsEnd]
    split_ifs
    · exact ih _
    · rfl

theorem blockReads_data (p : List Nat) (base inst_size : Nat) :
    ∀ (n offset : Nat) (acc : List (Nat × List Nat)) (x : List (Nat × List Nat) × Nat),
      XgtFenParser.readDataBlocks p base inst_size n offset acc = some x →
      XgtFenParser.readsEnd offset (XgtFenParser.blockReads p base inst_size n offset) =
        some x.2 := by
  intro n
  induction n with
  | zero =>
    intro offset acc x h
    simp only [XgtFenParser.readDataBlocks, Option.some.injEq] at h
    rw [← h]
    rfl
  | succ n ih =>
    intro offset acc x h
    unfold XgtFenParser.readDataBlocks at h
    unfold XgtFenParser.blockReads
    simp only [] at h ⊢
    split_ifs at h with h1 h2
    rw [if_neg h1, if_neg h2]
    simp only [XgtFenParser.readsEnd, if_true]
    exact ih _ _ _ h

theorem blockReads_vars (p : List Nat) (base inst_size : Nat) :
    ∀ (n offset : Nat) (acc : List (Nat × String)) (x : List (Nat × String) × Nat),
      XgtFenParser.readVariables p base inst_size n offset acc = some x →
      XgtFenParser.readsEnd offset (XgtFenParser.blockReads p base inst_size n offset) =
        some x.2 := by
  intro n
  induction n with
  | zero =>
    intro offset acc x h
    simp only [XgtFenParser.readVariables, Option.some.injEq] at h
    rw [← h]
    rfl
  | succ n ih =>
    intro offset acc x h
    unfold XgtFenParser.readVariables at h
    unfold XgtFenParser.blockReads
    simp only [] at h ⊢
    split_ifs at h with h1 h2
    rw [if_neg h1, if_neg h2]
    simp only [XgtFenParser.readsEnd, if_true]
    exact ih _ _ _ h
set_option maxHeartbeats 2000000 in
theorem responseReads_consumed (p : List Nat) (base inst_size : Nat) (is_read_cmd : Bool)
    (instruction : XgtFenInstruction) (x : XgtFenInstruction × Nat)
    (h : XgtFenParser.responseOffset p base inst_size is_read_cmd instruction = some x) :
    XgtFenParser.readsEnd 6
      (XgtFenParser.responseReads p base inst_size is_read_cmd instruction) = some x.2 := by
  unfold XgtFenParser.responseOffset at h
  unfold XgtFenParser.responseReads
  simp only [] at h ⊢
  split_ifs at h with h1 h2 h3 h4 h5 h6 h7
  · rw [if_neg h1, if_neg h2, if_pos h3]
    injection h with h
    rw [← h]
    rfl
  · rw [if_neg h1, if_neg h2, if_neg h3, if_pos h4, if_pos h5, if_neg h6, if_neg h7]
    injection h with h
    rw [← h]
    simp [XgtFenParser.readsEnd]
  · rw [if_neg h1, if_neg h2, if_neg h3, if_pos h4, if_neg h5]
    cases hr : XgtFenParser.readDataBlocks p base inst_size (read_le16 p (base + (6 + 2)))
        (6 + 2 + 2) [] with
    | none => rw [hr] at h; simp at h
    | some y =>
      rw [hr] at h
      injection h with h
      rw [← h, readsEnd_append]
      simp only [List.cons_append, List.nil_append, XgtFenParser.readsEnd, if_true,
        Option.some_bind]
      exact blockReads_data p base inst_size _ _ _ y hr
  · rw [if_neg h1, if_neg h2, if_neg h3, if_neg h4]
    injection h with h
    rw [← h]
    rfl
set_option maxHeartbeats 2000000 in
theorem requestReads_consumed (p : List Nat) (base inst_size : Nat) (is_write_cmd : Bool)
    (instruction : XgtFenInstruction) (x : XgtFenInstruction × Nat)
    (h : XgtFenParser.requestOffset p base inst_size is_write_cmd instruction = some x) :
    XgtFenParser.readsEnd 6
      (XgtFenParser.requestReads p base inst_size is_write_cmd instruction) = some x.2 := by
  unfold XgtFenParser.requestOffset at h
  unfold XgtFenParser.requestReads
  simp only [] at h ⊢
  by_cases h1 : inst_size < 6 + 2
  · rw [if_pos h1] at h
    simp at h
  · rw [if_neg h1] at h ⊢
    by_cases hc : instruction.is_continuous = true
    · rw [if_pos hc] at h ⊢
      split_ifs at h with h2 h3 h4 h5 h6 h7
      · rw [if_neg h2, if_neg h3, if_neg h4, if_neg h5, if_pos h6, if_neg h7]
        injection h with h
        rw [← h]
        simp [XgtFenParser.readsEnd]
      · rw [if_neg h2, if_neg h3, if_neg h4, if_neg h5, if_neg h6]
        injection h with h
        rw [← h]
        simp [XgtFenParser.readsEnd]
    · rw [if_neg hc] at h ⊢
      cases hv : XgtFenParser.readVariables p base inst_size (read_le16 p (base + 6))
          (6 + 2) [] with
      | none => rw [hv] at h; simp at h
      | some y =>
        rcases y with ⟨vs, off⟩
        have hvs := blockReads_vars p base inst_size _ _ _ _ hv
        rw [hv] at h
        simp only [] at h ⊢
        by_cases hw : is_write_cmd = true
        · rw [if_pos hw] at h ⊢
          cases hd : XgtFenParser.readDataBlocks p base inst_size (read_le16 p (base + 6))
              off [] with
          | none => rw [hd] at h; simp at h
          | some z =>
            have hds := blockReads_data p base inst_size _ _ _ _ hd
            rw [hd] at h
            injection h with h
            rw [← h, readsEnd_append, readsEnd_append]
            simp only [XgtFenParser.readsEnd, if_true, Option.some_bind]
            rw [hvs]
            exact hds
        · rw [if_neg hw] at h ⊢
          injection h with h
          rw [← h, readsEnd_append]
          simp only [XgtFenParser.readsEnd, if_true, Option.some_bind]
          exact hvs

theorem instructionReads_consumed (p : List Nat) (base inst_size : Nat)
    (header : XgtFenHeader) (x : XgtFenInstruction × Nat)
    (h : XgtFenParser.instructionOffset p base inst_size header = some x) :
    XgtFenParser.readsEnd 0 (XgtFenParser.instructionReads p base inst_size header) =
      some x.2 := by
  unfold XgtFenParser.instructionOffset at h
  unfold XgtFenParser.instructionReads
  simp only [] at h ⊢
  split_ifs at h with h1 h2 h3 h4 h5
  · rw [if_neg h1, if_neg h2, if_neg h3, if_pos h4, readsEnd_append]
    simp only [List.cons_append, List.nil_append, XgtFenParser.readsEnd, if_true,
      Option.some_bind]
    exact responseReads_consumed p base inst_size _ _ x h
  · rw [if_neg h1, if_neg h2, if_neg h3, if_neg h4, if_pos h5, readsEnd_append]
    simp only [List.cons_append, List.nil_append, XgtFenParser.readsEnd, if_true,
      Option.some_bind]
    exact requestReads_consumed p base inst_size _ _ x h

/-- C38: `XgtFenParser::parseInstruction` never reads outside the instruction
it is given: every read of a 16-bit field or of a name or data block, at offset
`r.1` with `r.2` bytes, ends at or before the instruction size, so every byte
it touches has an offset strictly below the instruction size; this holds for
every payload, size and header. The function terminates for every block count
and length: its loops are bounded by the 16-bit block count, and it makes at
most 4 + 4 * 65535 reads. When it succeeds without error status, the reads
follow one another from offset 0 and end exactly at the instruction size. -/
theorem C38_parseInstruction_reads_inside (p : List Nat) (base inst_size : Nat)
    (header : XgtFenHeader) :
    (∀ r ∈ XgtFenParser.instructionReads p base inst_size header,
      r.1 + r.2 ≤ inst_size ∧ ∀ o, r.1 ≤ o → o < r.1 + r.2 → o < inst_size) ∧
    (XgtFenParser.instructionReads p base inst_size header).length ≤ 4 + 4 * 65535 ∧
    (∀ i, XgtFenParser.parseInstruction p base inst_size header = some i →
      i.errorStatus = 0 →
      XgtFenParser.readsEnd 0 (XgtFenParser.instructionReads p base inst_size header) =
        some inst_size) := by
  have key : (∀ r ∈ XgtFenParser.instructionReads p base inst_size header,
      r.1 + r.2 ≤ inst_size) ∧
      (XgtFenParser.instructionReads p base inst_size header).length ≤ 4 + 4 * 65535 := by
    unfold XgtFenParser.instructionReads
    simp only []
    split_ifs with h1 h2 h3 h4 h5
    · simp
    · refine ⟨?_, by simp⟩
      simp only [List.forall_mem_cons, List.not_mem_nil, false_implies, implies_true, and_true]
      omega
    · refine ⟨?_, by simp⟩
      simp only [List.forall_mem_cons, List.not_mem_nil, false_implies, implies_true, and_true]
      omega
    · refine ⟨?_, ?_⟩
      · simp only [List.forall_mem_append, List.forall_mem_cons, List.not_mem_nil,
          false_implies, implies_true, and_true]
        exact ⟨⟨⟨by omega, by omega⟩, by omega⟩, (responseReads_bound p base inst_size _ _).1⟩
      · rw [List.length_append]
        exact le_trans
          (Nat.add_le_add (show ([(0, 2), (2, 2)] ++ [(4, 2)]).length ≤ 3 by decide)
            (responseReads_bound p base inst_size _ _).2) (by decide)
    · refine ⟨?_, ?_⟩
      · simp only [List.forall_mem_append, List.forall_mem_cons, List.not_mem_nil,
          false_implies, implies_true, and_true]
        exact ⟨⟨⟨by omega, by omega⟩, by omega⟩, (requestReads_bound p base inst_size _ _).1⟩
      · rw [List.length_append]
        exact le_trans
          (Nat.add_le_add (show ([(0, 2), (2, 2)] ++ [(4, 2)]).length ≤ 3 by decide)
            (requestReads_bound p base inst_size _ _).2) (by decide)
    · refine ⟨?_, by simp⟩
      simp only [List.forall_mem_append, List.forall_mem_cons, List.not_mem_nil,
        false_implies, implies_true, and_true]
      omega
  refine ⟨fun r hr => ⟨key.1 r hr, fun o _ h2 => lt_of_lt_of_le h2 (key.1 r hr)⟩, key.2,
    fun i hi h0 => ?_⟩
  obtain ⟨off, ho, hn⟩ := parseInstruction_some p base inst_size header i hi
  rw [instructionReads_consumed p base inst_size header (i, off) ho, hn h0]

/-- C38 (witness): the reads of the individual read request for `%DB20` and
`%MW1` (21 bytes):
three header fields, the block count and per name the length and the
characters; each ends within the 21 bytes. -/
theorem C38_parseInstruction_reads_inside_witness :
    XgtFenParser.instructionReads xgt_read_request.payload 20 21 { sourceOfFrame := 0x33 } =
      [(0, 2), (2, 2), (4, 2), (6, 2), (8, 2), (10, 5), (15, 2), (17, 4)] ∧
    (∀ r ∈ XgtFenParser.instructionReads xgt_read_request.payload 20 21
        { sourceOfFrame := 0x33 }, r.1 + r.2 ≤ 21) ∧
    XgtFenParser.readsEnd 0
      (XgtFenParser.instructionReads xgt_read_request.payload 20 21
        { sourceOfFrame := 0x33 }) = some 21 :=
  ⟨by decide,
    fun r hr =>
      ((C38_parseInstruction_reads_inside xgt_read_request.payload 20 21
        { sourceOfFrame := 0x33 }).1 r hr).1,
    by decide⟩


/-- C39 (witness): the reads of the job and of the ack-data of the pairing
scenario: the job
(31 bytes) reads the header, the function byte and the item count twice and
the fields of item 0; the ack-data (27 bytes) reads the header, the function
byte, the return code and the bit length. Each read ends inside the payload. -/
theorem C39_s7_reads_inside_witness :
    s7_empty.parseReads 0 s7_job =
      [(11, 2), (8, 1), (13, 2), (15, 2), (17, 1), (18, 1), (17, 1), (18, 1), (27, 1),
       (25, 2), (28, 3), (21, 1), (22, 1), (23, 2)] ∧
    (s7_empty.parse 0 s7_job).1.parseReads 1 s7_ack_data =
      [(11, 2), (8, 1), (13, 2), (15, 2), (19, 1), (20, 1), (21, 1), (23, 2)] ∧
    (∀ r ∈ s7_empty.parseReads 0 s7_job, ((r.1 + r.2 : Nat) : Int) ≤ 31) ∧
    (∀ r ∈ (s7_empty.parse 0 s7_job).1.parseReads 1 s7_ack_data,
      ((r.1 + r.2 : Nat) : Int) ≤ 27) :=
  ⟨by decide, by decide,
    fun r hr => ((C39_s7_reads_inside s7_empty 0 s7_job).1 r hr).1,
    fun r hr => ((C39_s7_reads_inside (s7_empty.parse 0 s7_job).1 1 s7_ack_data).1 r hr).1⟩

/-! ## Reading the CSV file back -/

theorem escapeCSV_data (s : String) :
    ((∀ c ∈ s.data, c ≠ ',' ∧ c ≠ '"' ∧ c ≠ '\n') → (UnifiedWriter.escapeCSV s).data = s.data) ∧
    (¬ (∀ c ∈ s.data, c ≠ ',' ∧ c ≠ '"' ∧ c ≠ '\n') →
      (UnifiedWriter.escapeCSV s).data =
        '"' :: ((s.data.flatMap fun c => if c = '"' then ['"', '"'] else [c]) ++ ['"'])) := by
  have hany : (s.data.any fun c => decide (c = ',' ∨ c = '"' ∨ c = '\n')) = true ↔
      ¬ (∀ c ∈ s.data, c ≠ ',' ∧ c ≠ '"' ∧ c ≠ '\n') := by
    rw [List.any_eq_true]
    constructor
    · rintro ⟨c, hc, h⟩ hall
      have := hall c hc
      simp only [decide_eq_true_eq] at h
      tauto
    · intro h
      push_neg at h
      obtain ⟨c, hc, h⟩ := h
      refine ⟨c, hc, ?_⟩
      simp only [decide_eq_true_eq]
      by_cases h1 : c = ','
      · exact Or.inl h1
      · by_cases h2 : c = '"'
        · exact Or.inr (Or.inl h2)
        · exact Or.inr (Or.inr (h h1 h2))
  refine ⟨fun h => ?_, fun h => ?_⟩
  · unfold UnifiedWriter.escapeCSV
    by_cases he : s = ""
    · rw [if_pos he, he]
    · rw [if_neg he, if_pos (by
        intro hc
        exact (hany.1 hc) h)]
  · have he : s ≠ "" := by
      rintro rfl
      exact h (by simp)
    unfold UnifiedWriter.escapeCSV
    rw [if_neg he, if_neg (by
      intro hc
      exact hc (hany.2 h))]
    simp only []
    rw [escape_loop]
    simp [String.data_append]

theorem intercalate_go_data (sep : String) :
    ∀ (l : List String) (acc : String),
      (String.intercalate.go acc sep l).data =
        acc.data ++ l.flatMap (fun a => sep.data ++ a.data) := by
  intro l
  induction l with
  | nil =>
    intro acc
    simp [String.intercalate.go]
  | cons a t ih =>
    intro acc
    simp only [String.intercalate.go, ih, String.data_append, List.flatMap_cons,
      List.append_assoc]

theorem intercalate_cons_data (sep a : String) (l : List String) :
    (String.intercalate sep (a :: l)).data =
      a.data ++ l.flatMap (fun b => sep.data ++ b.data) := by
  simp only [String.intercalate, intercalate_go_data]

theorem readCsv_fieldStart_cons (rows : List (List String)) (fields : List String)
    (acc : List Char) (c : Char) (cs : List Char) :
    readCsv_spec CsvMode.fieldStart rows fields acc (c :: cs) =
      if c = '"' then readCsv_spec CsvMode.quoted rows fields [] cs
      else if c = ',' then readCsv_spec CsvMode.fieldStart rows (fields ++ [""]) [] cs
      else if c = '\n' then
        readCsv_spec CsvMode.fieldStart (rows ++ [fields ++ [""]]) [] [] cs
      else if c = '\r' then readCsv_spec CsvMode.crSeen rows fields [] cs
      else if rfcTextData c then readCsv_spec CsvMode.unquoted rows fields [c] cs
      else none := by
  rw [readCsv_spec]

theorem readCsv_unquoted_cons (rows : List (List String)) (fields : List String)
    (acc : List Char) (c : Char) (cs : List Char) :
    readCsv_spec CsvMode.unquoted rows fields acc (c :: cs) =
      if c = ',' then
        readCsv_spec CsvMode.fieldStart rows (fields ++ [String.mk acc]) [] cs
      else if c = '\n' then
        readCsv_spec CsvMode.fieldStart (rows ++ [fields ++ [String.mk acc]]) [] [] cs
      else if c = '\r' then readCsv_spec CsvMode.crSeen rows fields acc cs
      else if rfcTextData c then readCsv_spec CsvMode.unquoted rows fields (acc ++ [c]) cs
      else none := by
  rw [readCsv_spec]

theorem readCsv_quoted_cons (rows : List (List String)) (fields : List String)
    (acc : List Char) (c : Char) (cs : List Char) :
    readCsv_spec CsvMode.quoted rows fields acc (c :: cs) =
      if c = '"' then readCsv_spec CsvMode.quoteSeen rows fields acc cs
      else if rfcTextData c ∨ c = ',' ∨ c = '\r' ∨ c = '\n' then
        readCsv_spec CsvMode.quoted rows fields (acc ++ [c]) cs
      else none := by
  rw [readCsv_spec]

theorem readCsv_quoteSeen_cons (rows : List (List String)) (fields : List String)
    (acc : List Char) (c : Char) (cs : List Char) :
    readCsv_spec CsvMode.quoteSeen rows fields acc (c :: cs) =
      if c = '"' then readCsv_spec CsvMode.quoted rows fields (acc ++ ['"']) cs
      else if c = ',' then
        readCsv_spec CsvMode.fieldStart rows (fields ++ [String.mk acc]) [] cs
      else if c = '\n' then
        readCsv_spec CsvMode.fieldStart (rows ++ [fields ++ [String.mk acc]]) [] [] cs
      else if c = '\r' then readCsv_spec CsvMode.crSeen rows fields acc cs
      else none := by
  rw [readCsv_spec]

theorem csv_char_facts :
    ¬ ',' = '"' ∧ ¬ '\n' = '"' ∧ ¬ '\n' = ',' ∧ ¬ '"' = ',' ∧ ¬ '"' = '\n' ∧ ¬ ',' = '\n' := by
  decide

/-- No character of `TEXTDATA` is a comma, a double quote, a line feed or a
carriage return. -/
theorem rfcTextData_plain (c : Char) (h : rfcTextData c = true) :
    c ≠ ',' ∧ c ≠ '"' ∧ c ≠ '\n' ∧ c ≠ '\r' := by
  refine ⟨?_, ?_, ?_, ?_⟩ <;>
  · rintro rfl
    revert h
    decide

/-- A run of `TEXTDATA` of a field without quotes, up to the comma or line
feed after it. -/
theorem read_unquoted (rows : List (List String)) (fields : List String) (rest : List Char) :
    ∀ (l acc : List Char), (∀ c ∈ l, rfcTextData c = true) →
      readCsv_spec CsvMode.unquoted rows fields acc (l ++ ',' :: rest) =
        readCsv_spec CsvMode.fieldStart rows (fields ++ [String.mk (acc ++ l)]) [] rest ∧
      readCsv_spec CsvMode.unquoted rows fields acc (l ++ '\n' :: rest) =
        readCsv_spec CsvMode.fieldStart (rows ++ [fields ++ [String.mk (acc ++ l)]]) [] []
          rest := by
  obtain ⟨e1, e2, e3, e4, e5, e6⟩ := csv_char_facts
  intro l
  induction l with
  | nil =>
    intro acc _
    simp only [List.nil_append, List.append_nil, readCsv_unquoted_cons, if_neg e3, if_true,
      and_self]
  | cons c cs ih =>
    intro acc h
    have ht := h c (List.mem_cons_self _ _)
    obtain ⟨h1, h2, h3, h4⟩ := rfcTextData_plain c ht
    have ih' := ih (acc ++ [c]) (fun d hd => h d (List.mem_cons_of_mem _ hd))
    rw [List.append_assoc, List.singleton_append] at ih'
    simp only [List.cons_append, readCsv_unquoted_cons, if_neg h1, if_neg h3, if_neg h4, ht,
      if_true]
    exact ih'

/-- The body of a quoted field, with its double quotes doubled, up to the
closing double quote and the comma or line feed after it. -/
theorem read_quoted (rows : List (List String)) (fields : List String) (rest : List Char) :
    ∀ (l acc : List Char),
      (∀ c ∈ l, rfcTextData c = true ∨ c = ',' ∨ c = '"' ∨ c = '\n' ∨ c = '\r') →
      readCsv_spec CsvMode.quoted rows fields acc
          ((l.flatMap fun c => if c = '"' then ['"', '"'] else [c]) ++ '"' :: ',' :: rest) =
        readCsv_spec CsvMode.fieldStart rows (fields ++ [String.mk (acc ++ l)]) [] rest ∧
      readCsv_spec CsvMode.quoted rows fields acc
          ((l.flatMap fun c => if c = '"' then ['"', '"'] else [c]) ++ '"' :: '\n' :: rest) =
        readCsv_spec CsvMode.fieldStart (rows ++ [fields ++ [String.mk (acc ++ l)]]) [] []
          rest := by
  obtain ⟨e1, e2, e3, e4, e5, e6⟩ := csv_char_facts
  intro l
  induction l with
  | nil =>
    intro acc _
    simp only [List.flatMap_nil, List.nil_append, List.append_nil, readCsv_quoted_cons,
      readCsv_quoteSeen_cons, if_neg e1, if_neg e2, if_neg e3, if_true, and_self]
  | cons c cs ih =>
    intro acc h
    by_cases hc : c = '"'
    · have ih' := ih (acc ++ ['"']) (fun d hd => h d (List.mem_cons_of_mem _ hd))
      rw [List.append_assoc, List.singleton_append] at ih'
      subst hc
      simp only [List.flatMap_cons, if_true, List.append_assoc, List.cons_append,
        List.nil_append, readCsv_quoted_cons, readCsv_quoteSeen_cons]
      exact ih'
    · have ih' := ih (acc ++ [c]) (fun d hd => h d (List.mem_cons_of_mem _ hd))
      rw [List.append_assoc, List.singleton_append] at ih'
      have hin : (rfcTextData c = true) ∨ c = ',' ∨ c = '\r' ∨ c = '\n' := by
        rcases h c (List.mem_cons_self _ _) with h1 | h1 | h1 | h1 | h1
        · exact Or.inl h1
        · exact Or.inr (Or.inl h1)
        · exact absurd h1 hc
        · exact Or.inr (Or.inr (Or.inr h1))
        · exact Or.inr (Or.inr (Or.inl h1))
      simp only [List.flatMap_cons, if_neg hc, List.append_assoc, List.cons_append,
        List.nil_append, readCsv_quoted_cons, if_pos hin]
      exact ih'

/-- Reading one escaped field and the comma or line feed after it gives back
the field, for a field that RFC 4180 can carry. -/
theorem read_field (s : String) (hs : csvRecoverable s) (rows : List (List String))
    (fields : List String) (rest : List Char) :
    readCsv_spec CsvMode.fieldStart rows fields []
        ((UnifiedWriter.escapeCSV s).data ++ ',' :: rest) =
      readCsv_spec CsvMode.fieldStart rows (fields ++ [s]) [] rest ∧
    readCsv_spec CsvMode.fieldStart rows fields []
        ((UnifiedWriter.escapeCSV s).data ++ '\n' :: rest) =
      readCsv_spec CsvMode.fieldStart (rows ++ [fields ++ [s]]) [] [] rest := by
  obtain ⟨e1, e2, e3, e4, e5, e6⟩ := csv_char_facts
  obtain ⟨hplain, hquoted⟩ := escapeCSV_data s
  unfold csvRecoverable at hs
  by_cases h : ∀ c ∈ s.data, c ≠ ',' ∧ c ≠ '"' ∧ c ≠ '\n'
  · rw [hplain h]
    rw [if_pos h] at hs
    rcases s with ⟨l⟩
    cases l with
    | nil =>
      constructor
      · rw [List.nil_append, readCsv_fieldStart_cons, if_neg e1, if_pos rfl]
      · rw [List.nil_append, readCsv_fieldStart_cons, if_neg e2, if_neg e3, if_pos rfl]
    | cons c cs =>
      have ht := hs c (List.mem_cons_self _ _)
      obtain ⟨h1, h2, h3, h4⟩ := rfcTextData_plain c ht
      have hr := read_unquoted rows fields rest cs [c]
        (fun d hd => hs d (List.mem_cons_of_mem _ hd))
      simp only [List.cons_append, readCsv_fieldStart_cons, if_neg h1, if_neg h2, if_neg h3,
        if_neg h4, ht, if_true]
      exact hr
  · rw [hquoted h]
    rw [if_neg h] at hs
    have hr := read_quoted rows fields rest s.data [] hs
    simp only [List.cons_append, List.append_assoc, List.nil_append, readCsv_fieldStart_cons,
      if_true]
    exact hr

/-- Reading a row of escaped fields gives back the fields. -/
theorem read_fields (rest : List Char) :
    ∀ (tail : List String) (s : String) (rows : List (List String)) (fields : List String),
      (∀ f ∈ s :: tail, csvRecoverable f) →
      readCsv_spec CsvMode.fieldStart rows fields []
          ((String.intercalate "," ((s :: tail).map UnifiedWriter.escapeCSV) ++ "\n").data ++
            rest) =
        readCsv_spec CsvMode.fieldStart (rows ++ [fields ++ s :: tail]) [] [] rest := by
  have hd : ∀ (tail : List String) (s : String),
      (String.intercalate "," ((s :: tail).map UnifiedWriter.escapeCSV) ++ "\n").data ++ rest =
        (UnifiedWriter.escapeCSV s).data ++
          ((tail.flatMap fun a => ',' :: (UnifiedWriter.escapeCSV a).data) ++ '\n' :: rest) := by
    intro tail s
    rw [String.data_append, List.map_cons, intercalate_cons_data]
    simp [List.flatMap_map]
  intro tail
  induction tail with
  | nil =>
    intro s rows fields hf
    rw [hd]
    exact (read_field s (hf s (List.mem_cons_self _ _)) rows fields rest).2
  | cons t ts ih =>
    intro s rows fields hf
    have hthis := ih t rows (fields ++ [s]) (fun f hm => hf f (List.mem_cons_of_mem _ hm))
    rw [hd] at hthis ⊢
    simp only [List.flatMap_cons, List.cons_append, List.append_assoc]
    rw [(read_field s (hf s (List.mem_cons_self _ _)) rows fields _).1, hthis]
    simp

/-- Reading a row written for a record gives back its 67 fields and goes on
with the text after the row. -/
theorem read_row (record : UnifiedRecord)
    (hf : ∀ f ∈ UnifiedWriter.csvFields record, csvRecoverable f)
    (rows : List (List String)) (rest : List Char) :
    readCsv_spec CsvMode.fieldStart rows [] [] ((UnifiedWriter.csvRow record).data ++ rest) =
      readCsv_spec CsvMode.fieldStart (rows ++ [UnifiedWriter.csvFields record]) [] [] rest :=
  read_fields rest _ record.timestamp rows [] hf

/-- Reading the rows written for a list of records gives back their fields. -/
theorem read_rows :
    ∀ (records : List UnifiedRecord) (rows : List (List String)),
      (∀ r ∈ records, ∀ f ∈ UnifiedWriter.csvFields r, csvRecoverable f) →
      readCsv_spec CsvMode.fieldStart rows [] []
          (String.join (records.map UnifiedWriter.csvRow)).data =
        some (rows ++ records.map UnifiedWriter.csvFields) := by
  intro records
  induction records with
  | nil =>
    intro rows _
    simp [readCsv_spec]
  | cons r rs ih =>
    intro rows hf
    have h := ih (rows ++ [UnifiedWriter.csvFields r])
      (fun x hx => hf x (List.mem_cons_of_mem _ hx))
    rw [String.data_join] at h ⊢
    rw [List.map_cons, List.map_cons, List.flatten_cons,
      read_row r (hf r (List.mem_cons_self _ _)), h]
    simp

set_option maxRecDepth 1000000 in
theorem csvRow_key_record : UnifiedWriter.csvRow key_record = UnifiedWriter.writeCsvHeader := by
  decide

set_option maxRecDepth 1000000 in
theorem key_record_recoverable : ∀ f ∈ UnifiedWriter.csvFields key_record, csvRecoverable f := by
  decide

end Operation
